import Mathlib

/-!
# GLTF-Parser: a shallow embedding of `GLTFParser.cpp`

Conventions of the embedding.

* A `const char*` cursor into a text is the list of bytes from the cursor to the end of
  the allocation that holds the text (`*curr` is the head, `curr++` the tail, `curr + n`
  is `drop n`).  Reading `*curr` where no byte is left is a read outside the allocation
  and is reported as `Fault.outOfBounds`.  A terminating NUL is an ordinary byte of the
  list: a text is NUL-terminated when its last byte is `0`.
* `char` is signed (x86): `schar` gives the value of a byte as a `char`.
* `int` arithmetic is two's complement on 32 bits (`wrapInt32`), `short` on 16, `char`
  on 8.
* `float` and `double` values are exact rationals; no rounding is modelled.
* `ASSERT` is compiled out (release build).
* Loops whose next cursor comes out of a callee carry a fuel counter; running out of it
  is reported as `Fault.outOfFuel`, which no real run produces.
-/

namespace GLTF

/-! ## Faults and machine integers -/

/-- Ways in which a run leaves the behaviour the C++ source defines. -/
inductive Fault where
  | outOfBounds
  | badPointer
  | nonFinite
  | outOfFuel
deriving DecidableEq, Repr

deriving instance DecidableEq for Except

/-- Bytes of a string literal (without the terminating NUL). -/
def lit (s : String) : List Nat := s.toList.map Char.toNat

/-- Value of a byte read through a (signed) `char`. -/
def schar (c : Nat) : Int := if c < 128 then (c : Int) else (c : Int) - 256

/-- Two's complement wrap to `int`. -/
def wrapInt32 (x : Int) : Int := (x + 2147483648) % 4294967296 - 2147483648

/-- Two's complement wrap to `short`. -/
def wrapInt16 (x : Int) : Int := (x + 32768) % 65536 - 32768

/-- Two's complement wrap to `char`. -/
def wrapInt8 (x : Int) : Int := (x + 128) % 256 - 128

/-- Conversion of an integer to `uint64_t`. -/
def toUInt64 (x : Int) : Nat := (x % 18446744073709551616).toNat

/-- The `float` type of the source, as exact rationals. -/
abbrev Float32 := ℚ

/-! ## Bit helpers (`TrailingZeroCount32`, `NextSetBit`) -/

/-- Index of the lowest set bit among the first `w` bits, `w` when there is none. -/
def tzcnt : Nat → Nat → Nat
  | 0, _ => 0
  | w + 1, x => if x % 2 = 1 then 0 else 1 + tzcnt w (x / 2)

/-- Source `TrailingZeroCount32`; at `0` the `_tzcnt_u32` value 32 is taken (`__builtin_ctz`
leaves it undefined). -/
def TrailingZeroCount32 (x : Nat) : Nat := tzcnt 32 (x % 4294967296)

/-- Source `NextSetBit<unsigned>`: clears bit 0, shifts the next set bit down to bit 0 and
returns the distance; the result is `(tz, bits)`. -/
def NextSetBit (bits : Nat) : Nat × Nat :=
  let bits1 := bits - bits % 2
  let tz := TrailingZeroCount32 bits1
  (tz, bits1 >>> tz)

/-! ## Character classes and number parsing -/

def IsNumber (a : Nat) : Bool := decide (schar a ≤ 57) && decide (schar a ≥ 48)

def IsLower (a : Nat) : Bool := decide (schar a ≥ 97) && decide (schar a ≤ 122)

def IsWhitespace (c : Nat) : Bool := decide (schar c ≤ 32)

/-- First loop of `ParsePositiveNumber`: `while (*curr && !IsNumber(*curr)) curr++`. -/
def ParsePositiveNumber_skip : List Nat → Except Fault (List Nat)
  | [] => .error .outOfBounds
  | c :: cs => if c ≠ 0 && !IsNumber c then ParsePositiveNumber_skip cs else .ok (c :: cs)

/-- Second loop of `ParsePositiveNumber`:
`while (*curr > 10 && IsNumber(*curr)) val = val * 10 + (*curr++ - 48)`. -/
def ParsePositiveNumber_digits (val : Int) : List Nat → Except Fault (Int × List Nat)
  | [] => .error .outOfBounds
  | c :: cs =>
    if decide (schar c > 10) && IsNumber c then
      ParsePositiveNumber_digits (wrapInt32 (val * 10 + (schar c - 48))) cs
    else .ok (val, c :: cs)

/-- Source `ParsePositiveNumber`: the value and the advanced cursor. -/
def ParsePositiveNumber (ptr : List Nat) : Except Fault (Int × List Nat) :=
  match ParsePositiveNumber_skip ptr with
  | .error f => .error f
  | .ok curr => ParsePositiveNumber_digits 0 curr

/-- First loop of `ParseFloat`: `while (!IsNumber(*ptr) && *ptr != 45) ptr++`. -/
def ParseFloat_skip : List Nat → Except Fault (List Nat)
  | [] => .error .outOfBounds
  | c :: cs => if !IsNumber c && c ≠ 45 then ParseFloat_skip cs else .ok (c :: cs)

/-- Integer digits of `ParseFloat`: `num = 10.0 * num + (*ptr++ - 48)`. -/
def ParseFloat_int (num : ℚ) : List Nat → Except Fault (ℚ × List Nat)
  | [] => .error .outOfBounds
  | c :: cs =>
    if IsNumber c then ParseFloat_int (10 * num + ((schar c - 48 : Int) : ℚ)) cs
    else .ok (num, c :: cs)

/-- Fraction digits of `ParseFloat`, taken while `div < 1.0e9`. -/
def ParseFloat_fra (fra div : ℚ) : List Nat → Except Fault (ℚ × ℚ × List Nat)
  | [] => .error .outOfBounds
  | c :: cs =>
    if IsNumber c && decide (div < 1000000000) then
      ParseFloat_fra (10 * fra + ((schar c - 48 : Int) : ℚ)) (div * 10) cs
    else .ok (fra, div, c :: cs)

/-- The loop `while (IsNumber(*ptr)) ptr++` of `ParseFloat`. -/
def ParseFloat_rest : List Nat → Except Fault (List Nat)
  | [] => .error .outOfBounds
  | c :: cs => if IsNumber c then ParseFloat_rest cs else .ok (c :: cs)

/-- Exponent digits of `ParseFloat`: `eval = 10 * eval + (*ptr++ - 48)`. -/
def ParseFloat_exp (eval : Int) : List Nat → Except Fault (Int × List Nat)
  | [] => .error .outOfBounds
  | c :: cs =>
    if IsNumber c then ParseFloat_exp (wrapInt32 (10 * eval + (schar c - 48))) cs
    else .ok (eval, c :: cs)

/-- Read of `*curr`. -/
def peek : List Nat → Except Fault Nat
  | [] => .error .outOfBounds
  | c :: _ => .ok c

/-- Source `ParseFloat`: the value and the advanced cursor. -/
def ParseFloat (text : List Nat) : Except Fault (Float32 × List Nat) := do
  let ptr ← ParseFloat_skip text
  let c ← peek ptr
  let (sign, ptr) : ℚ × List Nat := if c = 45 then (-1, ptr.tail) else (1, ptr)
  let (num, ptr) ← ParseFloat_int 0 ptr
  let c ← peek ptr
  let ptr := if c = 46 then ptr.tail else ptr
  let (fra, div, ptr) ← ParseFloat_fra 0 1 ptr
  let num := num + fra / div
  let ptr ← ParseFloat_rest ptr
  let c ← peek ptr
  if c = 101 ∨ c = 69 then
    let ptr := ptr.tail
    let c ← peek ptr
    let (neg, ptr) : Bool × List Nat :=
      if c = 43 then (false, ptr.tail) else if c = 45 then (true, ptr.tail) else (false, ptr)
    let (eval, ptr) ← ParseFloat_exp 0 ptr
    if eval < 0 then .error .outOfBounds
    else
      let factor : ℚ :=
        if eval ≥ 20 then 0
        else if neg then 1 / (10 : ℚ) ^ eval.toNat else (10 : ℚ) ^ eval.toNat
      .ok (sign * (num * factor), ptr)
  else
    .ok (sign * num, ptr)

/-- Conversion of a `float` to `short`: truncation toward zero, then the 16-bit wrap. -/
def floatToShort (x : ℚ) : Int :=
  wrapInt16 (if x < 0 then -((-x).floor) else x.floor)

/-- Source `ParseFloat16`: `(short)(ParseFloat(curr) * 400.0f)`. -/
def ParseFloat16 (curr : List Nat) : Except Fault (Int × List Nat) := do
  let (f, curr) ← ParseFloat curr
  .ok (floatToShort (f * 400), curr)

/-! ## Key comparison (`StrCMP16`) and string helpers -/

/-- Source `UnalignedLoad64`: the little-endian word of the eight bytes at `ptr`.  Bytes past
the end of the allocation are taken as `0`; every caller masks them off or compares them
with a literal byte that is never `0`. -/
def UnalignedLoad64 (ptr : List Nat) : Nat :=
  let b := fun (i : Nat) => ptr.getD i 0 % 256
  b 0 + 256 * (b 1 + 256 * (b 2 + 256 * (b 3 + 256 * (b 4 + 256 * (b 5 + 256 * (b 6 +
    256 * b 7))))))

/-- Source `StrCmp8`: `mask = ~0ull >> (64 - (n - 1) * 8)`, the shift count computed on 64 bits
and reduced modulo 64 as the x86 shift does. -/
def StrCmp8 (a b : List Nat) (n : Nat) : Bool :=
  let count := (64 + 18446744073709551616 - (n - 1) * 8) % 18446744073709551616
  let mask := 18446744073709551615 >>> (count % 64)
  ((UnalignedLoad64 a ^^^ UnalignedLoad64 b) &&& mask) == 0

/-- Source `StrCmp16`: both halves are compared. -/
def StrCmp16 (a b : List Nat) (bSize : Nat) : Bool :=
  let equal := StrCmp8 a b 9
  equal && StrCmp8 (a.drop 8) (b.drop 8) (bSize - 8)

/-- The macro `StrCMP16(_str, _otr)`; `sizeof(_otr)` counts the literal's NUL. -/
def StrCMP16 (str : List Nat) (otr : String) : Bool :=
  let o := lit otr ++ [0]
  if o.length ≤ 9 then StrCmp8 str o o.length else StrCmp16 str o o.length

/-- A key is read through unaligned loads at the cursor; a cursor that has left the
allocation reads nothing that belongs to the text. -/
def keyCursor : List Nat → Except Fault (List Nat)
  | [] => .error .outOfBounds
  | c :: cs => .ok (c :: cs)

/-- Source `SkipUntill`: `while (*curr != character) curr++`. -/
def SkipUntill : List Nat → Nat → Except Fault (List Nat)
  | [], _ => .error .outOfBounds
  | c :: cs, character => if c ≠ character then SkipUntill cs character else .ok (c :: cs)

/-- Source `SkipAfter`: `while (*curr++ != character);`. -/
def SkipAfter : List Nat → Nat → Except Fault (List Nat)
  | [], _ => .error .outOfBounds
  | c :: cs, character => if c ≠ character then SkipAfter cs character else .ok cs

/-- The bytes up to the next double quote, and the cursor on that quote. -/
def spanQuote : List Nat → Except Fault (List Nat × List Nat)
  | [] => .error .outOfBounds
  | c :: cs =>
    if c ≠ 34 then
      match spanQuote cs with
      | .error f => .error f
      | .ok (s, r) => .ok (c :: s, r)
    else .ok ([], c :: cs)

/-- Source `CopyStringInQuotes`: the copied string and the cursor after the closing quote. -/
def CopyStringInQuotes (curr : List Nat) : Except Fault (List Nat × List Nat) := do
  let curr ← SkipUntill curr 34
  let curr := curr.tail
  let (str, quote) ← spanQuote curr
  .ok (str, quote.tail)

/-- Source `GetStringInQuotes` into a buffer of `cap` bytes: the string written (its NUL
included in the count) and the cursor after the closing quote. -/
def GetStringInQuotes (cap : Nat) (curr : List Nat) : Except Fault (List Nat × List Nat) := do
  let curr := curr.tail
  let (str, quote) ← spanQuote curr
  if str.length + 1 > cap then .error .outOfBounds
  else .ok (str, quote.tail)

/-- The loop of `HashStringInQuotes`:
`while (*curr != 34 && shift < 64) { h |= uint64_t(*curr++) << shift; shift += 8; }`. -/
def HashStringInQuotes_loop : Nat → Nat → Nat → List Nat → Except Fault (Nat × List Nat)
  | 0, h, _, curr => .ok (h, curr)
  | _ + 1, _, _, [] => .error .outOfBounds
  | k + 1, h, shift, c :: cs =>
    if c ≠ 34 then
      HashStringInQuotes_loop k
        (h ||| (toUInt64 (schar c) <<< shift) % 18446744073709551616) (shift + 8) cs
    else .ok (h, c :: cs)

/-- Source `HashStringInQuotes`: the hash and the returned cursor `++curr`. -/
def HashStringInQuotes (curr : List Nat) : Except Fault (Nat × List Nat) := do
  let curr := curr.tail
  let (h, curr) ← HashStringInQuotes_loop 8 0 0 curr
  .ok (h, curr.tail)

/-- Source `AHashString8` of a literal of at most eight characters. -/
def AHashString8 (s : String) : Nat :=
  ((lit s).foldl (fun (p : Nat × Nat) c => (p.1 ||| (toUInt64 (schar c) <<< p.2), p.2 + 8))
    (0, 0)).1

/-- Second loop of `SkipToNextNode`:
`while (*curr && balance > 0) { balance += *curr == open; balance -= *curr++ == close; }`. -/
def SkipToNextNode_loop (open_ close : Nat) : Int → List Nat → Except Fault (List Nat)
  | _, [] => .error .outOfBounds
  | balance, c :: cs =>
    if c ≠ 0 ∧ balance > 0 then
      SkipToNextNode_loop open_ close
        (wrapInt32 (wrapInt32 (balance + (if c = open_ then 1 else 0)) -
          (if c = close then 1 else 0))) cs
    else .ok (c :: cs)

/-- Source `SkipToNextNode`. -/
def SkipToNextNode (curr : List Nat) (open_ close : Nat) : Except Fault (List Nat) := do
  let curr ← SkipAfter curr open_
  SkipToNextNode_loop open_ close 1 curr

/-- Source loop `while (IsWhitespace(*curr)) curr++` of `StartsWith`. -/
def StartsWith_skip : List Nat → Except Fault (List Nat)
  | [] => .error .outOfBounds
  | c :: cs => if IsWhitespace c then StartsWith_skip cs else .ok (c :: cs)

/-- Source loop `while (*str && *curr++ == *str++);` of `StartsWith`: the cursor and the rest of
`str` when the loop stops (both have stepped over a mismatching pair). -/
def StartsWith_loop : List Nat → List Nat → Except Fault (List Nat × List Nat)
  | curr, [] => .ok (curr, [])
  | [], _ :: _ => .error .outOfBounds
  | c :: cs, s :: ss => if c = s then StartsWith_loop cs ss else .ok (cs, ss)

/-- Source `StartsWith`: the result and the cursor it leaves. -/
def StartsWith (curr : List Nat) (str : String) : Except Fault (Bool × List Nat) := do
  let currStart := curr
  let curr ← StartsWith_skip curr
  let c ← peek curr
  if c ≠ (lit str ++ [0]).headD 0 then .ok (false, curr)
  else
    let (curr, rest) ← StartsWith_loop curr (lit str)
    let isEqual := rest.isEmpty
    .ok (isEqual, if isEqual then curr else currStart)

/-! ## Data model

The header that declares the scene types is not part of the sources; the records below
carry the fields the parser reads and writes. -/

/-- Modelled from the spec: the `AErrorType` enum of the missing header, in the order of
the spec's error taxonomy (the order of the table in `ParsedSceneGetError`). -/
inductive AErrorType where
  | NONE | UNKNOWN | UNKNOWN_ATTRIB | UNKNOWN_MATERIAL_VAR | UNKNOWN_PBR_VAR
  | UNKNOWN_NODE_VAR | UNKNOWN_TEXTURE_VAR | UNKNOWN_ACCESSOR_VAR
  | UNKNOWN_BUFFER_VIEW_VAR | UNKNOWN_MESH_VAR | UNKNOWN_CAMERA_VAR
  | UNKNOWN_MESH_PRIMITIVE_VAR | BUFFER_PARSE_FAIL | BIN_NOT_EXIST | FILE_NOT_FOUND
  | UNKNOWN_DESCRIPTOR | HASH_COLISSION | NON_UTF8 | MAX
deriving DecidableEq, Repr

/-- Numeric value of an enumerator. -/
def AErrorType.code : AErrorType → Nat
  | .NONE => 0 | .UNKNOWN => 1 | .UNKNOWN_ATTRIB => 2 | .UNKNOWN_MATERIAL_VAR => 3
  | .UNKNOWN_PBR_VAR => 4 | .UNKNOWN_NODE_VAR => 5 | .UNKNOWN_TEXTURE_VAR => 6
  | .UNKNOWN_ACCESSOR_VAR => 7 | .UNKNOWN_BUFFER_VIEW_VAR => 8 | .UNKNOWN_MESH_VAR => 9
  | .UNKNOWN_CAMERA_VAR => 10 | .UNKNOWN_MESH_PRIMITIVE_VAR => 11
  | .BUFFER_PARSE_FAIL => 12 | .BIN_NOT_EXIST => 13 | .FILE_NOT_FOUND => 14
  | .UNKNOWN_DESCRIPTOR => 15 | .HASH_COLISSION => 16 | .NON_UTF8 => 17 | .MAX => 18

/-- The cast `(AErrorType)(uint64_t)curr` of a value below `AError_MAX`. -/
def AErrorType.ofCode : Nat → AErrorType
  | 0 => .NONE | 1 => .UNKNOWN | 2 => .UNKNOWN_ATTRIB | 3 => .UNKNOWN_MATERIAL_VAR
  | 4 => .UNKNOWN_PBR_VAR | 5 => .UNKNOWN_NODE_VAR | 6 => .UNKNOWN_TEXTURE_VAR
  | 7 => .UNKNOWN_ACCESSOR_VAR | 8 => .UNKNOWN_BUFFER_VIEW_VAR | 9 => .UNKNOWN_MESH_VAR
  | 10 => .UNKNOWN_CAMERA_VAR | 11 => .UNKNOWN_MESH_PRIMITIVE_VAR
  | 12 => .BUFFER_PARSE_FAIL | 13 => .BIN_NOT_EXIST | 14 => .FILE_NOT_FOUND
  | 15 => .UNKNOWN_DESCRIPTOR | 16 => .HASH_COLISSION | 17 => .NON_UTF8 | _ => .MAX

/-- A `const char*` returned by a section parser: a cursor into the text, or an error
code cast to a pointer (`(const char*)AError_...`; `nullptr` is the code `NONE`). -/
inductive CharPtr where
  | cur (rest : List Nat)
  | sentinel (code : AErrorType)
deriving DecidableEq, Repr

/-- Use of a returned pointer as a cursor; an error code is not an address of the text. -/
def CharPtr.deref : CharPtr → Except Fault (List Nat)
  | .cur rest => .ok rest
  | .sentinel _ => .error .badPointer

/-- A `void*` slot: an integer stored in the pointer (`addr 0` is `nullptr`), or the
address `(char*)buffers[buffer].uri + offset`. -/
inductive VoidPtr where
  | addr (value : Nat)
  | inBuffer (buffer : Int) (offset : Int)
deriving DecidableEq, Repr

/-- The cast `(int)(size_t)p` of a slot that holds an integer. -/
def VoidPtr.toInt : VoidPtr → Except Fault Int
  | .addr v => .ok (wrapInt32 v)
  | .inBuffer _ _ => .error .badPointer

/-- The cast `(void*)(uint64_t)i` of an `int`. -/
def VoidPtr.ofInt (i : Int) : VoidPtr := .addr (toUInt64 i)

structure GLTFAccessor where
  bufferView : Int := 0
  componentType : Int := 0
  count : Int := 0
  byteOffset : Int := 0
  type : Int := 0
deriving DecidableEq, Repr

structure GLTFBufferView where
  buffer : Int := 0
  byteOffset : Int := 0
  byteLength : Int := 0
  target : Int := 0
  byteStride : Int := 0
deriving DecidableEq, Repr

/-- Source `GLTFBuffer`: `uri` is the owned byte block (`none` for `nullptr`). -/
structure GLTFBuffer where
  uri : Option (List Nat) := none
  byteLength : Int := 0
deriving DecidableEq, Repr

/-- Modelled from the spec: `AAttribType_Count` of the missing header, the number of
attribute slots of a primitive. -/
def AAttribType_Count : Nat := 7

/-- Modelled from the spec: the attribute bits of the missing header (Position=1,
Normal=2, TexCoord0=4, Tangent=8, TexCoord1=16, Joints=32, Weights=64). -/
def AAttribType_POSITION : Nat := 1
/-- Modelled from the spec: see `AAttribType_POSITION`. -/
def AAttribType_NORMAL : Nat := 2
/-- Modelled from the spec: see `AAttribType_POSITION`. -/
def AAttribType_TEXCOORD_0 : Nat := 4
/-- Modelled from the spec: see `AAttribType_POSITION`. -/
def AAttribType_TANGENT : Nat := 8
/-- Modelled from the spec: see `AAttribType_POSITION`. -/
def AAttribType_TEXCOORD_1 : Nat := 16
/-- Modelled from the spec: see `AAttribType_POSITION`. -/
def AAttribType_JOINTS : Nat := 32
/-- Modelled from the spec: see `AAttribType_POSITION`. -/
def AAttribType_WEIGHTS : Nat := 64

/-- Source `APrimitive`; the zero record is what `APrimitive primitive{}` and `MemsetZero`
leave. `vertexAttribs` has `AAttribType_Count` slots. -/
structure APrimitive where
  attributes : Nat := 0
  vertexAttribs : List VoidPtr := List.replicate 7 (VoidPtr.addr 0)
  indiceIndex : Int := 0
  mode : Int := 0
  material : Int := 0
  numVertices : Int := 0
  numIndices : Int := 0
  indices : VoidPtr := .addr 0
  indexType : Int := 0
  jointType : Int := 0
  jointCount : Int := 0
  jointStride : Int := 0
  weightType : Int := 0
  weightStride : Int := 0
deriving DecidableEq, Repr

/-- Source `AMesh`; `primitives` is the block that `SBPush` grows, `SBCount` its length. -/
structure AMesh where
  name : Option (List Nat) := none
  primitives : List APrimitive := []
  numPrimitives : Int := 0
deriving DecidableEq, Repr

structure ANode where
  type : Int := 0
  index : Int := 0
  name : Option (List Nat) := none
  numChildren : Int := 0
  children : List Int := []
  translation : List Float32 := [0, 0, 0]
  rotation : List Float32 := [0, 0, 0, 0]
  scale : List Float32 := [0, 0, 0]
  skin : Int := 0
deriving DecidableEq, Repr

structure AScene where
  name : Option (List Nat) := none
  numNodes : Int := 0
  nodes : List Int := []
deriving DecidableEq, Repr

structure ASkin where
  name : Option (List Nat) := none
  skeleton : Int := 0
  inverseBindMatrices : VoidPtr := .addr 0
  numJoints : Int := 0
  joints : List Int := []
deriving DecidableEq, Repr

structure AAnimChannel where
  sampler : Int := 0
  targetNode : Int := 0
  targetPath : Int := 0
deriving DecidableEq, Repr

structure AAnimSampler where
  input : VoidPtr := .addr 0
  output : VoidPtr := .addr 0
  count : Int := 0
  numComponent : Int := 0
  interpolation : Int := 0
deriving DecidableEq, Repr

structure AAnimation where
  name : Option (List Nat) := none
  numSamplers : Int := 0
  numChannels : Int := 0
  samplers : List AAnimSampler := []
  channels : List AAnimChannel := []
  duration : Float32 := 0
deriving DecidableEq, Repr

/-- Source `AMaterial::Texture`. -/
structure AMaterialTexture where
  scale : Int := 0
  index : Int := 0
  texCoord : Int := 0
  strength : Int := 0
deriving DecidableEq, Repr

structure AMaterial where
  name : Option (List Nat) := none
  textures : List AMaterialTexture := List.replicate 3 {}
  baseColorTexture : AMaterialTexture := {}
  metallicRoughnessTexture : AMaterialTexture := {}
  baseColorFactor : Nat := 0
  metallicFactor : Int := 0
  roughnessFactor : Int := 0
  emissiveFactor : List Int := [0, 0, 0]
  alphaMode : Int := 0
  alphaCutoff : Float32 := 0
  doubleSided : Bool := false
deriving DecidableEq, Repr

structure ATexture where
  sampler : Int := 0
  source : Int := 0
  name : Option (List Nat) := none
deriving DecidableEq, Repr

structure AImage where
  path : Option (List Nat) := none
deriving DecidableEq, Repr

structure ASampler where
  magFilter : Int := 0
  minFilter : Int := 0
  wrapS : Int := 0
  wrapT : Int := 0
deriving DecidableEq, Repr

structure ACamera where
  name : Option (List Nat) := none
  type : Int := 0
  zFar : Float32 := 0
  zNear : Float32 := 0
  aspectRatio : Float32 := 0
  yFov : Float32 := 0
  xmag : Float32 := 0
  ymag : Float32 := 0
deriving DecidableEq, Repr

/-- Source `SceneBundle`; the zero record is what `MemsetZero(result, ...)` leaves.  The two
arena handles are not represented. -/
structure SceneBundle where
  error : AErrorType := .NONE
  defaultSceneIndex : Int := 0
  scale : Float32 := 0
  totalVertices : Int := 0
  totalIndices : Int := 0
  numMeshes : Int := 0
  numNodes : Int := 0
  numMaterials : Int := 0
  numTextures : Int := 0
  numImages : Int := 0
  numSamplers : Int := 0
  numCameras : Int := 0
  numScenes : Int := 0
  numBuffers : Int := 0
  numAnimations : Int := 0
  numSkins : Int := 0
  meshes : List AMesh := []
  nodes : List ANode := []
  materials : List AMaterial := []
  textures : List ATexture := []
  images : List AImage := []
  samplers : List ASampler := []
  cameras : List ACamera := []
  scenes : List AScene := []
  buffers : List GLTFBuffer := []
  animations : List AAnimation := []
  skins : List ASkin := []
deriving DecidableEq

/-- What the run reads from outside the text: files, and the contents of the two
uninitialised locals of `ParseAnimations`. -/
structure Env where
  /-- Source `ReadAllFile`: the bytes of the file, `none` where the source tests for `nullptr`. -/
  readFile : List Nat → Option (List Nat)
  /-- Contents of `AAnimChannel channel;` before the first assignment. -/
  uninitChannel : AAnimChannel
  /-- Contents of `AAnimSampler sampler;` before the first assignment. -/
  uninitSampler : AAnimSampler

/-- Result of the scan for the next key in a section: the array closed (cursor after the
closing bracket), or the cursor stopped on a quote (or on the NUL when the loop tests
for it). -/
inductive Scan (α : Type) where
  | closed (curr : List Nat) (rec : α) (arr : List α)
  | key (curr : List Nat) (rec : α) (arr : List α)

/-- The scan loop shared by the record sections:
`while ([*curr &&] *curr != 34) { if (*curr == 125) { arr.Add(rec); rec = reset; }
if (*curr++ == 93) return curr; }`. -/
def scanRecords {α : Type} (checkNul : Bool) (reset : α) :
    List Nat → α → List α → Except Fault (Scan α)
  | [], _, _ => .error .outOfBounds
  | c :: cs, rec, arr =>
    if (checkNul && c == 0) || c == 34 then .ok (.key (c :: cs) rec arr)
    else
      let rec1 := if c = 125 then reset else rec
      let arr1 := if c = 125 then arr ++ [rec] else arr
      if c = 93 then .ok (.closed cs rec1 arr1)
      else scanRecords checkNul reset cs rec1 arr1

/-- The loop `while (numQuotes < 2) numQuotes += *curr++ == 34`. -/
def skipTwoQuotes : Nat → List Nat → Except Fault (List Nat)
  | _, [] => .error .outOfBounds
  | numQuotes, c :: cs =>
    if numQuotes + (if c = 34 then 1 else 0) < 2 then
      skipTwoQuotes (numQuotes + (if c = 34 then 1 else 0)) cs
    else .ok cs

/-! ## Section parsers -/

/-- Main loop of `ParseAccessors`. -/
def ParseAccessors_loop : Nat → List Nat → GLTFAccessor → List GLTFAccessor →
    Except Fault (CharPtr × List GLTFAccessor)
  | 0, _, _, _ => .error .outOfFuel
  | fuel + 1, curr, accessor, accessorArray => do
    match ← scanRecords true {} curr accessor accessorArray with
    | .closed curr _ accessorArray => .ok (.cur curr, accessorArray)
    | .key curr accessor accessorArray =>
      let curr ← keyCursor curr.tail
      if StrCMP16 curr "bufferView" then
        let (v, curr) ← ParsePositiveNumber curr
        ParseAccessors_loop fuel curr { accessor with bufferView := v } accessorArray
      else if StrCMP16 curr "byteOffset" then
        let (v, curr) ← ParsePositiveNumber curr
        ParseAccessors_loop fuel curr { accessor with byteOffset := v } accessorArray
      else if StrCMP16 curr "componentType" then
        let (v, curr) ← ParsePositiveNumber curr
        ParseAccessors_loop fuel curr
          { accessor with componentType := wrapInt32 (v - 5120) } accessorArray
      else if StrCMP16 curr "count" then
        let (v, curr) ← ParsePositiveNumber curr
        ParseAccessors_loop fuel curr { accessor with count := v } accessorArray
      else if StrCMP16 curr "name" then
        let curr ← skipTwoQuotes 0 (curr.drop 6)
        ParseAccessors_loop fuel curr accessor accessorArray
      else if StrCMP16 curr "type" then
        let curr ← SkipUntill (curr.drop 6) 34
        let (hash, curr) ← HashStringInQuotes curr
        let accessor :=
          if hash = AHashString8 "SCALAR" then { accessor with type := 1 }
          else if hash = AHashString8 "VEC2" then { accessor with type := 2 }
          else if hash = AHashString8 "VEC3" then { accessor with type := 3 }
          else if hash = AHashString8 "VEC4" then { accessor with type := 4 }
          else if hash = AHashString8 "MAT4" then { accessor with type := 16 }
          else accessor
        ParseAccessors_loop fuel curr accessor accessorArray
      else if StrCMP16 curr "min" then
        let curr ← SkipToNextNode curr 91 93
        ParseAccessors_loop fuel curr accessor accessorArray
      else if StrCMP16 curr "max" then
        let curr ← SkipToNextNode curr 91 93
        ParseAccessors_loop fuel curr accessor accessorArray
      else if StrCMP16 curr "normalized" then
        let curr ← SkipAfter curr 34
        ParseAccessors_loop fuel curr accessor accessorArray
      else .ok (.sentinel .UNKNOWN_ACCESSOR_VAR, accessorArray)

/-- Source `ParseAccessors`; `curr += 10` skips the key and its closing quote. -/
def ParseAccessors (fuel : Nat) (curr : List Nat) (accessorArray : List GLTFAccessor) :
    Except Fault (CharPtr × List GLTFAccessor) :=
  ParseAccessors_loop fuel (curr.drop 10) {} accessorArray

/-- Main loop of `ParseBufferViews`. -/
def ParseBufferViews_loop : Nat → List Nat → GLTFBufferView → List GLTFBufferView →
    Except Fault (CharPtr × List GLTFBufferView)
  | 0, _, _, _ => .error .outOfFuel
  | fuel + 1, curr, bufferView, bufferViews => do
    match ← scanRecords true {} curr bufferView bufferViews with
    | .closed curr _ bufferViews => .ok (.cur curr, bufferViews)
    | .key curr bufferView bufferViews =>
      let (hash, curr) ← HashStringInQuotes curr
      if hash = AHashString8 "buffer" then
        let (v, curr) ← ParsePositiveNumber curr.tail
        ParseBufferViews_loop fuel curr { bufferView with buffer := v } bufferViews
      else if hash = AHashString8 "byteOffs" then
        let (v, curr) ← ParsePositiveNumber curr.tail
        ParseBufferViews_loop fuel curr { bufferView with byteOffset := v } bufferViews
      else if hash = AHashString8 "byteLeng" then
        let (v, curr) ← ParsePositiveNumber curr.tail
        ParseBufferViews_loop fuel curr { bufferView with byteLength := v } bufferViews
      else if hash = AHashString8 "byteStri" then
        let (v, curr) ← ParsePositiveNumber curr.tail
        ParseBufferViews_loop fuel curr { bufferView with byteStride := v } bufferViews
      else if hash = AHashString8 "target" then
        let (v, curr) ← ParsePositiveNumber curr.tail
        ParseBufferViews_loop fuel curr { bufferView with target := v } bufferViews
      else if hash = AHashString8 "name" then
        let curr ← skipTwoQuotes 0 curr
        ParseBufferViews_loop fuel curr bufferView bufferViews
      else .ok (.sentinel .UNKNOWN_BUFFER_VIEW_VAR, bufferViews)

/-- Source `ParseBufferViews`; `curr += 13`. -/
def ParseBufferViews (fuel : Nat) (curr : List Nat) (bufferViews : List GLTFBufferView) :
    Except Fault (CharPtr × List GLTFBufferView) :=
  ParseBufferViews_loop fuel (curr.drop 13) {} bufferViews

/-- The `Base64Table` of `DecodeBase64`. -/
def base64Table (c : Nat) : Nat :=
  if 65 ≤ c ∧ c ≤ 90 then c - 65
  else if 97 ≤ c ∧ c ≤ 122 then 26 + (c - 97)
  else if 48 ≤ c ∧ c ≤ 57 then 52 + (c - 48)
  else if c = 43 then 62
  else if c = 47 then 63
  else 0

/-- Table lookup `table.table[src[i]]`: the index is a `char`, so a byte above 127 is a
negative index. -/
def base64Lookup (c : Nat) : Except Fault Nat :=
  if c < 128 then .ok (base64Table c) else .error .outOfBounds

/-- The loop of `DecodeBase64` over the `src_length` bytes given: the bytes written. -/
def DecodeBase64_loop : List Nat → Except Fault (List Nat)
  | s0 :: s1 :: s2 :: s3 :: rest => do
    let a ← base64Lookup s0
    let b ← base64Lookup s1
    let c ← base64Lookup s2
    let d ← base64Lookup s3
    let out ← DecodeBase64_loop rest
    .ok (((a <<< 2) ||| (b >>> 4)) % 256 :: ((b <<< 4) ||| (c >>> 2)) % 256
      :: ((c <<< 6) ||| d) % 256 :: out)
  | _ => .ok []

/-- Source `DecodeBase64(dst, src, src_length)`: the bytes written to `dst`. -/
def DecodeBase64 (src : List Nat) (src_length : Nat) : Except Fault (List Nat) :=
  if src.length < src_length then .error .outOfBounds
  else DecodeBase64_loop (src.take src_length)

/-- The directory part of `path` as `ParseBuffers` computes it: characters are removed
from the end until the last one is a slash or a backslash. -/
def workDirBuffers : List Nat → Except Fault (List Nat)
  | [] => .error .outOfBounds
  | c :: cs =>
    match (c :: cs).reverse.dropWhile (fun x => x ≠ 47 && x ≠ 92) with
    | [] => .error .outOfBounds
    | r => .ok r.reverse

/-- Main loop of `ParseBuffers`; `dir` is the directory prefix kept in `binFilePath`. -/
def ParseBuffers_loop (env : Env) (dir : List Nat) : Nat → List Nat → GLTFBuffer →
    List GLTFBuffer → Except Fault (CharPtr × List GLTFBuffer)
  | 0, _, _, _ => .error .outOfFuel
  | fuel + 1, curr, buffer, bufferArray => do
    match ← scanRecords true {} curr buffer bufferArray with
    | .closed curr _ bufferArray => .ok (.cur curr, bufferArray)
    | .key curr buffer bufferArray =>
      let curr ← keyCursor curr.tail
      if StrCMP16 curr "uri" then
        let curr ← SkipUntill (curr.drop 5) 34
        let (isData, curr) ← StartsWith curr "\"data:"
        if isData then
          let curr ← SkipAfter curr 44
          let (payload, _) ← spanQuote curr
          let base64Size := payload.length
          let bytes ← DecodeBase64 curr base64Size
          ParseBuffers_loop env dir fuel (curr.drop (base64Size + 1))
            { buffer with uri := some bytes } bufferArray
        else
          let (name, curr) ← GetStringInQuotes (256 - dir.length) curr
          match env.readFile (dir ++ name) with
          | none => .ok (.sentinel .BIN_NOT_EXIST, bufferArray)
          | some bytes =>
            ParseBuffers_loop env dir fuel curr { buffer with uri := some bytes } bufferArray
      else if StrCMP16 curr "byteLength" then
        let (v, curr) ← ParsePositiveNumber curr.tail
        ParseBuffers_loop env dir fuel curr { buffer with byteLength := v } bufferArray
      else .ok (.sentinel .BUFFER_PARSE_FAIL, bufferArray)

/-- Source `ParseBuffers`; `curr += 9`, and `path` is copied into the 256 bytes of
`binFilePath`. -/
def ParseBuffers (env : Env) (fuel : Nat) (curr : List Nat) (path : List Nat)
    (bufferArray : List GLTFBuffer) : Except Fault (CharPtr × List GLTFBuffer) := do
  if path.length > 256 then .error .outOfBounds
  else
    let dir ← workDirBuffers path
    ParseBuffers_loop env dir fuel (curr.drop 9) {} bufferArray

/-- The scan of `ParseImages`: `while (*curr && *curr != 34) if (*curr++ == 93) return curr;`
The result is the cursor and whether the array was closed. -/
def ParseImages_scan : List Nat → Except Fault (Bool × List Nat)
  | [] => .error .outOfBounds
  | c :: cs =>
    if c = 0 ∨ c = 34 then .ok (false, c :: cs)
    else if c = 93 then .ok (true, cs)
    else ParseImages_scan cs

/-- The directory part of `path` as `ParseImages` computes it (`pathLen` is lowered
until `path[pathLen - 1]` is a slash). -/
def workDirImages (path : List Nat) : Except Fault (List Nat) :=
  match path.reverse.dropWhile (fun x => x ≠ 47) with
  | [] => .error .outOfBounds
  | r => .ok r.reverse

/-- Main loop of `ParseImages`. -/
def ParseImages_loop (dir : List Nat) : Nat → List Nat → List AImage →
    Except Fault (CharPtr × List AImage)
  | 0, _, _ => .error .outOfFuel
  | fuel + 1, curr, images => do
    let (closed, curr) ← ParseImages_scan curr
    if closed then .ok (.cur curr, images)
    else
      let curr ← keyCursor curr.tail
      let isUri := StrCMP16 curr "uri"
      if isUri then
        let curr ← SkipAfter (curr.drop 4) 34
        let (uri, _) ← spanQuote curr
        let image : AImage := { path := some (dir ++ uri) }
        ParseImages_loop dir fuel (curr.drop uri.length) (images ++ [image])
      else ParseImages_loop dir fuel curr images

/-- Source `ParseImages`. -/
def ParseImages (fuel : Nat) (curr : List Nat) (path : List Nat) (images : List AImage) :
    Except Fault (CharPtr × List AImage) := do
  let curr ← SkipUntill curr 91
  let dir ← workDirImages path
  ParseImages_loop dir fuel curr.tail images

/-- Main loop of `ParseTextures`. -/
def ParseTextures_loop : Nat → List Nat → ATexture → List ATexture →
    Except Fault (CharPtr × List ATexture)
  | 0, _, _, _ => .error .outOfFuel
  | fuel + 1, curr, texture, textures => do
    match ← scanRecords true {} curr texture textures with
    | .closed curr _ textures => .ok (.cur curr, textures)
    | .key curr texture textures =>
      let curr ← keyCursor curr.tail
      if StrCMP16 curr "sampler" then
        let (v, curr) ← ParsePositiveNumber curr.tail
        ParseTextures_loop fuel curr { texture with sampler := v } textures
      else if StrCMP16 curr "source" then
        let (v, curr) ← ParsePositiveNumber curr.tail
        ParseTextures_loop fuel curr { texture with source := v } textures
      else if StrCMP16 curr "name" then
        let (name, curr) ← CopyStringInQuotes (curr.drop 5)
        ParseTextures_loop fuel curr { texture with name := some name } textures
      else .ok (.sentinel .UNKNOWN_TEXTURE_VAR, textures)

/-- Source `ParseTextures`; `curr += 10`. -/
def ParseTextures (fuel : Nat) (curr : List Nat) (textures : List ATexture) :
    Except Fault (CharPtr × List ATexture) :=
  ParseTextures_loop fuel (curr.drop 10) {} textures

/-- The scan `while (*curr != 34) if (*curr++ == 125) return curr;` (also the
`goto end_properties` scan of `ParseCameras`): whether the brace was met, and the
cursor. -/
def scanToQuoteOrBrace : List Nat → Except Fault (Bool × List Nat)
  | [] => .error .outOfBounds
  | c :: cs =>
    if c = 34 then .ok (false, c :: cs)
    else if c = 125 then .ok (true, cs)
    else scanToQuoteOrBrace cs

/-- Outcome of the key chain of `ParseAttributes`. -/
inductive AttribKey where
  | bit (b : Nat)
  | skipped
  | unknown
deriving DecidableEq, Repr

/-- The `if ... else if` chain of `ParseAttributes` over the attribute names. -/
def ParseAttributes_key (curr : List Nat) : AttribKey :=
  if StrCMP16 curr "POSITION" then .bit AAttribType_POSITION
  else if StrCMP16 curr "NORMAL" then .bit AAttribType_NORMAL
  else if StrCMP16 curr "TEXCOORD_0" then .bit AAttribType_TEXCOORD_0
  else if StrCMP16 curr "TANGENT" then .bit AAttribType_TANGENT
  else if StrCMP16 curr "TEXCOORD_1" then .bit AAttribType_TEXCOORD_1
  else if StrCMP16 curr "JOINTS_0" then .bit AAttribType_JOINTS
  else if StrCMP16 curr "WEIGHTS_0" then .bit AAttribType_WEIGHTS
  else if StrCMP16 curr "TEXCOORD_" then .skipped
  else .unknown

/-- The store `primitive->vertexAttribs[newIndex] = value`; the array has
`AAttribType_Count` slots. -/
def storeSlot (slots : List VoidPtr) (index : Nat) (value : VoidPtr) :
    Except Fault (List VoidPtr) :=
  if index < slots.length then .ok (slots.set index value) else .error .outOfBounds

/-- Main loop of `ParseAttributes`. -/
def ParseAttributes_loop : Nat → List Nat → APrimitive → Except Fault (CharPtr × APrimitive)
  | 0, _, _ => .error .outOfFuel
  | fuel + 1, curr, primitive =>
    match scanToQuoteOrBrace curr with
    | .error f => .error f
    | .ok (true, curr) => .ok (.cur curr, primitive)
    | .ok (false, curr) =>
      match keyCursor curr.tail with
      | .error f => .error f
      | .ok curr =>
        let maskBefore := primitive.attributes
        match ParseAttributes_key curr with
        | .unknown => .ok (.sentinel .UNKNOWN_ATTRIB, primitive)
        | .skipped =>
          match SkipAfter curr 34 with
          | .error f => .error f
          | .ok curr => ParseAttributes_loop fuel curr primitive
        | .bit b =>
          let attributes := primitive.attributes ||| b
          match SkipUntill curr 34 with
          | .error f => .error f
          | .ok curr =>
            let newIndex := TrailingZeroCount32 (maskBefore ^^^ attributes)
            match ParsePositiveNumber curr.tail with
            | .error f => .error f
            | .ok (v, curr) =>
              match storeSlot primitive.vertexAttribs newIndex (VoidPtr.ofInt v) with
              | .error f => .error f
              | .ok slots =>
                ParseAttributes_loop fuel curr
                  { primitive with attributes := attributes, vertexAttribs := slots }

/-- Source `ParseAttributes`; `curr += 12` skips the key, its quote and one more character. -/
def ParseAttributes (fuel : Nat) (curr : List Nat) (primitive : APrimitive) :
    Except Fault (CharPtr × APrimitive) :=
  ParseAttributes_loop fuel (curr.drop 12) primitive

/-- The scan of the primitive list in `ParseMeshes`: a closing brace pushes the
primitive (`SBPush`), resets it and counts it; the result tells whether the closing
bracket was met (`goto end_primitives`). -/
def ParseMeshes_scanPrimitives : List Nat → APrimitive → AMesh →
    Except Fault (Bool × List Nat × APrimitive × AMesh)
  | [], _, _ => .error .outOfBounds
  | c :: cs, primitive, mesh =>
    if c = 34 then .ok (false, c :: cs, primitive, mesh)
    else
      let mesh1 : AMesh :=
        if c = 125 then
          { mesh with primitives := mesh.primitives ++ [primitive],
                      numPrimitives := wrapInt32 (mesh.numPrimitives + 1) }
        else mesh
      let primitive1 : APrimitive := if c = 125 then { material := -1 } else primitive
      if c = 93 then .ok (true, cs, primitive1, mesh1)
      else ParseMeshes_scanPrimitives cs primitive1 mesh1

/-- The primitive loop of `ParseMeshes`: the cursor at `end_primitives`, or the error
code the function returns. -/
def ParseMeshes_primitives (fuelA : Nat) : Nat → List Nat → APrimitive → AMesh →
    Except Fault (CharPtr × AMesh)
  | 0, _, _, _ => .error .outOfFuel
  | fuel + 1, curr, primitive, mesh => do
    let (closed, curr, primitive, mesh) ← ParseMeshes_scanPrimitives curr primitive mesh
    if closed then .ok (.cur curr, mesh)
    else
      let curr ← keyCursor curr.tail
      if StrCMP16 curr "attributes" then
        let (ptr, primitive) ← ParseAttributes fuelA curr primitive
        let curr ← ptr.deref
        ParseMeshes_primitives fuelA fuel curr primitive mesh
      else if StrCMP16 curr "indices" then
        let (v, curr) ← ParsePositiveNumber curr
        ParseMeshes_primitives fuelA fuel curr { primitive with indiceIndex := v } mesh
      else if StrCMP16 curr "mode" then
        let (v, curr) ← ParsePositiveNumber curr
        ParseMeshes_primitives fuelA fuel curr { primitive with mode := v } mesh
      else if StrCMP16 curr "material" then
        let (v, curr) ← ParsePositiveNumber curr
        ParseMeshes_primitives fuelA fuel curr { primitive with material := v } mesh
      else .ok (.sentinel .UNKNOWN_MESH_PRIMITIVE_VAR, mesh)

/-- Main loop of `ParseMeshes`; `text` is the 64-byte key buffer. -/
def ParseMeshes_loop (fuelA : Nat) : Nat → List Nat → AMesh → List AMesh →
    Except Fault (CharPtr × List AMesh)
  | 0, _, _, _ => .error .outOfFuel
  | fuel + 1, curr, mesh, meshes => do
    match ← scanRecords false {} curr mesh meshes with
    | .closed curr _ meshes => .ok (.cur curr, meshes)
    | .key curr mesh meshes =>
      let (key, curr) ← GetStringInQuotes 64 curr
      let text := key ++ [0]
      if StrCMP16 text "name" then
        let (name, curr) ← CopyStringInQuotes curr
        ParseMeshes_loop fuelA fuel curr { mesh with name := some name } meshes
      else if !StrCMP16 text "primitives" then .ok (.sentinel .UNKNOWN_MESH_VAR, meshes)
      else
        match ← ParseMeshes_primitives fuelA fuelA curr { material := -1 } mesh with
        | (.sentinel e, _) => .ok (.sentinel e, meshes)
        | (.cur curr, mesh) => ParseMeshes_loop fuelA fuel curr.tail mesh meshes

/-- Source `ParseMeshes`; `curr += 8`. -/
def ParseMeshes (fuel : Nat) (curr : List Nat) (meshes : List AMesh) :
    Except Fault (CharPtr × List AMesh) :=
  ParseMeshes_loop fuel fuel (curr.drop 8) {} meshes

/-- Source loop `while (!IsNumber(*curr)) curr++`. -/
def skipToNumber : List Nat → Except Fault (List Nat)
  | [] => .error .outOfBounds
  | c :: cs => if !IsNumber c then skipToNumber cs else .ok (c :: cs)

/-- The counting pass of `ParseIntArray`:
`while (true) { numElements += *curr == 44; if (*curr++ == 93) break; }`. -/
def ParseIntArray_count : Int → List Nat → Except Fault Int
  | _, [] => .error .outOfBounds
  | numElements, c :: cs =>
    let n := wrapInt32 (numElements + (if c = 44 then 1 else 0))
    if c = 93 then .ok n else ParseIntArray_count n cs

/-- The filling pass of `ParseIntArray` into a block of `capacity` elements:
`while (*curr != 93) { if (IsNumber(*curr)) { ptr[numElements++] = ParsePositiveNumber(curr); }
curr++; }`.  The result is the values written and the cursor on the bracket. -/
def ParseIntArray_fill (capacity : Int) : Nat → List Nat → List Int →
    Except Fault (List Int × List Nat)
  | 0, _, _ => .error .outOfFuel
  | _ + 1, [], _ => .error .outOfBounds
  | fuel + 1, c :: cs, ptr =>
    if c = 93 then .ok (ptr, c :: cs)
    else if IsNumber c then
      match ParsePositiveNumber (c :: cs) with
      | .error f => .error f
      | .ok (v, curr) =>
        if (ptr.length : Int) < capacity then
          ParseIntArray_fill capacity fuel curr.tail (ptr ++ [v])
        else .error .outOfBounds
    else ParseIntArray_fill capacity fuel cs ptr

/-- Source `IntPtrPair`. -/
structure IntPtrPair where
  numElements : Int
  ptr : List Int
deriving DecidableEq, Repr

/-- Source `ParseIntArray`: the pair and the cursor left in `cr` (on the closing bracket). -/
def ParseIntArray (fuel : Nat) (cr : List Nat) : Except Fault (IntPtrPair × List Nat) := do
  let begin_ ← skipToNumber cr
  let capacity ← ParseIntArray_count 1 begin_
  let (ptr, curr) ← ParseIntArray_fill capacity fuel begin_ []
  .ok ({ numElements := ptr.length, ptr := ptr }, curr)

/-! ### Nodes -/

/-- Square root of a natural number, bit by bit from bit `k - 1` down. -/
def natSqrtBits : Nat → Nat → Nat → Nat
  | 0, _, r => r
  | k + 1, n, r =>
    if (r + 2 ^ k) * (r + 2 ^ k) ≤ n then natSqrtBits k n (r + 2 ^ k) else natSqrtBits k n r

/-- Source `Sqrt` (the hardware square root) on the rational model: the exact root when the
operand is the square of a rational (as the correctly rounded root is, when it is
representable), a lower approximation otherwise; operands `num * den < 2 ^ 128`. -/
def Sqrt (a : Float32) : Float32 :=
  if a ≤ 0 then 0 else (natSqrtBits 64 (a.num.toNat * a.den) 0 : ℚ) / a.den

/-- Source `QuaternionFromMatrix(Orientation, m)`: the four components written, `m` a flat
array of 16 floats. -/
def QuaternionFromMatrix (m : List Float32) : List Float32 :=
  let e := fun (i : Nat) => m.getD i 0
  let trace := e 0 + e 5 + e 10
  if trace > 0 then
    let root := Sqrt (trace + 1)
    let w := (1 / 2) * root
    let root := (1 / 2) / root
    [root * (e 6 - e 9), root * (e 2 - e 8), root * (e 1 - e 4), w]
  else
    let i : Nat := if e 5 > e 0 then 1 else 0
    let i : Nat := if e 10 > e (i * 4 + i) then 2 else i
    let j : Nat := [1, 2, 0].getD i 0
    let k : Nat := [1, 2, 0].getD j 0
    let root := Sqrt (e (i * 4 + i) - e (j * 4 + j) - e (k * 4 + k) + 1)
    let oi := (1 / 2) * root
    let root := (1 / 2) / root
    let o : List Float32 := [0, 0, 0, 0]
    let o := o.set i oi
    let o := o.set j (root * (e (i * 4 + j) + e (j * 4 + i)))
    let o := o.set k (root * (e (i * 4 + k) + e (k * 4 + i)))
    o.set 3 (root * (e (j * 4 + k) - e (k * 4 + j)))

/-- Source `VecShuffleR(vec1, vec2, x, y, z, w)`: `(vec1[w], vec1[z], vec2[y], vec2[x])`. -/
def VecShuffleR (vec1 vec2 : List Float32) (x y z w : Nat) : List Float32 :=
  [vec1.getD w 0, vec1.getD z 0, vec2.getD y 0, vec2.getD x 0]

/-- Source `Matrix4::Transpose` on the flat array; `r i` is row `i`. -/
def Matrix4_Transpose (M : List Float32) : List Float32 :=
  let r := fun (i : Nat) => (M.drop (4 * i)).take 4
  let vTemp1 := VecShuffleR (r 0) (r 1) 1 0 1 0
  let vTemp3 := VecShuffleR (r 0) (r 1) 3 2 3 2
  let vTemp2 := VecShuffleR (r 2) (r 3) 1 0 1 0
  let vTemp4 := VecShuffleR (r 2) (r 3) 3 2 3 2
  VecShuffleR vTemp1 vTemp2 2 0 2 0 ++ VecShuffleR vTemp1 vTemp2 3 1 3 1 ++
    VecShuffleR vTemp3 vTemp4 2 0 2 0 ++ VecShuffleR vTemp3 vTemp4 3 1 3 1

/-- Source `Vec3Lenf`: length over the first three lanes. -/
def Vec3Lenf (v : List Float32) : Float32 :=
  Sqrt (v.getD 0 0 * v.getD 0 0 + v.getD 1 0 * v.getD 1 0 + v.getD 2 0 * v.getD 2 0)

/-- Source `Matrix4::ExtractScaleV`: `VecSetR(Vec3Lenf(r[0]), Vec3Lenf(r[2]), Vec3Lenf(r[1]), 0)`. -/
def Matrix4_ExtractScaleV (matrix : List Float32) : List Float32 :=
  let r := fun (i : Nat) => (matrix.drop (4 * i)).take 4
  [Vec3Lenf (r 0), Vec3Lenf (r 2), Vec3Lenf (r 1), 0]

/-- Sequence of `n` consecutive calls of `ParseFloat`. -/
def parseFloats : Nat → List Nat → Except Fault (List Float32 × List Nat)
  | 0, curr => .ok ([], curr)
  | n + 1, curr =>
    match ParseFloat curr with
    | .error f => .error f
    | .ok (x, curr) =>
      match parseFloats n curr with
      | .error f => .error f
      | .ok (xs, curr) => .ok (x :: xs, curr)

/-- The node `ParseNodes` starts every record from: zero, with `rotation[3] = 1`,
`scale = (scale, scale, scale)` and `index = -1`. -/
def nodeDefaults (scale : Float32) : ANode :=
  { rotation := [0, 0, 0, 1], scale := [scale, scale, scale], index := -1 }

/-- The keys `ParseNodes` dispatches on. -/
inductive NodeKey where
  | mesh | camera | children | matrix | translation | rotation | scale | name | skin
deriving DecidableEq, Repr

/-- Source statements `curr = SkipUntill(curr, 93); curr++` at the end of an iteration of `ParseNodes`. -/
def ParseNodes_skipBracket (curr : List Nat) : Except Fault (List Nat) :=
  match SkipUntill curr 93 with
  | .error f => .error f
  | .ok curr => .ok curr.tail

/-- One pass through the key chain of `ParseNodes`, from the cursor after the opening
quote to the end of the iteration: the key taken, the cursor and the node; `none` for
the `else` branch that returns `AError_UNKNOWN_NODE_VAR`. -/
def ParseNodes_key (fuel : Nat) (scale : Float32) (curr : List Nat) (node : ANode) :
    Except Fault (Option (NodeKey × List Nat × ANode)) := do
  if StrCMP16 curr "mesh" then
    let (v, curr) ← ParsePositiveNumber curr
    .ok (some (.mesh, curr, { node with type := 0, index := v }))
  else if StrCMP16 curr "camera" then
    let (v, curr) ← ParsePositiveNumber curr
    .ok (some (.camera, curr, { node with type := 1, index := v }))
  else if StrCMP16 curr "children" then
    let (result, curr) ← ParseIntArray fuel curr
    let curr ← ParseNodes_skipBracket curr
    .ok (some (.children, curr,
      { node with numChildren := result.numElements, children := result.ptr }))
  else if StrCMP16 curr "matrix" then
    let (m, curr) ← parseFloats 16 curr
    let matrix := Matrix4_Transpose m
    let translation := [matrix.getD 12 0, matrix.getD 13 0, matrix.getD 14 0]
    let rotation := QuaternionFromMatrix matrix
    let v := (Matrix4_ExtractScaleV matrix).map (fun x => x * scale)
    let curr ← ParseNodes_skipBracket curr
    .ok (some (.matrix, curr,
      { node with translation := translation, rotation := rotation, scale := v.take 3 }))
  else if StrCMP16 curr "translation" then
    let (t, curr) ← parseFloats 3 curr
    let curr ← ParseNodes_skipBracket curr
    .ok (some (.translation, curr, { node with translation := t }))
  else if StrCMP16 curr "rotation" then
    let (r, curr) ← parseFloats 4 curr
    let curr ← ParseNodes_skipBracket curr
    .ok (some (.rotation, curr, { node with rotation := r }))
  else if StrCMP16 curr "scale" then
    let (v, curr) ← parseFloats 3 curr
    let curr ← ParseNodes_skipBracket curr
    .ok (some (.scale, curr, { node with scale := v.map (fun x => x * scale) }))
  else if StrCMP16 curr "name" then
    let (name, curr) ← CopyStringInQuotes (curr.drop 5)
    .ok (some (.name, curr, { node with name := some name }))
  else if StrCMP16 curr "skin" then
    let (v, curr) ← ParsePositiveNumber curr
    .ok (some (.skin, curr, { node with skin := v }))
  else .ok none

/-- Main loop of `ParseNodes`. -/
def ParseNodes_loop (fuelA : Nat) (scale : Float32) : Nat → List Nat → ANode → List ANode →
    Except Fault (CharPtr × List ANode)
  | 0, _, _, _ => .error .outOfFuel
  | fuel + 1, curr, node, nodes =>
    match scanRecords true (nodeDefaults scale) curr node nodes with
    | .error f => .error f
    | .ok (.closed curr _ nodes) => .ok (.cur curr, nodes)
    | .ok (.key curr node nodes) =>
      match keyCursor curr.tail with
      | .error f => .error f
      | .ok curr =>
        match ParseNodes_key fuelA scale curr node with
        | .error f => .error f
        | .ok none => .ok (.sentinel .UNKNOWN_NODE_VAR, nodes)
        | .ok (some (_, curr, node)) => ParseNodes_loop fuelA scale fuel curr node nodes

/-- Source `ParseNodes`. -/
def ParseNodes (fuel : Nat) (curr : List Nat) (nodes : List ANode) (scale : Float32) :
    Except Fault (CharPtr × List ANode) :=
  match SkipUntill curr 91 with
  | .error f => .error f
  | .ok curr => ParseNodes_loop fuel scale fuel curr.tail (nodeDefaults scale) nodes

/-! ### Cameras, scenes, samplers -/

/-- The property loop of `ParseCameras`: the cursor at `end_properties`, or the error
code returned. -/
def ParseCameras_properties : Nat → List Nat → ACamera → Except Fault (CharPtr × ACamera)
  | 0, _, _ => .error .outOfFuel
  | fuel + 1, curr, camera => do
    let (closed, curr) ← scanToQuoteOrBrace curr
    if closed then .ok (.cur curr, camera)
    else
      let curr ← keyCursor curr.tail
      if StrCMP16 curr "zfar" then
        let (x, curr) ← ParseFloat curr
        ParseCameras_properties fuel curr { camera with zFar := x }
      else if StrCMP16 curr "znear" then
        let (x, curr) ← ParseFloat curr
        ParseCameras_properties fuel curr { camera with zNear := x }
      else if StrCMP16 curr "aspectRatio" then
        let (x, curr) ← ParseFloat curr
        ParseCameras_properties fuel curr { camera with aspectRatio := x }
      else if StrCMP16 curr "yfov" then
        let (x, curr) ← ParseFloat curr
        ParseCameras_properties fuel curr { camera with yFov := x }
      else if StrCMP16 curr "xmag" then
        let (x, curr) ← ParseFloat curr
        ParseCameras_properties fuel curr { camera with xmag := x }
      else if StrCMP16 curr "ymag" then
        let (x, curr) ← ParseFloat curr
        ParseCameras_properties fuel curr { camera with ymag := x }
      else .ok (.sentinel .UNKNOWN_CAMERA_VAR, camera)

/-- Main loop of `ParseCameras`. -/
def ParseCameras_loop (fuelA : Nat) : Nat → List Nat → ACamera → List ACamera →
    Except Fault (CharPtr × List ACamera)
  | 0, _, _, _ => .error .outOfFuel
  | fuel + 1, curr, camera, cameras => do
    match ← scanRecords false {} curr camera cameras with
    | .closed curr _ cameras => .ok (.cur curr, cameras)
    | .key curr camera cameras =>
      let (key, curr) ← GetStringInQuotes 64 curr
      let text := key ++ [0]
      if StrCMP16 text "name" then
        let (name, curr) ← CopyStringInQuotes curr
        ParseCameras_loop fuelA fuel curr { camera with name := some name } cameras
      else if StrCMP16 text "type" then
        let curr ← SkipUntill curr 34
        let curr := curr.tail
        let c ← peek curr
        let camera := { camera with type := if c = 112 then 1 else 0 }
        let curr ← SkipUntill curr 34
        ParseCameras_loop fuelA fuel curr.tail camera cameras
      else if !StrCMP16 text "orthographic" && !StrCMP16 text "perspective" then
        .ok (.sentinel .UNKNOWN_CAMERA_VAR, cameras)
      else
        match ← ParseCameras_properties fuelA curr camera with
        | (.sentinel e, _) => .ok (.sentinel e, cameras)
        | (.cur curr, camera) => ParseCameras_loop fuelA fuel curr camera cameras

/-- Source `ParseCameras`; `curr += 8`. -/
def ParseCameras (fuel : Nat) (curr : List Nat) (cameras : List ACamera) :
    Except Fault (CharPtr × List ACamera) :=
  ParseCameras_loop fuel fuel (curr.drop 8) {} cameras

/-- Main loop of `ParseScenes`; a key that is neither `nodes` nor `name` is passed
over. -/
def ParseScenes_loop (fuelA : Nat) : Nat → List Nat → AScene → List AScene →
    Except Fault (CharPtr × List AScene)
  | 0, _, _, _ => .error .outOfFuel
  | fuel + 1, curr, scene, scenes => do
    match ← scanRecords true {} curr scene scenes with
    | .closed curr _ scenes => .ok (.cur curr, scenes)
    | .key curr scene scenes =>
      let curr ← keyCursor curr.tail
      if StrCMP16 curr "nodes" then
        let begin_ ← skipToNumber curr
        let capacity ← ParseIntArray_count 1 begin_
        let (nodes, curr) ← ParseIntArray_fill capacity fuelA begin_ []
        ParseScenes_loop fuelA fuel curr.tail
          { scene with numNodes := nodes.length, nodes := nodes } scenes
      else if StrCMP16 curr "name" then
        let (name, curr) ← CopyStringInQuotes (curr.drop 5)
        ParseScenes_loop fuelA fuel curr { scene with name := some name } scenes
      else ParseScenes_loop fuelA fuel curr scene scenes

/-- Source `ParseScenes`. -/
def ParseScenes (fuel : Nat) (curr : List Nat) (scenes : List AScene) :
    Except Fault (CharPtr × List AScene) := do
  let curr ← SkipUntill curr 91
  ParseScenes_loop fuel fuel curr.tail {} scenes

/-- Source `OGLWrapToWrap`. -/
def OGLWrapToWrap (wrap : Int) : Int :=
  if wrap = 10497 then 0
  else if wrap = 33071 then 1
  else if wrap = 33069 then 2
  else if wrap = 33648 then 3
  else 0

/-- Main loop of `ParseSamplers`. -/
def ParseSamplers_loop : Nat → List Nat → ASampler → List ASampler →
    Except Fault (CharPtr × List ASampler)
  | 0, _, _, _ => .error .outOfFuel
  | fuel + 1, curr, sampler, samplers => do
    match ← scanRecords true {} curr sampler samplers with
    | .closed curr _ samplers => .ok (.cur curr, samplers)
    | .key curr sampler samplers =>
      let curr ← keyCursor curr.tail
      if StrCMP16 curr "magFilter" then
        let (v, curr) ← ParsePositiveNumber curr
        ParseSamplers_loop fuel curr
          { sampler with magFilter := wrapInt8 (wrapInt32 (v - 9728)) } samplers
      else if StrCMP16 curr "minFilter" then
        let (v, curr) ← ParsePositiveNumber curr
        ParseSamplers_loop fuel curr
          { sampler with minFilter := wrapInt8 (wrapInt32 (v - 9728)) } samplers
      else if StrCMP16 curr "wrapS" then
        let (v, curr) ← ParsePositiveNumber curr
        ParseSamplers_loop fuel curr { sampler with wrapS := OGLWrapToWrap v } samplers
      else if StrCMP16 curr "wrapT" then
        let (v, curr) ← ParsePositiveNumber curr
        ParseSamplers_loop fuel curr { sampler with wrapT := OGLWrapToWrap v } samplers
      else .ok (.sentinel .UNKNOWN, samplers)

/-- Source `ParseSamplers`. -/
def ParseSamplers (fuel : Nat) (curr : List Nat) (samplers : List ASampler) :
    Except Fault (CharPtr × List ASampler) := do
  let curr ← SkipUntill curr 91
  ParseSamplers_loop fuel curr.tail {} samplers

/-! ### Materials -/

/-- The scan of `ParseMaterialTexture` and of the PBR block:
`while (*curr && *curr != 34) { if (*curr++ == 125) return curr; }`. -/
def scanToQuoteNulOrBrace : List Nat → Except Fault (Bool × List Nat)
  | [] => .error .outOfBounds
  | c :: cs =>
    if c = 0 ∨ c = 34 then .ok (false, c :: cs)
    else if c = 125 then .ok (true, cs)
    else scanToQuoteNulOrBrace cs

/-- Main loop of `ParseMaterialTexture`. -/
def ParseMaterialTexture_loop : Nat → List Nat → AMaterialTexture →
    Except Fault (CharPtr × AMaterialTexture)
  | 0, _, _ => .error .outOfFuel
  | fuel + 1, curr, texture => do
    let (closed, curr) ← scanToQuoteNulOrBrace curr
    if closed then .ok (.cur curr, texture)
    else
      let curr ← keyCursor curr.tail
      if StrCMP16 curr "scale" then
        let (v, curr) ← ParseFloat16 curr
        ParseMaterialTexture_loop fuel curr { texture with scale := v }
      else if StrCMP16 curr "index" then
        let (v, curr) ← ParsePositiveNumber curr
        ParseMaterialTexture_loop fuel curr { texture with index := wrapInt8 v }
      else if StrCMP16 curr "texCoord" then
        let (v, curr) ← ParsePositiveNumber curr
        ParseMaterialTexture_loop fuel curr { texture with texCoord := wrapInt8 v }
      else if StrCMP16 curr "strength" then
        let (v, curr) ← ParseFloat16 curr
        ParseMaterialTexture_loop fuel curr { texture with strength := v }
      else if StrCMP16 curr "extensions" then
        let curr ← SkipToNextNode curr 123 125
        ParseMaterialTexture_loop fuel curr texture
      else .ok (.sentinel .UNKNOWN_MATERIAL_VAR, texture)

/-- Source `ParseMaterialTexture`. -/
def ParseMaterialTexture (fuel : Nat) (curr : List Nat) (texture : AMaterialTexture) :
    Except Fault (CharPtr × AMaterialTexture) := do
  let curr ← SkipUntill curr 123
  ParseMaterialTexture_loop fuel curr.tail texture

/-- The conversion `(uint32_t)(c * 255.0f)`: truncation toward zero, taken modulo
`2 ^ 32` (the conversion of a value outside the range is undefined in C++). -/
def floatToUInt32 (x : Float32) : Nat :=
  ((if x < 0 then -((-x).floor) else x.floor) % 4294967296).toNat

/-- Source `PackColorRGBAU32`. -/
def PackColorRGBAU32 (c : List Float32) : Nat :=
  (floatToUInt32 (c.getD 0 0 * 255) ||| (floatToUInt32 (c.getD 1 0 * 255) <<< 8) % 4294967296
    ||| (floatToUInt32 (c.getD 2 0 * 255) <<< 16) % 4294967296
    ||| (floatToUInt32 (c.getD 3 0 * 255) <<< 24) % 4294967296)

/-- The `pbrMetallicRoughness` loop of `ParseMaterials`: the cursor at `pbr_end`, or the
error code returned.  The pointer a texture sub-parser returns is used unchecked. -/
def ParseMaterials_pbr (fuelA : Nat) : Nat → List Nat → AMaterial →
    Except Fault (CharPtr × AMaterial)
  | 0, _, _ => .error .outOfFuel
  | fuel + 1, curr, material => do
    let (closed, curr) ← scanToQuoteNulOrBrace curr
    if closed then .ok (.cur curr, material)
    else
      let curr ← keyCursor curr.tail
      if StrCMP16 curr "baseColorTex" then
        let (ptr, t) ← ParseMaterialTexture fuelA curr material.baseColorTexture
        let curr ← ptr.deref
        ParseMaterials_pbr fuelA fuel curr { material with baseColorTexture := t }
      else if StrCMP16 curr "metallicRough" then
        let (ptr, t) ← ParseMaterialTexture fuelA curr material.metallicRoughnessTexture
        let curr ← ptr.deref
        ParseMaterials_pbr fuelA fuel curr { material with metallicRoughnessTexture := t }
      else if StrCMP16 curr "baseColorFact" then
        let (baseColorFactor, curr) ← parseFloats 4 curr
        let curr ← SkipUntill curr 93
        ParseMaterials_pbr fuelA fuel curr.tail
          { material with baseColorFactor := PackColorRGBAU32 baseColorFactor }
      else if StrCMP16 curr "metallicFact" then
        let (v, curr) ← ParseFloat16 curr
        ParseMaterials_pbr fuelA fuel curr { material with metallicFactor := v }
      else if StrCMP16 curr "roughnessFact" then
        let (v, curr) ← ParseFloat16 curr
        ParseMaterials_pbr fuelA fuel curr { material with roughnessFactor := v }
      else .ok (.sentinel .UNKNOWN_PBR_VAR, material)

/-- Source `AMaterialAlphaMode_Opaque`, `_Mask`, `_Blend` of the missing header are taken as
0, 1, 2.  The chain over the alpha mode string. -/
def alphaModeOf (text : List Nat) (old : Int) : Int :=
  if StrCMP16 text "OPAQUE" then 0
  else if StrCMP16 text "MASK" then 1
  else if StrCMP16 text "BLEND" then 2
  else old

/-- Source loop `while (!IsLower(*curr)) curr++`. -/
def skipToLower : List Nat → Except Fault (List Nat)
  | [] => .error .outOfBounds
  | c :: cs => if !IsLower c then skipToLower cs else .ok (c :: cs)

/-- Main loop of `ParseMaterials`. -/
def ParseMaterials_loop (fuelA : Nat) : Nat → List Nat → AMaterial → List AMaterial →
    Except Fault (CharPtr × List AMaterial)
  | 0, _, _, _ => .error .outOfFuel
  | fuel + 1, curr, material, materials => do
    let reset : AMaterial := { baseColorTexture := { index := -1 } }
    match ← scanRecords true reset curr material materials with
    | .closed curr _ materials => .ok (.cur curr, materials)
    | .key curr material materials =>
      let curr ← keyCursor curr.tail
      let texture (i : Nat) (curr : List Nat) : Except Fault (CharPtr × List AMaterial) := do
        let (ptr, t) ← ParseMaterialTexture fuelA curr (material.textures.getD i {})
        match ptr with
        | .sentinel .UNKNOWN_MATERIAL_VAR => .ok (ptr, materials)
        | _ =>
          let curr ← ptr.deref
          ParseMaterials_loop fuelA fuel curr
            { material with textures := material.textures.set i t } materials
      if StrCMP16 curr "name" then
        let (name, curr) ← CopyStringInQuotes (curr.drop 5)
        ParseMaterials_loop fuelA fuel curr { material with name := some name } materials
      else if StrCMP16 curr "doubleSided" then
        let curr ← skipToLower (curr.drop 13)
        let c ← peek curr
        ParseMaterials_loop fuelA fuel curr
          { material with doubleSided := decide (c = 116) } materials
      else if StrCMP16 curr "pbrMetallicRoug" then
        let curr ← SkipUntill curr 123
        match ← ParseMaterials_pbr fuelA fuelA curr material with
        | (.sentinel e, _) => .ok (.sentinel e, materials)
        | (.cur curr, material) => ParseMaterials_loop fuelA fuel curr material materials
      else if StrCMP16 curr "normalTexture" then texture 0 curr
      else if StrCMP16 curr "occlusionTextur" then texture 1 curr
      else if StrCMP16 curr "emissiveTexture" then texture 2 curr
      else if StrCMP16 curr "emissiveFactor" then
        let (e0, curr) ← ParseFloat16 curr
        let (e1, curr) ← ParseFloat16 curr
        let (e2, curr) ← ParseFloat16 curr
        let curr ← SkipUntill curr 93
        ParseMaterials_loop fuelA fuel curr.tail
          { material with emissiveFactor := [e0, e1, e2] } materials
      else if StrCMP16 curr "extensions" then
        let curr ← SkipToNextNode curr 123 125
        ParseMaterials_loop fuelA fuel curr material materials
      else if StrCMP16 curr "alphaMode" then
        let curr ← SkipUntill (curr.drop 11) 34
        let (text, curr) ← GetStringInQuotes 16 curr
        ParseMaterials_loop fuelA fuel curr
          { material with alphaMode := alphaModeOf (text ++ [0]) material.alphaMode } materials
      else if StrCMP16 curr "alphaCutoff" then
        let (x, curr) ← ParseFloat curr
        ParseMaterials_loop fuelA fuel curr { material with alphaCutoff := x } materials
      else .ok (.sentinel .UNKNOWN_MATERIAL_VAR, materials)

/-- Source `ParseMaterials`; the first record starts from `AMaterial material{}`. -/
def ParseMaterials (fuel : Nat) (curr : List Nat) (materials : List AMaterial) :
    Except Fault (CharPtr × List AMaterial) := do
  let curr ← SkipUntill curr 91
  ParseMaterials_loop fuel fuel curr.tail {} materials

/-! ### Skins and animations -/

/-- Main loop of `ParseSkins`; a key outside the four known ones is passed over. -/
def ParseSkins_loop (fuelA : Nat) : Nat → List Nat → ASkin → List ASkin →
    Except Fault (CharPtr × List ASkin)
  | 0, _, _, _ => .error .outOfFuel
  | fuel + 1, curr, skin, skins => do
    match ← scanRecords true { skeleton := -1 } curr skin skins with
    | .closed curr _ skins => .ok (.cur curr, skins)
    | .key curr skin skins =>
      let curr ← keyCursor curr.tail
      if StrCMP16 curr "inverseBindMatrices" then
        let (v, curr) ← ParsePositiveNumber curr
        ParseSkins_loop fuelA fuel curr
          { skin with inverseBindMatrices := VoidPtr.ofInt v } skins
      else if StrCMP16 curr "skeleton" then
        let (v, curr) ← ParsePositiveNumber curr
        ParseSkins_loop fuelA fuel curr { skin with skeleton := v } skins
      else if StrCMP16 curr "name" then
        let (name, curr) ← CopyStringInQuotes (curr.drop 5)
        ParseSkins_loop fuelA fuel curr { skin with name := some name } skins
      else if StrCMP16 curr "joints" then
        let (result, curr) ← ParseIntArray fuelA curr
        ParseSkins_loop fuelA fuel curr.tail
          { skin with numJoints := result.numElements, joints := result.ptr } skins
      else ParseSkins_loop fuelA fuel curr skin skins

/-- Source `ParseSkins`; the first record starts from `ASkin skin{}; skin.skeleton = -1;`. -/
def ParseSkins (fuel : Nat) (curr : List Nat) (skins : List ASkin) :
    Except Fault (CharPtr × List ASkin) := do
  let curr ← SkipAfter curr 91
  ParseSkins_loop fuel fuel curr { skeleton := -1 } skins

/-- Modelled from the spec: `AAnimTargetPath_Translation`, `_Rotation`, `_Scale` of the
missing header, in the order the spec lists the target paths. -/
def AAnimTargetPath_Translation : Int := 0
/-- Modelled from the spec: see `AAnimTargetPath_Translation`. -/
def AAnimTargetPath_Rotation : Int := 1
/-- Modelled from the spec: see `AAnimTargetPath_Translation`. -/
def AAnimTargetPath_Scale : Int := 2

/-- The scan of the `channels` loop of `ParseAnimations`: a closing brace ends the
target object when one is open, and adds the channel otherwise. -/
def ParseAnimations_scanChannels : List Nat → Bool → AAnimChannel → List AAnimChannel →
    Except Fault (Bool × List Nat × Bool × AAnimChannel × List AAnimChannel)
  | [], _, _, _ => .error .outOfBounds
  | c :: cs, parsingTarget, channel, channels =>
    if c = 0 ∨ c = 34 then .ok (false, c :: cs, parsingTarget, channel, channels)
    else if c = 93 then .ok (true, cs, parsingTarget, channel, channels)
    else if c = 125 then
      if parsingTarget then ParseAnimations_scanChannels cs false channel channels
      else ParseAnimations_scanChannels cs parsingTarget {} (channels ++ [channel])
    else ParseAnimations_scanChannels cs parsingTarget channel channels

/-- The `channels` loop of `ParseAnimations`, up to `goto end_parsing`. -/
def ParseAnimations_channels : Nat → List Nat → Bool → AAnimChannel → List AAnimChannel →
    Except Fault (List Nat × List AAnimChannel)
  | 0, _, _, _, _ => .error .outOfFuel
  | fuel + 1, curr, parsingTarget, channel, channels => do
    let (closed, curr, parsingTarget, channel, channels) ←
      ParseAnimations_scanChannels curr parsingTarget channel channels
    if closed then .ok (curr, channels)
    else
      let (hash, curr) ← HashStringInQuotes curr
      if hash = AHashString8 "sampler" then
        let (v, curr) ← ParsePositiveNumber curr
        ParseAnimations_channels fuel curr parsingTarget { channel with sampler := v } channels
      else if hash = AHashString8 "node" then
        let (v, curr) ← ParsePositiveNumber curr
        ParseAnimations_channels fuel curr parsingTarget
          { channel with targetNode := v } channels
      else if hash = AHashString8 "target" then
        ParseAnimations_channels fuel (curr.drop 8) true channel channels
      else if hash = AHashString8 "path" then
        let curr ← SkipAfter curr 34
        let c ← peek curr
        if c = 116 then
          ParseAnimations_channels fuel (curr.drop 13) parsingTarget
            { channel with targetPath := AAnimTargetPath_Translation } channels
        else if c = 114 then
          ParseAnimations_channels fuel (curr.drop 10) parsingTarget
            { channel with targetPath := AAnimTargetPath_Rotation } channels
        else if c = 115 then
          ParseAnimations_channels fuel (curr.drop 7) parsingTarget
            { channel with targetPath := AAnimTargetPath_Scale } channels
        else ParseAnimations_channels fuel curr parsingTarget channel channels
      else ParseAnimations_channels fuel curr parsingTarget channel channels

/-- The scan of the `samplers` loop of `ParseAnimations`. -/
def ParseAnimations_scanSamplers : List Nat → AAnimSampler → List AAnimSampler →
    Except Fault (Bool × List Nat × AAnimSampler × List AAnimSampler)
  | [], _, _ => .error .outOfBounds
  | c :: cs, sampler, samplers =>
    if c = 0 ∨ c = 34 then .ok (false, c :: cs, sampler, samplers)
    else if c = 93 then .ok (true, cs, sampler, samplers)
    else if c = 125 then ParseAnimations_scanSamplers cs {} (samplers ++ [sampler])
    else ParseAnimations_scanSamplers cs sampler samplers

/-- The `samplers` loop of `ParseAnimations`, up to `goto end_parsing`. -/
def ParseAnimations_samplers : Nat → List Nat → AAnimSampler → List AAnimSampler →
    Except Fault (List Nat × List AAnimSampler)
  | 0, _, _, _ => .error .outOfFuel
  | fuel + 1, curr, sampler, samplers => do
    let (closed, curr, sampler, samplers) ← ParseAnimations_scanSamplers curr sampler samplers
    if closed then .ok (curr, samplers)
    else
      let (hash, curr) ← HashStringInQuotes curr
      if hash = AHashString8 "input" then
        let (v, curr) ← ParsePositiveNumber curr
        ParseAnimations_samplers fuel curr { sampler with input := VoidPtr.ofInt v } samplers
      else if hash = AHashString8 "output" then
        let (v, curr) ← ParsePositiveNumber curr
        ParseAnimations_samplers fuel curr { sampler with output := VoidPtr.ofInt v } samplers
      else if hash = AHashString8 "interpol" then
        let curr ← SkipAfter (curr.drop 5) 34
        let c ← peek curr
        if c = 76 then
          ParseAnimations_samplers fuel (curr.drop 8) { sampler with interpolation := 0 } samplers
        else if c = 83 then
          ParseAnimations_samplers fuel (curr.drop 6) { sampler with interpolation := 1 } samplers
        else if c = 67 then
          ParseAnimations_samplers fuel (curr.drop 13) { sampler with interpolation := 2 }
            samplers
        else ParseAnimations_samplers fuel curr sampler samplers
      else ParseAnimations_samplers fuel curr sampler samplers

/-- Working state of `ParseAnimations`: the two arrays that collect channels and
samplers, the animation under construction and the output array. -/
structure AnimState where
  channels : List AAnimChannel := []
  samplers : List AAnimSampler := []
  animation : AAnimation := {}
  animations : List AAnimation := []

/-- The outer scan of `ParseAnimations`: a closing brace moves the collected samplers
and channels into the animation (`TakeOwnership`) and adds it. -/
def ParseAnimations_scan : List Nat → AnimState → Except Fault (Bool × List Nat × AnimState)
  | [], _ => .error .outOfBounds
  | c :: cs, st =>
    if c = 0 ∨ c = 34 then .ok (false, c :: cs, st)
    else
      let st1 : AnimState :=
        if c = 125 then
          { channels := [], samplers := [], animation := {},
            animations := st.animations ++
              [{ st.animation with numSamplers := st.samplers.length,
                                   numChannels := st.channels.length,
                                   samplers := st.samplers, channels := st.channels }] }
        else st
      if c = 93 then .ok (true, cs, st1) else ParseAnimations_scan cs st1

/-- Main loop of `ParseAnimations`. -/
def ParseAnimations_loop (env : Env) (fuelA : Nat) : Nat → List Nat → AnimState →
    Except Fault (CharPtr × List AAnimation)
  | 0, _, _ => .error .outOfFuel
  | fuel + 1, curr, st => do
    let (closed, curr, st) ← ParseAnimations_scan curr st
    if closed then .ok (.cur curr, st.animations)
    else
      let curr ← keyCursor curr.tail
      if StrCMP16 curr "name" then
        let (name, curr) ← CopyStringInQuotes (curr.drop 6)
        ParseAnimations_loop env fuelA fuel curr
          { st with animation := { st.animation with name := some name } }
      else if StrCMP16 curr "channels" then
        let (curr, channels) ←
          ParseAnimations_channels fuelA (curr.drop 10) false env.uninitChannel st.channels
        ParseAnimations_loop env fuelA fuel curr { st with channels := channels }
      else if StrCMP16 curr "samplers" then
        let (curr, samplers) ←
          ParseAnimations_samplers fuelA (curr.drop 10) env.uninitSampler st.samplers
        ParseAnimations_loop env fuelA fuel curr { st with samplers := samplers }
      else ParseAnimations_loop env fuelA fuel curr st

/-- Source `ParseAnimations`. -/
def ParseAnimations (env : Env) (fuel : Nat) (curr : List Nat) (animations : List AAnimation) :
    Except Fault (CharPtr × List AAnimation) := do
  let curr ← SkipAfter curr 91
  ParseAnimations_loop env fuel fuel curr { animations := animations }

/-! ## `ParseGLTF`: the dispatch loop -/

/-- The local arrays of `ParseGLTF`, and the one field of the bundle the loop writes. -/
structure ParseState where
  defaultSceneIndex : Int := 0
  bufferViews : List GLTFBufferView := []
  buffers : List GLTFBuffer := []
  accessors : List GLTFAccessor := []
  meshes : List AMesh := []
  nodes : List ANode := []
  materials : List AMaterial := []
  textures : List ATexture := []
  images : List AImage := []
  samplers : List ASampler := []
  cameras : List ACamera := []
  scenes : List AScene := []
  skins : List ASkin := []
  animations : List AAnimation := []

/-- The top-level keys `ParseGLTF` compares the cursor with, in the order of the chain. -/
def topLevelKeys : List String :=
  ["accessors", "scenes", "scene", "bufferViews", "buffers", "images", "textures",
   "meshes", "materials", "nodes", "samplers", "cameras", "skins", "animations", "asset",
   "extensionsUsed", "extensionsRequ"]

/-- The assignment `curr = ParseX(curr, array)` of one branch of the chain of
`ParseGLTF`: the pointer returned, and the state with the array the section parser
extended. -/
def parsedSection {β : Type} (r : Except Fault (CharPtr × β)) (update : β → ParseState) :
    Except Fault (CharPtr × ParseState) :=
  match r with
  | .error f => .error f
  | .ok (p, a) => .ok (p, update a)

/-- The `if ... else if` chain of `ParseGLTF` from the cursor after the opening quote of
a key: the new value of `curr` and the state. -/
def ParseGLTF_dispatch (env : Env) (fuel : Nat) (path : List Nat) (scale : Float32)
    (curr : List Nat) (st : ParseState) : Except Fault (CharPtr × ParseState) :=
  if StrCMP16 curr "accessors" then
    parsedSection (ParseAccessors fuel curr st.accessors) (fun a => { st with accessors := a })
  else if StrCMP16 curr "scenes" then
    parsedSection (ParseScenes fuel curr st.scenes) (fun a => { st with scenes := a })
  else if StrCMP16 curr "scene" then
    parsedSection ((ParsePositiveNumber curr).map (fun r => (CharPtr.cur r.2, r.1)))
      (fun v => { st with defaultSceneIndex := v })
  else if StrCMP16 curr "bufferViews" then
    parsedSection (ParseBufferViews fuel curr st.bufferViews)
      (fun a => { st with bufferViews := a })
  else if StrCMP16 curr "buffers" then
    parsedSection (ParseBuffers env fuel curr path st.buffers) (fun a => { st with buffers := a })
  else if StrCMP16 curr "images" then
    parsedSection (ParseImages fuel curr path st.images) (fun a => { st with images := a })
  else if StrCMP16 curr "textures" then
    parsedSection (ParseTextures fuel curr st.textures) (fun a => { st with textures := a })
  else if StrCMP16 curr "meshes" then
    parsedSection (ParseMeshes fuel curr st.meshes) (fun a => { st with meshes := a })
  else if StrCMP16 curr "materials" then
    parsedSection (ParseMaterials fuel curr st.materials) (fun a => { st with materials := a })
  else if StrCMP16 curr "nodes" then
    parsedSection (ParseNodes fuel curr st.nodes scale) (fun a => { st with nodes := a })
  else if StrCMP16 curr "samplers" then
    parsedSection (ParseSamplers fuel curr st.samplers) (fun a => { st with samplers := a })
  else if StrCMP16 curr "cameras" then
    parsedSection (ParseCameras fuel curr st.cameras) (fun a => { st with cameras := a })
  else if StrCMP16 curr "skins" then
    parsedSection (ParseSkins fuel curr st.skins) (fun a => { st with skins := a })
  else if StrCMP16 curr "animations" then
    parsedSection (ParseAnimations env fuel curr st.animations)
      (fun a => { st with animations := a })
  else if StrCMP16 curr "asset" then
    parsedSection ((SkipToNextNode curr 123 125).map (fun c => (CharPtr.cur c, ())))
      (fun _ => st)
  else if StrCMP16 curr "extensionsUsed" || StrCMP16 curr "extensionsRequ" then
    parsedSection ((SkipToNextNode curr 91 93).map (fun c => (CharPtr.cur c, ())))
      (fun _ => st)
  else .ok (.sentinel .UNKNOWN_DESCRIPTOR, st)

/-- Source loop `while (*curr && *curr != 34) curr++`. -/
def skipToQuoteOrNul : List Nat → Except Fault (List Nat)
  | [] => .error .outOfBounds
  | c :: cs => if c ≠ 0 ∧ c ≠ 34 then skipToQuoteOrNul cs else .ok (c :: cs)

/-- Outcome of one iteration of the `while (*curr)` loop of `ParseGLTF`. -/
inductive Step where
  /-- The loop ends (`*curr == 0`). -/
  | done (st : ParseState)
  /-- Source `curr < (const char*)AError_MAX`: the function returns 0 with this error. -/
  | failed (error : AErrorType) (st : ParseState)
  /-- The loop goes on from `curr`. -/
  | next (curr : List Nat) (st : ParseState)

/-- One iteration of the `while (*curr)` loop of `ParseGLTF`. -/
def ParseGLTF_step (env : Env) (fuel : Nat) (path : List Nat) (scale : Float32)
    (curr : List Nat) (st : ParseState) : Except Fault Step :=
  match peek curr with
  | .error f => .error f
  | .ok c =>
    if c = 0 then .ok (.done st)
    else
      match skipToQuoteOrNul curr with
      | .error f => .error f
      | .ok curr =>
        match peek curr with
        | .error f => .error f
        | .ok c =>
          if c = 0 then .ok (.done st)
          else
            match keyCursor curr.tail with
            | .error f => .error f
            | .ok curr =>
              match ParseGLTF_dispatch env fuel path scale curr st with
              | .error f => .error f
              | .ok (.sentinel e, st) => .ok (.failed e st)
              | .ok (.cur curr, st) => .ok (.next curr st)

/-- The `while (*curr)` loop of `ParseGLTF`: the error of an early `return 0`, if any,
and the state. -/
def ParseGLTF_loop (env : Env) (fuelA : Nat) (path : List Nat) (scale : Float32) :
    Nat → List Nat → ParseState → Except Fault (Option AErrorType × ParseState)
  | 0, _, _ => .error .outOfFuel
  | fuel + 1, curr, st =>
    match ParseGLTF_step env fuelA path scale curr st with
    | .error f => .error f
    | .ok (.done st) => .ok (none, st)
    | .ok (.failed e st) => .ok (some e, st)
    | .ok (.next curr st) => ParseGLTF_loop env fuelA path scale fuel curr st

/-! ## `ParseGLTF`: the resolver -/

/-- Source `Array::operator[]` (the `ASSERT` on the range is compiled out; an index outside the
array is a read outside its block). -/
def arrayAt {α : Type} (arr : List α) (i : Int) : Except Fault α :=
  if i < 0 then .error .outOfBounds
  else
    match arr.get? i.toNat with
    | none => .error .outOfBounds
    | some a => .ok a

/-- The three statements that turn an accessor index into an address:
`accessor = accessors[i]; view = bufferViews[accessor.bufferView];
offset = int64_t(accessor.byteOffset) + view.byteOffset;` and
`(char*)buffers[view.buffer].uri + offset`. -/
def resolveAccessor (accessors : List GLTFAccessor) (bufferViews : List GLTFBufferView)
    (buffers : List GLTFBuffer) (i : Int) :
    Except Fault (GLTFAccessor × GLTFBufferView × VoidPtr) :=
  match arrayAt accessors i with
  | .error f => .error f
  | .ok accessor =>
    match arrayAt bufferViews accessor.bufferView with
    | .error f => .error f
    | .ok view =>
      match arrayAt buffers view.buffer with
      | .error f => .error f
      | .ok _ => .ok (accessor, view, .inBuffer view.buffer (accessor.byteOffset + view.byteOffset))

/-- Read of the slot `vertexAttribs[j]` as an accessor index. -/
def slotIndex (slots : List VoidPtr) (j : Nat) : Except Fault Int :=
  match slots.get? j with
  | none => .error .outOfBounds
  | some p => p.toInt

/-- The attribute loop of the resolver:
`for (int j = 0; attributes > 0 && j < AAttribType_Count; j += NextSetBit(&attributes))`. -/
def resolveAttribs (accessors : List GLTFAccessor) (bufferViews : List GLTFBufferView)
    (buffers : List GLTFBuffer) : Nat → Nat → Nat → List VoidPtr → Except Fault (List VoidPtr)
  | 0, _, _, _ => .error .outOfFuel
  | fuel + 1, j, attributes, slots =>
    if attributes > 0 ∧ j < AAttribType_Count then
      match slotIndex slots j with
      | .error f => .error f
      | .ok i =>
        match resolveAccessor accessors bufferViews buffers i with
        | .error f => .error f
        | .ok (_, _, p) =>
          resolveAttribs accessors bufferViews buffers fuel (j + (NextSetBit attributes).1)
            (NextSetBit attributes).2 (slots.set j p)
    else .ok slots

/-- The body of the primitive loop of the resolver. -/
def resolvePrimitive (accessors : List GLTFAccessor) (bufferViews : List GLTFBufferView)
    (buffers : List GLTFBuffer) (primitive : APrimitive) : Except Fault APrimitive := do
  let i0 ← slotIndex primitive.vertexAttribs 0
  let numVertex := (← arrayAt accessors i0).count
  let (accessor, _, indices) ←
    resolveAccessor accessors bufferViews buffers primitive.indiceIndex
  let jointIndex := TrailingZeroCount32 AAttribType_JOINTS
  let jointAccessor ← arrayAt accessors (← slotIndex primitive.vertexAttribs jointIndex)
  let jointView ← arrayAt bufferViews jointAccessor.bufferView
  let weightIndex := TrailingZeroCount32 AAttribType_WEIGHTS
  let weightAccessor ← arrayAt accessors (← slotIndex primitive.vertexAttribs weightIndex)
  let weightView ← arrayAt bufferViews weightAccessor.bufferView
  let slots ← resolveAttribs accessors bufferViews buffers 32 0 primitive.attributes
    primitive.vertexAttribs
  .ok { primitive with
    numVertices := numVertex
    numIndices := accessor.count
    indices := indices
    indexType := accessor.componentType
    jointType := wrapInt16 jointAccessor.componentType
    jointCount := wrapInt16 jointAccessor.type
    jointStride := wrapInt16 jointView.byteStride
    weightType := wrapInt16 weightAccessor.componentType
    weightStride := wrapInt16 weightView.byteStride
    vertexAttribs := slots }

/-- The primitive loop of the resolver over the `SBCount` primitives of a mesh. -/
def resolvePrimitives (accessors : List GLTFAccessor) (bufferViews : List GLTFBufferView)
    (buffers : List GLTFBuffer) : List APrimitive → Except Fault (List APrimitive)
  | [] => .ok []
  | p :: ps =>
    match resolvePrimitive accessors bufferViews buffers p with
    | .error f => .error f
    | .ok p1 =>
      match resolvePrimitives accessors bufferViews buffers ps with
      | .error f => .error f
      | .ok ps1 => .ok (p1 :: ps1)

/-- The mesh loop of the resolver; the primitives are rewritten in place, the stored
`numPrimitives` is left as parsed. -/
def resolveMeshes (accessors : List GLTFAccessor) (bufferViews : List GLTFBufferView)
    (buffers : List GLTFBuffer) : List AMesh → Except Fault (List AMesh)
  | [] => .ok []
  | mesh :: ms =>
    match resolvePrimitives accessors bufferViews buffers mesh.primitives with
    | .error f => .error f
    | .ok ps =>
      match resolveMeshes accessors bufferViews buffers ms with
      | .error f => .error f
      | .ok ms1 => .ok ({ mesh with primitives := ps } :: ms1)

/-- The skin loop of the resolver. -/
def resolveSkins (accessors : List GLTFAccessor) (bufferViews : List GLTFBufferView)
    (buffers : List GLTFBuffer) : List ASkin → Except Fault (List ASkin)
  | [] => .ok []
  | skin :: ss =>
    match skin.inverseBindMatrices.toInt with
    | .error f => .error f
    | .ok skinIndex =>
      match resolveAccessor accessors bufferViews buffers skinIndex with
      | .error f => .error f
      | .ok (_, _, p) =>
        match resolveSkins accessors bufferViews buffers ss with
        | .error f => .error f
        | .ok ss1 => .ok ({ skin with inverseBindMatrices := p } :: ss1)

/-- The value of the IEEE-754 single with the given little-endian bytes; infinities and
NaNs are outside the rational model. -/
def decodeFloat32 (b0 b1 b2 b3 : Nat) : Except Fault Float32 :=
  let bits := b0 + 256 * b1 + 65536 * b2 + 16777216 * b3
  let sign := bits / 2147483648
  let e := bits / 8388608 % 256
  let m := bits % 8388608
  if e = 255 then .error .nonFinite
  else
    let mag : ℚ :=
      if e = 0 then (m : ℚ) / 2 ^ 149 else ((8388608 + m : Nat) : ℚ) * 2 ^ e / 2 ^ 150
    .ok (if sign = 1 then -mag else mag)

/-- The read `p[i]` through a `float*` that points into a buffer. -/
def loadFloat (buffers : List GLTFBuffer) (p : VoidPtr) (i : Int) : Except Fault Float32 :=
  match p with
  | .addr _ => .error .badPointer
  | .inBuffer b off =>
    match arrayAt buffers b with
    | .error f => .error f
    | .ok buffer =>
      match buffer.uri with
      | none => .error .badPointer
      | some bytes =>
        let o := off + 4 * i
        if o < 0 then .error .outOfBounds
        else
          match bytes.drop o.toNat with
          | b0 :: b1 :: b2 :: b3 :: _ => decodeFloat32 b0 b1 b2 b3
          | _ => .error .outOfBounds

/-- Source `MAX(a, b)`: `a > b ? a : b`. -/
def MAX (a b : Float32) : Float32 := if a > b then a else b

/-- Source `MIN(a, b)`: `a < b ? a : b`. -/
def MIN (a b : Int) : Int := if a < b then a else b

/-- The body of the sampler loop of the resolver: the sampler and the new duration. -/
def resolveSampler (accessors : List GLTFAccessor) (bufferViews : List GLTFBufferView)
    (buffers : List GLTFBuffer) (duration : Float32) (sampler : AAnimSampler) :
    Except Fault (AAnimSampler × Float32) := do
  let inputIndex ← sampler.input.toInt
  let (accessor, _, input) ← resolveAccessor accessors bufferViews buffers inputIndex
  let count := accessor.count
  let outputIndex ← sampler.output.toInt
  let (accessor, _, output) ← resolveAccessor accessors bufferViews buffers outputIndex
  let count := MIN count accessor.count
  let last ← loadFloat buffers input (wrapInt32 (count - 1))
  .ok ({ sampler with input := input, output := output, count := count,
                      numComponent := accessor.type }, MAX duration last)

/-- The sampler loop `for (s = 0; s < animation.numSamplers; s++)` from index `s` on:
`n` is the number of iterations left, the list the samplers from `s` on. -/
def resolveSamplers (accessors : List GLTFAccessor) (bufferViews : List GLTFBufferView)
    (buffers : List GLTFBuffer) : Nat → List AAnimSampler → Float32 →
    Except Fault (List AAnimSampler × Float32)
  | 0, rest, duration => .ok (rest, duration)
  | _ + 1, [], _ => .error .outOfBounds
  | n + 1, sampler :: rest, duration =>
    match resolveSampler accessors bufferViews buffers duration sampler with
    | .error f => .error f
    | .ok (sampler1, duration1) =>
      match resolveSamplers accessors bufferViews buffers n rest duration1 with
      | .error f => .error f
      | .ok (rest1, duration2) => .ok (sampler1 :: rest1, duration2)

/-- The animation loop of the resolver. -/
def resolveAnimations (accessors : List GLTFAccessor) (bufferViews : List GLTFBufferView)
    (buffers : List GLTFBuffer) : List AAnimation → Except Fault (List AAnimation)
  | [] => .ok []
  | animation :: rest =>
    match resolveSamplers accessors bufferViews buffers animation.numSamplers.toNat
        animation.samplers 0 with
    | .error f => .error f
    | .ok (samplers, duration) =>
      match resolveAnimations accessors bufferViews buffers rest with
      | .error f => .error f
      | .ok rest1 =>
        .ok ({ animation with samplers := samplers, duration := duration } :: rest1)

/-- The inner loop of the totals, `for (p = 0; p < mesh.numPrimitives; p++)`, from
index `p` on: `n` iterations left over the primitives from `p` on; the running
`(totalIndexCount, totalVertexCount)`. -/
def totalsPrimitives : Nat → List APrimitive → Int × Int → Except Fault (Int × Int)
  | 0, _, acc => .ok acc
  | _ + 1, [], _ => .error .outOfBounds
  | n + 1, primitive :: rest, acc =>
    totalsPrimitives n rest
      (wrapInt32 (acc.1 + primitive.numIndices), wrapInt32 (acc.2 + primitive.numVertices))

/-- The totals loop over the meshes: `(totalIndexCount, totalVertexCount)`. -/
def totalsMeshes : List AMesh → Int × Int → Except Fault (Int × Int)
  | [], acc => .ok acc
  | mesh :: rest, acc =>
    match totalsPrimitives mesh.numPrimitives.toNat mesh.primitives acc with
    | .error f => .error f
    | .ok acc1 => totalsMeshes rest acc1

/-- Everything `ParseGLTF` does after the dispatch loop has ended without an error. -/
def ParseGLTF_finish (scale : Float32) (st : ParseState) : Except Fault SceneBundle := do
  let meshes ← resolveMeshes st.accessors st.bufferViews st.buffers st.meshes
  let skins ← resolveSkins st.accessors st.bufferViews st.buffers st.skins
  let animations ← resolveAnimations st.accessors st.bufferViews st.buffers st.animations
  let (totalIndexCount, totalVertexCount) ← totalsMeshes meshes (0, 0)
  .ok { error := .NONE
        defaultSceneIndex := st.defaultSceneIndex
        scale := scale
        totalVertices := totalVertexCount
        totalIndices := totalIndexCount
        numMeshes := meshes.length
        numNodes := st.nodes.length
        numMaterials := st.materials.length
        numTextures := st.textures.length
        numImages := st.images.length
        numSamplers := st.samplers.length
        numCameras := st.cameras.length
        numScenes := st.scenes.length
        numBuffers := st.buffers.length
        numAnimations := animations.length
        numSkins := skins.length
        meshes := meshes
        nodes := st.nodes
        materials := st.materials
        textures := st.textures
        images := st.images
        samplers := st.samplers
        cameras := st.cameras
        scenes := st.scenes
        buffers := st.buffers
        animations := animations
        skins := skins }

/-- Source `ParseGLTF` on the text `source` that `ReadAllFile(path)` returned: the value
returned and the bundle.  Every loop gets `source.length + 1` units of fuel; each
iteration of each loop moves the cursor forward. -/
def ParseGLTF_source (env : Env) (path : List Nat) (scale : Float32) (source : List Nat) :
    Except Fault (Int × SceneBundle) :=
  match ParseGLTF_loop env (source.length + 1) path scale (source.length + 1) source {} with
  | .error f => .error f
  | .ok (some e, st) => .ok (0, { error := e, defaultSceneIndex := st.defaultSceneIndex })
  | .ok (none, st) =>
    match ParseGLTF_finish scale st with
    | .error f => .error f
    | .ok bundle => .ok (1, bundle)

/-- Source `ParseGLTF(path, result, scale)`: the value returned and `*result`. -/
def ParseGLTF (env : Env) (path : List Nat) (scale : Float32) :
    Except Fault (Int × SceneBundle) :=
  match env.readFile path with
  | none => .ok (0, { error := .FILE_NOT_FOUND })
  | some source => ParseGLTF_source env path scale source

/-! ## Definitions the statements are written in -/

/-- Equality of the first `k` bytes of two texts (bytes past the end count as `0`). -/
def bytesEq : Nat → List Nat → List Nat → Bool
  | 0, _, _ => true
  | k + 1, a, b => (a.headD 0 % 256 == b.headD 0 % 256) && bytesEq k a.tail b.tail

/-- The seven attribute names `ParseAttributes` gives a bit to. -/
inductive AttribName where
  | POSITION | NORMAL | TEXCOORD_0 | TANGENT | TEXCOORD_1 | JOINTS_0 | WEIGHTS_0
deriving DecidableEq, Repr

/-- The name as it stands between the quotes. -/
def AttribName.key : AttribName → List Nat
  | .POSITION => lit "POSITION"
  | .NORMAL => lit "NORMAL"
  | .TEXCOORD_0 => lit "TEXCOORD_0"
  | .TANGENT => lit "TANGENT"
  | .TEXCOORD_1 => lit "TEXCOORD_1"
  | .JOINTS_0 => lit "JOINTS_0"
  | .WEIGHTS_0 => lit "WEIGHTS_0"

/-- The bit of the attribute mask. -/
def AttribName.bit : AttribName → Nat
  | .POSITION => AAttribType_POSITION
  | .NORMAL => AAttribType_NORMAL
  | .TEXCOORD_0 => AAttribType_TEXCOORD_0
  | .TANGENT => AAttribType_TANGENT
  | .TEXCOORD_1 => AAttribType_TEXCOORD_1
  | .JOINTS_0 => AAttribType_JOINTS
  | .WEIGHTS_0 => AAttribType_WEIGHTS

/-- Value of a run of decimal digits. -/
def decimalValue (digits : List Nat) : Nat :=
  digits.foldl (fun v d => v * 10 + (d - 48)) 0

/-- One member of an attributes object as it stands in the text: what precedes the
opening quote of the key (brace, comma, white space), the name, what stands between the
closing quote and the number (colon, white space), and the digits of the accessor
index. -/
structure AttribEntry where
  sep : List Nat
  name : AttribName
  mid : List Nat
  digits : List Nat

/-- The accessor index the entry gives. -/
def AttribEntry.accessor (e : AttribEntry) : Nat := decimalValue e.digits

/-- The text of the entry. -/
def AttribEntry.text (e : AttribEntry) : List Nat :=
  e.sep ++ 34 :: (e.name.key ++ 34 :: (e.mid ++ e.digits))

/-- A separator holds no quote and no closing brace, and does not start with a digit. -/
def SepOK (sep : List Nat) : Prop :=
  (∀ c ∈ sep, c ≠ 34 ∧ c ≠ 125) ∧ (∀ c, sep.head? = some c → IsNumber c = false)

/-- The entry is laid out as JSON lays out a member with a non-negative integer value
that fits an `int`. -/
def AttribEntry.WellFormed (e : AttribEntry) : Prop :=
  SepOK e.sep ∧ (∀ c ∈ e.mid, c ≠ 0 ∧ IsNumber c = false) ∧ e.digits ≠ [] ∧
    (∀ d ∈ e.digits, 48 ≤ d ∧ d ≤ 57) ∧ decimalValue e.digits < 2147483648

/-- The text of the members, one after the other. -/
def entriesText : List AttribEntry → List Nat
  | [] => []
  | e :: es => e.text ++ entriesText es

/-- The text `ParseAttributes` is called on: twelve bytes that it skips (the key, its
closing quote and the colon), the members, and the closing brace after a separator. -/
def attributesText (hdr : List Nat) (es : List AttribEntry) (close rest : List Nat) :
    List Nat :=
  hdr ++ (entriesText es ++ (close ++ 125 :: rest))

/-- What one member does to the primitive. -/
def applyEntry (p : APrimitive) (e : AttribEntry) : APrimitive :=
  { p with attributes := p.attributes ||| e.name.bit,
           vertexAttribs := p.vertexAttribs.set (TrailingZeroCount32 e.name.bit)
             (VoidPtr.addr e.accessor) }

/-- Head of a text that continues after a separator with a non-digit. -/
def HeadNonDigit (t : List Nat) : Prop := ∃ c r, t = c :: r ∧ IsNumber c = false

/-- What a member with the given name and accessor index does to the primitive. -/
def applyPair (p : APrimitive) (x : AttribName × Nat) : APrimitive :=
  { p with attributes := p.attributes ||| x.1.bit,
           vertexAttribs := p.vertexAttribs.set (TrailingZeroCount32 x.1.bit) (VoidPtr.addr x.2) }

/-- The body of the attribute loop of the resolver at slot `j`. -/
def resolveSlot (accessors : List GLTFAccessor) (bufferViews : List GLTFBufferView)
    (buffers : List GLTFBuffer) (slots : List VoidPtr) (j : Nat) :
    Except Fault (List VoidPtr) :=
  match slotIndex slots j with
  | .error f => .error f
  | .ok i =>
    match resolveAccessor accessors bufferViews buffers i with
    | .error f => .error f
    | .ok (_, _, p) => .ok (slots.set j p)

/-- The body of the attribute loop at the slots of a list, in order. -/
def resolveSlots (accessors : List GLTFAccessor) (bufferViews : List GLTFBufferView)
    (buffers : List GLTFBuffer) : List Nat → List VoidPtr → Except Fault (List VoidPtr)
  | [], slots => .ok slots
  | j :: js, slots =>
    match resolveSlot accessors bufferViews buffers slots j with
    | .error f => .error f
    | .ok slots1 => resolveSlots accessors bufferViews buffers js slots1

/-- The values `j` takes in the attribute loop of the resolver, started at `j` with the
mask `attributes`; `none` when `fuel` iterations do not end the loop. -/
def visitSeq : Nat → Nat → Nat → Option (List Nat)
  | 0, _, _ => none
  | fuel + 1, j, attributes =>
    if attributes > 0 ∧ j < AAttribType_Count then
      match visitSeq fuel (j + (NextSetBit attributes).1) (NextSetBit attributes).2 with
      | none => none
      | some js => some (j :: js)
    else some []

/-- The slots the attribute loop visits for a mask below `2 ^ 7`: slot 0, then the slot
of every higher set bit, in increasing order. -/
def visited (attributes : Nat) : List Nat :=
  if attributes = 0 then []
  else 0 :: (List.range 7).filter (fun j => decide (0 < j) && attributes.testBit j)

/-- The address the resolver computes for accessor index `i`: the accessor, its view,
an existing buffer `view.buffer`, and the pointer into it. -/
def Resolves (accessors : List GLTFAccessor) (bufferViews : List GLTFBufferView)
    (buffers : List GLTFBuffer) (i : Int) (p : VoidPtr) : Prop :=
  ∃ accessor view buffer, arrayAt accessors i = .ok accessor ∧
    arrayAt bufferViews accessor.bufferView = .ok view ∧
    arrayAt buffers view.buffer = .ok buffer ∧
    p = .inBuffer view.buffer (view.byteOffset + accessor.byteOffset)

/-- What the resolver leaves in a primitive `q` that it made from the parsed primitive
`p`: the index pointer, type and count come from the accessor `accessors[p.indiceIndex]`
and its view, and slot 0 (for a non-zero mask) and the slot of every set attribute bit
hold the address computed, by the same formula, from the accessor index the slot held. -/
def PrimitiveResolved (accessors : List GLTFAccessor) (bufferViews : List GLTFBufferView)
    (buffers : List GLTFBuffer) (p q : APrimitive) : Prop :=
  (∃ accessor view buffer, arrayAt accessors p.indiceIndex = .ok accessor ∧
    arrayAt bufferViews accessor.bufferView = .ok view ∧
    arrayAt buffers view.buffer = .ok buffer ∧
    q.indices = .inBuffer view.buffer (view.byteOffset + accessor.byteOffset) ∧
    q.indexType = accessor.componentType ∧ q.numIndices = accessor.count) ∧
  (∀ j < 7, p.attributes ≠ 0 ∧ (j = 0 ∨ p.attributes.testBit j = true) →
    ∃ i accessor view buffer, slotIndex p.vertexAttribs j = .ok i ∧
      arrayAt accessors i = .ok accessor ∧
      arrayAt bufferViews accessor.bufferView = .ok view ∧
      arrayAt buffers view.buffer = .ok buffer ∧
      q.vertexAttribs.get? j =
        some (.inBuffer view.buffer (view.byteOffset + accessor.byteOffset)))

/-- A mesh as `ParseMeshes` builds it: the stored count is the (wrapped) number of
primitives in the block, and every attribute mask is below `2 ^ 7`. -/
def MeshOK (m : AMesh) : Prop :=
  m.numPrimitives = wrapInt32 m.primitives.length ∧ ∀ p ∈ m.primitives, p.attributes < 128

/-- Every mesh of the state is as `ParseMeshes` builds it. -/
def StateOK (st : ParseState) : Prop := ∀ m ∈ st.meshes, MeshOK m

/-- The counts the resolver stores in a primitive: `numVertices` is the count of the
accessor whose index the Position slot `vertexAttribs[0]` held, `numIndices` the count of
the accessor `accessors[indiceIndex]`. -/
def CountsResolved (accessors : List GLTFAccessor) (p q : APrimitive) : Prop :=
  ∃ i0 a0 a1, slotIndex p.vertexAttribs 0 = .ok i0 ∧ arrayAt accessors i0 = .ok a0 ∧
    q.numVertices = a0.count ∧ arrayAt accessors p.indiceIndex = .ok a1 ∧
    q.numIndices = a1.count

/-- Number of set bits among the low 32 bits (`popcount`). -/
def popcount (x : Nat) : Nat := ((List.range 32).filter (fun i => x.testBit i)).length

/-- The loop of `ParseNodes` run on records that carry, next to the node under
construction, the keys the chain has dispatched on since the record was started: the scan
stores and resets the pair where the source stores and resets the node, and a dispatched
key is appended to the keys. -/
def ParseNodes_traced (fuelA : Nat) (scale : Float32) :
    Nat → List Nat → ANode × List NodeKey → List (ANode × List NodeKey) →
    Except Fault (CharPtr × List (ANode × List NodeKey))
  | 0, _, _, _ => .error .outOfFuel
  | fuel + 1, curr, rec, arr =>
    match scanRecords true (nodeDefaults scale, []) curr rec arr with
    | .error f => .error f
    | .ok (.closed curr _ arr) => .ok (.cur curr, arr)
    | .ok (.key curr rec arr) =>
      match keyCursor curr.tail with
      | .error f => .error f
      | .ok curr =>
        match ParseNodes_key fuelA scale curr rec.1 with
        | .error f => .error f
        | .ok none => .ok (.sentinel .UNKNOWN_NODE_VAR, arr)
        | .ok (some (k, curr, node)) =>
          ParseNodes_traced fuelA scale fuel curr (node, rec.2 ++ [k]) arr

/-- The image of a scan result under a map of the records. -/
def Scan.map {α β : Type} (f : α → β) : Scan α → Scan β
  | .closed curr rec arr => .closed curr (f rec) (arr.map f)
  | .key curr rec arr => .key curr (f rec) (arr.map f)

/-- The defaults a traced node keeps while no key that writes them has been dispatched. -/
def KeepsDefaults (scale : Float32) (r : ANode × List NodeKey) : Prop :=
  (NodeKey.rotation ∉ r.2 → NodeKey.matrix ∉ r.2 → r.1.rotation = [0, 0, 0, 1]) ∧
  (NodeKey.scale ∉ r.2 → NodeKey.matrix ∉ r.2 → r.1.scale = [scale, scale, scale]) ∧
  (NodeKey.mesh ∉ r.2 → NodeKey.camera ∉ r.2 → r.1.index = -1)

/-- The state after `n` iterations of the dispatch loop of `ParseGLTF`, each of which
went on to the next one (its key was recognised and its section parsed without an
error); `none` when one of them ended the loop. -/
def ParseGLTF_iterate (env : Env) (fuelA : Nat) (path : List Nat) (scale : Float32) :
    Nat → List Nat → ParseState → Option (List Nat × ParseState)
  | 0, curr, st => some (curr, st)
  | n + 1, curr, st =>
    match ParseGLTF_step env fuelA path scale curr st with
    | .ok (.next curr st) => ParseGLTF_iterate env fuelA path scale n curr st
    | _ => none

/-- A document whose third top-level key is not one the parser knows. -/
def unknownKeyDocument : List Nat :=
  lit "\x7b\"scene\":0,\"scenes\":[\x7b\"nodes\":[0 ]\x7d],\"foo\":1\x7d" ++ [0]

/-- An environment in which every file read returns `source`. -/
def fileEnv (source : List Nat) : Env :=
  { readFile := fun _ => some source, uninitChannel := {}, uninitSampler := {} }

/-- The minimal document of the glTF format: one scene with an empty node list. -/
def minimalDocument : List Nat :=
  lit "\x7b\"scene\":0,\"scenes\":[\x7b\"nodes\":[]\x7d]\x7d" ++ [0]

/-- The `nodes` section of a document with one node, whose only transform key is a
matrix that translates by (5, 6, 7). -/
def matrixNodeText : List Nat :=
  lit "nodes\":[\x7b\"matrix\":[1,0,0,0, 0,1,0,0, 0,0,1,0, 5,6,7,1]\x7d]" ++ [0]

/-- The twelve bytes `ParseAttributes` skips. -/
def attributesHeader : List Nat := lit "attributes\":"

/-- The members `"TEXCOORD_0":7,"POSITION":3` of an attributes object. -/
def texcoordFirst : List AttribEntry :=
  [{ sep := lit "\x7b", name := .TEXCOORD_0, mid := lit ":", digits := lit "7" },
   { sep := lit ",", name := .POSITION, mid := lit ":", digits := lit "3" }]

/-- The members `"POSITION":3,"TEXCOORD_0":7` of an attributes object. -/
def positionFirst : List AttribEntry :=
  [{ sep := lit "\x7b", name := .POSITION, mid := lit ":", digits := lit "3" },
   { sep := lit ",", name := .TEXCOORD_0, mid := lit ":", digits := lit "7" }]

/-- The text `attributes":{"POSITION":3,"TEXCOORD_0":7}` followed by the NUL: an
attributes object without the NORMAL key. -/
def sparseAttributesText : List Nat :=
  lit "attributes\":\x7b\"POSITION\":3,\"TEXCOORD_0\":7\x7d" ++ [0]

/-- Eight accessors into one buffer view, the i-th at byte offset `4 * i`. -/
def eightAccessors : List GLTFAccessor :=
  (List.range 8).map (fun i => { bufferView := 0, componentType := 6, count := 3,
                                 byteOffset := 4 * (i : Int), type := 2 })

/-- One buffer view at byte offset 100 of buffer 0. -/
def oneBufferView : List GLTFBufferView := [{ buffer := 0, byteOffset := 100 }]

/-- One buffer of 200 bytes that was not loaded. -/
def oneBuffer : List GLTFBuffer := [{ uri := none, byteLength := 200 }]

/-- One mesh with one primitive, as parsed from POSITION 3, TEXCOORD_0 7 and indices 1. -/
def sparseMesh : List AMesh :=
  [{ primitives := [{ attributes := 5,
                      vertexAttribs := [.addr 3, .addr 0, .addr 7, .addr 0, .addr 0, .addr 0,
                                        .addr 0],
                      indiceIndex := 1 }],
     numPrimitives := 1 }]

/-- A document with one mesh of one triangle: indices in accessor 0, positions in
accessor 1, both in one buffer embedded as a data URI. -/
def meshDocument : List Nat :=
  lit ("\x7b\"asset\":\x7b\"version\":\"2.0\"\x7d,\"scene\":0,\"scenes\":[\x7b\"nodes\":[0 ]\x7d]," ++
    "\"nodes\":[\x7b\"mesh\":0\x7d],\"meshes\":[\x7b\"primitives\":[\x7b\"attributes\":" ++
    "\x7b\"POSITION\":1\x7d,\"indices\":0\x7d] \x7d],\"accessors\":[\x7b\"bufferView\":0," ++
    "\"componentType\":5123,\"count\":3,\"type\":\"SCALAR\"\x7d,\x7b\"bufferView\":1," ++
    "\"componentType\":5126,\"count\":3,\"type\":\"VEC3\"\x7d],\"bufferViews\":[\x7b\"buffer\":0," ++
    "\"byteOffset\":0,\"byteLength\":6\x7d,\x7b\"buffer\":0,\"byteOffset\":8,\"byteLength\":36\x7d]," ++
    "\"buffers\":[\x7b\"uri\":\"data:application/octet-stream;base64," ++
    "AAABAAIAAAAAAAAAAAAAAAAAAAAAAIA/AAAAAAAAAAAAAAAAAACAPwAAAAA=\",\"byteLength\":44\x7d]\x7d") ++ [0]

/-- The mesh document with two primitives in its mesh, both with indices in accessor 0,
whose count is 2000000000. -/
def largeCountDocument : List Nat :=
  lit ("\x7b\"asset\":\x7b\"version\":\"2.0\"\x7d,\"scene\":0,\"scenes\":[\x7b\"nodes\":[0 ]\x7d]," ++
    "\"nodes\":[\x7b\"mesh\":0\x7d],\"meshes\":[\x7b\"primitives\":[\x7b\"attributes\":" ++
    "\x7b\"POSITION\":1\x7d,\"indices\":0\x7d,\x7b\"attributes\":" ++
    "\x7b\"POSITION\":1\x7d,\"indices\":0\x7d] \x7d],\"accessors\":[\x7b\"bufferView\":0," ++
    "\"componentType\":5123,\"count\":2000000000,\"type\":\"SCALAR\"\x7d,\x7b\"bufferView\":1," ++
    "\"componentType\":5126,\"count\":3,\"type\":\"VEC3\"\x7d],\"bufferViews\":[\x7b\"buffer\":0," ++
    "\"byteOffset\":0,\"byteLength\":6\x7d,\x7b\"buffer\":0,\"byteOffset\":8,\"byteLength\":36\x7d]," ++
    "\"buffers\":[\x7b\"uri\":\"data:application/octet-stream;base64," ++
    "AAABAAIAAAAAAAAAAAAAAAAAAAAAAIA/AAAAAAAAAAAAAAAAAACAPwAAAAA=\",\"byteLength\":44\x7d]\x7d") ++ [0]

/-- The `nodes` section of a document with two nodes: the first record has a `rotation`
key, the second only a `mesh` key. -/
def twoNodeText : List Nat :=
  lit "nodes\":[\x7b\"name\":\"a\",\"rotation\":[0,1,0,0]\x7d,\x7b\"mesh\":2\x7d]" ++ [0]

/-- The `nodes` section of a document with one node, whose only key is the matrix of the
half turn about the z axis. -/
def halfTurnNodeText : List Nat :=
  lit "nodes\":[\x7b\"matrix\":[-1,0,0,0, 0,-1,0,0, 0,0,1,0, 0,0,0,1]\x7d]" ++ [0]

/-- A document whose scene record has the key `extras`, which `ParseScenes` does not
know. -/
def sceneExtrasDocument : List Nat :=
  lit "\x7b\"scene\":0,\"scenes\":[\x7b\"nodes\":[0 ],\"extras\":1\x7d]\x7d" ++ [0]

/-- A document whose accessor record has the key `sparse`, which `ParseAccessors` does
not know. -/
def accessorSparseDocument : List Nat :=
  lit ("\x7b\"scene\":0,\"scenes\":[\x7b\"nodes\":[0 ]\x7d]," ++
    "\"accessors\":[\x7b\"count\":3,\"sparse\":1\x7d]\x7d") ++ [0]

/-- A document whose primitive has the attribute `COLOR_0`, which `ParseAttributes` does
not know. -/
def colorAttributeDocument : List Nat :=
  lit ("\x7b\"scene\":0,\"scenes\":[\x7b\"nodes\":[0 ]\x7d],\"meshes\":[\x7b\"primitives\":" ++
    "[\x7b\"attributes\":\x7b\"POSITION\":1,\"COLOR_0\":2\x7d,\"indices\":0\x7d] \x7d]\x7d") ++ [0]

/-- A document that sets the default scene to 3 and then has a top-level key the parser
does not know. -/
def sceneThenUnknownDocument : List Nat :=
  lit "\x7b\"scene\":3,\"foo\":1\x7d" ++ [0]

/-- The `scenes` section of the minimal document, from the key on, with the rest of the
document and its terminating NUL. -/
def emptyNodesScenesText : List Nat :=
  lit "scenes\":[\x7b\"nodes\":[]\x7d]\x7d" ++ [0]

/-- Byte `i` of a word, counted from the least significant one (`(w >> 8 * i) & 0xFF`). -/
def byteOf (w i : Nat) : Nat := (w >>> (8 * i)) % 256

/-- The clamp of a value to the interval from 0 to 1. -/
def clamp01 (x : ℚ) : ℚ := max 0 (min x 1)

/-- The character of the standard base64 alphabet (RFC 4648) for a six-bit value. -/
def base64Char (v : Nat) : Nat :=
  if v < 26 then 65 + v
  else if v < 52 then 97 + (v - 26)
  else if v < 62 then 48 + (v - 52)
  else if v = 62 then 43
  else 47

/-- The standard base64 text of a byte sequence (RFC 4648, padded with `=`): the
encoding that `DecodeBase64` is meant to undo.  This definition is the standard's, not
the source's. -/
def standardBase64 : List Nat → List Nat
  | [] => []
  | [a] => [base64Char (a / 4), base64Char (a % 4 * 16), 61, 61]
  | [a, b] => [base64Char (a / 4), base64Char (a % 4 * 16 + b / 16), base64Char (b % 16 * 4), 61]
  | a :: b :: c :: rest =>
    base64Char (a / 4) :: base64Char (a % 4 * 16 + b / 16) :: base64Char (b % 16 * 4 + c / 64)
      :: base64Char (c % 64) :: standardBase64 rest

/-- A decimal literal as it stands in the text: an optional minus sign, the digits of
the integer part, and the digits after the decimal point (none: no point). -/
structure DecimalLiteral where
  negative : Bool
  int : List Nat
  fra : List Nat

/-- The text of the literal. -/
def DecimalLiteral.text (l : DecimalLiteral) : List Nat :=
  (if l.negative then [45] else []) ++ (l.int ++ (if l.fra = [] then [] else 46 :: l.fra))

/-- The value of the literal. -/
def DecimalLiteral.value (l : DecimalLiteral) : ℚ :=
  (if l.negative then -1 else 1) *
    ((decimalValue l.int : ℚ) + (decimalValue l.fra : ℚ) / 10 ^ l.fra.length)

/-- The integer part has a digit, and all characters of both parts are digits. -/
def DecimalLiteral.WellFormed (l : DecimalLiteral) : Prop :=
  l.int ≠ [] ∧ (∀ d ∈ l.int, 48 ≤ d ∧ d ≤ 57) ∧ (∀ d ∈ l.fra, 48 ≤ d ∧ d ≤ 57)

/-- The value `ParseFloat` computes for the literal: the digits after the ninth digit of
the fraction are passed over. -/
def DecimalLiteral.read (l : DecimalLiteral) : ℚ :=
  (if l.negative then -1 else 1) *
    ((decimalValue l.int : ℚ) +
      (decimalValue (l.fra.take 9) : ℚ) / 10 ^ (l.fra.take 9).length)

/-- A character that ends a literal: no digit and no exponent mark, and no decimal point
after a literal without a fraction. -/
def EndsLiteral (l : DecimalLiteral) (t : Nat) : Prop :=
  IsNumber t = false ∧ t ≠ 101 ∧ t ≠ 69 ∧ (l.fra = [] → t ≠ 46)

/-- The keys of an accessor record whose value is an integer. -/
inductive AccessorIntKey where
  | bufferView | byteOffset | componentType | count
deriving DecidableEq, Repr

/-- The key as it stands between the quotes. -/
def AccessorIntKey.name : AccessorIntKey → List Nat
  | .bufferView => lit "bufferView"
  | .byteOffset => lit "byteOffset"
  | .componentType => lit "componentType"
  | .count => lit "count"

/-- The values of the `type` key of an accessor record. -/
inductive AccessorTypeName where
  | SCALAR | VEC2 | VEC3 | VEC4 | MAT4
deriving DecidableEq, Repr

/-- The value as it stands between the quotes. -/
def AccessorTypeName.name : AccessorTypeName → List Nat
  | .SCALAR => lit "SCALAR"
  | .VEC2 => lit "VEC2"
  | .VEC3 => lit "VEC3"
  | .VEC4 => lit "VEC4"
  | .MAT4 => lit "MAT4"

/-- The number of components of the value (1, 2, 3, 4 or 16). -/
def AccessorTypeName.components : AccessorTypeName → Int
  | .SCALAR => 1
  | .VEC2 => 2
  | .VEC3 => 3
  | .VEC4 => 4
  | .MAT4 => 16

/-- One member of an accessor record as it stands in the text: what precedes the opening
quote of the key, the key, what stands between the closing quote of the key and the
value, and the value (the digits of an integer, or a type name in quotes). -/
inductive AccessorMember where
  | number (sep : List Nat) (key : AccessorIntKey) (mid digits : List Nat)
  | type (sep mid : List Nat) (name : AccessorTypeName)

/-- The text of the member. -/
def AccessorMember.text : AccessorMember → List Nat
  | .number sep key mid digits => sep ++ 34 :: (key.name ++ 34 :: (mid ++ digits))
  | .type sep mid name => sep ++ 34 :: (lit "type" ++ 34 :: (mid ++ 34 :: (name.name ++ [34])))

/-- Text between two members or records: no NUL, quote, closing brace or closing bracket,
and no digit at its start. -/
def CleanSep (sep : List Nat) : Prop :=
  (∀ c ∈ sep, c ≠ 0 ∧ c ≠ 34 ∧ c ≠ 125 ∧ c ≠ 93) ∧ IsNumber (sep.headD 0) = false

/-- The member is laid out as JSON lays it out: a separator, then for an integer a colon
and white space and the digits of a value below `2 ^ 31`, for a type at least the colon
and no quote before the value. -/
def AccessorMember.WellFormed : AccessorMember → Prop
  | .number sep _ mid digits =>
    CleanSep sep ∧ (∀ c ∈ mid, c ≠ 0 ∧ IsNumber c = false) ∧ digits ≠ [] ∧
      (∀ d ∈ digits, 48 ≤ d ∧ d ≤ 57) ∧ decimalValue digits < 2147483648
  | .type sep mid _ => CleanSep sep ∧ mid ≠ [] ∧ ∀ c ∈ mid, c ≠ 34

/-- What the member gives the accessor: the integer for its key (`componentType` less
`0x1400`), or the component count of the type. -/
def AccessorMember.store (accessor : GLTFAccessor) : AccessorMember → GLTFAccessor
  | .number _ .bufferView _ digits => { accessor with bufferView := decimalValue digits }
  | .number _ .byteOffset _ digits => { accessor with byteOffset := decimalValue digits }
  | .number _ .componentType _ digits =>
    { accessor with componentType := (decimalValue digits : Int) - 5120 }
  | .number _ .count _ digits => { accessor with count := decimalValue digits }
  | .type _ _ name => { accessor with type := name.components }

/-- An accessor record in the text: its members, and what stands between the last member
and the closing brace. -/
structure AccessorRecord where
  members : List AccessorMember
  close : List Nat

/-- The text of the members, one after the other. -/
def membersText : List AccessorMember → List Nat
  | [] => []
  | m :: ms => m.text ++ membersText ms

/-- The text of the record, to its closing brace. -/
def AccessorRecord.text (r : AccessorRecord) : List Nat :=
  membersText r.members ++ (r.close ++ [125])

/-- The accessor the record describes: every member stored into the zero accessor. -/
def AccessorRecord.accessor (r : AccessorRecord) : GLTFAccessor :=
  r.members.foldl AccessorMember.store {}

/-- The members and the closing text are well formed. -/
def AccessorRecord.WellFormed (r : AccessorRecord) : Prop :=
  (∀ m ∈ r.members, m.WellFormed) ∧ CleanSep r.close

/-- The text of the records, one after the other. -/
def recordsText : List AccessorRecord → List Nat
  | [] => []
  | r :: rs => r.text ++ recordsText rs

/-- The text `ParseAccessors` is called on: ten bytes that it skips (the key with its
closing quote), the records, and the closing bracket after a separator. -/
def accessorsText (hdr : List Nat) (records : List AccessorRecord) (final rest : List Nat) :
    List Nat :=
  hdr ++ (recordsText records ++ (final ++ 93 :: rest))

/-- The five fields of an accessor that the keys of a record set. -/
inductive AccessorField where
  | bufferView | byteOffset | componentType | count | type
deriving DecidableEq, Repr

/-- The field a member sets. -/
def AccessorMember.field : AccessorMember → AccessorField
  | .number _ .bufferView _ _ => .bufferView
  | .number _ .byteOffset _ _ => .byteOffset
  | .number _ .componentType _ _ => .componentType
  | .number _ .count _ _ => .count
  | .type _ _ _ => .type

/-- The value the field is to hold for the member: the integer (less `0x1400` for
`componentType`), or the component count of the type. -/
def AccessorMember.value : AccessorMember → Int
  | .number _ .componentType _ digits => (decimalValue digits : Int) - 5120
  | .number _ _ _ digits => decimalValue digits
  | .type _ _ name => name.components

/-- The value of a field of an accessor. -/
def GLTFAccessor.get (a : GLTFAccessor) : AccessorField → Int
  | .bufferView => a.bufferView
  | .byteOffset => a.byteOffset
  | .componentType => a.componentType
  | .count => a.count
  | .type => a.type

/-- The record `{"count":6,"componentType":5123,"bufferView":0,"type":"SCALAR"}` as the
first record of the array, the opening bracket and brace in its first separator. -/
def scalarRecord : AccessorRecord :=
  { members := [.number (lit ":[\x7b") .count (lit ":") (lit "6"),
                .number (lit ",") .componentType (lit ":") (lit "5123"),
                .number (lit ",") .bufferView (lit ":") (lit "0"),
                .type (lit ",") (lit ":") .SCALAR],
    close := [] }

/-- The keys `ParseAccessors` compares a key with. -/
def accessorKeys : List String :=
  ["bufferView", "byteOffset", "componentType", "count", "name", "type", "min", "max",
   "normalized"]

/-- The hashes `ParseBufferViews` compares the hash of a key with. -/
def bufferViewHashes : List Nat :=
  [AHashString8 "buffer", AHashString8 "byteOffs", AHashString8 "byteLeng",
   AHashString8 "byteStri", AHashString8 "target", AHashString8 "name"]

/-- The keys `ParseBuffers` compares a key with. -/
def bufferKeys : List String := ["uri", "byteLength"]

/-- The keys `ParseTextures` compares a key with. -/
def textureKeys : List String := ["sampler", "source", "name"]

/-- The keys `ParseSamplers` compares a key with. -/
def samplerKeys : List String := ["magFilter", "minFilter", "wrapS", "wrapT"]

/-- The keys `ParseMeshes` compares the key of a mesh with. -/
def meshKeys : List String := ["name", "primitives"]

/-- The keys `ParseNodes` compares a key with. -/
def nodeKeys : List String :=
  ["mesh", "camera", "children", "matrix", "translation", "rotation", "scale", "name", "skin"]

/-- The keys `ParseCameras` compares the key of a camera with. -/
def cameraKeys : List String := ["name", "type", "orthographic", "perspective"]

/-- The keys `ParseMaterials` compares a key with. -/
def materialKeys : List String :=
  ["name", "doubleSided", "pbrMetallicRoug", "normalTexture", "occlusionTextur",
   "emissiveTexture", "emissiveFactor", "extensions", "alphaMode", "alphaCutoff"]

/-- The record loop of a section stops with the error `code` as soon as its scan stops at
a quote whose key matches none of `keys`: the loop compares the text at the cursor. -/
def UnknownKeyStops {α : Type}
    (loop : Nat → List Nat → α → List α → Except Fault (CharPtr × List α))
    (checkNul : Bool) (reset : α) (keys : List String) (code : AErrorType) : Prop :=
  ∀ (fuel : Nat) (curr : List Nat) (rec : α) (arr : List α) (key : List Nat) (rec1 : α)
    (arr1 : List α),
    scanRecords checkNul reset curr rec arr = .ok (.key (34 :: key) rec1 arr1) → key ≠ [] →
    (∀ s ∈ keys, StrCMP16 key s = false) →
    loop (fuel + 1) curr rec arr = .ok (.sentinel code, arr1)

/-- The same for a loop that first copies the key into a buffer of 64 bytes and compares
the copy (`ParseMeshes`, `ParseCameras`). -/
def UnknownNameStops {α : Type}
    (loop : Nat → List Nat → α → List α → Except Fault (CharPtr × List α))
    (reset : α) (keys : List String) (code : AErrorType) : Prop :=
  ∀ (fuel : Nat) (curr : List Nat) (rec : α) (arr : List α) (quoted name after : List Nat)
    (rec1 : α) (arr1 : List α),
    scanRecords false reset curr rec arr = .ok (.key quoted rec1 arr1) →
    GetStringInQuotes 64 quoted = .ok (name, after) →
    (∀ s ∈ keys, StrCMP16 (name ++ [0]) s = false) →
    loop (fuel + 1) curr rec arr = .ok (.sentinel code, arr1)

/-- The same for a loop that compares the hash of the key (`ParseBufferViews`). -/
def UnknownHashStops {α : Type}
    (loop : Nat → List Nat → α → List α → Except Fault (CharPtr × List α))
    (reset : α) (hashes : List Nat) (code : AErrorType) : Prop :=
  ∀ (fuel : Nat) (curr : List Nat) (rec : α) (arr : List α) (quoted after : List Nat)
    (hash : Nat) (rec1 : α) (arr1 : List α),
    scanRecords true reset curr rec arr = .ok (.key quoted rec1 arr1) →
    HashStringInQuotes quoted = .ok (hash, after) → hash ∉ hashes →
    loop (fuel + 1) curr rec arr = .ok (.sentinel code, arr1)

/-- First loop of `ParseNumber`: `while (*curr && (*curr != 45 && !IsNumber(*curr))) curr++`. -/
def ParseNumber_skip : List Nat → Except Fault (List Nat)
  | [] => .error .outOfBounds
  | c :: cs =>
    if c ≠ 0 && (c ≠ 45 && !IsNumber c) then ParseNumber_skip cs else .ok (c :: cs)

/-- Source `ParseNumber`: the value and the advanced cursor.  The digit loop is the one of
`ParsePositiveNumber`. -/
def ParseNumber (ptr : List Nat) : Except Fault (Int × List Nat) := do
  let curr ← ParseNumber_skip ptr
  let c ← peek curr
  let (curr, negative) : List Nat × Bool := if c = 45 then (curr.tail, true) else (curr, false)
  let (val, curr) ← ParsePositiveNumber_digits 0 curr
  .ok (if negative then wrapInt32 (-val) else val, curr)

/-- The literal `1.23456789012`, with eleven digits after the point. -/
def elevenDigitLiteral : DecimalLiteral :=
  { negative := false, int := lit "1", fra := lit "23456789012" }

/-- The literal `-12.5`. -/
def minusTwelveAndHalf : DecimalLiteral :=
  { negative := true, int := lit "12", fra := lit "5" }

/-- The keys of a sampler record. -/
inductive SamplerKey where
  | magFilter | minFilter | wrapS | wrapT
deriving DecidableEq, Repr

/-- The key as it stands between the quotes. -/
def SamplerKey.name : SamplerKey → List Nat
  | .magFilter => lit "magFilter"
  | .minFilter => lit "minFilter"
  | .wrapS => lit "wrapS"
  | .wrapT => lit "wrapT"

/-- One member of a sampler record as it stands in the text: what precedes the opening
quote of the key, the key, what stands between the closing quote of the key and the
value, and the digits of the value. -/
structure SamplerMember where
  sep : List Nat
  key : SamplerKey
  mid : List Nat
  digits : List Nat

/-- The text of the member. -/
def SamplerMember.text (m : SamplerMember) : List Nat :=
  m.sep ++ 34 :: (m.key.name ++ 34 :: (m.mid ++ m.digits))

/-- The member is laid out as JSON lays it out: a separator, a colon and white space, and
the digits of a value below `2 ^ 31`. -/
def SamplerMember.WellFormed (m : SamplerMember) : Prop :=
  CleanSep m.sep ∧ (∀ c ∈ m.mid, c ≠ 0 ∧ IsNumber c = false) ∧ m.digits ≠ [] ∧
    (∀ d ∈ m.digits, 48 ≤ d ∧ d ≤ 57) ∧ decimalValue m.digits < 2147483648

/-- The value of the member. -/
def SamplerMember.value (m : SamplerMember) : Int := decimalValue m.digits

/-- The field of a sampler that a key names. -/
def ASampler.get (s : ASampler) : SamplerKey → Int
  | .magFilter => s.magFilter
  | .minFilter => s.minFilter
  | .wrapS => s.wrapS
  | .wrapT => s.wrapT

/-- The sampler with the field of a key replaced. -/
def ASampler.put (s : ASampler) : SamplerKey → Int → ASampler
  | .magFilter, v => { s with magFilter := v }
  | .minFilter, v => { s with minFilter := v }
  | .wrapS, v => { s with wrapS := v }
  | .wrapT, v => { s with wrapT := v }

/-- What the value `v` of a key is stored as: for a filter `v - 0x2600` in eight signed
bits (the cast to `char`), for a wrap the code of `OGLWrapToWrap`. -/
def SamplerKey.stored : SamplerKey → Int → Int
  | .magFilter, v => wrapInt8 (v - 9728)
  | .minFilter, v => wrapInt8 (v - 9728)
  | .wrapS, v => OGLWrapToWrap v
  | .wrapT, v => OGLWrapToWrap v

/-- What the member gives the sampler. -/
def SamplerMember.store (s : ASampler) (m : SamplerMember) : ASampler :=
  s.put m.key (m.key.stored m.value)

/-- A sampler record in the text: its members, and what stands between the last member
and the closing brace. -/
structure SamplerRecord where
  members : List SamplerMember
  close : List Nat

/-- The text of the members, one after the other. -/
def samplerMembersText : List SamplerMember → List Nat
  | [] => []
  | m :: ms => m.text ++ samplerMembersText ms

/-- The text of the record, to its closing brace. -/
def SamplerRecord.text (r : SamplerRecord) : List Nat :=
  samplerMembersText r.members ++ (r.close ++ [125])

/-- The sampler the record describes: every member stored into the zero sampler. -/
def SamplerRecord.sampler (r : SamplerRecord) : ASampler :=
  r.members.foldl SamplerMember.store {}

/-- The members and the closing text are well formed. -/
def SamplerRecord.WellFormed (r : SamplerRecord) : Prop :=
  (∀ m ∈ r.members, m.WellFormed) ∧ CleanSep r.close

/-- The text of the records, one after the other. -/
def samplerRecordsText : List SamplerRecord → List Nat
  | [] => []
  | r :: rs => r.text ++ samplerRecordsText rs

/-- The text `ParseSamplers` is called on: what precedes the opening bracket, the records,
and the closing bracket after a separator. -/
def samplersText (hdr : List Nat) (records : List SamplerRecord) (final rest : List Nat) :
    List Nat :=
  hdr ++ 91 :: (samplerRecordsText records ++ (final ++ 93 :: rest))

/-- The record `{"magFilter":9729,"minFilter":9987}` as the only record of the array. -/
def filterRecord : SamplerRecord :=
  { members := [⟨lit "\x7b", .magFilter, lit ":", lit "9729"⟩,
                ⟨lit ",", .minFilter, lit ":", lit "9987"⟩],
    close := [] }

/-- The document with a sampler whose `wrapS` is 1, a value outside the four wrap modes. -/
def wrapOneDocument : List Nat :=
  lit ("\x7b\"scene\":0,\"scenes\":[\x7b\"nodes\":[0 ]\x7d]," ++
    "\"samplers\":[\x7b\"wrapS\":1,\"wrapT\":33071\x7d]\x7d") ++ [0]

/-- The document with two materials, each with a `pbrMetallicRoughness` block that holds
no `baseColorTexture`. -/
def twoMaterialsDocument : List Nat :=
  lit ("\x7b\"scene\":0,\"scenes\":[\x7b\"nodes\":[0 ]\x7d],\"materials\":[" ++
    "\x7b\"pbrMetallicRoughness\":\x7b\"metallicFactor\":0\x7d\x7d," ++
    "\x7b\"pbrMetallicRoughness\":\x7b\"metallicFactor\":0\x7d\x7d]\x7d") ++ [0]

/-- Two mesh records without white space: `meshes":[{"primitives":[{"mode":4}]},
{"primitives":[{"mode":1}]}]`, followed by the next key. -/
def compactMeshesText : List Nat :=
  lit ("meshes\":[\x7b\"primitives\":[\x7b\"mode\":4\x7d]\x7d," ++
    "\x7b\"primitives\":[\x7b\"mode\":1\x7d]\x7d],\"x\"") ++ [0]

/-- The two mesh records of `compactMeshesText` with a blank between the bracket that
closes `primitives` and the brace that closes the mesh. -/
def spacedMeshesText : List Nat :=
  lit ("meshes\":[\x7b\"primitives\":[\x7b\"mode\":4\x7d] \x7d," ++
    "\x7b\"primitives\":[\x7b\"mode\":1\x7d] \x7d],\"x\"") ++ [0]

/-- One channel record without white space, from the bracket that opens `channels`. -/
def compactChannelsText : List Nat :=
  lit ("[\x7b\"sampler\":1,\"target\":\x7b\"node\":2,\"path\":\"rotation\"\x7d\x7d]," ++
    "\"x\"") ++ [0]

/-- The channel record of `compactChannelsText` with a blank after the path. -/
def spacedChannelsText : List Nat :=
  lit ("[\x7b\"sampler\":1,\"target\":\x7b\"node\":2,\"path\":\"rotation\" \x7d\x7d]," ++
    "\"x\"") ++ [0]

/-- The `nodes` section of a document with one node, whose only key is the matrix
diag(1, 2, 3, 1). -/
def diagonalNodeText : List Nat :=
  lit "nodes\":[\x7b\"matrix\":[1,0,0,0, 0,2,0,0, 0,0,3,0, 0,0,0,1]\x7d]" ++ [0]

/-- A region in which no `close` is without an earlier `open`: in every prefix the
closing characters are at most as many as the opening ones. -/
def Nested (open_ close : Nat) (body : List Nat) : Prop :=
  ∀ n, (body.take n).count close ≤ (body.take n).count open_

/-- A region in which `open` and `close` are balanced. -/
def Balanced (open_ close : Nat) (body : List Nat) : Prop :=
  Nested open_ close body ∧ body.count close = body.count open_

/-- The word whose byte `i`, counted from the least significant one, is entry `i` of the
list. -/
def littleEndian : List Nat → Nat
  | [] => 0
  | c :: cs => c + 256 * littleEndian cs

/-- A `skins` section whose record has the key `inverseBindPoses`. -/
def inverseBindPosesText : List Nat :=
  lit "skins\":[\x7b\"inverseBindPoses\":7\x7d],\"x\"" ++ [0]

/-- The heap block behind an `SBPush` pointer: the two integers that precede the elements
(`capacity`, `count`) and the element cells of the allocation; a cell that was never
written is `none`. -/
structure SBBlock (α : Type) where
  capacity : Int
  count : Int
  cells : List (Option α)

/-- Source `CalculateArrayGrowth`. -/
def CalculateArrayGrowth (_size : Int) : Int :=
  let addition := _size / 2
  if _size > 2147483647 - addition then 2147483647 else _size + addition

/-- Source `SBCount`. -/
def SBCount {α : Type} (a : Option (SBBlock α)) : Int :=
  match a with
  | none => 0
  | some b => b.count

/-- Source `SBPush(b, v)`: the new value of `b`.  A null `b` gets a block of 16 cells; when
`size + 1 >= capacity` a block of `CalculateArrayGrowth(capacity)` cells is allocated and
`MemCpy` copies the prefix and `capacity` cells into it; then cell `size` is written. -/
def SBPush {α : Type} (b : Option (SBBlock α)) (v : α) : Except Fault (Option (SBBlock α)) :=
  let a : SBBlock α :=
    match b with
    | none => { capacity := 16, count := 0, cells := List.replicate 16 none }
    | some a => a
  let size := a.count
  let capacity := a.capacity
  let grown : Except Fault (SBBlock α) :=
    if wrapInt32 (size + 1) ≥ capacity then
      let newCapacity := CalculateArrayGrowth capacity
      if capacity < 0 ∨ newCapacity < capacity ∨ a.cells.length < capacity.toNat then
        .error .outOfBounds
      else
        .ok { capacity := newCapacity, count := a.count,
              cells := a.cells.take capacity.toNat ++
                List.replicate (newCapacity - capacity).toNat none }
    else .ok a
  match grown with
  | .error f => .error f
  | .ok a =>
    if 0 ≤ size ∧ size.toNat < a.cells.length then
      .ok (some { a with count := wrapInt32 (size + 1), cells := a.cells.set size.toNat (some v) })
    else .error .outOfBounds

/-- The pushes of `v1, ..., vk` in order. -/
def SBPushAll {α : Type} : Option (SBBlock α) → List α → Except Fault (Option (SBBlock α))
  | b, [] => .ok b
  | b, v :: vs =>
    match SBPush b v with
    | .error f => .error f
    | .ok b1 => SBPushAll b1 vs

/-- The state of a block after the pushes of `vs` from the null block: null when nothing
was pushed; otherwise the count is the number of pushes, below the capacity, which is at
least 16 and the number of cells, and the first cells hold the values pushed. -/
def SBHolds {α : Type} (b : Option (SBBlock α)) (vs : List α) : Prop :=
  match b with
  | none => vs = []
  | some blk =>
    blk.count = vs.length ∧ blk.count < blk.capacity ∧ 16 ≤ blk.capacity ∧
      blk.cells.length = blk.capacity.toNat ∧ blk.cells.take vs.length = vs.map some

/-- Source `FixedSizeGrowableAllocator::Fragment`: the number of elements allocated at
`ptr` (the `currentCapacity` of the moment it was created) and `size`, the elements used. -/
structure ArenaFragment where
  capacity : Int
  size : Int
deriving DecidableEq, Repr

/-- Source `FixedSizeGrowableAllocator`: `currentCapacity`, the fragments from `base` that
precede `current`, and the fragment `current`, the last of the list. -/
structure FixedSizeGrowableAllocator where
  currentCapacity : Int
  older : List ArenaFragment
  current : ArenaFragment
deriving DecidableEq, Repr

/-- Source constructor `FixedSizeGrowableAllocator(int initialSize)`. -/
def FixedSizeGrowableAllocator.create (initialSize : Int) : FixedSizeGrowableAllocator :=
  { currentCapacity := initialSize, older := [],
    current := { capacity := initialSize, size := 0 } }

/-- The fragments from `base`, `current` last. -/
def FixedSizeGrowableAllocator.slabs (a : FixedSizeGrowableAllocator) : List ArenaFragment :=
  a.older ++ [a.current]

/-- A pointer returned by the arena: the fragment it points into (counted from `base`),
the element offset in it, and the number of elements asked for. -/
structure ArenaBlock where
  fragment : Nat
  offset : Int
  count : Int
deriving DecidableEq, Repr

/-- The loop `while (currentCapacity < current->size + count) currentCapacity <<= 1;` of
`CheckFixGrow`. -/
def CheckFixGrow_double : Nat → Int → Int → Except Fault Int
  | 0, _, _ => .error .outOfFuel
  | fuel + 1, currentCapacity, needed =>
    if currentCapacity < needed then
      CheckFixGrow_double fuel (wrapInt32 (currentCapacity * 2)) needed
    else .ok currentCapacity

/-- Source `CheckFixGrow(count)`; the sum `current->size + count` is computed on 64 bits. -/
def CheckFixGrow (a : FixedSizeGrowableAllocator) (count : Int) :
    Except Fault FixedSizeGrowableAllocator :=
  if a.current.size + count ≥ a.currentCapacity then
    match CheckFixGrow_double 64 a.currentCapacity (a.current.size + count) with
    | .error f => .error f
    | .ok capacity =>
      .ok { currentCapacity := capacity, older := a.older ++ [a.current],
            current := { capacity := capacity, size := 0 } }
  else .ok a

/-- Source `AllocateUninitialized(count)`: the pointer `current->ptr + current->size` and
the arena after `current->size += count`. -/
def AllocateUninitialized (a : FixedSizeGrowableAllocator) (count : Int) :
    Except Fault (ArenaBlock × FixedSizeGrowableAllocator) :=
  match CheckFixGrow a count with
  | .error f => .error f
  | .ok a =>
    .ok ({ fragment := a.older.length, offset := a.current.size, count := count },
      { a with current := { a.current with size := a.current.size + count } })

/-- Source `Allocate(count)`: as `AllocateUninitialized`, and the loop `ptr[i] = def` writes
the `count` elements of the block, which have to lie in the fragment. -/
def Allocate (a : FixedSizeGrowableAllocator) (count : Int) :
    Except Fault (ArenaBlock × FixedSizeGrowableAllocator) :=
  match AllocateUninitialized a count with
  | .error f => .error f
  | .ok (ptr, a) =>
    if 0 < count ∧ (ptr.offset < 0 ∨ ptr.offset + count > a.current.capacity) then
      .error .outOfBounds
    else .ok (ptr, a)

/-- A call of the arena. -/
inductive ArenaCall where
  | allocate (count : Int)
  | allocateUninitialized (count : Int)
deriving DecidableEq, Repr

/-- The count of the call. -/
def ArenaCall.count : ArenaCall → Int
  | .allocate count => count
  | .allocateUninitialized count => count

/-- The call on an arena. -/
def ArenaCall.run (a : FixedSizeGrowableAllocator) :
    ArenaCall → Except Fault (ArenaBlock × FixedSizeGrowableAllocator)
  | .allocate count => Allocate a count
  | .allocateUninitialized count => AllocateUninitialized a count

/-- A sequence of calls: the pointers returned, in the order of the calls, and the arena
after the last call. -/
def runCalls : FixedSizeGrowableAllocator → List ArenaCall →
    Except Fault (List ArenaBlock × FixedSizeGrowableAllocator)
  | a, [] => .ok ([], a)
  | a, c :: cs =>
    match c.run a with
    | .error f => .error f
    | .ok (b, a1) =>
      match runCalls a1 cs with
      | .error f => .error f
      | .ok (bs, a2) => .ok (b :: bs, a2)

/-- Two blocks do not overlap: they lie in different fragments, or one ends where the
other begins or before. -/
def ArenaBlock.Disjoint (b1 b2 : ArenaBlock) : Prop :=
  b1.fragment ≠ b2.fragment ∨ b1.offset + b1.count ≤ b2.offset ∨
    b2.offset + b2.count ≤ b1.offset

/-- The state of an arena that was created with `init` elements and has returned `blocks`:
`current` has the capacity `currentCapacity`, which is `init` times a power of two, and
holds at most that many elements, no more than were asked for; every block lies in the
used part of its fragment, which is within the fragment's capacity; and no two blocks
overlap. -/
def ArenaOK (init : Int) (a : FixedSizeGrowableAllocator) (blocks : List ArenaBlock) : Prop :=
  a.current.capacity = a.currentCapacity ∧
  0 ≤ a.current.size ∧ a.current.size ≤ a.current.capacity ∧
  (∃ j : Nat, a.currentCapacity = init * 2 ^ j) ∧
  (∀ b ∈ blocks, 0 ≤ b.offset ∧ 0 ≤ b.count ∧
    ∃ f, a.slabs.get? b.fragment = some f ∧ b.offset + b.count ≤ f.size ∧
      f.size ≤ f.capacity) ∧
  blocks.Pairwise ArenaBlock.Disjoint ∧
  a.current.size ≤ (blocks.map ArenaBlock.count).sum

theorem xor_mod_two_pow_eq_zero (x y m : Nat) :
    (x ^^^ y) % 2 ^ m = 0 ↔ x % 2 ^ m = y % 2 ^ m := by
  constructor
  · intro h
    apply Nat.eq_of_testBit_eq
    intro i
    have h2 := congrArg (fun z => Nat.testBit z i) h
    simp only [Nat.testBit_mod_two_pow, Nat.testBit_xor, Nat.zero_testBit] at h2
    simp only [Nat.testBit_mod_two_pow]
    by_cases hi : i < m
    · simp only [hi, decide_True, Bool.true_and] at h2 ⊢
      cases hx : x.testBit i <;> cases hy : y.testBit i <;> simp_all
    · simp [hi]
  · intro h
    apply Nat.eq_of_testBit_eq
    intro i
    have h2 := congrArg (fun z => Nat.testBit z i) h
    simp only [Nat.testBit_mod_two_pow] at h2
    simp only [Nat.testBit_mod_two_pow, Nat.testBit_xor, Nat.zero_testBit]
    by_cases hi : i < m
    · simp only [hi, decide_True, Bool.true_and] at h2 ⊢
      simp [h2]
    · simp [hi]

theorem masked_eq (x y m : Nat) :
    (((x ^^^ y) &&& (2 ^ m - 1)) == 0) = decide (x % 2 ^ m = y % 2 ^ m) := by
  rw [Nat.and_pow_two_sub_one_eq_mod]
  by_cases h : x % 2 ^ m = y % 2 ^ m
  · simp [h, (xor_mod_two_pow_eq_zero x y m).2 h]
  · have : (x ^^^ y) % 2 ^ m ≠ 0 := fun h0 => h ((xor_mod_two_pow_eq_zero x y m).1 h0)
    simp [h, this]

theorem getD_succ_tail (a : List Nat) (i : Nat) : a.getD (i + 1) 0 = a.tail.getD i 0 := by
  cases a <;> simp

theorem getD_zero_headD (a : List Nat) : a.getD 0 0 = a.headD 0 := by
  cases a <;> simp

theorem load_mod_iff (k : Nat) (h1 : 1 ≤ k) (h8 : k ≤ 8)
    (a0 a1 a2 a3 a4 a5 a6 a7 b0 b1 b2 b3 b4 b5 b6 b7 : Nat)
    (ha0 : a0 < 256) (ha1 : a1 < 256) (ha2 : a2 < 256) (ha3 : a3 < 256) (ha4 : a4 < 256)
    (ha5 : a5 < 256) (ha6 : a6 < 256) (ha7 : a7 < 256)
    (hb0 : b0 < 256) (hb1 : b1 < 256) (hb2 : b2 < 256) (hb3 : b3 < 256) (hb4 : b4 < 256)
    (hb5 : b5 < 256) (hb6 : b6 < 256) (hb7 : b7 < 256) :
    ((a0 + 256 * (a1 + 256 * (a2 + 256 * (a3 + 256 * (a4 + 256 * (a5 + 256 * (a6 + 256 * a7))))))) %
        2 ^ (k * 8) =
      (b0 + 256 * (b1 + 256 * (b2 + 256 * (b3 + 256 * (b4 + 256 * (b5 + 256 * (b6 + 256 * b7))))))) %
        2 ^ (k * 8)) ↔
    ((List.zip [a0, a1, a2, a3, a4, a5, a6, a7] [b0, b1, b2, b3, b4, b5, b6, b7]).take k).all
      (fun p => p.1 == p.2) = true := by
  interval_cases k <;>
    simp only [List.zip_cons_cons, List.take_succ_cons, List.take_zero, List.all_cons,
      List.all_nil, Bool.and_true, Bool.and_eq_true, beq_iff_eq, List.zip_nil_right,
      List.take_nil] <;>
    norm_num <;> omega

theorem StrCmp8_eq_bytesEq (a b : List Nat) (k : Nat) (h1 : 1 ≤ k) (h8 : k ≤ 8) :
    StrCmp8 a b (k + 1) = bytesEq k a b := by
  have hmask : ∀ m, m ≤ 64 → m ≥ 8 →
      18446744073709551615 >>> ((64 + 18446744073709551616 - m) % 18446744073709551616 % 64)
        = 2 ^ m - 1 := by
    intro m hm hm8
    interval_cases m <;> rfl
  unfold StrCmp8
  simp only [Nat.add_sub_cancel]
  rw [hmask (k * 8) (by omega) (by omega), masked_eq]
  simp only [UnalignedLoad64]
  have hb : ∀ x : Nat, x % 256 < 256 := fun x => Nat.mod_lt _ (by norm_num)
  rw [Bool.eq_iff_iff, decide_eq_true_eq,
    load_mod_iff k h1 h8 _ _ _ _ _ _ _ _ _ _ _ _ _ _ _ _ (hb _) (hb _) (hb _) (hb _) (hb _)
      (hb _) (hb _) (hb _) (hb _) (hb _) (hb _) (hb _) (hb _) (hb _) (hb _) (hb _)]
  interval_cases k <;>
    simp only [bytesEq, getD_succ_tail, getD_zero_headD, List.zip_cons_cons, List.take_succ_cons,
      List.take_zero, List.all_cons, List.all_nil, Bool.and_true, Bool.and_eq_true, beq_iff_eq,
      List.zip_nil_right, List.take_nil, and_assoc]

theorem StrCmp8_nine (a b : List Nat) : StrCmp8 a b 9 = bytesEq 8 a b :=
  StrCmp8_eq_bytesEq a b 8 (by norm_num) (by norm_num)

theorem bytesEq_add (j k : Nat) (a b : List Nat) :
    bytesEq (j + k) a b = (bytesEq j a b && bytesEq k (a.drop j) (b.drop j)) := by
  induction j generalizing a b with
  | zero => simp [bytesEq]
  | succ j ih =>
    have e : j + 1 + k = (j + k) + 1 := by omega
    rw [e]
    simp only [bytesEq, ih, Bool.and_assoc]
    congr 2
    cases a <;> cases b <;> simp

/-- The macro `StrCMP16` against a literal of 1 to 15 characters compares exactly the
characters of the literal. -/
theorem StrCMP16_eq_bytesEq (str : List Nat) (s : String) (h1 : 1 ≤ s.length)
    (h15 : s.length ≤ 15) :
    StrCMP16 str s = bytesEq s.length str (lit s ++ [0]) := by
  have hl : (lit s ++ [0]).length = s.length + 1 := by simp [lit]
  unfold StrCMP16
  simp only [hl]
  split
  · rename_i h9
    exact StrCmp8_eq_bytesEq _ _ _ h1 (by omega)
  · rename_i h9
    unfold StrCmp16
    simp only [StrCmp8_nine]
    have e : s.length + 1 - 8 = (s.length - 8) + 1 := by omega
    rw [e, StrCmp8_eq_bytesEq _ _ _ (by omega) (by omega)]
    have e2 : s.length = 8 + (s.length - 8) := by omega
    conv_rhs => rw [e2, bytesEq_add]

theorem key_eq (n : AttribName) :
    n.key = match n with
      | .POSITION => [80, 79, 83, 73, 84, 73, 79, 78]
      | .NORMAL => [78, 79, 82, 77, 65, 76]
      | .TEXCOORD_0 => [84, 69, 88, 67, 79, 79, 82, 68, 95, 48]
      | .TANGENT => [84, 65, 78, 71, 69, 78, 84]
      | .TEXCOORD_1 => [84, 69, 88, 67, 79, 79, 82, 68, 95, 49]
      | .JOINTS_0 => [74, 79, 73, 78, 84, 83, 95, 48]
      | .WEIGHTS_0 => [87, 69, 73, 71, 72, 84, 83, 95, 48] := by
  cases n <;> rfl

theorem ParseAttributes_key_name (n : AttribName) (t : List Nat) :
    ParseAttributes_key (n.key ++ 34 :: t) = .bit n.bit := by
  have e1 : lit "POSITION" ++ [0] = [80, 79, 83, 73, 84, 73, 79, 78, 0] := by rfl
  have e2 : lit "NORMAL" ++ [0] = [78, 79, 82, 77, 65, 76, 0] := by rfl
  have e3 : lit "TEXCOORD_0" ++ [0] = [84, 69, 88, 67, 79, 79, 82, 68, 95, 48, 0] := by rfl
  have e4 : lit "TANGENT" ++ [0] = [84, 65, 78, 71, 69, 78, 84, 0] := by rfl
  have e5 : lit "TEXCOORD_1" ++ [0] = [84, 69, 88, 67, 79, 79, 82, 68, 95, 49, 0] := by rfl
  have e6 : lit "JOINTS_0" ++ [0] = [74, 79, 73, 78, 84, 83, 95, 48, 0] := by rfl
  have e7 : lit "WEIGHTS_0" ++ [0] = [87, 69, 73, 71, 72, 84, 83, 95, 48, 0] := by rfl
  have l1 : "POSITION".length = 8 := by decide
  have l2 : "NORMAL".length = 6 := by decide
  have l3 : "TEXCOORD_0".length = 10 := by decide
  have l4 : "TANGENT".length = 7 := by decide
  have l5 : "TEXCOORD_1".length = 10 := by decide
  have l6 : "JOINTS_0".length = 8 := by decide
  have l7 : "WEIGHTS_0".length = 9 := by decide
  unfold ParseAttributes_key
  rw [StrCMP16_eq_bytesEq _ "POSITION" (by decide) (by decide),
    StrCMP16_eq_bytesEq _ "NORMAL" (by decide) (by decide),
    StrCMP16_eq_bytesEq _ "TEXCOORD_0" (by decide) (by decide),
    StrCMP16_eq_bytesEq _ "TANGENT" (by decide) (by decide),
    StrCMP16_eq_bytesEq _ "TEXCOORD_1" (by decide) (by decide),
    StrCMP16_eq_bytesEq _ "JOINTS_0" (by decide) (by decide),
    StrCMP16_eq_bytesEq _ "WEIGHTS_0" (by decide) (by decide),
    e1, e2, e3, e4, e5, e6, e7, l1, l2, l3, l4, l5, l6, l7, key_eq]
  cases n <;> simp [bytesEq, AttribName.bit]

theorem IsNumber_quote : IsNumber 34 = false := by decide

theorem IsNumber_brace : IsNumber 125 = false := by decide

theorem IsNumber_digit (d : Nat) (h : 48 ≤ d ∧ d ≤ 57) :
    IsNumber d = true ∧ schar d = (d : Int) ∧ decide (schar d > 10) = true := by
  obtain ⟨h1, h2⟩ := h
  have hs : schar d = (d : Int) := by
    unfold schar
    rw [if_pos (by omega)]
  refine ⟨?_, hs, ?_⟩
  · unfold IsNumber
    rw [hs]
    simp [h1, h2]
  · rw [hs]
    simp
    omega

theorem headNonDigit_sep (sep : List Nat) (c : Nat) (r : List Nat) (hs : SepOK sep)
    (hc : IsNumber c = false) : HeadNonDigit (sep ++ c :: r) := by
  cases sep with
  | nil => exact ⟨c, r, rfl, hc⟩
  | cons a as => exact ⟨a, as ++ c :: r, rfl, hs.2 a rfl⟩

theorem scanToQuoteOrBrace_quote (sep t : List Nat) (h : ∀ c ∈ sep, c ≠ 34 ∧ c ≠ 125) :
    scanToQuoteOrBrace (sep ++ 34 :: t) = .ok (false, 34 :: t) := by
  induction sep with
  | nil => simp [scanToQuoteOrBrace]
  | cons a as ih =>
    have ha := h a (List.mem_cons_self _ _)
    rw [List.cons_append, scanToQuoteOrBrace]
    simp only [ha.1, ha.2, if_false]
    exact ih (fun c hc => h c (List.mem_cons_of_mem _ hc))

theorem scanToQuoteOrBrace_brace (sep t : List Nat) (h : ∀ c ∈ sep, c ≠ 34 ∧ c ≠ 125) :
    scanToQuoteOrBrace (sep ++ 125 :: t) = .ok (true, t) := by
  induction sep with
  | nil => simp [scanToQuoteOrBrace]
  | cons a as ih =>
    have ha := h a (List.mem_cons_self _ _)
    rw [List.cons_append, scanToQuoteOrBrace]
    simp only [ha.1, ha.2, if_false]
    exact ih (fun c hc => h c (List.mem_cons_of_mem _ hc))

theorem SkipUntill_key (n : AttribName) (t : List Nat) :
    SkipUntill (n.key ++ 34 :: t) 34 = .ok (34 :: t) := by
  rw [key_eq]
  cases n <;> simp [SkipUntill]

theorem wrapInt32_of_lt (x : Int) (h0 : 0 ≤ x) (h : x < 2147483648) : wrapInt32 x = x := by
  unfold wrapInt32
  omega

theorem digits_le_foldl (ds : List Nat) (v : Nat) :
    v ≤ ds.foldl (fun v d => v * 10 + (d - 48)) v := by
  induction ds generalizing v with
  | nil => simp
  | cons d ds ih =>
    simp only [List.foldl_cons]
    exact le_trans (by omega) (ih (v * 10 + (d - 48)))

theorem ParsePositiveNumber_digits_run (ds : List Nat) (v : Nat) (t : List Nat)
    (hd : ∀ d ∈ ds, 48 ≤ d ∧ d ≤ 57)
    (hv : ds.foldl (fun v d => v * 10 + (d - 48)) v < 2147483648)
    (ht : HeadNonDigit t) :
    ParsePositiveNumber_digits (v : Int) (ds ++ t) =
      .ok (((ds.foldl (fun v d => v * 10 + (d - 48)) v : Nat) : Int), t) := by
  induction ds generalizing v with
  | nil =>
    obtain ⟨c, r, rfl, hc⟩ := ht
    simp [ParsePositiveNumber_digits, hc]
  | cons d ds ih =>
    have hdig := IsNumber_digit d (hd d (List.mem_cons_self _ _))
    have hd48 := (hd d (List.mem_cons_self _ _)).1
    simp only [List.foldl_cons] at hv ⊢
    rw [List.cons_append, ParsePositiveNumber_digits, hdig.1, hdig.2.2, Bool.and_self,
      if_pos rfl, hdig.2.1]
    have hle := digits_le_foldl ds (v * 10 + (d - 48))
    have e : wrapInt32 ((v : Int) * 10 + ((d : Int) - 48)) = ((v * 10 + (d - 48) : Nat) : Int) := by
      rw [wrapInt32_of_lt _ (by omega) (by omega)]
      omega
    rw [e]
    exact ih (v * 10 + (d - 48)) (fun x hx => hd x (List.mem_cons_of_mem _ hx)) hv

theorem ParsePositiveNumber_skip_run (mid ds t : List Nat)
    (hm : ∀ c ∈ mid, c ≠ 0 ∧ IsNumber c = false) (hne : ds ≠ [])
    (hd : ∀ d ∈ ds, 48 ≤ d ∧ d ≤ 57) :
    ParsePositiveNumber_skip (mid ++ (ds ++ t)) = .ok (ds ++ t) := by
  induction mid with
  | nil =>
    obtain ⟨d, ds', rfl⟩ := List.exists_cons_of_ne_nil hne
    have hdig := IsNumber_digit d (hd d (List.mem_cons_self _ _))
    simp [ParsePositiveNumber_skip, hdig.1]
  | cons a as ih =>
    have ha := hm a (List.mem_cons_self _ _)
    rw [List.cons_append, ParsePositiveNumber_skip]
    simp only [ha.2, ne_eq, ha.1, not_false_eq_true, decide_True, Bool.not_false, Bool.and_self,
      if_true]
    exact ih (fun c hc => hm c (List.mem_cons_of_mem _ hc))

/-- `ParsePositiveNumber` on a text that reaches a run of digits through characters that
are neither digits nor NUL, the run denoting a value below `2 ^ 31` and followed by a
non-digit: the value, and the cursor after the run. -/
theorem ParsePositiveNumber_run (mid ds t : List Nat)
    (hm : ∀ c ∈ mid, c ≠ 0 ∧ IsNumber c = false) (hne : ds ≠ [])
    (hd : ∀ d ∈ ds, 48 ≤ d ∧ d ≤ 57) (hv : decimalValue ds < 2147483648)
    (ht : HeadNonDigit t) :
    ParsePositiveNumber (mid ++ (ds ++ t)) = .ok ((decimalValue ds : Int), t) := by
  unfold ParsePositiveNumber
  rw [ParsePositiveNumber_skip_run mid ds t hm hne hd]
  have h := ParsePositiveNumber_digits_run ds 0 t hd hv ht
  simpa [decimalValue] using h

theorem xor_or_fresh (m b : Nat) (h : m &&& b = 0) : m ^^^ (m ||| b) = b := by
  apply Nat.eq_of_testBit_eq
  intro i
  have h2 := congrArg (fun z => Nat.testBit z i) h
  simp only [Nat.testBit_and, Nat.zero_testBit] at h2
  simp only [Nat.testBit_xor, Nat.testBit_or]
  cases hm : m.testBit i <;> cases hb : b.testBit i <;> simp_all

theorem bit_lt (n : AttribName) : n.bit < 128 := by
  cases n <;> decide

theorem slot_lt (n : AttribName) : TrailingZeroCount32 n.bit < 7 := by
  cases n <;> decide

theorem slot_inj (n1 n2 : AttribName) (h : TrailingZeroCount32 n1.bit = TrailingZeroCount32 n2.bit) :
    n1 = n2 := by
  cases n1 <;> cases n2 <;> first | rfl | (exact absurd h (by decide))

theorem bit_disjoint (n1 n2 : AttribName) (h : n1 ≠ n2) : n1.bit &&& n2.bit = 0 := by
  cases n1 <;> cases n2 <;> first | (exact absurd rfl h) | decide

theorem or_and_fresh (m b c : Nat) (h1 : m &&& c = 0) (h2 : b &&& c = 0) :
    (m ||| b) &&& c = 0 := by
  apply Nat.eq_of_testBit_eq
  intro i
  have h1i := congrArg (fun z => Nat.testBit z i) h1
  have h2i := congrArg (fun z => Nat.testBit z i) h2
  simp only [Nat.testBit_and, Nat.zero_testBit] at h1i h2i
  simp only [Nat.testBit_and, Nat.testBit_or, Nat.zero_testBit]
  cases hm : m.testBit i <;> cases hb : b.testBit i <;> cases hc : c.testBit i <;> simp_all

theorem toUInt64_natCast (v : Nat) (h : v < 2147483648) : toUInt64 (v : Int) = v := by
  unfold toUInt64
  omega

/-- One member, from the state in which the loop of `ParseAttributes` meets it. -/
theorem ParseAttributes_loop_step (fuel : Nat) (e : AttribEntry) (t : List Nat)
    (p : APrimitive) (hwf : e.WellFormed) (ht : HeadNonDigit t)
    (hfresh : p.attributes &&& e.name.bit = 0) (hlen : p.vertexAttribs.length = 7) :
    ParseAttributes_loop (fuel + 1) (e.text ++ t) p =
      ParseAttributes_loop fuel t (applyEntry p e) := by
  obtain ⟨hsep, hmid, hne, hdig, hval⟩ := hwf
  have hkne : ∃ k ks, e.name.key = k :: ks := by
    rw [key_eq]; cases e.name <;> exact ⟨_, _, rfl⟩
  obtain ⟨k, ks, hk⟩ := hkne
  have hscan := scanToQuoteOrBrace_quote e.sep (e.name.key ++ 34 :: (e.mid ++ e.digits) ++ t)
    hsep.1
  have htext : e.text ++ t = e.sep ++ 34 :: (e.name.key ++ 34 :: (e.mid ++ e.digits) ++ t) := by
    simp [AttribEntry.text]
  rw [htext]
  simp only [ParseAttributes_loop, hscan, List.tail_cons]
  have hkc : keyCursor (e.name.key ++ 34 :: (e.mid ++ e.digits) ++ t) =
      .ok (e.name.key ++ 34 :: (e.mid ++ e.digits) ++ t) := by
    rw [hk]; rfl
  have happ : e.name.key ++ 34 :: (e.mid ++ e.digits) ++ t =
      e.name.key ++ 34 :: (e.mid ++ (e.digits ++ t)) := by simp
  rw [hkc]
  simp only [happ, ParseAttributes_key_name, SkipUntill_key, List.tail_cons,
    ParsePositiveNumber_run e.mid e.digits t hmid hne hdig hval ht, xor_or_fresh _ _ hfresh]
  have hs : storeSlot p.vertexAttribs (TrailingZeroCount32 e.name.bit)
      (VoidPtr.ofInt (decimalValue e.digits : Int)) =
      .ok (p.vertexAttribs.set (TrailingZeroCount32 e.name.bit) (VoidPtr.addr e.accessor)) := by
    unfold storeSlot
    rw [if_pos (by rw [hlen]; exact slot_lt _)]
    simp [VoidPtr.ofInt, toUInt64_natCast _ hval, AttribEntry.accessor]
  rw [hs]
  rfl

theorem headNonDigit_entries (es : List AttribEntry) (close rest : List Nat)
    (hwf : ∀ e ∈ es, e.WellFormed) (hclose : SepOK close) :
    HeadNonDigit (entriesText es ++ (close ++ 125 :: rest)) := by
  cases es with
  | nil => exact headNonDigit_sep close 125 rest hclose IsNumber_brace
  | cons e es =>
    have h := (hwf e (List.mem_cons_self _ _)).1
    have : entriesText (e :: es) ++ (close ++ 125 :: rest) =
        e.sep ++ 34 :: (e.name.key ++ 34 :: (e.mid ++ e.digits) ++
          (entriesText es ++ (close ++ 125 :: rest))) := by
      simp [entriesText, AttribEntry.text]
    rw [this]
    exact headNonDigit_sep e.sep 34 _ h IsNumber_quote

theorem applyEntry_length (p : APrimitive) (e : AttribEntry) :
    (applyEntry p e).vertexAttribs.length = p.vertexAttribs.length := by
  simp [applyEntry]

/-- The loop of `ParseAttributes` over the members of an attributes object. -/
theorem ParseAttributes_loop_entries (es : List AttribEntry) (close rest : List Nat) :
    ∀ (p : APrimitive) (fuel : Nat), (∀ e ∈ es, e.WellFormed) → SepOK close →
      (es.map (fun e => e.name)).Nodup → (∀ e ∈ es, p.attributes &&& e.name.bit = 0) →
      p.vertexAttribs.length = 7 → es.length < fuel →
      ParseAttributes_loop fuel (entriesText es ++ (close ++ 125 :: rest)) p =
        .ok (.cur rest, es.foldl applyEntry p) := by
  induction es with
  | nil =>
    intro p fuel _ hclose _ _ _ hfuel
    obtain ⟨f, rfl⟩ : ∃ f, fuel = f + 1 := ⟨fuel - 1, by simp at hfuel; omega⟩
    simp [entriesText, ParseAttributes_loop, scanToQuoteOrBrace_brace close rest hclose.1]
  | cons e es ih =>
    intro p fuel hwf hclose hnodup hfresh hlen hfuel
    obtain ⟨f, rfl⟩ : ∃ f, fuel = f + 1 := ⟨fuel - 1, by simp at hfuel; omega⟩
    have hwf' : ∀ x ∈ es, x.WellFormed := fun x hx => hwf x (List.mem_cons_of_mem _ hx)
    have ht := headNonDigit_entries es close rest hwf' hclose
    have e1 : entriesText (e :: es) ++ (close ++ 125 :: rest) =
        e.text ++ (entriesText es ++ (close ++ 125 :: rest)) := by
      simp [entriesText]
    rw [e1, ParseAttributes_loop_step f e _ p (hwf e (List.mem_cons_self _ _)) ht
      (hfresh e (List.mem_cons_self _ _)) hlen]
    simp only [List.map_cons, List.nodup_cons, List.mem_map, not_exists, not_and] at hnodup
    rw [List.foldl_cons]
    apply ih (applyEntry p e) f hwf' hclose hnodup.2
    · intro x hx
      have hne : e.name ≠ x.name := fun h => hnodup.1 x hx h.symm
      exact or_and_fresh _ _ _ (hfresh x (List.mem_cons_of_mem _ hx)) (bit_disjoint _ _ hne)
    · rw [applyEntry_length, hlen]
    · simp at hfuel; omega

theorem foldl_applyEntry_eq (es : List AttribEntry) (p : APrimitive) :
    es.foldl applyEntry p = (es.map (fun e => (e.name, e.accessor))).foldl applyPair p := by
  induction es generalizing p with
  | nil => rfl
  | cons e es ih => simp only [List.foldl_cons, List.map_cons, ih]; rfl

theorem applyPair_comm (p : APrimitive) (x y : AttribName × Nat) (h : x = y ∨ x.1 ≠ y.1) :
    applyPair (applyPair p x) y = applyPair (applyPair p y) x := by
  rcases h with h | h
  · subst h; rfl
  · have hs : TrailingZeroCount32 x.1.bit ≠ TrailingZeroCount32 y.1.bit :=
      fun hh => h (slot_inj _ _ hh)
    simp only [applyPair, Nat.or_assoc, Nat.or_comm x.1.bit, List.set_comm _ _ _ hs]

theorem nodup_fst_cases (l : List (AttribName × Nat)) (h : (l.map Prod.fst).Nodup)
    (x y : AttribName × Nat) (hx : x ∈ l) (hy : y ∈ l) : x = y ∨ x.1 ≠ y.1 := by
  by_cases hxy : x.1 = y.1
  · left
    exact List.inj_on_of_nodup_map h hx hy hxy
  · right; exact hxy

theorem foldl_applyPair_attributes (l : List (AttribName × Nat)) (p : APrimitive) :
    (l.foldl applyPair p).attributes =
      p.attributes ||| (l.map (fun x => x.1.bit)).foldl (· ||| ·) 0 := by
  induction l generalizing p with
  | nil => simp
  | cons x l ih =>
    simp only [List.foldl_cons, List.map_cons, ih, Nat.zero_or]
    have : ∀ (l : List Nat) (a : Nat), l.foldl (· ||| ·) a = a ||| l.foldl (· ||| ·) 0 := by
      intro l
      induction l with
      | nil => simp
      | cons b l ihl =>
        intro a
        simp only [List.foldl_cons, Nat.zero_or]
        rw [ihl (a ||| b), ihl b, Nat.or_assoc]
    rw [this _ x.1.bit]
    simp [applyPair, Nat.or_assoc]

theorem foldl_applyPair_length (l : List (AttribName × Nat)) (p : APrimitive) :
    (l.foldl applyPair p).vertexAttribs.length = p.vertexAttribs.length := by
  induction l generalizing p with
  | nil => rfl
  | cons x l ih => simp [List.foldl_cons, ih, applyPair]

theorem foldl_applyPair_slot (l : List (AttribName × Nat)) (p : APrimitive)
    (hnodup : (l.map Prod.fst).Nodup) (hlen : p.vertexAttribs.length = 7)
    (x : AttribName × Nat) (hx : x ∈ l) :
    (l.foldl applyPair p).vertexAttribs.get? (TrailingZeroCount32 x.1.bit) =
      some (VoidPtr.addr x.2) := by
  induction l generalizing p with
  | nil => simp at hx
  | cons y l ih =>
    simp only [List.map_cons, List.nodup_cons, List.mem_map, not_exists, not_and] at hnodup
    rw [List.foldl_cons]
    rcases List.mem_cons.1 hx with rfl | hxl
    · -- the later members write other slots
      have hrest : ∀ (l : List (AttribName × Nat)) (q : APrimitive),
          (∀ z ∈ l, z.1 ≠ x.1) →
          (l.foldl applyPair q).vertexAttribs.get? (TrailingZeroCount32 x.1.bit) =
            q.vertexAttribs.get? (TrailingZeroCount32 x.1.bit) := by
        intro l
        induction l with
        | nil => intro q _; rfl
        | cons z l ihl =>
          intro q hz
          rw [List.foldl_cons, ihl _ (fun w hw => hz w (List.mem_cons_of_mem _ hw))]
          have hne : TrailingZeroCount32 z.1.bit ≠ TrailingZeroCount32 x.1.bit :=
            fun hh => hz z (List.mem_cons_self _ _) (slot_inj _ _ hh)
          simp [applyPair, List.getElem?_set_ne hne]
      rw [hrest l _ (fun z hz hzx => hnodup.1 z hz hzx)]
      have hlt : TrailingZeroCount32 x.1.bit < p.vertexAttribs.length := by
        rw [hlen]; exact slot_lt _
      simp [applyPair, List.getElem?_set, hlt]
    · exact ih (applyPair p y) hnodup.2 (by simp [applyPair, hlen]) hxl

/-- C2: for an `attributes` object whose keys are distinct names among POSITION, NORMAL,
TEXCOORD_0, TANGENT, TEXCOORD_1, JOINTS_0 and WEIGHTS_0, `ParseAttributes` returns the
cursor after the closing brace, the mask is the OR of the bits of the keys with the mask
it started from, the accessor index of each key is stored in the slot
`vertexAttribs[TrailingZeroCount32(bit)]`, and every other text that gives the same keys
the same accessor indices, in whatever order and layout, yields the same primitive. -/
theorem ParseAttributes_order_independent (fuel : Nat) (hdr : List Nat)
    (es : List AttribEntry) (close rest : List Nat) (p : APrimitive)
    (hhdr : hdr.length = 12) (hwf : ∀ e ∈ es, e.WellFormed) (hclose : SepOK close)
    (hnodup : (es.map (fun e => e.name)).Nodup)
    (hfresh : ∀ e ∈ es, p.attributes &&& e.name.bit = 0)
    (hlen : p.vertexAttribs.length = 7) (hfuel : es.length < fuel) :
    ∃ q : APrimitive,
      ParseAttributes fuel (attributesText hdr es close rest) p = .ok (.cur rest, q) ∧
      q.attributes = p.attributes ||| (es.map (fun e => e.name.bit)).foldl (· ||| ·) 0 ∧
      (∀ e ∈ es, q.vertexAttribs.get? (TrailingZeroCount32 e.name.bit) =
        some (VoidPtr.addr e.accessor)) ∧
      (∀ (fuel' : Nat) (hdr' : List Nat) (es' : List AttribEntry) (close' rest' : List Nat),
        hdr'.length = 12 → (∀ e ∈ es', e.WellFormed) → SepOK close' → es'.length < fuel' →
        (es'.map (fun e => (e.name, e.accessor))).Perm
          (es.map (fun e => (e.name, e.accessor))) →
        ParseAttributes fuel' (attributesText hdr' es' close' rest') p =
          .ok (.cur rest', q)) := by
  have hdrop : ∀ (h : List Nat) (t : List Nat), h.length = 12 → (h ++ t).drop 12 = t := by
    intro h t hh
    rw [← hh, List.drop_left]
  have hnd : ((es.map (fun e => (e.name, e.accessor))).map Prod.fst).Nodup := by
    simpa [List.map_map, Function.comp] using hnodup
  refine ⟨es.foldl applyEntry p, ?_, ?_, ?_, ?_⟩
  · unfold ParseAttributes attributesText
    rw [hdrop hdr _ hhdr]
    exact ParseAttributes_loop_entries es close rest p fuel hwf hclose hnodup hfresh hlen hfuel
  · rw [foldl_applyEntry_eq, foldl_applyPair_attributes, List.map_map]
    rfl
  · intro e he
    rw [foldl_applyEntry_eq]
    exact foldl_applyPair_slot _ p hnd hlen (e.name, e.accessor)
      (List.mem_map.2 ⟨e, he, rfl⟩)
  · intro fuel' hdr' es' close' rest' hhdr' hwf' hclose' hfuel' hperm
    have hnd' : (es'.map (fun e => e.name)).Nodup := by
      have h1 := (hperm.map Prod.fst).nodup_iff.2 hnd
      simpa [List.map_map, Function.comp] using h1
    have hfresh' : ∀ e ∈ es', p.attributes &&& e.name.bit = 0 := by
      intro e he
      have hm : (e.name, e.accessor) ∈ es.map (fun e => (e.name, e.accessor)) :=
        hperm.subset (List.mem_map.2 ⟨e, he, rfl⟩)
      obtain ⟨e0, he0, heq⟩ := List.mem_map.1 hm
      have hn : e0.name = e.name := congrArg Prod.fst heq
      rw [← hn]
      exact hfresh e0 he0
    unfold ParseAttributes attributesText
    rw [hdrop hdr' _ hhdr',
      ParseAttributes_loop_entries es' close' rest' p fuel' hwf' hclose' hnd' hfresh' hlen hfuel',
      foldl_applyEntry_eq, foldl_applyEntry_eq]
    congr 2
    apply List.Perm.foldl_eq' hperm
    intro x hx y hy z
    have hndx : ((es'.map (fun e => (e.name, e.accessor))).map Prod.fst).Nodup := by
      simpa [List.map_map, Function.comp] using hnd'
    exact applyPair_comm z x y (nodup_fst_cases _ hndx x y hx hy)

theorem resolveAttribs_eq_resolveSlots (accessors : List GLTFAccessor)
    (bufferViews : List GLTFBufferView) (buffers : List GLTFBuffer) :
    ∀ (fuel j attributes : Nat) (slots : List VoidPtr) (js : List Nat),
      visitSeq fuel j attributes = some js →
      resolveAttribs accessors bufferViews buffers fuel j attributes slots =
        resolveSlots accessors bufferViews buffers js slots := by
  intro fuel
  induction fuel with
  | zero => intro j attributes slots js h; simp [visitSeq] at h
  | succ fuel ih =>
    intro j attributes slots js h
    simp only [visitSeq] at h
    simp only [resolveAttribs]
    split at h
    · rename_i hc
      rw [if_pos hc]
      split at h
      · exact absurd h (by simp)
      · rename_i js1 hjs
        simp only [Option.some.injEq] at h
        subst h
        simp only [resolveSlots, resolveSlot]
        cases hs : slotIndex slots j with
        | error f => rfl
        | ok i =>
          simp only
          cases hr : resolveAccessor accessors bufferViews buffers i with
          | error f => rfl
          | ok r =>
            obtain ⟨a, v, p⟩ := r
            simp only
            exact ih _ _ _ _ hjs
    · rename_i hc
      rw [if_neg hc]
      simp only [Option.some.injEq] at h
      subst h
      rfl

set_option maxRecDepth 100000 in
theorem visitSeq_mask :
    ∀ attributes < 128, visitSeq 32 0 attributes = some (visited attributes) := by
  decide

theorem resolveAccessor_ok (accessors : List GLTFAccessor) (bufferViews : List GLTFBufferView)
    (buffers : List GLTFBuffer) (i : Int) (a : GLTFAccessor) (v : GLTFBufferView) (p : VoidPtr)
    (h : resolveAccessor accessors bufferViews buffers i = .ok (a, v, p)) :
    arrayAt accessors i = .ok a ∧ arrayAt bufferViews a.bufferView = .ok v ∧
      (∃ buffer, arrayAt buffers v.buffer = .ok buffer) ∧
      p = .inBuffer v.buffer (v.byteOffset + a.byteOffset) := by
  unfold resolveAccessor at h
  cases ha : arrayAt accessors i with
  | error f => rw [ha] at h; simp at h
  | ok a1 =>
    rw [ha] at h
    simp only at h
    cases hv : arrayAt bufferViews a1.bufferView with
    | error f => rw [hv] at h; simp at h
    | ok v1 =>
      rw [hv] at h
      simp only at h
      cases hb : arrayAt buffers v1.buffer with
      | error f => rw [hb] at h; simp at h
      | ok b1 =>
        rw [hb] at h
        simp only [Except.ok.injEq, Prod.mk.injEq] at h
        obtain ⟨rfl, rfl, rfl⟩ := h
        exact ⟨rfl, hv, ⟨b1, hb⟩, by rw [add_comm]⟩

theorem arrayAt_error {α : Type} (arr : List α) (i : Int) (f : Fault)
    (h : arrayAt arr i = .error f) : f = .outOfBounds := by
  unfold arrayAt at h
  split at h
  · simp only [Except.error.injEq] at h; exact h.symm
  · split at h
    · simp only [Except.error.injEq] at h; exact h.symm
    · simp at h

theorem resolveAccessor_error (accessors : List GLTFAccessor)
    (bufferViews : List GLTFBufferView) (buffers : List GLTFBuffer) (i : Int) (f : Fault)
    (h : resolveAccessor accessors bufferViews buffers i = .error f) : f = .outOfBounds := by
  unfold resolveAccessor at h
  cases ha : arrayAt accessors i with
  | error f1 =>
    rw [ha] at h
    simp only [Except.error.injEq] at h
    subst h
    exact arrayAt_error _ _ _ ha
  | ok a1 =>
    rw [ha] at h
    simp only at h
    cases hv : arrayAt bufferViews a1.bufferView with
    | error f1 =>
      rw [hv] at h
      simp only [Except.error.injEq] at h
      subst h
      exact arrayAt_error _ _ _ hv
    | ok v1 =>
      rw [hv] at h
      simp only at h
      cases hb : arrayAt buffers v1.buffer with
      | error f1 =>
        rw [hb] at h
        simp only [Except.error.injEq] at h
        subst h
        exact arrayAt_error _ _ _ hb
      | ok b1 => rw [hb] at h; simp at h

theorem resolveAccessor_resolves (accessors : List GLTFAccessor)
    (bufferViews : List GLTFBufferView) (buffers : List GLTFBuffer) (i : Int)
    (a : GLTFAccessor) (v : GLTFBufferView) (p : VoidPtr)
    (h : resolveAccessor accessors bufferViews buffers i = .ok (a, v, p)) :
    Resolves accessors bufferViews buffers i p := by
  obtain ⟨h1, h2, ⟨b, h3⟩, h4⟩ := resolveAccessor_ok _ _ _ _ _ _ _ h
  exact ⟨a, v, b, h1, h2, h3, h4⟩

theorem slotIndex_set_ne (slots : List VoidPtr) (j k : Nat) (p : VoidPtr) (h : j ≠ k) :
    slotIndex (slots.set j p) k = slotIndex slots k := by
  unfold slotIndex
  simp [List.getElem?_set_ne h]

theorem resolveSlot_ok (accessors : List GLTFAccessor) (bufferViews : List GLTFBufferView)
    (buffers : List GLTFBuffer) (slots slots1 : List VoidPtr) (j : Nat)
    (h : resolveSlot accessors bufferViews buffers slots j = .ok slots1) :
    ∃ i p, slotIndex slots j = .ok i ∧ Resolves accessors bufferViews buffers i p ∧
      slots1 = slots.set j p ∧ j < slots.length := by
  unfold resolveSlot at h
  cases hs : slotIndex slots j with
  | error f => rw [hs] at h; simp at h
  | ok i =>
    rw [hs] at h
    simp only at h
    cases hr : resolveAccessor accessors bufferViews buffers i with
    | error f => rw [hr] at h; simp at h
    | ok r =>
      obtain ⟨a, v, p⟩ := r
      rw [hr] at h
      simp only [Except.ok.injEq] at h
      refine ⟨i, p, rfl, resolveAccessor_resolves _ _ _ _ _ _ _ hr, h.symm, ?_⟩
      unfold slotIndex at hs
      by_contra hlt
      rw [List.get?_eq_none.2 (by omega)] at hs
      simp at hs

/-- The attribute loop over distinct slots: every slot of the list holds, afterwards,
the address computed from the accessor index it held before, and no other slot
changes. -/
theorem resolveSlots_ok (accessors : List GLTFAccessor) (bufferViews : List GLTFBufferView)
    (buffers : List GLTFBuffer) :
    ∀ (js : List Nat) (slots slots1 : List VoidPtr), js.Nodup →
      resolveSlots accessors bufferViews buffers js slots = .ok slots1 →
      slots1.length = slots.length ∧
      (∀ j ∈ js, ∃ i p, slotIndex slots j = .ok i ∧
        Resolves accessors bufferViews buffers i p ∧ slots1.get? j = some p) ∧
      (∀ j, j ∉ js → slots1.get? j = slots.get? j) := by
  intro js
  induction js with
  | nil =>
    intro slots slots1 _ h
    simp only [resolveSlots, Except.ok.injEq] at h
    subst h
    simp
  | cons j js ih =>
    intro slots slots1 hnd h
    simp only [List.nodup_cons] at hnd
    simp only [resolveSlots] at h
    cases hs : resolveSlot accessors bufferViews buffers slots j with
    | error f => rw [hs] at h; simp at h
    | ok s1 =>
      rw [hs] at h
      simp only at h
      obtain ⟨i, p, hi, hres, rfl, hlt⟩ := resolveSlot_ok _ _ _ _ _ _ hs
      obtain ⟨hlen, hin, hout⟩ := ih _ _ hnd.2 h
      refine ⟨by rw [hlen, List.length_set], ?_, ?_⟩
      · intro k hk
        rcases List.mem_cons.1 hk with rfl | hk
        · refine ⟨i, p, hi, hres, ?_⟩
          rw [hout k hnd.1]
          simp [List.getElem?_set, hlt]
        · obtain ⟨i2, p2, hi2, hres2, hget⟩ := hin k hk
          have hne : j ≠ k := fun e => hnd.1 (e ▸ hk)
          rw [slotIndex_set_ne _ _ _ _ hne] at hi2
          exact ⟨i2, p2, hi2, hres2, hget⟩
      · intro k hk
        simp only [List.mem_cons, not_or] at hk
        rw [hout k hk.2]
        simp [List.getElem?_set_ne (Ne.symm hk.1)]

set_option maxRecDepth 100000 in
theorem visited_nodup : ∀ attributes < 128, (visited attributes).Nodup := by
  decide

set_option maxRecDepth 100000 in
theorem mem_visited : ∀ attributes < 128, ∀ j < 7,
    (j ∈ visited attributes ↔ (attributes ≠ 0 ∧ (j = 0 ∨ attributes.testBit j = true))) := by
  decide

/-- The attribute loop of the resolver on a mask below `2 ^ 7`: it ends within its fuel,
and when it returns, slot 0 (for a non-zero mask) and the slot of every set bit hold the
address computed from the accessor index they held, the other slots are unchanged. -/
theorem resolveAttribs_ok (accessors : List GLTFAccessor) (bufferViews : List GLTFBufferView)
    (buffers : List GLTFBuffer) (attributes : Nat) (slots : List VoidPtr)
    (hmask : attributes < 128) :
    resolveAttribs accessors bufferViews buffers 32 0 attributes slots ≠ .error .outOfFuel ∧
    ∀ slots1, resolveAttribs accessors bufferViews buffers 32 0 attributes slots = .ok slots1 →
      slots1.length = slots.length ∧
      (∀ j < 7, attributes ≠ 0 ∧ (j = 0 ∨ attributes.testBit j = true) →
        ∃ i p, slotIndex slots j = .ok i ∧ Resolves accessors bufferViews buffers i p ∧
          slots1.get? j = some p) ∧
      (∀ j < 7, ¬ (attributes ≠ 0 ∧ (j = 0 ∨ attributes.testBit j = true)) →
        slots1.get? j = slots.get? j) := by
  rw [resolveAttribs_eq_resolveSlots _ _ _ 32 0 attributes slots _ (visitSeq_mask _ hmask)]
  constructor
  · have hnf : ∀ (js : List Nat) (s : List VoidPtr),
        resolveSlots accessors bufferViews buffers js s ≠ .error .outOfFuel := by
      intro js
      induction js with
      | nil => intro s; simp [resolveSlots]
      | cons j js ih =>
        intro s
        simp only [resolveSlots, resolveSlot]
        cases hs : slotIndex s j with
        | error f =>
          simp only
          unfold slotIndex at hs
          cases hg : s.get? j with
          | none => rw [hg] at hs; simp only [Except.error.injEq] at hs; subst hs; simp
          | some q =>
            rw [hg] at hs
            cases q with
            | addr v => simp [VoidPtr.toInt] at hs
            | inBuffer b o => simp only [VoidPtr.toInt, Except.error.injEq] at hs; subst hs; simp
        | ok i =>
          simp only
          cases hr : resolveAccessor accessors bufferViews buffers i with
          | error f =>
            simp only
            rw [resolveAccessor_error _ _ _ _ _ hr]
            simp
          | ok r => exact ih _
    exact hnf _ _
  · intro slots1 h
    obtain ⟨hlen, hin, hout⟩ := resolveSlots_ok _ _ _ _ _ _ (visited_nodup _ hmask) h
    refine ⟨hlen, ?_, ?_⟩
    · intro j hj hc
      exact hin j ((mem_visited _ hmask j hj).2 hc)
    · intro j hj hc
      exact hout j (fun hm => hc ((mem_visited _ hmask j hj).1 hm))

/-- The statements of `resolvePrimitive`, one by one, when it returns. -/
theorem resolvePrimitive_ok (accessors : List GLTFAccessor) (bufferViews : List GLTFBufferView)
    (buffers : List GLTFBuffer) (p q : APrimitive)
    (h : resolvePrimitive accessors bufferViews buffers p = .ok q) :
    ∃ i0 a0 accessor view indices slots,
      slotIndex p.vertexAttribs 0 = .ok i0 ∧ arrayAt accessors i0 = .ok a0 ∧
      resolveAccessor accessors bufferViews buffers p.indiceIndex = .ok (accessor, view, indices) ∧
      resolveAttribs accessors bufferViews buffers 32 0 p.attributes p.vertexAttribs = .ok slots ∧
      q.numVertices = a0.count ∧ q.numIndices = accessor.count ∧ q.indices = indices ∧
      q.indexType = accessor.componentType ∧ q.vertexAttribs = slots ∧
      q.attributes = p.attributes ∧ q.indiceIndex = p.indiceIndex := by
  unfold resolvePrimitive at h
  simp only [bind, Except.bind] at h
  cases h0 : slotIndex p.vertexAttribs 0 with
  | error f => rw [h0] at h; simp at h
  | ok i0 =>
    rw [h0] at h; simp only at h
    cases h1 : arrayAt accessors i0 with
    | error f => rw [h1] at h; simp at h
    | ok a0 =>
      rw [h1] at h; simp only at h
      cases h2 : resolveAccessor accessors bufferViews buffers p.indiceIndex with
      | error f => rw [h2] at h; simp at h
      | ok r =>
        obtain ⟨accessor, view, indices⟩ := r
        rw [h2] at h; simp only at h
        cases h3 : slotIndex p.vertexAttribs (TrailingZeroCount32 AAttribType_JOINTS) with
        | error f => rw [h3] at h; simp at h
        | ok ij =>
          rw [h3] at h; simp only at h
          cases h4 : arrayAt accessors ij with
          | error f => rw [h4] at h; simp at h
          | ok ja =>
            rw [h4] at h; simp only at h
            cases h5 : arrayAt bufferViews ja.bufferView with
            | error f => rw [h5] at h; simp at h
            | ok jv =>
              rw [h5] at h; simp only at h
              cases h6 : slotIndex p.vertexAttribs (TrailingZeroCount32 AAttribType_WEIGHTS) with
              | error f => rw [h6] at h; simp at h
              | ok iw =>
                rw [h6] at h; simp only at h
                cases h7 : arrayAt accessors iw with
                | error f => rw [h7] at h; simp at h
                | ok wa =>
                  rw [h7] at h; simp only at h
                  cases h8 : arrayAt bufferViews wa.bufferView with
                  | error f => rw [h8] at h; simp at h
                  | ok wv =>
                    rw [h8] at h; simp only at h
                    cases h9 : resolveAttribs accessors bufferViews buffers 32 0 p.attributes
                        p.vertexAttribs with
                    | error f => rw [h9] at h; simp at h
                    | ok slots =>
                      rw [h9] at h
                      simp only [Except.ok.injEq] at h
                      subst h
                      refine ⟨i0, a0, accessor, view, indices, slots, ?_, ?_, ?_, ?_, rfl, rfl,
                        rfl, rfl, rfl, rfl, rfl⟩ <;> first | rfl | assumption

theorem slotIndex_error (slots : List VoidPtr) (j : Nat) (f : Fault)
    (h : slotIndex slots j = .error f) : f ≠ .outOfFuel := by
  unfold slotIndex at h
  cases hg : slots.get? j with
  | none => rw [hg] at h; simp only [Except.error.injEq] at h; subst h; simp
  | some q =>
    rw [hg] at h
    cases q with
    | addr v => simp [VoidPtr.toInt] at h
    | inBuffer b o => simp only [VoidPtr.toInt, Except.error.injEq] at h; subst h; simp

theorem resolvePrimitive_fuel (accessors : List GLTFAccessor) (bufferViews : List GLTFBufferView)
    (buffers : List GLTFBuffer) (p : APrimitive) (hmask : p.attributes < 128) :
    resolvePrimitive accessors bufferViews buffers p ≠ .error .outOfFuel := by
  intro h
  unfold resolvePrimitive at h
  simp only [bind, Except.bind] at h
  cases h0 : slotIndex p.vertexAttribs 0 with
  | error f =>
    rw [h0] at h; simp only [Except.error.injEq] at h
    exact slotIndex_error _ _ _ h0 h
  | ok i0 =>
    rw [h0] at h; simp only at h
    cases h1 : arrayAt accessors i0 with
    | error f =>
      rw [h1] at h; simp only [Except.error.injEq] at h
      have := arrayAt_error _ _ _ h1; rw [h] at this; simp at this
    | ok a0 =>
      rw [h1] at h; simp only at h
      cases h2 : resolveAccessor accessors bufferViews buffers p.indiceIndex with
      | error f =>
        rw [h2] at h; simp only [Except.error.injEq] at h
        have := resolveAccessor_error _ _ _ _ _ h2; rw [h] at this; simp at this
      | ok r =>
        obtain ⟨accessor, view, indices⟩ := r
        rw [h2] at h; simp only at h
        cases h3 : slotIndex p.vertexAttribs (TrailingZeroCount32 AAttribType_JOINTS) with
        | error f =>
          rw [h3] at h; simp only [Except.error.injEq] at h
          exact slotIndex_error _ _ _ h3 h
        | ok ij =>
          rw [h3] at h; simp only at h
          cases h4 : arrayAt accessors ij with
          | error f =>
            rw [h4] at h; simp only [Except.error.injEq] at h
            have := arrayAt_error _ _ _ h4; rw [h] at this; simp at this
          | ok ja =>
            rw [h4] at h; simp only at h
            cases h5 : arrayAt bufferViews ja.bufferView with
            | error f =>
              rw [h5] at h; simp only [Except.error.injEq] at h
              have := arrayAt_error _ _ _ h5; rw [h] at this; simp at this
            | ok jv =>
              rw [h5] at h; simp only at h
              cases h6 : slotIndex p.vertexAttribs (TrailingZeroCount32 AAttribType_WEIGHTS) with
              | error f =>
                rw [h6] at h; simp only [Except.error.injEq] at h
                exact slotIndex_error _ _ _ h6 h
              | ok iw =>
                rw [h6] at h; simp only at h
                cases h7 : arrayAt accessors iw with
                | error f =>
                  rw [h7] at h; simp only [Except.error.injEq] at h
                  have := arrayAt_error _ _ _ h7; rw [h] at this; simp at this
                | ok wa =>
                  rw [h7] at h; simp only at h
                  cases h8 : arrayAt bufferViews wa.bufferView with
                  | error f =>
                    rw [h8] at h; simp only [Except.error.injEq] at h
                    have := arrayAt_error _ _ _ h8; rw [h] at this; simp at this
                  | ok wv =>
                    rw [h8] at h; simp only at h
                    cases h9 : resolveAttribs accessors bufferViews buffers 32 0 p.attributes
                        p.vertexAttribs with
                    | error f =>
                      rw [h9] at h; simp only [Except.error.injEq] at h
                      subst h
                      exact (resolveAttribs_ok _ _ _ _ _ hmask).1 h9
                    | ok slots => rw [h9] at h; simp at h

theorem resolvePrimitive_resolved (accessors : List GLTFAccessor)
    (bufferViews : List GLTFBufferView) (buffers : List GLTFBuffer) (p q : APrimitive)
    (hmask : p.attributes < 128)
    (h : resolvePrimitive accessors bufferViews buffers p = .ok q) :
    PrimitiveResolved accessors bufferViews buffers p q := by
  obtain ⟨i0, a0, accessor, view, indices, slots, h0, h1, h2, h3, e1, e2, e3, e4, e5, e6, e7⟩ :=
    resolvePrimitive_ok _ _ _ _ _ h
  obtain ⟨ha, hv, ⟨b, hb⟩, hp⟩ := resolveAccessor_ok _ _ _ _ _ _ _ h2
  refine ⟨⟨accessor, view, b, ha, hv, hb, by rw [e3, hp], e4, e2⟩, ?_⟩
  intro j hj hc
  obtain ⟨_, hin, _⟩ := (resolveAttribs_ok accessors bufferViews buffers _ _ hmask).2 slots h3
  obtain ⟨i, ptr, hi, ⟨a, v, bf, h1', h2', h3', h4'⟩, hget⟩ := hin j hj hc
  exact ⟨i, a, v, bf, hi, h1', h2', h3', by rw [e5, hget, h4']⟩

theorem wrapInt32_wrap_add (a b : Int) : wrapInt32 (wrapInt32 a + b) = wrapInt32 (a + b) := by
  unfold wrapInt32
  omega

theorem ParseAttributes_key_bit (curr : List Nat) (b : Nat)
    (h : ParseAttributes_key curr = .bit b) : b < 128 := by
  unfold ParseAttributes_key at h
  repeat' split at h
  all_goals first
    | (simp only [AttribKey.bit.injEq] at h; subst h; decide)
    | (exact absurd h (by simp))

theorem or_lt_128 (a b : Nat) (ha : a < 128) (hb : b < 128) : a ||| b < 128 :=
  Nat.or_lt_two_pow (n := 7) ha hb

theorem ParseAttributes_loop_mask :
    ∀ (fuel : Nat) (curr : List Nat) (p : APrimitive) (ptr : CharPtr) (q : APrimitive),
      p.attributes < 128 → ParseAttributes_loop fuel curr p = .ok (ptr, q) →
      q.attributes < 128 := by
  intro fuel
  induction fuel with
  | zero => intro curr p ptr q _ h; simp [ParseAttributes_loop] at h
  | succ fuel ih =>
    intro curr p ptr q hp h
    simp only [ParseAttributes_loop] at h
    split at h
    · simp at h
    · simp only [Except.ok.injEq, Prod.mk.injEq] at h
      rw [← h.2]; exact hp
    · split at h
      · simp at h
      · split at h
        · simp only [Except.ok.injEq, Prod.mk.injEq] at h
          rw [← h.2]; exact hp
        · split at h
          · simp at h
          · exact ih _ _ _ _ hp h
        · rename_i b hb
          split at h
          · simp at h
          · split at h
            · simp at h
            · split at h
              · simp at h
              · refine ih _ _ _ _ ?_ h
                exact or_lt_128 _ _ hp (ParseAttributes_key_bit _ _ hb)

theorem ParseMeshes_scanPrimitives_inv :
    ∀ (curr : List Nat) (p : APrimitive) (m : AMesh) (closed : Bool) (curr1 : List Nat)
      (p1 : APrimitive) (m1 : AMesh),
      p.attributes < 128 → MeshOK m →
      ParseMeshes_scanPrimitives curr p m = .ok (closed, curr1, p1, m1) →
      p1.attributes < 128 ∧ MeshOK m1 := by
  intro curr
  induction curr with
  | nil => intro p m closed curr1 p1 m1 _ _ h; simp [ParseMeshes_scanPrimitives] at h
  | cons c cs ih =>
    intro p m closed curr1 p1 m1 hp hm h
    simp only [ParseMeshes_scanPrimitives] at h
    have hm1 : MeshOK (if c = 125 then
        { m with primitives := m.primitives ++ [p],
                 numPrimitives := wrapInt32 (m.numPrimitives + 1) } else m) := by
      split
      · refine ⟨?_, ?_⟩
        · simp only [List.length_append, List.length_singleton, Nat.cast_add, Nat.cast_one]
          rw [hm.1, wrapInt32_wrap_add]
        · intro x hx
          simp only [List.mem_append, List.mem_singleton] at hx
          rcases hx with hx | rfl
          · exact hm.2 x hx
          · exact hp
      · exact hm
    have hp1 : (if c = 125 then ({ material := -1 } : APrimitive) else p).attributes < 128 := by
      split
      · decide
      · exact hp
    split at h
    · simp only [Except.ok.injEq, Prod.mk.injEq] at h
      obtain ⟨_, _, rfl, rfl⟩ := h
      exact ⟨hp, hm⟩
    · split at h
      · simp only [Except.ok.injEq, Prod.mk.injEq] at h
        obtain ⟨_, _, rfl, rfl⟩ := h
        exact ⟨hp1, hm1⟩
      · exact ih _ _ _ _ _ _ hp1 hm1 h

theorem ParseMeshes_primitives_inv (fuelA : Nat) :
    ∀ (fuel : Nat) (curr : List Nat) (p : APrimitive) (m : AMesh) (ptr : CharPtr) (m1 : AMesh),
      p.attributes < 128 → MeshOK m →
      ParseMeshes_primitives fuelA fuel curr p m = .ok (ptr, m1) → MeshOK m1 := by
  intro fuel
  induction fuel with
  | zero => intro curr p m ptr m1 _ _ h; simp [ParseMeshes_primitives] at h
  | succ fuel ih =>
    intro curr p m ptr m1 hp hm h
    simp only [ParseMeshes_primitives, bind, Except.bind] at h
    cases hs : ParseMeshes_scanPrimitives curr p m with
    | error f => rw [hs] at h; simp at h
    | ok r =>
      obtain ⟨closed, curr1, p1, m2⟩ := r
      obtain ⟨hp1, hm2⟩ := ParseMeshes_scanPrimitives_inv _ _ _ _ _ _ _ hp hm hs
      rw [hs] at h
      simp only at h
      split at h
      · simp only [Except.ok.injEq, Prod.mk.injEq] at h
        rw [← h.2]; exact hm2
      · cases hk : keyCursor curr1.tail with
        | error f => rw [hk] at h; simp at h
        | ok curr2 =>
          rw [hk] at h
          simp only at h
          split at h
          · cases ha : ParseAttributes fuelA curr2 p1 with
            | error f => rw [ha] at h; simp at h
            | ok r2 =>
              obtain ⟨ptr2, p2⟩ := r2
              rw [ha] at h
              simp only at h
              have hp2 : p2.attributes < 128 := ParseAttributes_loop_mask _ _ _ _ _ hp1 ha
              cases hd : ptr2.deref with
              | error f => rw [hd] at h; simp at h
              | ok curr3 =>
                rw [hd] at h
                exact ih _ _ _ _ _ hp2 hm2 h
          · split at h
            · cases hn : ParsePositiveNumber curr2 with
              | error f => rw [hn] at h; simp at h
              | ok r2 =>
                rw [hn] at h
                simp only at h
                refine ih _ _ _ _ _ ?_ hm2 h
                exact hp1
            · split at h
              · cases hn : ParsePositiveNumber curr2 with
                | error f => rw [hn] at h; simp at h
                | ok r2 =>
                  rw [hn] at h
                  simp only at h
                  refine ih _ _ _ _ _ ?_ hm2 h
                  exact hp1
              · split at h
                · cases hn : ParsePositiveNumber curr2 with
                  | error f => rw [hn] at h; simp at h
                  | ok r2 =>
                    rw [hn] at h
                    simp only at h
                    refine ih _ _ _ _ _ ?_ hm2 h
                    exact hp1
                · simp only [Except.ok.injEq, Prod.mk.injEq] at h
                  rw [← h.2]; exact hm2

theorem scanRecords_inv {α : Type} (P : α → Prop) (checkNul : Bool) (reset : α)
    (hreset : P reset) :
    ∀ (curr : List Nat) (rec : α) (arr : List α) (r : Scan α),
      P rec → (∀ x ∈ arr, P x) → scanRecords checkNul reset curr rec arr = .ok r →
      match r with
      | .closed _ rec1 arr1 => P rec1 ∧ ∀ x ∈ arr1, P x
      | .key _ rec1 arr1 => P rec1 ∧ ∀ x ∈ arr1, P x := by
  intro curr
  induction curr with
  | nil => intro rec arr r _ _ h; simp [scanRecords] at h
  | cons c cs ih =>
    intro rec arr r hrec harr h
    simp only [scanRecords] at h
    have h1 : P (if c = 125 then reset else rec) := by split <;> assumption
    have h2 : ∀ x ∈ (if c = 125 then arr ++ [rec] else arr), P x := by
      split
      · intro x hx
        simp only [List.mem_append, List.mem_singleton] at hx
        rcases hx with hx | rfl
        · exact harr x hx
        · exact hrec
      · exact harr
    split at h
    · simp only [Except.ok.injEq] at h
      subst h
      exact ⟨hrec, harr⟩
    · split at h
      · simp only [Except.ok.injEq] at h
        subst h
        exact ⟨h1, h2⟩
      · exact ih _ _ _ h1 h2 h

theorem ParseMeshes_loop_inv (fuelA : Nat) :
    ∀ (fuel : Nat) (curr : List Nat) (m : AMesh) (meshes : List AMesh) (ptr : CharPtr)
      (meshes1 : List AMesh),
      MeshOK m → (∀ x ∈ meshes, MeshOK x) →
      ParseMeshes_loop fuelA fuel curr m meshes = .ok (ptr, meshes1) →
      ∀ x ∈ meshes1, MeshOK x := by
  have hzero : MeshOK {} := ⟨by decide, by intro p hp; simp at hp⟩
  intro fuel
  induction fuel with
  | zero => intro curr m meshes ptr meshes1 _ _ h; simp [ParseMeshes_loop] at h
  | succ fuel ih =>
    intro curr m meshes ptr meshes1 hm hms h
    simp only [ParseMeshes_loop, bind, Except.bind] at h
    cases hs : scanRecords false ({} : AMesh) curr m meshes with
    | error f => rw [hs] at h; simp at h
    | ok r =>
      have hinv := scanRecords_inv MeshOK false {} hzero _ _ _ _ hm hms hs
      rw [hs] at h
      cases r with
      | closed c1 m1 ms1 =>
        simp only [Except.ok.injEq, Prod.mk.injEq] at h
        rw [← h.2]; exact hinv.2
      | key c1 m1 ms1 =>
        simp only at h hinv
        cases hg : GetStringInQuotes 64 c1 with
        | error f => rw [hg] at h; simp at h
        | ok r2 =>
          obtain ⟨key, c2⟩ := r2
          rw [hg] at h
          simp only at h
          split at h
          · cases hc : CopyStringInQuotes c2 with
            | error f => rw [hc] at h; simp at h
            | ok r3 =>
              rw [hc] at h
              simp only at h
              refine ih _ _ _ _ _ ?_ hinv.2 h
              exact ⟨hinv.1.1, hinv.1.2⟩
          · split at h
            · simp only [Except.ok.injEq, Prod.mk.injEq] at h
              rw [← h.2]; exact hinv.2
            · cases hp : ParseMeshes_primitives fuelA fuelA c2 { material := -1 } m1 with
              | error f => rw [hp] at h; simp at h
              | ok r3 =>
                obtain ⟨ptr3, m3⟩ := r3
                have hm3 := ParseMeshes_primitives_inv fuelA _ _ _ _ _ _ (by decide) hinv.1 hp
                rw [hp] at h
                cases ptr3 with
                | sentinel e =>
                  simp only [Except.ok.injEq, Prod.mk.injEq] at h
                  rw [← h.2]; exact hinv.2
                | cur c3 => exact ih _ _ _ _ _ hm3 hinv.2 h

theorem ParseMeshes_inv (fuel : Nat) (curr : List Nat) (meshes : List AMesh) (ptr : CharPtr)
    (meshes1 : List AMesh) (hms : ∀ x ∈ meshes, MeshOK x)
    (h : ParseMeshes fuel curr meshes = .ok (ptr, meshes1)) : ∀ x ∈ meshes1, MeshOK x :=
  ParseMeshes_loop_inv fuel fuel _ _ _ _ _ ⟨by decide, by intro p hp; simp at hp⟩ hms h

theorem parsedSection_inv {β : Type} (r : Except Fault (CharPtr × β))
    (update : β → ParseState) (ptr : CharPtr) (st1 : ParseState)
    (hu : ∀ p a, r = .ok (p, a) → StateOK (update a))
    (h : parsedSection r update = .ok (ptr, st1)) : StateOK st1 := by
  cases r with
  | error f => simp [parsedSection] at h
  | ok v =>
    obtain ⟨p, a⟩ := v
    simp only [parsedSection, Except.ok.injEq, Prod.mk.injEq] at h
    rw [← h.2]
    exact hu p a rfl

theorem ParseGLTF_dispatch_inv (env : Env) (fuel : Nat) (path : List Nat) (scale : Float32)
    (curr : List Nat) (st st1 : ParseState) (ptr : CharPtr) (hst : StateOK st)
    (h : ParseGLTF_dispatch env fuel path scale curr st = .ok (ptr, st1)) : StateOK st1 := by
  unfold ParseGLTF_dispatch at h
  by_cases h_accessors : StrCMP16 curr "accessors" = true
  · rw [if_pos h_accessors] at h
    refine parsedSection_inv _ _ _ _ ?_ h
    intro _ _ _
    exact hst
  rw [if_neg h_accessors] at h
  by_cases h_scenes : StrCMP16 curr "scenes" = true
  · rw [if_pos h_scenes] at h
    refine parsedSection_inv _ _ _ _ ?_ h
    intro _ _ _
    exact hst
  rw [if_neg h_scenes] at h
  by_cases h_scene : StrCMP16 curr "scene" = true
  · rw [if_pos h_scene] at h
    refine parsedSection_inv _ _ _ _ ?_ h
    intro _ _ _
    exact hst
  rw [if_neg h_scene] at h
  by_cases h_bufferViews : StrCMP16 curr "bufferViews" = true
  · rw [if_pos h_bufferViews] at h
    refine parsedSection_inv _ _ _ _ ?_ h
    intro _ _ _
    exact hst
  rw [if_neg h_bufferViews] at h
  by_cases h_buffers : StrCMP16 curr "buffers" = true
  · rw [if_pos h_buffers] at h
    refine parsedSection_inv _ _ _ _ ?_ h
    intro _ _ _
    exact hst
  rw [if_neg h_buffers] at h
  by_cases h_images : StrCMP16 curr "images" = true
  · rw [if_pos h_images] at h
    refine parsedSection_inv _ _ _ _ ?_ h
    intro _ _ _
    exact hst
  rw [if_neg h_images] at h
  by_cases h_textures : StrCMP16 curr "textures" = true
  · rw [if_pos h_textures] at h
    refine parsedSection_inv _ _ _ _ ?_ h
    intro _ _ _
    exact hst
  rw [if_neg h_textures] at h
  by_cases h_meshes : StrCMP16 curr "meshes" = true
  · rw [if_pos h_meshes] at h
    refine parsedSection_inv _ _ _ _ ?_ h
    intro p a hr
    exact ParseMeshes_inv _ _ _ _ _ hst hr
  rw [if_neg h_meshes] at h
  by_cases h_materials : StrCMP16 curr "materials" = true
  · rw [if_pos h_materials] at h
    refine parsedSection_inv _ _ _ _ ?_ h
    intro _ _ _
    exact hst
  rw [if_neg h_materials] at h
  by_cases h_nodes : StrCMP16 curr "nodes" = true
  · rw [if_pos h_nodes] at h
    refine parsedSection_inv _ _ _ _ ?_ h
    intro _ _ _
    exact hst
  rw [if_neg h_nodes] at h
  by_cases h_samplers : StrCMP16 curr "samplers" = true
  · rw [if_pos h_samplers] at h
    refine parsedSection_inv _ _ _ _ ?_ h
    intro _ _ _
    exact hst
  rw [if_neg h_samplers] at h
  by_cases h_cameras : StrCMP16 curr "cameras" = true
  · rw [if_pos h_cameras] at h
    refine parsedSection_inv _ _ _ _ ?_ h
    intro _ _ _
    exact hst
  rw [if_neg h_cameras] at h
  by_cases h_skins : StrCMP16 curr "skins" = true
  · rw [if_pos h_skins] at h
    refine parsedSection_inv _ _ _ _ ?_ h
    intro _ _ _
    exact hst
  rw [if_neg h_skins] at h
  by_cases h_animations : StrCMP16 curr "animations" = true
  · rw [if_pos h_animations] at h
    refine parsedSection_inv _ _ _ _ ?_ h
    intro _ _ _
    exact hst
  rw [if_neg h_animations] at h
  by_cases h_asset : StrCMP16 curr "asset" = true
  · rw [if_pos h_asset] at h
    refine parsedSection_inv _ _ _ _ ?_ h
    intro _ _ _
    exact hst
  rw [if_neg h_asset] at h
  split at h
  · refine parsedSection_inv _ _ _ _ ?_ h
    intro _ _ _
    exact hst
  · simp only [Except.ok.injEq, Prod.mk.injEq] at h
    rw [← h.2]
    exact hst

theorem ParseGLTF_step_inv (env : Env) (fuel : Nat) (path : List Nat) (scale : Float32)
    (curr : List Nat) (st : ParseState) (r : Step) (hst : StateOK st)
    (h : ParseGLTF_step env fuel path scale curr st = .ok r) :
    match r with
    | .done st1 => StateOK st1
    | .failed _ st1 => StateOK st1
    | .next _ st1 => StateOK st1 := by
  unfold ParseGLTF_step at h
  repeat' split at h
  all_goals first
    | (simp only [Except.ok.injEq] at h
       subst h
       first
         | exact hst
         | (rename_i hd; exact ParseGLTF_dispatch_inv _ _ _ _ _ _ _ _ hst hd))
    | (simp at h)

theorem ParseGLTF_loop_inv (env : Env) (fuelA : Nat) (path : List Nat) (scale : Float32) :
    ∀ (fuel : Nat) (curr : List Nat) (st st1 : ParseState) (e : Option AErrorType),
      StateOK st → ParseGLTF_loop env fuelA path scale fuel curr st = .ok (e, st1) →
      StateOK st1 := by
  intro fuel
  induction fuel with
  | zero => intro curr st st1 e _ h; simp [ParseGLTF_loop] at h
  | succ fuel ih =>
    intro curr st st1 e hst h
    simp only [ParseGLTF_loop] at h
    cases hs : ParseGLTF_step env fuelA path scale curr st with
    | error f => rw [hs] at h; simp at h
    | ok r =>
      have hinv := ParseGLTF_step_inv _ _ _ _ _ _ _ hst hs
      rw [hs] at h
      cases r with
      | done s =>
        simp only [Except.ok.injEq, Prod.mk.injEq] at h
        rw [← h.2]; exact hinv
      | failed e1 s =>
        simp only [Except.ok.injEq, Prod.mk.injEq] at h
        rw [← h.2]; exact hinv
      | next c s => exact ih _ _ _ _ hinv h

/-- A successful `ParseGLTF` is a dispatch loop that ends without an error in a state
whose meshes are as `ParseMeshes` builds them, followed by the resolver. -/
theorem ParseGLTF_source_ok (env : Env) (path : List Nat) (scale : Float32)
    (source : List Nat) (b : SceneBundle)
    (h : ParseGLTF_source env path scale source = .ok (1, b)) :
    ∃ st, ParseGLTF_loop env (source.length + 1) path scale (source.length + 1) source {} =
        .ok (none, st) ∧ StateOK st ∧ ParseGLTF_finish scale st = .ok b := by
  unfold ParseGLTF_source at h
  split at h
  · simp at h
  · simp at h
  · rename_i st hl
    have hst := ParseGLTF_loop_inv _ _ _ _ _ _ _ _ _ (by intro m hm; simp at hm) hl
    split at h
    · simp at h
    · rename_i b1 hf
      simp only [Except.ok.injEq, Prod.mk.injEq, true_and] at h
      subst h
      exact ⟨st, hl, hst, hf⟩

theorem resolvePrimitives_forall2 (accessors : List GLTFAccessor)
    (bufferViews : List GLTFBufferView) (buffers : List GLTFBuffer) :
    ∀ (ps qs : List APrimitive), resolvePrimitives accessors bufferViews buffers ps = .ok qs →
      List.Forall₂ (fun p q => resolvePrimitive accessors bufferViews buffers p = .ok q) ps qs := by
  intro ps
  induction ps with
  | nil =>
    intro qs h
    simp only [resolvePrimitives, Except.ok.injEq] at h
    subst h
    exact List.Forall₂.nil
  | cons p ps ih =>
    intro qs h
    simp only [resolvePrimitives] at h
    cases h1 : resolvePrimitive accessors bufferViews buffers p with
    | error f => rw [h1] at h; simp at h
    | ok q =>
      rw [h1] at h
      simp only at h
      cases h2 : resolvePrimitives accessors bufferViews buffers ps with
      | error f => rw [h2] at h; simp at h
      | ok qs1 =>
        rw [h2] at h
        simp only [Except.ok.injEq] at h
        subst h
        exact List.Forall₂.cons h1 (ih _ h2)

theorem resolveMeshes_forall2 (accessors : List GLTFAccessor)
    (bufferViews : List GLTFBufferView) (buffers : List GLTFBuffer) :
    ∀ (ms ms1 : List AMesh), resolveMeshes accessors bufferViews buffers ms = .ok ms1 →
      List.Forall₂ (fun m m1 =>
        resolvePrimitives accessors bufferViews buffers m.primitives = .ok m1.primitives ∧
        m1.numPrimitives = m.numPrimitives) ms ms1 := by
  intro ms
  induction ms with
  | nil =>
    intro ms1 h
    simp only [resolveMeshes, Except.ok.injEq] at h
    subst h
    exact List.Forall₂.nil
  | cons m ms ih =>
    intro ms1 h
    simp only [resolveMeshes] at h
    cases h1 : resolvePrimitives accessors bufferViews buffers m.primitives with
    | error f => rw [h1] at h; simp at h
    | ok ps =>
      rw [h1] at h
      simp only at h
      cases h2 : resolveMeshes accessors bufferViews buffers ms with
      | error f => rw [h2] at h; simp at h
      | ok ms2 =>
        rw [h2] at h
        simp only [Except.ok.injEq] at h
        subst h
        exact List.Forall₂.cons ⟨h1, rfl⟩ (ih _ h2)

theorem resolvePrimitives_fuel (accessors : List GLTFAccessor)
    (bufferViews : List GLTFBufferView) (buffers : List GLTFBuffer) :
    ∀ (ps : List APrimitive), (∀ p ∈ ps, p.attributes < 128) →
      resolvePrimitives accessors bufferViews buffers ps ≠ .error .outOfFuel := by
  intro ps
  induction ps with
  | nil => intro _; simp [resolvePrimitives]
  | cons p ps ih =>
    intro hm
    simp only [resolvePrimitives]
    cases h1 : resolvePrimitive accessors bufferViews buffers p with
    | error f =>
      simp only
      intro hf
      simp only [Except.error.injEq] at hf
      subst hf
      exact resolvePrimitive_fuel _ _ _ _ (hm p (List.mem_cons_self _ _)) h1
    | ok q =>
      simp only
      cases h2 : resolvePrimitives accessors bufferViews buffers ps with
      | error f =>
        simp only
        intro hf
        simp only [Except.error.injEq] at hf
        subst hf
        exact ih (fun x hx => hm x (List.mem_cons_of_mem _ hx)) h2
      | ok qs => simp

theorem resolveMeshes_fuel (accessors : List GLTFAccessor)
    (bufferViews : List GLTFBufferView) (buffers : List GLTFBuffer) :
    ∀ (ms : List AMesh), (∀ m ∈ ms, ∀ p ∈ m.primitives, p.attributes < 128) →
      resolveMeshes accessors bufferViews buffers ms ≠ .error .outOfFuel := by
  intro ms
  induction ms with
  | nil => intro _; simp [resolveMeshes]
  | cons m ms ih =>
    intro hm
    simp only [resolveMeshes]
    cases h1 : resolvePrimitives accessors bufferViews buffers m.primitives with
    | error f =>
      simp only
      intro hf
      simp only [Except.error.injEq] at hf
      subst hf
      exact resolvePrimitives_fuel _ _ _ _ (hm m (List.mem_cons_self _ _)) h1
    | ok q =>
      simp only
      cases h2 : resolveMeshes accessors bufferViews buffers ms with
      | error f =>
        simp only
        intro hf
        simp only [Except.error.injEq] at hf
        subst hf
        exact ih (fun x hx => hm x (List.mem_cons_of_mem _ hx)) h2
      | ok qs => simp

theorem resolvePrimitives_resolved (accessors : List GLTFAccessor)
    (bufferViews : List GLTFBufferView) (buffers : List GLTFBuffer)
    (ps qs : List APrimitive)
    (h : List.Forall₂ (fun p q => resolvePrimitive accessors bufferViews buffers p = .ok q)
      ps qs) :
    (∀ p ∈ ps, p.attributes < 128) →
      List.Forall₂ (PrimitiveResolved accessors bufferViews buffers) ps qs := by
  induction h with
  | nil => intro _; exact List.Forall₂.nil
  | @cons p q ps qs hp _ ih =>
    intro hmp
    exact List.Forall₂.cons
      (resolvePrimitive_resolved _ _ _ _ _ (hmp _ (List.mem_cons_self _ _)) hp)
      (ih (fun x hx => hmp x (List.mem_cons_of_mem _ hx)))

theorem resolveMeshes_resolved_aux (accessors : List GLTFAccessor)
    (bufferViews : List GLTFBufferView) (buffers : List GLTFBuffer)
    (ms ms1 : List AMesh)
    (h : List.Forall₂ (fun m m1 =>
        resolvePrimitives accessors bufferViews buffers m.primitives = .ok m1.primitives ∧
        m1.numPrimitives = m.numPrimitives) ms ms1) :
    (∀ m ∈ ms, ∀ p ∈ m.primitives, p.attributes < 128) →
      List.Forall₂ (fun m m1 =>
        List.Forall₂ (PrimitiveResolved accessors bufferViews buffers) m.primitives
          m1.primitives) ms ms1 := by
  induction h with
  | nil => intro _; exact List.Forall₂.nil
  | @cons m m1 l l1 hhead _ ih =>
    intro hm
    refine List.Forall₂.cons ?_ (ih (fun x hx => hm x (List.mem_cons_of_mem _ hx)))
    exact resolvePrimitives_resolved _ _ _ _ _ (resolvePrimitives_forall2 _ _ _ _ _ hhead.1)
      (hm m (List.mem_cons_self _ _))

/-- C3: the mesh pass of the resolver, on meshes whose attribute masks are below
`2 ^ 7` (as every parsed mask is), ends within its fuel, and when it returns, every
primitive `q` it made from a parsed primitive `p` has `indices` at byte offset
`view.byteOffset + accessor.byteOffset` of buffer `view.buffer`, for
`accessor = accessors[p.indiceIndex]` and `view = bufferViews[accessor.bufferView]`,
`indexType = accessor.componentType` and `numIndices = accessor.count`; and each resolved
attribute slot holds the address given by the same formula for the accessor index that
slot held. -/
theorem resolveMeshes_resolved (accessors : List GLTFAccessor)
    (bufferViews : List GLTFBufferView) (buffers : List GLTFBuffer) (meshes : List AMesh)
    (hmask : ∀ m ∈ meshes, ∀ p ∈ m.primitives, p.attributes < 128) :
    resolveMeshes accessors bufferViews buffers meshes ≠ .error .outOfFuel ∧
    ∀ meshes1, resolveMeshes accessors bufferViews buffers meshes = .ok meshes1 →
      List.Forall₂ (fun m m1 =>
        List.Forall₂ (PrimitiveResolved accessors bufferViews buffers) m.primitives
          m1.primitives) meshes meshes1 := by
  refine ⟨resolveMeshes_fuel _ _ _ _ hmask, ?_⟩
  intro meshes1 h
  exact resolveMeshes_resolved_aux _ _ _ _ _ (resolveMeshes_forall2 _ _ _ _ _ h) hmask

theorem ParseGLTF_finish_ok (scale : Float32) (st : ParseState) (b : SceneBundle)
    (h : ParseGLTF_finish scale st = .ok b) :
    resolveMeshes st.accessors st.bufferViews st.buffers st.meshes = .ok b.meshes ∧
    resolveSkins st.accessors st.bufferViews st.buffers st.skins = .ok b.skins ∧
    resolveAnimations st.accessors st.bufferViews st.buffers st.animations =
      .ok b.animations ∧
    totalsMeshes b.meshes (0, 0) = .ok (b.totalIndices, b.totalVertices) ∧
    b.buffers = st.buffers ∧ b.error = .NONE := by
  unfold ParseGLTF_finish at h
  cases h1 : resolveMeshes st.accessors st.bufferViews st.buffers st.meshes with
  | error f => rw [h1] at h; simp [bind, Except.bind] at h
  | ok meshes =>
    cases h2 : resolveSkins st.accessors st.bufferViews st.buffers st.skins with
    | error f => rw [h1, h2] at h; simp [bind, Except.bind] at h
    | ok skins =>
      cases h3 : resolveAnimations st.accessors st.bufferViews st.buffers st.animations with
      | error f => rw [h1, h2, h3] at h; simp [bind, Except.bind] at h
      | ok animations =>
        cases h4 : totalsMeshes meshes (0, 0) with
        | error f =>
          rw [h1, h2, h3] at h
          simp only [bind, Except.bind] at h
          rw [h4] at h
          cases h
        | ok t =>
          obtain ⟨ti, tv⟩ := t
          rw [h1, h2, h3] at h
          simp only [bind, Except.bind] at h
          rw [h4] at h
          simp only [Except.ok.injEq] at h
          subst h
          exact ⟨rfl, rfl, rfl, h4, rfl, rfl⟩

theorem wrapInt32_zero : wrapInt32 0 = 0 := by decide

theorem totalsPrimitives_eq : ∀ (ps : List APrimitive) (a : Int × Int),
    totalsPrimitives ps.length ps (wrapInt32 a.1, wrapInt32 a.2) =
      .ok (wrapInt32 (a.1 + (ps.map (fun p => p.numIndices)).sum),
           wrapInt32 (a.2 + (ps.map (fun p => p.numVertices)).sum)) := by
  intro ps
  induction ps with
  | nil => intro a; simp [totalsPrimitives]
  | cons p ps ih =>
    intro a
    simp only [List.length_cons, totalsPrimitives, List.map_cons, List.sum_cons]
    rw [wrapInt32_wrap_add, wrapInt32_wrap_add]
    have := ih (a.1 + p.numIndices, a.2 + p.numVertices)
    simp only at this
    rw [this, add_assoc, add_assoc]

theorem totalsMeshes_eq : ∀ (ms : List AMesh) (a : Int × Int),
    (∀ m ∈ ms, m.numPrimitives.toNat = m.primitives.length) →
    totalsMeshes ms (wrapInt32 a.1, wrapInt32 a.2) =
      .ok (wrapInt32 (a.1 + (ms.map (fun m => (m.primitives.map (fun p => p.numIndices)).sum)).sum),
           wrapInt32
             (a.2 + (ms.map (fun m => (m.primitives.map (fun p => p.numVertices)).sum)).sum)) := by
  intro ms
  induction ms with
  | nil => intro a _; simp [totalsMeshes]
  | cons m ms ih =>
    intro a hn
    simp only [totalsMeshes, List.map_cons, List.sum_cons]
    rw [hn m (List.mem_cons_self _ _), totalsPrimitives_eq]
    simp only
    have := ih (a.1 + (m.primitives.map (fun p => p.numIndices)).sum,
      a.2 + (m.primitives.map (fun p => p.numVertices)).sum)
      (fun x hx => hn x (List.mem_cons_of_mem _ hx))
    simp only at this
    rw [this, add_assoc, add_assoc]

theorem wrapInt32_of_range (x : Int) (h0 : -2147483648 ≤ x) (h1 : x < 2147483648) :
    wrapInt32 x = x := by
  unfold wrapInt32
  omega

theorem resolvePrimitives_length (accessors : List GLTFAccessor)
    (bufferViews : List GLTFBufferView) (buffers : List GLTFBuffer)
    (ps qs : List APrimitive)
    (h : resolvePrimitives accessors bufferViews buffers ps = .ok qs) :
    qs.length = ps.length :=
  (List.Forall₂.length_eq (resolvePrimitives_forall2 _ _ _ _ _ h)).symm

/-- The meshes of a bundle that `ParseGLTF` returned with 1 keep the parsed primitive
count, and it is the wrapped number of their primitives. -/
theorem ParseGLTF_source_numPrimitives (env : Env) (path : List Nat) (scale : Float32)
    (source : List Nat) (b : SceneBundle)
    (h : ParseGLTF_source env path scale source = .ok (1, b)) :
    ∀ m ∈ b.meshes, m.numPrimitives = wrapInt32 m.primitives.length := by
  obtain ⟨st, _, hst, hfin⟩ := ParseGLTF_source_ok env path scale source b h
  obtain ⟨hm, _⟩ := ParseGLTF_finish_ok _ _ _ hfin
  have hf := resolveMeshes_forall2 _ _ _ _ _ hm
  have hst1 : ∀ m ∈ st.meshes, m.numPrimitives = wrapInt32 m.primitives.length :=
    fun m hmem => (hst m hmem).1
  revert hst1
  generalize st.meshes = ms at hf
  generalize b.meshes = ms1 at hf
  induction hf with
  | nil => intro _ m hm; simp at hm
  | @cons m m1 l l1 hhead _ ih =>
    intro hst1 x hx
    rcases List.mem_cons.1 hx with rfl | hx
    · rw [hhead.2, hst1 m (List.mem_cons_self _ _),
        resolvePrimitives_length _ _ _ _ _ hhead.1]
    · exact ih (fun y hy => hst1 y (List.mem_cons_of_mem _ hy)) x hx

theorem resolvePrimitive_counts (accessors : List GLTFAccessor)
    (bufferViews : List GLTFBufferView) (buffers : List GLTFBuffer) (p q : APrimitive)
    (h : resolvePrimitive accessors bufferViews buffers p = .ok q) :
    CountsResolved accessors p q := by
  obtain ⟨i0, a0, accessor, view, indices, slots, h0, h1, h2, _, e1, e2, _⟩ :=
    resolvePrimitive_ok _ _ _ _ _ h
  exact ⟨i0, a0, accessor, h0, h1, e1, (resolveAccessor_ok _ _ _ _ _ _ _ h2).1, e2⟩

/-- C4 (amended): on every parse that returns 1, with fewer than `2 ^ 31` primitives in
each mesh, `totalVertices` is the sum over all primitives of all meshes of `numVertices`
and `totalIndices` the sum of `numIndices`, both reduced to the 32-bit `int` the totals are
accumulated in, hence equal to the sums whenever these fit an `int`; and `numVertices` is
the count of the accessor in the Position slot, `numIndices` the count of the indices
accessor. -/
theorem ParseGLTF_totals (env : Env) (path : List Nat) (scale : Float32)
    (source : List Nat) (b : SceneBundle)
    (h : ParseGLTF_source env path scale source = .ok (1, b))
    (hlen : ∀ m ∈ b.meshes, m.primitives.length < 2147483648) :
    b.totalVertices =
      wrapInt32 (b.meshes.map (fun m => (m.primitives.map (fun p => p.numVertices)).sum)).sum ∧
    b.totalIndices =
      wrapInt32 (b.meshes.map (fun m => (m.primitives.map (fun p => p.numIndices)).sum)).sum ∧
    (-2147483648 ≤ (b.meshes.map (fun m => (m.primitives.map (fun p => p.numVertices)).sum)).sum ∧
      (b.meshes.map (fun m => (m.primitives.map (fun p => p.numVertices)).sum)).sum < 2147483648 →
      b.totalVertices =
        (b.meshes.map (fun m => (m.primitives.map (fun p => p.numVertices)).sum)).sum) ∧
    (-2147483648 ≤ (b.meshes.map (fun m => (m.primitives.map (fun p => p.numIndices)).sum)).sum ∧
      (b.meshes.map (fun m => (m.primitives.map (fun p => p.numIndices)).sum)).sum < 2147483648 →
      b.totalIndices =
        (b.meshes.map (fun m => (m.primitives.map (fun p => p.numIndices)).sum)).sum) ∧
    ∃ st, ParseGLTF_loop env (source.length + 1) path scale (source.length + 1) source {} =
        .ok (none, st) ∧
      List.Forall₂ (fun m m1 =>
        List.Forall₂ (CountsResolved st.accessors) m.primitives m1.primitives)
        st.meshes b.meshes := by
  have hnum := ParseGLTF_source_numPrimitives env path scale source b h
  obtain ⟨st, hloop, hst, hfin⟩ := ParseGLTF_source_ok env path scale source b h
  obtain ⟨hm, _, _, htot, _⟩ := ParseGLTF_finish_ok _ _ _ hfin
  have hcount : ∀ m ∈ b.meshes, m.numPrimitives.toNat = m.primitives.length := by
    intro m hmem
    rw [hnum m hmem, wrapInt32_of_range _ (by omega) (by have := hlen m hmem; omega)]
    simp
  have ht := totalsMeshes_eq b.meshes (0, 0) hcount
  simp only [wrapInt32_zero, zero_add] at ht
  rw [htot] at ht
  simp only [Except.ok.injEq, Prod.mk.injEq] at ht
  refine ⟨ht.2, ht.1, ?_, ?_, st, hloop, ?_⟩
  · intro hr
    rw [ht.2, wrapInt32_of_range _ hr.1 hr.2]
  · intro hr
    rw [ht.1, wrapInt32_of_range _ hr.1 hr.2]
  · refine List.Forall₂.imp ?_ (resolveMeshes_forall2 _ _ _ _ _ hm)
    intro m m1 hmm
    exact List.Forall₂.imp (fun p q hpq => resolvePrimitive_counts _ _ _ _ _ hpq)
      (resolvePrimitives_forall2 _ _ _ _ _ hmm.1)

theorem foldl_or_testBit (i : Nat) : ∀ (l : List Nat) (acc : Nat),
    (acc.testBit i = true ∨ ∃ x ∈ l, x.testBit i = true) →
    (l.foldl (· ||| ·) acc).testBit i = true := by
  intro l
  induction l with
  | nil =>
    intro acc h
    rcases h with h | ⟨x, hx, _⟩
    · exact h
    · simp at hx
  | cons y l ih =>
    intro acc h
    simp only [List.foldl_cons]
    apply ih
    rcases h with h | ⟨x, hx, hb⟩
    · left; simp [Nat.testBit_or, h]
    · rcases List.mem_cons.1 hx with rfl | hx
      · left; simp [Nat.testBit_or, hb]
      · right; exact ⟨x, hx, hb⟩

theorem bit_testBit (n : AttribName) : n.bit.testBit (TrailingZeroCount32 n.bit) = true := by
  cases n <;> decide

theorem foldl_or_lt_128 : ∀ (l : List Nat) (acc : Nat), acc < 128 → (∀ x ∈ l, x < 128) →
    l.foldl (· ||| ·) acc < 128 := by
  intro l
  induction l with
  | nil => intro acc h _; exact h
  | cons y l ih =>
    intro acc h hl
    simp only [List.foldl_cons]
    exact ih _ (or_lt_128 _ _ h (hl y (List.mem_cons_self _ _)))
      (fun x hx => hl x (List.mem_cons_of_mem _ hx))

set_option maxRecDepth 1000000 in
theorem popcount_below (n : AttribName) : ∀ mask < 128,
    (popcount (mask &&& (n.bit - 1)) = TrailingZeroCount32 n.bit ↔
      mask &&& (n.bit - 1) = n.bit - 1) := by
  cases n <;> decide

/-- C7 (amended): for an `attributes` object with distinct known keys, parsed into a
primitive whose mask was below `2 ^ 7` and had none of their bits, each key's bit `b` is
set in the mask and its accessor index is held by the slot
`vertexAttribs[TrailingZeroCount32(b)]`, the position of the bit, which is the slot
`popcount(attributes & (b - 1))` exactly when every lower bit is set as well; and when the
resolver has run on the primitive, that same slot holds the address computed from that
accessor. -/
theorem ParseAttributes_slot_of_bit (fuel : Nat) (hdr : List Nat)
    (es : List AttribEntry) (close rest : List Nat) (p : APrimitive)
    (accessors : List GLTFAccessor) (bufferViews : List GLTFBufferView)
    (buffers : List GLTFBuffer)
    (hhdr : hdr.length = 12) (hwf : ∀ e ∈ es, e.WellFormed) (hclose : SepOK close)
    (hnodup : (es.map (fun e => e.name)).Nodup)
    (hfresh : ∀ e ∈ es, p.attributes &&& e.name.bit = 0) (hmask : p.attributes < 128)
    (hlen : p.vertexAttribs.length = 7) (hfuel : es.length < fuel) :
    ∃ q : APrimitive,
      ParseAttributes fuel (attributesText hdr es close rest) p = .ok (.cur rest, q) ∧
      ∀ e ∈ es,
        q.attributes.testBit (TrailingZeroCount32 e.name.bit) = true ∧
        q.vertexAttribs.get? (TrailingZeroCount32 e.name.bit) =
          some (VoidPtr.addr e.accessor) ∧
        (popcount (q.attributes &&& (e.name.bit - 1)) = TrailingZeroCount32 e.name.bit ↔
          q.attributes &&& (e.name.bit - 1) = e.name.bit - 1) ∧
        ∀ r, resolvePrimitive accessors bufferViews buffers q = .ok r →
          ∃ accessor view, arrayAt accessors e.accessor = .ok accessor ∧
            arrayAt bufferViews accessor.bufferView = .ok view ∧
            r.vertexAttribs.get? (TrailingZeroCount32 e.name.bit) =
              some (.inBuffer view.buffer (view.byteOffset + accessor.byteOffset)) := by
  have hdrop : (hdr ++ (entriesText es ++ (close ++ 125 :: rest))).drop 12 =
      entriesText es ++ (close ++ 125 :: rest) := by
    rw [← hhdr, List.drop_left]
  have hnd : ((es.map (fun e => (e.name, e.accessor))).map Prod.fst).Nodup := by
    simpa [List.map_map, Function.comp] using hnodup
  have hattr : (es.foldl applyEntry p).attributes =
      p.attributes ||| (es.map (fun e => e.name.bit)).foldl (· ||| ·) 0 := by
    rw [foldl_applyEntry_eq, foldl_applyPair_attributes, List.map_map]
    rfl
  have hq128 : (es.foldl applyEntry p).attributes < 128 := by
    rw [hattr]
    refine or_lt_128 _ _ hmask (foldl_or_lt_128 _ _ (by decide) ?_)
    intro x hx
    obtain ⟨e, _, rfl⟩ := List.mem_map.1 hx
    exact bit_lt _
  refine ⟨es.foldl applyEntry p, ?_, ?_⟩
  · unfold ParseAttributes attributesText
    rw [hdrop]
    exact ParseAttributes_loop_entries es close rest p fuel hwf hclose hnodup hfresh hlen hfuel
  · intro e he
    have hbit : (es.foldl applyEntry p).attributes.testBit (TrailingZeroCount32 e.name.bit) =
        true := by
      rw [hattr, Nat.testBit_or]
      have := foldl_or_testBit (TrailingZeroCount32 e.name.bit)
        (es.map (fun e => e.name.bit)) 0
        (Or.inr ⟨e.name.bit, List.mem_map.2 ⟨e, he, rfl⟩, bit_testBit _⟩)
      simp [this]
    have hslot : (es.foldl applyEntry p).vertexAttribs.get? (TrailingZeroCount32 e.name.bit) =
        some (VoidPtr.addr e.accessor) := by
      rw [foldl_applyEntry_eq]
      exact foldl_applyPair_slot _ p hnd hlen (e.name, e.accessor)
        (List.mem_map.2 ⟨e, he, rfl⟩)
    refine ⟨hbit, hslot, popcount_below e.name _ hq128, ?_⟩
    intro r hr
    have hne : (es.foldl applyEntry p).attributes ≠ 0 := by
      intro h0
      rw [h0] at hbit
      simp at hbit
    obtain ⟨_, hslots⟩ := resolvePrimitive_resolved _ _ _ _ _ hq128 hr
    obtain ⟨i, accessor, view, buffer, hi, ha, hv, _, hget⟩ :=
      hslots _ (slot_lt e.name) ⟨hne, Or.inr hbit⟩
    have hidx : i = (e.accessor : Int) := by
      unfold slotIndex at hi
      rw [hslot] at hi
      simp only [VoidPtr.toInt, Except.ok.injEq] at hi
      rw [← hi]
      have hlt := (hwf e he).2.2.2.2
      unfold AttribEntry.accessor
      exact wrapInt32_of_range _ (by omega) (by omega)
    rw [hidx] at ha
    exact ⟨accessor, view, ha, hv, hget⟩

theorem scanRecords_map {α β : Type} (f : α → β) (checkNul : Bool) (reset : α) :
    ∀ (curr : List Nat) (rec : α) (arr : List α),
      scanRecords checkNul (f reset) curr (f rec) (arr.map f) =
        (scanRecords checkNul reset curr rec arr).map (Scan.map f) := by
  intro curr
  induction curr with
  | nil => intro rec arr; rfl
  | cons c cs ih =>
    intro rec arr
    simp only [scanRecords]
    by_cases hk : ((checkNul && c == 0) || c == 34) = true
    · rw [if_pos hk, if_pos hk]; rfl
    · rw [if_neg hk, if_neg hk]
      by_cases h125 : c = 125
      · simp only [h125, if_true]
        have h93 : ¬ ((125 : Nat) = 93) := by decide
        rw [if_neg h93, if_neg h93]
        have := ih reset (arr ++ [rec])
        simp only [List.map_append, List.map_cons, List.map_nil] at this
        exact this
      · simp only [if_neg h125]
        by_cases h93 : c = 93
        · rw [if_pos h93, if_pos h93]; rfl
        · rw [if_neg h93, if_neg h93]
          exact ih rec arr

theorem ParseNodes_traced_erase (fuelA : Nat) (scale : Float32) :
    ∀ (fuel : Nat) (curr : List Nat) (rec : ANode × List NodeKey)
      (arr : List (ANode × List NodeKey)),
      ParseNodes_loop fuelA scale fuel curr rec.1 (arr.map Prod.fst) =
        (ParseNodes_traced fuelA scale fuel curr rec arr).map
          (fun r => (r.1, r.2.map Prod.fst)) := by
  intro fuel
  induction fuel with
  | zero => intro curr rec arr; rfl
  | succ fuel ih =>
    intro curr rec arr
    simp only [ParseNodes_loop, ParseNodes_traced]
    have hs := scanRecords_map (Prod.fst : ANode × List NodeKey → ANode) true
      (nodeDefaults scale, []) curr rec arr
    simp only at hs
    rw [hs]
    cases scanRecords true (nodeDefaults scale, ([] : List NodeKey)) curr rec arr with
    | error f => rfl
    | ok s =>
      cases s with
      | closed c r a => rfl
      | key c r a =>
        simp only [Except.map, Scan.map]
        cases keyCursor c.tail with
        | error f => rfl
        | ok c1 =>
          simp only
          cases ParseNodes_key fuelA scale c1 r.1 with
          | error f => rfl
          | ok o =>
            cases o with
            | none => rfl
            | some v =>
              obtain ⟨k, c2, node⟩ := v
              simp only
              exact ih c2 (node, r.2 ++ [k]) a

theorem keepsDefaults_reset (scale : Float32) : KeepsDefaults scale (nodeDefaults scale, []) := by
  simp [KeepsDefaults, nodeDefaults]

theorem ParseNodes_key_keeps (fuelA : Nat) (scale : Float32) (curr curr1 : List Nat)
    (node node1 : ANode) (keys : List NodeKey) (k : NodeKey)
    (hk : KeepsDefaults scale (node, keys))
    (h : ParseNodes_key fuelA scale curr node = .ok (some (k, curr1, node1))) :
    KeepsDefaults scale (node1, keys ++ [k]) := by
  unfold ParseNodes_key at h
  simp only [bind, Except.bind] at h
  obtain ⟨h1, h2, h3⟩ := hk
  simp only at h1 h2 h3
  repeat' split at h
  all_goals first
    | (simp only [Except.ok.injEq, Option.some.injEq, Prod.mk.injEq] at h
       obtain ⟨rfl, _, rfl⟩ := h
       refine ⟨?_, ?_, ?_⟩ <;> simp only [List.mem_append, List.mem_singleton, not_or] <;>
         intro ha hb <;> first
           | exact absurd trivial ha.2
           | exact absurd trivial hb.2
           | exact absurd rfl ha.2
           | exact absurd rfl hb.2
           | exact h1 ha.1 hb.1
           | exact h2 ha.1 hb.1
           | exact h3 ha.1 hb.1)
    | (simp at h)

theorem scanRecords_keeps (scale : Float32) :
    ∀ (curr : List Nat) (rec : ANode × List NodeKey) (arr : List (ANode × List NodeKey))
      (s : Scan (ANode × List NodeKey)),
      KeepsDefaults scale rec → (∀ r ∈ arr, KeepsDefaults scale r) →
      scanRecords true (nodeDefaults scale, []) curr rec arr = .ok s →
      match s with
      | .closed _ rec1 arr1 => KeepsDefaults scale rec1 ∧ ∀ r ∈ arr1, KeepsDefaults scale r
      | .key _ rec1 arr1 => KeepsDefaults scale rec1 ∧ ∀ r ∈ arr1, KeepsDefaults scale r := by
  intro curr
  induction curr with
  | nil => intro rec arr s _ _ h; simp [scanRecords] at h
  | cons c cs ih =>
    intro rec arr s hrec harr h
    simp only [scanRecords] at h
    have harr1 : ∀ r ∈ (if c = 125 then arr ++ [rec] else arr), KeepsDefaults scale r := by
      intro r hr
      split at hr
      · rcases List.mem_append.1 hr with hr | hr
        · exact harr r hr
        · rw [List.mem_singleton.1 hr]; exact hrec
      · exact harr r hr
    have hrec1 : KeepsDefaults scale (if c = 125 then (nodeDefaults scale, []) else rec) := by
      split
      · exact keepsDefaults_reset scale
      · exact hrec
    split at h
    · simp only [Except.ok.injEq] at h
      subst h
      exact ⟨hrec, harr⟩
    · split at h
      · simp only [Except.ok.injEq] at h
        subst h
        exact ⟨hrec1, harr1⟩
      · exact ih _ _ s hrec1 harr1 h

theorem ParseNodes_traced_keeps (fuelA : Nat) (scale : Float32) :
    ∀ (fuel : Nat) (curr : List Nat) (rec : ANode × List NodeKey)
      (arr : List (ANode × List NodeKey)) (ptr : CharPtr)
      (traced : List (ANode × List NodeKey)),
      KeepsDefaults scale rec → (∀ r ∈ arr, KeepsDefaults scale r) →
      ParseNodes_traced fuelA scale fuel curr rec arr = .ok (ptr, traced) →
      ∀ r ∈ traced, KeepsDefaults scale r := by
  intro fuel
  induction fuel with
  | zero => intro curr rec arr ptr traced _ _ h; simp [ParseNodes_traced] at h
  | succ fuel ih =>
    intro curr rec arr ptr traced hrec harr h
    simp only [ParseNodes_traced] at h
    cases hs : scanRecords true (nodeDefaults scale, ([] : List NodeKey)) curr rec arr with
    | error f => rw [hs] at h; simp at h
    | ok s =>
      have hinv := scanRecords_keeps scale curr rec arr s hrec harr hs
      rw [hs] at h
      cases s with
      | closed c r a =>
        simp only [Except.ok.injEq, Prod.mk.injEq] at h
        rw [← h.2]
        exact hinv.2
      | key c r a =>
        simp only at h hinv
        cases hc : keyCursor c.tail with
        | error f => rw [hc] at h; simp at h
        | ok c1 =>
          rw [hc] at h
          simp only at h
          cases hkey : ParseNodes_key fuelA scale c1 r.1 with
          | error f => rw [hkey] at h; simp at h
          | ok o =>
            rw [hkey] at h
            cases o with
            | none =>
              simp only [Except.ok.injEq, Prod.mk.injEq] at h
              rw [← h.2]
              exact hinv.2
            | some v =>
              obtain ⟨k, c2, node⟩ := v
              simp only at h
              exact ih c2 (node, r.2 ++ [k]) a ptr traced
                (ParseNodes_key_keeps fuelA scale c1 c2 r.1 node r.2 k hinv.1 hkey) hinv.2 h

/-- C8 (amended): whenever `ParseNodes` returns, the nodes it returns are those of the
traced loop, and every one of them (the first and every later one) whose record
dispatched neither a `rotation` nor a `matrix` key has rotation (0,0,0,1), whose record
dispatched neither a `scale` nor a `matrix` key has scale (s,s,s) for the scale argument
s, and whose record dispatched neither a `mesh` nor a `camera` key has index -1. -/
theorem ParseNodes_keeps_defaults (fuel : Nat) (curr : List Nat) (scale : Float32)
    (ptr : CharPtr) (nodes : List ANode)
    (h : ParseNodes fuel curr [] scale = .ok (ptr, nodes)) :
    ∃ (start : List Nat) (traced : List (ANode × List NodeKey)),
      SkipUntill curr 91 = .ok start ∧
      ParseNodes_traced fuel scale fuel start.tail (nodeDefaults scale, []) [] =
        .ok (ptr, traced) ∧
      traced.map Prod.fst = nodes ∧
      ∀ r ∈ traced,
        (NodeKey.rotation ∉ r.2 → NodeKey.matrix ∉ r.2 → r.1.rotation = [0, 0, 0, 1]) ∧
        (NodeKey.scale ∉ r.2 → NodeKey.matrix ∉ r.2 → r.1.scale = [scale, scale, scale]) ∧
        (NodeKey.mesh ∉ r.2 → NodeKey.camera ∉ r.2 → r.1.index = -1) := by
  unfold ParseNodes at h
  cases hs : SkipUntill curr 91 with
  | error f => rw [hs] at h; simp at h
  | ok start =>
    rw [hs] at h
    simp only at h
    have he := ParseNodes_traced_erase fuel scale fuel start.tail (nodeDefaults scale, []) []
    simp only [List.map_nil] at he
    rw [he] at h
    cases ht : ParseNodes_traced fuel scale fuel start.tail (nodeDefaults scale, []) [] with
    | error f => rw [ht] at h; simp [Except.map] at h
    | ok v =>
      obtain ⟨p, traced⟩ := v
      rw [ht] at h
      simp only [Except.map, Except.ok.injEq, Prod.mk.injEq] at h
      refine ⟨start, traced, rfl, ?_, h.2, ?_⟩
      · rw [← h.1]; exact ht
      · exact ParseNodes_traced_keeps fuel scale fuel _ _ _ _ _
          (keepsDefaults_reset scale) (by intro r hr; simp at hr) ht

theorem ParseGLTF_loop_of_iterate (env : Env) (fuelA : Nat) (path : List Nat)
    (scale : Float32) (r : Option AErrorType × ParseState) :
    ∀ (n fuel : Nat) (curr : List Nat) (st : ParseState) (curr1 : List Nat) (st1 : ParseState),
      ParseGLTF_iterate env fuelA path scale n curr st = some (curr1, st1) →
      ParseGLTF_loop env fuelA path scale fuel curr1 st1 = .ok r →
      ParseGLTF_loop env fuelA path scale (n + fuel) curr st = .ok r := by
  intro n
  induction n with
  | zero =>
    intro fuel curr st curr1 st1 h hl
    simp only [ParseGLTF_iterate, Option.some.injEq, Prod.mk.injEq] at h
    obtain ⟨rfl, rfl⟩ := h
    simpa using hl
  | succ n ih =>
    intro fuel curr st curr1 st1 h hl
    have e : n + 1 + fuel = (n + fuel) + 1 := by omega
    rw [e]
    simp only [ParseGLTF_iterate] at h
    simp only [ParseGLTF_loop]
    split at h
    · rename_i c2 st2 heq
      rw [heq]
      exact ih fuel c2 st2 curr1 st1 h hl
    · exact absurd h (by simp)

theorem skipToQuoteOrNul_head (curr : List Nat) (key : List Nat)
    (h : skipToQuoteOrNul curr = .ok (34 :: key)) : ∃ c t, curr = c :: t ∧ c ≠ 0 := by
  cases curr with
  | nil => simp [skipToQuoteOrNul] at h
  | cons c t =>
    refine ⟨c, t, rfl, ?_⟩
    intro hc
    subst hc
    simp [skipToQuoteOrNul] at h

theorem ParseGLTF_dispatch_unknown (env : Env) (fuel : Nat) (path : List Nat)
    (scale : Float32) (key : List Nat) (st : ParseState)
    (hunknown : ∀ s ∈ topLevelKeys, StrCMP16 key s = false) :
    ParseGLTF_dispatch env fuel path scale key st = .ok (.sentinel .UNKNOWN_DESCRIPTOR, st) := by
  have h := fun s hs => hunknown s hs
  simp only [topLevelKeys, List.mem_cons, List.mem_singleton, forall_eq_or_imp, forall_eq,
    List.not_mem_nil, IsEmpty.forall_iff, implies_true, and_true] at h
  obtain ⟨h1, h2, h3, h4, h5, h6, h7, h8, h9, h10, h11, h12, h13, h14, h15, h16, h17⟩ := h
  simp [ParseGLTF_dispatch, h1, h2, h3, h4, h5, h6, h7, h8, h9, h10, h11, h12, h13, h14, h15,
    h16, h17]

theorem ParseGLTF_step_unknown (env : Env) (fuel : Nat) (path : List Nat)
    (scale : Float32) (curr key : List Nat) (st : ParseState)
    (hq : skipToQuoteOrNul curr = .ok (34 :: key)) (hk : key ≠ [])
    (hunknown : ∀ s ∈ topLevelKeys, StrCMP16 key s = false) :
    ParseGLTF_step env fuel path scale curr st = .ok (.failed .UNKNOWN_DESCRIPTOR st) := by
  obtain ⟨c, t, rfl, hc⟩ := skipToQuoteOrNul_head curr key hq
  obtain ⟨k, ks, rfl⟩ := List.exists_cons_of_ne_nil hk
  simp [ParseGLTF_step, peek, hc, hq, keyCursor,
    ParseGLTF_dispatch_unknown env fuel path scale (k :: ks) st hunknown]

/-- C10: in a document where the first `n` top-level keys are dispatched and parsed
without an error and the next key `key` matches none of the recognised top-level key
prefixes, `ParseGLTF` returns 0 and the bundle holds the error `UNKNOWN_DESCRIPTOR`
(and nothing but the default scene index read so far). -/
theorem ParseGLTF_unknown_descriptor (env : Env) (path : List Nat) (scale : Float32)
    (source : List Nat) (n : Nat) (curr key : List Nat) (st : ParseState)
    (hread : env.readFile path = some source)
    (hrun : ParseGLTF_iterate env (source.length + 1) path scale n source {} = some (curr, st))
    (hn : n ≤ source.length)
    (hq : skipToQuoteOrNul curr = .ok (34 :: key)) (hk : key ≠ [])
    (hunknown : ∀ s ∈ topLevelKeys, StrCMP16 key s = false) :
    ParseGLTF env path scale =
      .ok (0, { error := .UNKNOWN_DESCRIPTOR, defaultSceneIndex := st.defaultSceneIndex }) := by
  have hstep := ParseGLTF_step_unknown env (source.length + 1) path scale curr key st hq hk
    hunknown
  have hl : ParseGLTF_loop env (source.length + 1) path scale (source.length - n + 1) curr st
      = .ok (some .UNKNOWN_DESCRIPTOR, st) := by
    simp [ParseGLTF_loop, hstep]
  have h := ParseGLTF_loop_of_iterate env (source.length + 1) path scale _ n _ source {} curr st
    hrun hl
  have e : n + (source.length - n + 1) = source.length + 1 := by omega
  rw [e] at h
  simp [ParseGLTF, hread, ParseGLTF_source, h]

/-- C10 (witness): the document whose third top-level key is `foo` returns 0 with the
error `UNKNOWN_DESCRIPTOR`. -/
theorem ParseGLTF_unknown_descriptor_witness :
    ParseGLTF (fileEnv unknownKeyDocument) (lit "a/b.gltf") 1 =
      .ok (0, { error := .UNKNOWN_DESCRIPTOR, defaultSceneIndex := 0 }) :=
  ParseGLTF_unknown_descriptor (fileEnv unknownKeyDocument) (lit "a/b.gltf") 1
    unknownKeyDocument 2 (lit ",\"foo\":1\x7d" ++ [0]) (lit "foo\":1\x7d" ++ [0])
    { scenes := [{ numNodes := 1, nodes := [0] }] }
    rfl (by rfl) (by decide) (by rfl) (by decide) (by decide)

/-- C1: on the minimal document, for every environment, path and scale, the parse does
not return: the scan for the first digit of the empty `nodes` array in `ParseScenes`
finds none before the terminating NUL and reads past the end of the text. -/
theorem ParseGLTF_minimalDocument_reads_past_end (env : Env) (path : List Nat)
    (scale : Float32) :
    ParseGLTF_source env path scale minimalDocument = .error .outOfBounds := by
  rfl

/-- C9: the node with the only transform key
`"matrix":[1,0,0,0, 0,1,0,0, 0,0,1,0, 5,6,7,1]` parses to rotation (0,0,0,1) and scale
(s,s,s), and to translation (0,0,0): the translation is read from elements 12 to 14 after
the matrix has been transposed. -/
theorem ParseNodes_matrix_translation_lost (s : Float32) :
    ParseNodes 64 matrixNodeText [] s =
      .ok (.cur [0], [{ nodeDefaults s with translation := [0, 0, 0],
                                             rotation := [0, 0, 0, 1],
                                             scale := [s, s, s] }]) := by
  have h : ParseNodes 64 matrixNodeText [] s =
      .ok (.cur [0], [{ nodeDefaults s with translation := [0, 0, 0],
                                             rotation := [0, 0, 0, 1],
                                             scale := [1 * s, 1 * s, 1 * s] }]) := by
    with_unfolding_all rfl
  simpa using h

theorem texcoordFirst_wellFormed : ∀ e ∈ texcoordFirst, e.WellFormed := by
  intro e he
  simp only [texcoordFirst, List.mem_cons, List.mem_singleton, List.not_mem_nil, or_false] at he
  rcases he with rfl | rfl <;>
    simp [AttribEntry.WellFormed, SepOK, lit, decimalValue, IsNumber, schar]

theorem positionFirst_wellFormed : ∀ e ∈ positionFirst, e.WellFormed := by
  intro e he
  simp only [positionFirst, List.mem_cons, List.mem_singleton, List.not_mem_nil, or_false] at he
  rcases he with rfl | rfl <;>
    simp [AttribEntry.WellFormed, SepOK, lit, decimalValue, IsNumber, schar]

theorem sepOK_nil : SepOK [] := by
  simp [SepOK]

/-- C2 (witness): the objects `{"TEXCOORD_0":7,"POSITION":3}` and
`{"POSITION":3,"TEXCOORD_0":7}` parse to the same primitive, with mask 5, accessor 3 in
slot 0 and accessor 7 in slot 2. -/
theorem ParseAttributes_order_independent_witness :
    ∃ q : APrimitive,
      ParseAttributes 3 (attributesText attributesHeader texcoordFirst [] [0]) {} =
        .ok (.cur [0], q) ∧
      ParseAttributes 3 (attributesText attributesHeader positionFirst [] [0]) {} =
        .ok (.cur [0], q) ∧
      q.attributes = 5 ∧
      q.vertexAttribs.get? 0 = some (VoidPtr.addr 3) ∧
      q.vertexAttribs.get? 2 = some (VoidPtr.addr 7) := by
  obtain ⟨q, h1, h2, h3, h4⟩ :=
    ParseAttributes_order_independent 3 attributesHeader texcoordFirst [] [0] {} rfl
      texcoordFirst_wellFormed sepOK_nil (by decide) (by decide) rfl (by decide)
  refine ⟨q, h1, ?_, ?_, ?_, ?_⟩
  · exact h4 3 attributesHeader positionFirst [] [0] rfl positionFirst_wellFormed sepOK_nil
      (by decide) (List.Perm.swap _ _ _)
  · rw [h2]; rfl
  · exact h3 { sep := lit ",", name := .POSITION, mid := lit ":", digits := lit "3" }
      (by simp [texcoordFirst])
  · exact h3 { sep := lit "\x7b", name := .TEXCOORD_0, mid := lit ":", digits := lit "7" }
      (by simp [texcoordFirst])

/-- C7 (counterexample): in the primitive parsed from `{"POSITION":3,"TEXCOORD_0":7}`
the bit 4 of TEXCOORD_0 is set, `popcount(attributes & (4 - 1))` is 1, and slot 1 holds no
accessor index; the accessor index 7 is in slot 2. -/
theorem popcount_slot_counterexample :
    ∃ q : APrimitive,
      ParseAttributes 3 sparseAttributesText {} = .ok (.cur [0], q) ∧
      q.attributes &&& AAttribType_TEXCOORD_0 = AAttribType_TEXCOORD_0 ∧
      popcount (q.attributes &&& (AAttribType_TEXCOORD_0 - 1)) = 1 ∧
      q.vertexAttribs.get? (popcount (q.attributes &&& (AAttribType_TEXCOORD_0 - 1))) ≠
        some (VoidPtr.addr 7) ∧
      q.vertexAttribs.get? 2 = some (VoidPtr.addr 7) := by
  refine ⟨_, rfl, ?_, ?_, ?_, ?_⟩ <;> decide

/-- C7 (witness): the object with POSITION 3 and TEXCOORD_0 7 parses with accessor 7 in
slot 2, and the resolver puts there the address of accessor 7: offset 100 + 28 of
buffer 0. -/
theorem ParseAttributes_slot_of_bit_witness :
    ∃ q r : APrimitive,
      ParseAttributes 3 sparseAttributesText {} = .ok (.cur [0], q) ∧
      resolvePrimitive eightAccessors oneBufferView oneBuffer q = .ok r ∧
      q.vertexAttribs.get? 2 = some (VoidPtr.addr 7) ∧
      r.vertexAttribs.get? 2 = some (VoidPtr.inBuffer 0 128) := by
  obtain ⟨q, hq, hall⟩ :=
    ParseAttributes_slot_of_bit 3 attributesHeader positionFirst [] [0] {}
      eightAccessors oneBufferView oneBuffer rfl positionFirst_wellFormed sepOK_nil
      (by decide) (by decide) (by decide) rfl (by decide)
  have e : ParseAttributes 3 (attributesText attributesHeader positionFirst [] [0]) {} =
      .ok (.cur [0], { attributes := 5,
                       vertexAttribs := [.addr 3, .addr 0, .addr 7, .addr 0, .addr 0, .addr 0,
                                         .addr 0] }) := rfl
  rw [e] at hq
  simp only [Except.ok.injEq, Prod.mk.injEq, true_and] at hq
  subst hq
  obtain ⟨_, hslot, _, hres⟩ :=
    hall { sep := lit ",", name := .TEXCOORD_0, mid := lit ":", digits := lit "7" }
      (by simp [positionFirst])
  have hr : resolvePrimitive eightAccessors oneBufferView oneBuffer
      { attributes := 5,
        vertexAttribs := [.addr 3, .addr 0, .addr 7, .addr 0, .addr 0, .addr 0, .addr 0] } =
      .ok { attributes := 5,
            vertexAttribs := [.inBuffer 0 112, .addr 0, .inBuffer 0 128, .addr 0, .addr 0,
                              .addr 0, .addr 0],
            numVertices := 3, numIndices := 3, indices := .inBuffer 0 100, indexType := 6,
            jointType := 6, jointCount := 2, jointStride := 0, weightType := 6,
            weightStride := 0 } := by rfl
  refine ⟨_, _, rfl, hr, hslot, ?_⟩
  obtain ⟨a, v, ha, hv, hget⟩ := hres _ hr
  exact rfl

/-- C3 (witness): the resolver returns on a mesh with one primitive whose indices are
accessor 1, at byte offset 4 of the view at byte offset 100: `indices` is offset 104 of
buffer 0, `indexType` 6 and `numIndices` 3. -/
theorem resolveMeshes_resolved_witness :
    ∃ meshes1, resolveMeshes eightAccessors oneBufferView oneBuffer sparseMesh = .ok meshes1 ∧
      List.Forall₂ (fun m m1 =>
        List.Forall₂ (PrimitiveResolved eightAccessors oneBufferView oneBuffer) m.primitives
          m1.primitives) sparseMesh meshes1 ∧
      meshes1.map (fun m => m.primitives.map (fun q => (q.indices, q.indexType, q.numIndices))) =
        [[(VoidPtr.inBuffer 0 104, 6, 3)]] :=
  ⟨_, rfl,
    (resolveMeshes_resolved eightAccessors oneBufferView oneBuffer sparseMesh
      (by decide)).2 _ rfl, rfl⟩

set_option maxRecDepth 1000000 in
/-- C4 (counterexample): the document with two primitives of 2000000000 indices each
parses with return value 1; the sum of `numIndices` is 4000000000 and `totalIndices`
is not. -/
theorem totalIndices_counterexample :
    ∃ b, ParseGLTF_source (fileEnv largeCountDocument) (lit "a/b.gltf") 1 largeCountDocument =
        .ok (1, b) ∧
      (b.meshes.map (fun m => (m.primitives.map (fun p => p.numIndices)).sum)).sum =
        4000000000 ∧
      b.totalIndices ≠
        (b.meshes.map (fun m => (m.primitives.map (fun p => p.numIndices)).sum)).sum := by
  refine ⟨_, rfl, ?_, ?_⟩ <;> decide

set_option maxRecDepth 1000000 in
/-- C4 (witness): the document with one triangle parses with return value 1 and both
totals 3, the sum over its one primitive. -/
theorem ParseGLTF_totals_witness :
    ∃ b, ParseGLTF_source (fileEnv meshDocument) (lit "a/b.gltf") 1 meshDocument = .ok (1, b) ∧
      b.totalVertices = 3 ∧ b.totalIndices = 3 ∧
      b.totalVertices =
        (b.meshes.map (fun m => (m.primitives.map (fun p => p.numVertices)).sum)).sum := by
  refine ⟨_, rfl, rfl, rfl, ?_⟩
  exact (ParseGLTF_totals (fileEnv meshDocument) (lit "a/b.gltf") 1 meshDocument _ rfl
    (by decide)).2.2.1 (by decide)

/-- C8 (counterexample): the node whose record has a `matrix` key and no `rotation` key,
the matrix being the half turn about the z axis, parses to the rotation (0,0,1,0). -/
theorem matrix_rotation_counterexample :
    ParseNodes 64 halfTurnNodeText [] 1 =
      .ok (.cur [0], [{ nodeDefaults 1 with translation := [0, 0, 0],
                                             rotation := [0, 0, 1, 0],
                                             scale := [1, 1, 1] }]) := by
  with_unfolding_all rfl

/-- C8 (witness): of the two nodes of the text, the first dispatched `name` and
`rotation`, the second only `mesh`, and the second has the rotation (0,0,0,1). -/
theorem ParseNodes_keeps_defaults_witness :
    ∃ traced : List (ANode × List NodeKey),
      traced.map Prod.snd = [[.name, .rotation], [.mesh]] ∧
      traced.map Prod.fst =
        [{ nodeDefaults 2 with name := some (lit "a"), rotation := [0, 1, 0, 0] },
         { nodeDefaults 2 with type := 0, index := 2 }] ∧
      ∀ r ∈ traced,
        (NodeKey.rotation ∉ r.2 → NodeKey.matrix ∉ r.2 → r.1.rotation = [0, 0, 0, 1]) := by
  have h : ParseNodes 64 twoNodeText [] 2 =
      .ok (.cur [0],
        [{ nodeDefaults 2 with name := some (lit "a"), rotation := [0, 1, 0, 0] },
         { nodeDefaults 2 with type := 0, index := 2 }]) := by
    with_unfolding_all rfl
  obtain ⟨start, traced, hs, ht, hmap, hall⟩ := ParseNodes_keeps_defaults 64 twoNodeText 2 _ _ h
  have hs1 : SkipUntill twoNodeText 91 = .ok (twoNodeText.drop 7) := by rfl
  rw [hs1] at hs
  simp only [Except.ok.injEq] at hs
  subst hs
  have ht1 : ParseNodes_traced 64 2 64 (twoNodeText.drop 7).tail (nodeDefaults 2, []) [] =
      .ok (.cur [0],
        [({ nodeDefaults 2 with name := some (lit "a"), rotation := [0, 1, 0, 0] },
           [.name, .rotation]),
         ({ nodeDefaults 2 with type := 0, index := 2 }, [.mesh])]) := by
    with_unfolding_all rfl
  rw [ht1] at ht
  simp only [Except.ok.injEq, Prod.mk.injEq, true_and] at ht
  subst ht
  refine ⟨_, ?_, ?_, fun r hr => (hall r hr).1⟩ <;> rfl

/-- C11: on the document whose scene record has the unknown key `extras`, `ParseGLTF`
returns 1 with no error and the scene stored with its node: `ParseScenes` has no branch
for a key it does not know and passes over it. -/
theorem ParseGLTF_accepts_unknown_scene_key :
    ∃ b, ParseGLTF (fileEnv sceneExtrasDocument) (lit "a/b.gltf") 1 = .ok (1, b) ∧
      b.error = .NONE ∧ b.scenes = [{ numNodes := 1, nodes := [0] }] := by
  exact ⟨_, rfl, rfl, rfl⟩

/-- C12: on the document whose primitive has the attribute `COLOR_0`, for every
environment, path and scale, the parse does not return: `ParseAttributes` returns the
code `AError_UNKNOWN_ATTRIB` as a pointer, and the primitive loop of `ParseMeshes` reads
through it as its cursor. -/
theorem ParseGLTF_unknown_attribute_dereferenced (env : Env) (path : List Nat)
    (scale : Float32) :
    ParseGLTF_source env path scale colorAttributeDocument = .error .badPointer := by
  rfl

/-- C13: on the document that sets the default scene to 3 before an unknown top-level
key, for every path and scale, `ParseGLTF` returns 0 with the error `UNKNOWN_DESCRIPTOR`
and the bundle still holds `defaultSceneIndex` 3. -/
theorem ParseGLTF_failure_keeps_defaultSceneIndex (path : List Nat) (scale : Float32) :
    ParseGLTF (fileEnv sceneThenUnknownDocument) path scale =
      .ok (0, { error := .UNKNOWN_DESCRIPTOR, defaultSceneIndex := 3 }) := by
  rfl

/-- C14: on the `scenes` section of the minimal document, with any fuel above 1,
`ParseScenes` does not return a pointer: the scan for the first digit of the empty `nodes`
array passes the terminating NUL and reads past the end of the text. -/
theorem ParseScenes_reads_past_terminator (fuel : Nat) :
    ParseScenes (fuel + 2) emptyNodesScenesText [] = .error .outOfBounds := by
  rfl

theorem shiftLeft_or_eq_add (n k b : Nat) (hb : b < 2 ^ k) :
    (n <<< k) ||| b = n * 2 ^ k + b := by
  rw [Nat.shiftLeft_eq, Nat.mul_comm n, Nat.mul_add_lt_is_or hb]

theorem or_shiftLeft_eq_add (n k b : Nat) (hb : b < 2 ^ k) :
    b ||| (n <<< k) = n * 2 ^ k + b := by
  rw [Nat.or_comm, shiftLeft_or_eq_add n k b hb]

theorem packed_bytes (x0 x1 x2 x3 : Nat) (h0 : x0 < 256) (h1 : x1 < 256) (h2 : x2 < 256)
    (h3 : x3 < 256) :
    (x0 ||| (x1 <<< 8) % 4294967296 ||| (x2 <<< 16) % 4294967296 |||
      (x3 <<< 24) % 4294967296) = x0 + 256 * x1 + 65536 * x2 + 16777216 * x3 := by
  have e1 : (x1 <<< 8) % 4294967296 = x1 <<< 8 := by
    rw [Nat.shiftLeft_eq]; omega
  have e2 : (x2 <<< 16) % 4294967296 = x2 <<< 16 := by
    rw [Nat.shiftLeft_eq]; omega
  have e3 : (x3 <<< 24) % 4294967296 = x3 <<< 24 := by
    rw [Nat.shiftLeft_eq]; omega
  rw [e1, e2, e3, or_shiftLeft_eq_add x1 8 x0 (by omega),
    or_shiftLeft_eq_add x2 16 _ (by omega), or_shiftLeft_eq_add x3 24 _ (by omega)]
  omega

theorem floatToUInt32_unit (c : ℚ) (h0 : 0 ≤ c) (h1 : c ≤ 1) :
    (floatToUInt32 (c * 255) : Int) = ⌊c * 255⌋ ∧ floatToUInt32 (c * 255) < 256 := by
  have hn : ¬ (c * 255 < 0) := by
    have : 0 ≤ c * 255 := by positivity
    exact not_lt.2 this
  have hf0 : 0 ≤ ⌊c * 255⌋ := Int.floor_nonneg.2 (by positivity)
  have hf1 : ⌊c * 255⌋ ≤ 255 := by
    have : c * 255 ≤ 255 := by linarith
    have h := Int.floor_le_floor this
    simpa using h
  have hfl : (c * 255).floor = ⌊c * 255⌋ := rfl
  unfold floatToUInt32
  rw [if_neg hn, hfl]
  constructor
  · rw [Int.toNat_of_nonneg (Int.emod_nonneg _ (by decide))]
    omega
  · omega

theorem PackColorRGBAU32_unit (r g b a : ℚ)
    (hr : 0 ≤ r ∧ r ≤ 1) (hg : 0 ≤ g ∧ g ≤ 1) (hb : 0 ≤ b ∧ b ≤ 1) (ha : 0 ≤ a ∧ a ≤ 1) :
    (byteOf (PackColorRGBAU32 [r, g, b, a]) 0 : Int) = ⌊r * 255⌋ ∧
    (byteOf (PackColorRGBAU32 [r, g, b, a]) 1 : Int) = ⌊g * 255⌋ ∧
    (byteOf (PackColorRGBAU32 [r, g, b, a]) 2 : Int) = ⌊b * 255⌋ ∧
    (byteOf (PackColorRGBAU32 [r, g, b, a]) 3 : Int) = ⌊a * 255⌋ := by
  obtain ⟨er, lr⟩ := floatToUInt32_unit r hr.1 hr.2
  obtain ⟨eg, lg⟩ := floatToUInt32_unit g hg.1 hg.2
  obtain ⟨eb, lb⟩ := floatToUInt32_unit b hb.1 hb.2
  obtain ⟨ea, la⟩ := floatToUInt32_unit a ha.1 ha.2
  have hw : PackColorRGBAU32 [r, g, b, a] =
      floatToUInt32 (r * 255) + 256 * floatToUInt32 (g * 255) +
        65536 * floatToUInt32 (b * 255) + 16777216 * floatToUInt32 (a * 255) := by
    unfold PackColorRGBAU32
    simp only [List.getD_cons_zero, List.getD_cons_succ]
    exact packed_bytes _ _ _ _ lr lg lb la
  rw [← er, ← eg, ← eb, ← ea, hw]
  simp only [byteOf, Nat.shiftRight_eq_div_pow]
  refine ⟨?_, ?_, ?_, ?_⟩ <;> norm_cast <;> omega

/-- C19 (amended): for a base-color factor whose four components lie in [0,1], byte `i`
(little-endian, `i = 0..3`) of the word `PackColorRGBAU32` returns is the integer part of
`c_i × 255`. -/
theorem PackColorRGBAU32_bytes (r g b a : ℚ)
    (hr : 0 ≤ r ∧ r ≤ 1) (hg : 0 ≤ g ∧ g ≤ 1) (hb : 0 ≤ b ∧ b ≤ 1) (ha : 0 ≤ a ∧ a ≤ 1) :
    (byteOf (PackColorRGBAU32 [r, g, b, a]) 0 : Int) = ⌊r * 255⌋ ∧
    (byteOf (PackColorRGBAU32 [r, g, b, a]) 1 : Int) = ⌊g * 255⌋ ∧
    (byteOf (PackColorRGBAU32 [r, g, b, a]) 2 : Int) = ⌊b * 255⌋ ∧
    (byteOf (PackColorRGBAU32 [r, g, b, a]) 3 : Int) = ⌊a * 255⌋ :=
  PackColorRGBAU32_unit r g b a hr hg hb ha

theorem floor_div_close (c : ℚ) :
    |((⌊c * 255⌋ : Int) : ℚ) / 255 - c| < 1 / 255 := by
  have h1 : ((⌊c * 255⌋ : Int) : ℚ) ≤ c * 255 := Int.floor_le _
  have h2 : c * 255 < ((⌊c * 255⌋ : Int) : ℚ) + 1 := Int.lt_floor_add_one _
  rw [abs_lt]
  constructor <;> linarith

/-- C20: for a base-color factor whose four components lie in [0,1], byte `i` of the
word `PackColorRGBAU32` returns, divided by 255, is within 1/255 of component `i`. -/
theorem PackColorRGBAU32_roundtrip (r g b a : ℚ)
    (hr : 0 ≤ r ∧ r ≤ 1) (hg : 0 ≤ g ∧ g ≤ 1) (hb : 0 ≤ b ∧ b ≤ 1) (ha : 0 ≤ a ∧ a ≤ 1) :
    |(byteOf (PackColorRGBAU32 [r, g, b, a]) 0 : ℚ) / 255 - r| < 1 / 255 ∧
    |(byteOf (PackColorRGBAU32 [r, g, b, a]) 1 : ℚ) / 255 - g| < 1 / 255 ∧
    |(byteOf (PackColorRGBAU32 [r, g, b, a]) 2 : ℚ) / 255 - b| < 1 / 255 ∧
    |(byteOf (PackColorRGBAU32 [r, g, b, a]) 3 : ℚ) / 255 - a| < 1 / 255 := by
  obtain ⟨e0, e1, e2, e3⟩ := PackColorRGBAU32_unit r g b a hr hg hb ha
  have c0 : (byteOf (PackColorRGBAU32 [r, g, b, a]) 0 : ℚ) = ((⌊r * 255⌋ : Int) : ℚ) := by
    exact_mod_cast congrArg (fun z : Int => (z : ℚ)) e0
  have c1 : (byteOf (PackColorRGBAU32 [r, g, b, a]) 1 : ℚ) = ((⌊g * 255⌋ : Int) : ℚ) := by
    exact_mod_cast congrArg (fun z : Int => (z : ℚ)) e1
  have c2 : (byteOf (PackColorRGBAU32 [r, g, b, a]) 2 : ℚ) = ((⌊b * 255⌋ : Int) : ℚ) := by
    exact_mod_cast congrArg (fun z : Int => (z : ℚ)) e2
  have c3 : (byteOf (PackColorRGBAU32 [r, g, b, a]) 3 : ℚ) = ((⌊a * 255⌋ : Int) : ℚ) := by
    exact_mod_cast congrArg (fun z : Int => (z : ℚ)) e3
  rw [c0, c1, c2, c3]
  exact ⟨floor_div_close r, floor_div_close g, floor_div_close b, floor_div_close a⟩

/-- C19 (counterexample): for the factor (2, 0, 0, 1) the clamped components give the
bytes 255 and 0 for the first two channels; the packed word has 254 in byte 0, and the
overflow of the first component sets byte 1, of the unchanged second channel, to 1. -/
theorem PackColorRGBAU32_clamp_counterexample :
    ⌊clamp01 2 * 255⌋ = 255 ∧ ⌊clamp01 0 * 255⌋ = 0 ∧
    byteOf (PackColorRGBAU32 [2, 0, 0, 1]) 0 = 254 ∧
    byteOf (PackColorRGBAU32 [2, 0, 0, 1]) 1 = 1 ∧
    byteOf (PackColorRGBAU32 [1, 0, 0, 1]) 1 = 0 := by
  refine ⟨?_, ?_, ?_, ?_, ?_⟩
  · have : clamp01 2 * 255 = ((255 : Int) : ℚ) := by norm_num [clamp01]
    rw [this, Int.floor_intCast]
  · have : clamp01 0 * 255 = ((0 : Int) : ℚ) := by norm_num [clamp01]
    rw [this, Int.floor_intCast]
  · with_unfolding_all decide
  · with_unfolding_all decide
  · with_unfolding_all decide

/-- C19 (witness): the factor (1, 1/2, 0, 1) packs to the bytes 255, 127, 0, 255. -/
theorem PackColorRGBAU32_bytes_witness :
    byteOf (PackColorRGBAU32 [1, 1 / 2, 0, 1]) 0 = 255 ∧
    (byteOf (PackColorRGBAU32 [1, 1 / 2, 0, 1]) 1 : Int) = ⌊(1 / 2 : ℚ) * 255⌋ ∧
    byteOf (PackColorRGBAU32 [1, 1 / 2, 0, 1]) 1 = 127 := by
  have h := PackColorRGBAU32_bytes 1 (1 / 2) 0 1 (by norm_num) (by norm_num) (by norm_num)
    (by norm_num)
  refine ⟨?_, h.2.1, ?_⟩
  · with_unfolding_all decide
  · with_unfolding_all decide

/-- C20 (witness): for the factor (1, 1/2, 0, 1), byte 1 divided by 255 is within 1/255
of 1/2. -/
theorem PackColorRGBAU32_roundtrip_witness :
    |(byteOf (PackColorRGBAU32 [1, 1 / 2, 0, 1]) 1 : ℚ) / 255 - 1 / 2| < 1 / 255 :=
  (PackColorRGBAU32_roundtrip 1 (1 / 2) 0 1 (by norm_num) (by norm_num) (by norm_num)
    (by norm_num)).2.1

theorem base64Lookup_char : ∀ v < 64, base64Lookup (base64Char v) = .ok v := by
  decide

theorem base64Lookup_pad : base64Lookup 61 = .ok 0 := by
  decide

theorem decoded_bytes (x y z w : Nat) (hy : y < 64) (hz : z < 64) (hw : w < 64) :
    ((x <<< 2) ||| (y >>> 4)) % 256 = (x * 4 + y / 16) % 256 ∧
    ((y <<< 4) ||| (z >>> 2)) % 256 = (y * 16 + z / 4) % 256 ∧
    ((z <<< 6) ||| w) % 256 = (z * 64 + w) % 256 := by
  have e1 : y >>> 4 = y / 16 := by rw [Nat.shiftRight_eq_div_pow]
  have e2 : z >>> 2 = z / 4 := by rw [Nat.shiftRight_eq_div_pow]
  rw [e1, e2, shiftLeft_or_eq_add x 2 (y / 16) (by omega),
    shiftLeft_or_eq_add y 4 (z / 4) (by omega), shiftLeft_or_eq_add z 6 w (by omega)]
  exact ⟨rfl, rfl, rfl⟩

theorem DecodeBase64_loop_group (a b c x y z w : Nat) (rest out : List Nat)
    (hx : x < 64) (hy : y < 64) (hz : z < 64) (hw : w < 64)
    (ha : (x * 4 + y / 16) % 256 = a) (hb : (y * 16 + z / 4) % 256 = b)
    (hc : (z * 64 + w) % 256 = c)
    (hrest : DecodeBase64_loop rest = .ok out) :
    DecodeBase64_loop (base64Char x :: base64Char y :: base64Char z :: base64Char w :: rest) =
      .ok (a :: b :: c :: out) := by
  obtain ⟨d1, d2, d3⟩ := decoded_bytes x y z w hy hz hw
  simp only [DecodeBase64_loop, base64Lookup_char x hx, base64Lookup_char y hy,
    base64Lookup_char z hz, base64Lookup_char w hw, hrest, bind, Except.bind, d1, d2, d3, ha,
    hb, hc]

theorem DecodeBase64_loop_standard : ∀ (b : List Nat), (∀ x ∈ b, x < 256) →
    ∃ out, DecodeBase64_loop (standardBase64 b) = .ok out ∧ out.take b.length = b := by
  intro b
  induction b using standardBase64.induct with
  | case1 => intro _; exact ⟨[], rfl, rfl⟩
  | case2 a =>
    intro h
    have ha : a < 256 := h a (by simp)
    obtain ⟨d1, d2, d3⟩ := decoded_bytes (a / 4) (a % 4 * 16) 0 0 (by omega) (by omega)
      (by omega)
    refine ⟨[a, ((a % 4 * 16) * 16 + 0 / 4) % 256, 0], ?_, by simp⟩
    have hl0 : base64Lookup 61 = .ok 0 := base64Lookup_pad
    simp only [standardBase64, DecodeBase64_loop, base64Lookup_char (a / 4) (by omega),
      base64Lookup_char (a % 4 * 16) (by omega), hl0, bind, Except.bind, d1, d2, d3]
    have e : (a / 4 * 4 + a % 4 * 16 / 16) % 256 = a := by omega
    rw [e]
  | case3 a b =>
    intro h
    have ha : a < 256 := h a (by simp)
    have hb : b < 256 := h b (by simp)
    obtain ⟨d1, d2, d3⟩ := decoded_bytes (a / 4) (a % 4 * 16 + b / 16) (b % 16 * 4) 0
      (by omega) (by omega) (by omega)
    refine ⟨[a, b, ((b % 16 * 4) * 64 + 0) % 256], ?_, by simp⟩
    have hl0 : base64Lookup 61 = .ok 0 := base64Lookup_pad
    simp only [standardBase64, DecodeBase64_loop, base64Lookup_char (a / 4) (by omega),
      base64Lookup_char (a % 4 * 16 + b / 16) (by omega),
      base64Lookup_char (b % 16 * 4) (by omega), hl0, bind, Except.bind, d1, d2, d3]
    have e1 : (a / 4 * 4 + (a % 4 * 16 + b / 16) / 16) % 256 = a := by omega
    have e2 : ((a % 4 * 16 + b / 16) * 16 + b % 16 * 4 / 4) % 256 = b := by omega
    rw [e1, e2]
  | case4 a b c rest ih =>
    intro h
    have ha : a < 256 := h a (by simp)
    have hb : b < 256 := h b (by simp)
    have hc : c < 256 := h c (by simp)
    obtain ⟨out, hout, htake⟩ := ih (fun x hx => h x (by simp [hx]))
    refine ⟨a :: b :: c :: out, ?_, by simp [htake]⟩
    simp only [standardBase64]
    exact DecodeBase64_loop_group a b c _ _ _ _ _ out (by omega) (by omega) (by omega)
      (by omega) (by omega) (by omega) (by omega) hout

/-- C16: for every sequence `b` of bytes, `DecodeBase64` run on the standard padded
base64 text of `b` (whatever follows it in the document) returns, and the first `|b|`
bytes it writes are `b`. -/
theorem DecodeBase64_standardBase64 (b rest : List Nat) (hb : ∀ x ∈ b, x < 256) :
    ∃ out, DecodeBase64 (standardBase64 b ++ rest) (standardBase64 b).length = .ok out ∧
      out.take b.length = b := by
  obtain ⟨out, hout, htake⟩ := DecodeBase64_loop_standard b hb
  refine ⟨out, ?_, htake⟩
  unfold DecodeBase64
  rw [if_neg (by simp), List.take_left]
  exact hout

/-- C16 (witness): the eight bytes 00 01 02 03 04 05 06 07 have the base64 text
`AAECAwQFBgc=`, and its decoding starts with these eight bytes. -/
theorem DecodeBase64_standardBase64_witness :
    standardBase64 [0, 1, 2, 3, 4, 5, 6, 7] = lit "AAECAwQFBgc=" ∧
    ∃ out, DecodeBase64 (lit "AAECAwQFBgc=" ++ lit "\"\x7d") 12 = .ok out ∧
      out.take 8 = [0, 1, 2, 3, 4, 5, 6, 7] := by
  refine ⟨by decide, ?_⟩
  exact DecodeBase64_standardBase64 [0, 1, 2, 3, 4, 5, 6, 7] (lit "\"\x7d") (by decide)

theorem ParseFloat_skip_run (pre : List Nat) (c : Nat) (t : List Nat)
    (hpre : ∀ x ∈ pre, IsNumber x = false ∧ x ≠ 45) (hc : IsNumber c = true ∨ c = 45) :
    ParseFloat_skip (pre ++ c :: t) = .ok (c :: t) := by
  induction pre with
  | nil =>
    rcases hc with hc | hc
    · simp [ParseFloat_skip, hc]
    · simp [ParseFloat_skip, hc]
  | cons a as ih =>
    have ha := hpre a (List.mem_cons_self _ _)
    rw [List.cons_append, ParseFloat_skip]
    simp only [ha.1, ha.2, ne_eq, not_false_eq_true, decide_True, Bool.not_false, Bool.and_self,
      if_true]
    exact ih (fun x hx => hpre x (List.mem_cons_of_mem _ hx))

theorem ParseFloat_int_run (ds : List Nat) (v : Nat) (c : Nat) (t : List Nat)
    (hd : ∀ d ∈ ds, 48 ≤ d ∧ d ≤ 57) (hc : IsNumber c = false) :
    ParseFloat_int (v : ℚ) (ds ++ c :: t) =
      .ok (((ds.foldl (fun v d => v * 10 + (d - 48)) v : Nat) : ℚ), c :: t) := by
  induction ds generalizing v with
  | nil => simp [ParseFloat_int, hc]
  | cons d ds ih =>
    have hdig := IsNumber_digit d (hd d (List.mem_cons_self _ _))
    have hd48 := (hd d (List.mem_cons_self _ _)).1
    rw [List.cons_append, ParseFloat_int, hdig.1, if_pos rfl, hdig.2.1]
    have e : (10 * (v : ℚ) + (((d : Int) - 48 : Int) : ℚ)) = ((v * 10 + (d - 48) : Nat) : ℚ) := by
      push_cast [Nat.cast_sub hd48]
      ring
    rw [e, List.foldl_cons]
    exact ih (v * 10 + (d - 48)) (fun x hx => hd x (List.mem_cons_of_mem _ hx))

theorem ParseFloat_rest_run (ds : List Nat) (c : Nat) (t : List Nat)
    (hd : ∀ d ∈ ds, 48 ≤ d ∧ d ≤ 57) (hc : IsNumber c = false) :
    ParseFloat_rest (ds ++ c :: t) = .ok (c :: t) := by
  induction ds with
  | nil => simp [ParseFloat_rest, hc]
  | cons d ds ih =>
    have hdig := IsNumber_digit d (hd d (List.mem_cons_self _ _))
    rw [List.cons_append, ParseFloat_rest, hdig.1, if_pos rfl]
    exact ih (fun x hx => hd x (List.mem_cons_of_mem _ hx))

/-- The fraction loop takes the first `9 - j` digits when it starts with `div = 10 ^ j`. -/
theorem ParseFloat_fra_run (ds : List Nat) (f j : Nat) (c : Nat) (t : List Nat)
    (hj : j ≤ 9) (hd : ∀ d ∈ ds, 48 ≤ d ∧ d ≤ 57) (hc : IsNumber c = false) :
    ParseFloat_fra (f : ℚ) ((10 : ℚ) ^ j) (ds ++ c :: t) =
      .ok ((((ds.take (9 - j)).foldl (fun v d => v * 10 + (d - 48)) f : Nat) : ℚ),
        (10 : ℚ) ^ (j + (ds.take (9 - j)).length), ds.drop (9 - j) ++ c :: t) := by
  induction ds generalizing f j with
  | nil => simp [ParseFloat_fra, hc]
  | cons d ds ih =>
    have hdig := IsNumber_digit d (hd d (List.mem_cons_self _ _))
    have hd48 := (hd d (List.mem_cons_self _ _)).1
    rw [List.cons_append, ParseFloat_fra, hdig.1, hdig.2.1]
    by_cases h9 : j = 9
    · subst h9
      have hnot : ¬ ((10 : ℚ) ^ 9 < 1000000000) := by norm_num
      simp [hnot]
    · have hlt : j < 9 := by omega
      have hpow : (10 : ℚ) ^ j < 1000000000 := by
        have h1 : (10 : ℚ) ^ j ≤ 10 ^ 8 := pow_le_pow_right₀ (by norm_num) (by omega)
        have h2 : (10 : ℚ) ^ 8 < 1000000000 := by norm_num
        exact lt_of_le_of_lt h1 h2
      simp only [hpow, decide_True, Bool.and_self, if_true]
      have e : (10 * (f : ℚ) + (((d : Int) - 48 : Int) : ℚ)) = ((f * 10 + (d - 48) : Nat) : ℚ) := by
        push_cast [Nat.cast_sub hd48]
        ring
      have e2 : (10 : ℚ) ^ j * 10 = 10 ^ (j + 1) := by ring
      rw [e, e2, ih (f * 10 + (d - 48)) (j + 1) (by omega)
        (fun x hx => hd x (List.mem_cons_of_mem _ hx))]
      have e3 : 9 - j = (9 - (j + 1)) + 1 := by omega
      rw [e3, List.take_succ_cons, List.drop_succ_cons, List.foldl_cons, List.length_cons]
      have e4 : j + 1 + (List.take (9 - (j + 1)) ds).length =
          j + ((List.take (9 - (j + 1)) ds).length + 1) := by omega
      rw [e4]

theorem ParseFloat_unsigned (int fra : List Nat) (t : Nat) (rest : List Nat) (sign : ℚ)
    (hint : ∀ d ∈ int, 48 ≤ d ∧ d ≤ 57) (hfra : ∀ d ∈ fra, 48 ≤ d ∧ d ≤ 57)
    (ht : IsNumber t = false ∧ t ≠ 101 ∧ t ≠ 69 ∧ (fra = [] → t ≠ 46)) :
    (do
      let (num, ptr) ← ParseFloat_int 0 (int ++ ((if fra = [] then [] else 46 :: fra) ++ t :: rest))
      let c ← peek ptr
      let ptr := if c = 46 then ptr.tail else ptr
      let (fra, div, ptr) ← ParseFloat_fra 0 1 ptr
      let num := num + fra / div
      let ptr ← ParseFloat_rest ptr
      let c ← peek ptr
      if c = 101 ∨ c = 69 then
        let ptr := ptr.tail
        let c ← peek ptr
        let (neg, ptr) : Bool × List Nat :=
          if c = 43 then (false, ptr.tail) else if c = 45 then (true, ptr.tail) else (false, ptr)
        let (eval, ptr) ← ParseFloat_exp 0 ptr
        if eval < 0 then .error .outOfBounds
        else
          let factor : ℚ :=
            if eval ≥ 20 then 0
            else if neg then 1 / (10 : ℚ) ^ eval.toNat else (10 : ℚ) ^ eval.toNat
          .ok (sign * (num * factor), ptr)
      else
        .ok (sign * num, ptr) : Except Fault (Float32 × List Nat)) =
      .ok (sign * ((decimalValue int : ℚ) +
        (decimalValue (fra.take 9) : ℚ) / 10 ^ (fra.take 9).length), t :: rest) := by
  have h46 : IsNumber 46 = false := by decide
  have hnot : ¬ (t = 101 ∨ t = 69) := by
    intro h; rcases h with h | h
    · exact ht.2.1 h
    · exact ht.2.2.1 h
  by_cases hf : fra = []
  · subst hf
    have hi := ParseFloat_int_run int 0 t rest hint ht.1
    simp only [Nat.cast_zero] at hi
    have hfr := ParseFloat_fra_run [] 0 0 t rest (by omega) (by simp) ht.1
    simp only [Nat.cast_zero, pow_zero, List.nil_append] at hfr
    have hr := ParseFloat_rest_run [] t rest (by simp) ht.1
    simp only [List.nil_append] at hr
    simp only [if_true, List.nil_append, hi, bind, Except.bind, peek, if_neg (ht.2.2.2 rfl), hfr,
      hr, if_neg hnot]
    simp [decimalValue, hr, hnot]
  · have hi := ParseFloat_int_run int 0 46 (fra ++ t :: rest) hint h46
    simp only [Nat.cast_zero] at hi
    have hfr := ParseFloat_fra_run fra 0 0 t rest (by omega) hfra ht.1
    simp only [Nat.cast_zero, pow_zero, Nat.sub_zero, Nat.zero_add] at hfr
    have hr := ParseFloat_rest_run (fra.drop 9) t rest
      (fun d hd => hfra d (List.mem_of_mem_drop hd)) ht.1
    simp only [if_neg hf, List.cons_append, hi, bind, Except.bind, peek, if_true, List.tail_cons,
      hfr, hr, if_neg hnot]
    rfl

/-- Source `ParseFloat` on a decimal literal that follows characters which are neither
digits nor minus signs. -/
theorem ParseFloat_literal (l : DecimalLiteral) (pre rest : List Nat) (t : Nat)
    (hwf : l.WellFormed) (hpre : ∀ x ∈ pre, IsNumber x = false ∧ x ≠ 45)
    (ht : EndsLiteral l t) :
    ParseFloat (pre ++ (l.text ++ t :: rest)) = .ok (l.read, t :: rest) := by
  obtain ⟨hne, hint, hfra⟩ := hwf
  obtain ⟨d, ds, hds⟩ := List.exists_cons_of_ne_nil hne
  have hd : IsNumber d = true :=
    (IsNumber_digit d (hint d (by rw [hds]; exact List.mem_cons_self _ _))).1
  have hd45 : d ≠ 45 := by
    have := hint d (by rw [hds]; exact List.mem_cons_self _ _)
    omega
  unfold ParseFloat DecimalLiteral.text DecimalLiteral.read
  cases hneg : l.negative with
  | true =>
    have hskip := ParseFloat_skip_run pre 45
      (l.int ++ ((if l.fra = [] then [] else 46 :: l.fra) ++ t :: rest)) hpre (Or.inr rfl)
    simp only [if_true, List.cons_append, List.nil_append, List.append_assoc]
    simp only [List.append_assoc] at hskip
    rw [hskip]
    simp only [bind, Except.bind, peek, if_true, List.tail_cons]
    have h := ParseFloat_unsigned l.int l.fra t rest (-1) hint hfra ht
    simp only [bind, Except.bind, List.append_assoc] at h
    exact h
  | false =>
    have hskip := ParseFloat_skip_run pre d
      (ds ++ ((if l.fra = [] then [] else 46 :: l.fra) ++ t :: rest)) hpre (Or.inl hd)
    simp only [Bool.false_eq_true, if_false, List.nil_append, List.append_assoc]
    rw [hds]
    simp only [List.cons_append, List.append_assoc] at hskip ⊢
    rw [hskip]
    simp only [bind, Except.bind, peek, if_neg hd45]
    have h := ParseFloat_unsigned (d :: ds) l.fra t rest 1 (by rw [← hds]; exact hint) hfra ht
    simp only [bind, Except.bind, List.cons_append, List.append_assoc] at h
    exact h

theorem scanRecords_clean {α : Type} (reset : α) (sep t : List Nat) (rec : α) (arr : List α)
    (h : ∀ c ∈ sep, c ≠ 0 ∧ c ≠ 34 ∧ c ≠ 125 ∧ c ≠ 93) :
    scanRecords true reset (sep ++ t) rec arr = scanRecords true reset t rec arr := by
  induction sep with
  | nil => rfl
  | cons a as ih =>
    obtain ⟨h0, h34, h125, h93⟩ := h a (List.mem_cons_self _ _)
    rw [List.cons_append, scanRecords]
    have hb : (a == 0 || a == 34) = false := by simp [h0, h34]
    simp only [h125, h93, Bool.true_and, hb, Bool.false_eq_true, if_false]
    exact ih (fun c hc => h c (List.mem_cons_of_mem _ hc))

theorem scanRecords_quote {α : Type} (reset : α) (t : List Nat) (rec : α) (arr : List α) :
    scanRecords true reset (34 :: t) rec arr = .ok (.key (34 :: t) rec arr) := by
  simp [scanRecords]

theorem scanRecords_brace {α : Type} (reset : α) (t : List Nat) (rec : α) (arr : List α) :
    scanRecords true reset (125 :: t) rec arr = scanRecords true reset t reset (arr ++ [rec]) := by
  simp [scanRecords]

theorem scanRecords_bracket {α : Type} (reset : α) (t : List Nat) (rec : α) (arr : List α) :
    scanRecords true reset (93 :: t) rec arr = .ok (.closed t rec arr) := by
  simp [scanRecords]

theorem ParseAccessors_loop_clean (fuel : Nat) (sep t : List Nat) (accessor : GLTFAccessor)
    (arr : List GLTFAccessor) (h : ∀ c ∈ sep, c ≠ 0 ∧ c ≠ 34 ∧ c ≠ 125 ∧ c ≠ 93) :
    ParseAccessors_loop fuel (sep ++ t) accessor arr = ParseAccessors_loop fuel t accessor arr := by
  cases fuel with
  | zero => rfl
  | succ f => simp only [ParseAccessors_loop, scanRecords_clean _ sep t _ _ h]

theorem ParseAccessors_loop_brace (fuel : Nat) (t : List Nat) (accessor : GLTFAccessor)
    (arr : List GLTFAccessor) :
    ParseAccessors_loop fuel (125 :: t) accessor arr =
      ParseAccessors_loop fuel t {} (arr ++ [accessor]) := by
  cases fuel with
  | zero => rfl
  | succ f => simp only [ParseAccessors_loop, scanRecords_brace]

theorem ParseAccessors_loop_bracket (fuel : Nat) (t : List Nat) (accessor : GLTFAccessor)
    (arr : List GLTFAccessor) :
    ParseAccessors_loop (fuel + 1) (93 :: t) accessor arr = .ok (.cur t, arr) := by
  simp only [ParseAccessors_loop, scanRecords_bracket, bind, Except.bind]

theorem cmp_bufferView (str : List Nat) :
    StrCMP16 str "bufferView" = bytesEq 10 str (lit "bufferView" ++ [0]) :=
  StrCMP16_eq_bytesEq str "bufferView" (by decide) (by decide)

theorem cmp_byteOffset (str : List Nat) :
    StrCMP16 str "byteOffset" = bytesEq 10 str (lit "byteOffset" ++ [0]) :=
  StrCMP16_eq_bytesEq str "byteOffset" (by decide) (by decide)

theorem cmp_componentType (str : List Nat) :
    StrCMP16 str "componentType" = bytesEq 13 str (lit "componentType" ++ [0]) :=
  StrCMP16_eq_bytesEq str "componentType" (by decide) (by decide)

theorem cmp_count (str : List Nat) :
    StrCMP16 str "count" = bytesEq 5 str (lit "count" ++ [0]) :=
  StrCMP16_eq_bytesEq str "count" (by decide) (by decide)

theorem cmp_name (str : List Nat) :
    StrCMP16 str "name" = bytesEq 4 str (lit "name" ++ [0]) :=
  StrCMP16_eq_bytesEq str "name" (by decide) (by decide)

theorem cmp_type (str : List Nat) :
    StrCMP16 str "type" = bytesEq 4 str (lit "type" ++ [0]) :=
  StrCMP16_eq_bytesEq str "type" (by decide) (by decide)

theorem accessorIntKey_dispatch (key : AccessorIntKey) (t : List Nat) :
    StrCMP16 (key.name ++ 34 :: t) "bufferView" = decide (key = .bufferView) ∧
    StrCMP16 (key.name ++ 34 :: t) "byteOffset" = decide (key = .byteOffset) ∧
    StrCMP16 (key.name ++ 34 :: t) "componentType" = decide (key = .componentType) ∧
    StrCMP16 (key.name ++ 34 :: t) "count" = decide (key = .count) := by
  rw [cmp_bufferView, cmp_byteOffset, cmp_componentType, cmp_count]
  cases key <;> simp [AccessorIntKey.name, lit, bytesEq]

theorem typeKey_dispatch (t : List Nat) :
    StrCMP16 (lit "type" ++ 34 :: t) "bufferView" = false ∧
    StrCMP16 (lit "type" ++ 34 :: t) "byteOffset" = false ∧
    StrCMP16 (lit "type" ++ 34 :: t) "componentType" = false ∧
    StrCMP16 (lit "type" ++ 34 :: t) "count" = false ∧
    StrCMP16 (lit "type" ++ 34 :: t) "name" = false ∧
    StrCMP16 (lit "type" ++ 34 :: t) "type" = true := by
  rw [cmp_bufferView, cmp_byteOffset, cmp_componentType, cmp_count, cmp_name, cmp_type]
  simp [lit, bytesEq]

theorem SkipUntill_run (pre t : List Nat) (c : Nat) (h : ∀ x ∈ pre, x ≠ c) :
    SkipUntill (pre ++ c :: t) c = .ok (c :: t) := by
  induction pre with
  | nil => simp [SkipUntill]
  | cons a as ih =>
    have ha := h a (List.mem_cons_self _ _)
    rw [List.cons_append, SkipUntill, if_pos ha]
    exact ih (fun x hx => h x (List.mem_cons_of_mem _ hx))

theorem accessorIntKey_letters (key : AccessorIntKey) :
    ∀ c ∈ key.name, c ≠ 0 ∧ IsNumber c = false := by
  cases key <;> decide

theorem accessorIntKey_skipped (key : AccessorIntKey) (mid : List Nat)
    (hm : ∀ c ∈ mid, c ≠ 0 ∧ IsNumber c = false) :
    ∀ c ∈ key.name ++ 34 :: mid, c ≠ 0 ∧ IsNumber c = false := by
  intro c hc
  rcases List.mem_append.1 hc with hc | hc
  · exact accessorIntKey_letters key c hc
  · rcases List.mem_cons.1 hc with rfl | hc
    · decide
    · exact hm c hc

theorem HashStringInQuotes_typeName (name : AccessorTypeName) (t : List Nat) :
    HashStringInQuotes (34 :: (name.name ++ 34 :: t)) =
      .ok (match name with
        | .SCALAR => AHashString8 "SCALAR"
        | .VEC2 => AHashString8 "VEC2"
        | .VEC3 => AHashString8 "VEC3"
        | .VEC4 => AHashString8 "VEC4"
        | .MAT4 => AHashString8 "MAT4", t) := by
  cases name <;> rfl

theorem ParseAccessors_loop_member (fuel : Nat) (m : AccessorMember) (t : List Nat)
    (accessor : GLTFAccessor) (arr : List GLTFAccessor) (hwf : m.WellFormed)
    (ht : HeadNonDigit t) :
    ParseAccessors_loop (fuel + 1) (m.text ++ t) accessor arr =
      ParseAccessors_loop fuel t (m.store accessor) arr := by
  cases m with
  | number sep key mid digits =>
    obtain ⟨hsep, hmid, hne, hdig, hval⟩ := hwf
    have htext : (AccessorMember.number sep key mid digits).text ++ t =
        sep ++ (34 :: ((key.name ++ 34 :: mid) ++ (digits ++ t))) := by
      simp [AccessorMember.text]
    have hkc : ∀ x, keyCursor ((key.name ++ 34 :: mid) ++ x) = .ok ((key.name ++ 34 :: mid) ++ x) := by
      intro x
      cases key <;> rfl
    obtain ⟨d1, d2, d3, d4⟩ := accessorIntKey_dispatch key (mid ++ (digits ++ t))
    have happ : (key.name ++ 34 :: mid) ++ (digits ++ t) = key.name ++ 34 :: (mid ++ (digits ++ t)) := by
      simp
    have hnum := ParsePositiveNumber_run (key.name ++ 34 :: mid) digits t
      (accessorIntKey_skipped key mid hmid) hne hdig hval ht
    rw [htext]
    simp only [ParseAccessors_loop, scanRecords_clean _ sep _ _ _ hsep.1, scanRecords_quote,
      bind, Except.bind, List.tail_cons, hkc]
    rw [happ] at hnum ⊢
    rw [d1, d2, d3, d4]
    have hw : wrapInt32 ((decimalValue digits : Int) - 5120) = (decimalValue digits : Int) - 5120 := by
      unfold wrapInt32
      omega
    cases key <;> simp [hnum, AccessorMember.store, hw]
  | type sep mid name =>
    obtain ⟨hsep, hne, hmid⟩ := hwf
    obtain ⟨c, mid1, rfl⟩ := List.exists_cons_of_ne_nil hne
    have htext : (AccessorMember.type sep (c :: mid1) name).text ++ t =
        sep ++ (34 :: (lit "type" ++ 34 :: (c :: (mid1 ++ 34 :: (name.name ++ 34 :: t))))) := by
      simp [AccessorMember.text]
    obtain ⟨d1, d2, d3, d4, d5, d6⟩ :=
      typeKey_dispatch (c :: (mid1 ++ 34 :: (name.name ++ 34 :: t)))
    have hkc : keyCursor (lit "type" ++ 34 :: (c :: (mid1 ++ 34 :: (name.name ++ 34 :: t)))) =
        .ok (lit "type" ++ 34 :: (c :: (mid1 ++ 34 :: (name.name ++ 34 :: t)))) := rfl
    have hdrop : (lit "type" ++ 34 :: (c :: (mid1 ++ 34 :: (name.name ++ 34 :: t)))).drop 6 =
        mid1 ++ 34 :: (name.name ++ 34 :: t) := rfl
    have hskip := SkipUntill_run mid1 (name.name ++ 34 :: t) 34
      (fun x hx => hmid x (List.mem_cons_of_mem _ hx))
    rw [htext]
    simp only [ParseAccessors_loop, scanRecords_clean _ sep _ _ _ hsep.1, scanRecords_quote,
      bind, Except.bind, List.tail_cons, hkc, d1, d2, d3, d4, d5, d6, hdrop, hskip,
      HashStringInQuotes_typeName, Bool.false_eq_true, if_false, if_true]
    have h1 : AHashString8 "VEC2" ≠ AHashString8 "SCALAR" := by decide
    have h2 : AHashString8 "VEC3" ≠ AHashString8 "SCALAR" := by decide
    have h3 : AHashString8 "VEC3" ≠ AHashString8 "VEC2" := by decide
    have h4 : AHashString8 "VEC4" ≠ AHashString8 "SCALAR" := by decide
    have h5 : AHashString8 "VEC4" ≠ AHashString8 "VEC2" := by decide
    have h6 : AHashString8 "VEC4" ≠ AHashString8 "VEC3" := by decide
    have h7 : AHashString8 "MAT4" ≠ AHashString8 "SCALAR" := by decide
    have h8 : AHashString8 "MAT4" ≠ AHashString8 "VEC2" := by decide
    have h9 : AHashString8 "MAT4" ≠ AHashString8 "VEC3" := by decide
    have h10 : AHashString8 "MAT4" ≠ AHashString8 "VEC4" := by decide
    cases name <;>
      simp [AccessorMember.store, AccessorTypeName.components, h1, h2, h3, h4, h5, h6, h7, h8,
        h9, h10]

theorem headNonDigit_member (m : AccessorMember) (x : List Nat) (hwf : m.WellFormed) :
    HeadNonDigit (m.text ++ x) := by
  have key : ∀ (sep : List Nat) (y : List Nat), IsNumber (sep.headD 0) = false →
      HeadNonDigit (sep ++ 34 :: y) := by
    intro sep y h
    cases sep with
    | nil => exact ⟨34, y, rfl, by decide⟩
    | cons a as => exact ⟨a, as ++ 34 :: y, rfl, h⟩
  cases m with
  | number sep key1 mid digits =>
    have := key sep ((key1.name ++ 34 :: (mid ++ digits)) ++ x) hwf.1.2
    simpa [AccessorMember.text] using this
  | type sep mid name =>
    have := key sep ((lit "type" ++ 34 :: (mid ++ 34 :: (name.name ++ [34]))) ++ x) hwf.1.2
    simpa [AccessorMember.text] using this

theorem headNonDigit_clean (sep : List Nat) (c : Nat) (x : List Nat)
    (h : IsNumber (sep.headD 0) = false) (hc : IsNumber c = false) :
    HeadNonDigit (sep ++ c :: x) := by
  cases sep with
  | nil => exact ⟨c, x, rfl, hc⟩
  | cons a as => exact ⟨a, as ++ c :: x, rfl, h⟩

theorem headNonDigit_members (ms : List AccessorMember) (close : List Nat) (c : Nat)
    (x : List Nat) (hwf : ∀ m ∈ ms, m.WellFormed) (hclose : CleanSep close)
    (hc : IsNumber c = false) :
    HeadNonDigit (membersText ms ++ (close ++ c :: x)) := by
  cases ms with
  | nil => exact headNonDigit_clean close c x hclose.2 hc
  | cons m ms =>
    have := headNonDigit_member m (membersText ms ++ (close ++ c :: x))
      (hwf m (List.mem_cons_self _ _))
    simpa [membersText] using this

theorem ParseAccessors_loop_members (ms : List AccessorMember) (close : List Nat) (c : Nat)
    (x : List Nat) (hclose : CleanSep close) (hc : IsNumber c = false) :
    ∀ (fuel : Nat) (accessor : GLTFAccessor) (arr : List GLTFAccessor),
      (∀ m ∈ ms, m.WellFormed) →
      ParseAccessors_loop (fuel + ms.length) (membersText ms ++ (close ++ c :: x)) accessor arr =
        ParseAccessors_loop fuel (close ++ c :: x) (ms.foldl AccessorMember.store accessor) arr := by
  induction ms with
  | nil => intro fuel accessor arr _; rfl
  | cons m ms ih =>
    intro fuel accessor arr hwf
    have hwf1 : ∀ m ∈ ms, m.WellFormed := fun y hy => hwf y (List.mem_cons_of_mem _ hy)
    have e : fuel + (m :: ms).length = (fuel + ms.length) + 1 := by simp; omega
    have e2 : membersText (m :: ms) ++ (close ++ c :: x) =
        m.text ++ (membersText ms ++ (close ++ c :: x)) := by simp [membersText]
    rw [e, e2, ParseAccessors_loop_member _ m _ accessor arr (hwf m (List.mem_cons_self _ _))
      (headNonDigit_members ms close c x hwf1 hclose hc), List.foldl_cons]
    exact ih fuel _ arr hwf1

theorem ParseAccessors_loop_record (r : AccessorRecord) (t : List Nat) (fuel : Nat)
    (arr : List GLTFAccessor) (hwf : r.WellFormed) :
    ParseAccessors_loop (fuel + r.members.length) (r.text ++ t) {} arr =
      ParseAccessors_loop fuel t {} (arr ++ [r.accessor]) := by
  have e : r.text ++ t = membersText r.members ++ (r.close ++ 125 :: t) := by
    simp [AccessorRecord.text]
  rw [e, ParseAccessors_loop_members r.members r.close 125 t hwf.2 (by decide) fuel {} arr hwf.1,
    ParseAccessors_loop_clean _ _ _ _ _ hwf.2.1, ParseAccessors_loop_brace]
  rfl

theorem ParseAccessors_loop_records (t : List Nat) (fuel : Nat) :
    ∀ (rs : List AccessorRecord) (arr : List GLTFAccessor), (∀ r ∈ rs, r.WellFormed) →
      ParseAccessors_loop (fuel + (rs.map (fun r => r.members.length)).sum)
          (recordsText rs ++ t) {} arr =
        ParseAccessors_loop fuel t {} (arr ++ rs.map AccessorRecord.accessor) := by
  intro rs
  induction rs with
  | nil => intro arr _; simp [recordsText]
  | cons r rs ih =>
    intro arr hwf
    have e : fuel + ((r :: rs).map (fun r => r.members.length)).sum =
        (fuel + (rs.map (fun r => r.members.length)).sum) + r.members.length := by
      simp; omega
    have e2 : recordsText (r :: rs) ++ t = r.text ++ (recordsText rs ++ t) := by
      simp [recordsText]
    rw [e, e2, ParseAccessors_loop_record r _ _ arr (hwf r (List.mem_cons_self _ _)),
      ih _ (fun y hy => hwf y (List.mem_cons_of_mem _ hy))]
    simp

theorem store_get_other (a : GLTFAccessor) (m : AccessorMember) (f : AccessorField)
    (h : m.field ≠ f) : (m.store a).get f = a.get f := by
  cases m with
  | number sep key mid digits =>
    cases key <;> cases f <;>
      first | rfl | exact absurd rfl h
  | type sep mid name =>
    cases f <;> first | rfl | exact absurd rfl h

theorem store_get_self (a : GLTFAccessor) (m : AccessorMember) :
    (m.store a).get m.field = m.value := by
  cases m with
  | number sep key mid digits => cases key <;> rfl
  | type sep mid name => rfl

theorem foldl_store_get_absent (ms : List AccessorMember) (a : GLTFAccessor)
    (f : AccessorField) (h : f ∉ ms.map AccessorMember.field) :
    (ms.foldl AccessorMember.store a).get f = a.get f := by
  induction ms generalizing a with
  | nil => rfl
  | cons m ms ih =>
    simp only [List.map_cons, List.mem_cons, not_or] at h
    rw [List.foldl_cons, ih _ h.2, store_get_other a m f (fun e => h.1 e.symm)]

theorem foldl_store_get_member (ms : List AccessorMember) (a : GLTFAccessor)
    (hnodup : (ms.map AccessorMember.field).Nodup) (m : AccessorMember) (hm : m ∈ ms) :
    (ms.foldl AccessorMember.store a).get m.field = m.value := by
  induction ms generalizing a with
  | nil => simp at hm
  | cons y ms ih =>
    simp only [List.map_cons, List.nodup_cons] at hnodup
    rw [List.foldl_cons]
    rcases List.mem_cons.1 hm with rfl | hm
    · rw [foldl_store_get_absent ms _ _ hnodup.1, store_get_self]
    · exact ih _ hnodup.2 hm

/-- C15: for accessor records built from the keys bufferView, byteOffset, componentType,
count and type, in any order and layout, `ParseAccessors` returns the cursor after the
closing bracket and appends one accessor per record, each the result of storing the
members of its record into the zero accessor; for a record with distinct keys, the field
of every key holds the given integer (for `componentType` the integer less `0x1400`, for
`type` 1, 2, 3, 4 or 16 for SCALAR, VEC2, VEC3, VEC4, MAT4), and the field of an absent key
is 0, whatever the record before. -/
theorem ParseAccessors_records (fuel : Nat) (hdr : List Nat) (records : List AccessorRecord)
    (final rest : List Nat) (arr : List GLTFAccessor)
    (hhdr : hdr.length = 10) (hwf : ∀ r ∈ records, r.WellFormed) (hfinal : CleanSep final)
    (hfuel : (records.map (fun r => r.members.length)).sum < fuel) :
    ParseAccessors fuel (accessorsText hdr records final rest) arr =
      .ok (.cur rest, arr ++ records.map AccessorRecord.accessor) ∧
    ∀ r ∈ records, (r.members.map AccessorMember.field).Nodup →
      (∀ m ∈ r.members, r.accessor.get m.field = m.value) ∧
      (∀ f, f ∉ r.members.map AccessorMember.field → r.accessor.get f = 0) := by
  constructor
  · obtain ⟨f, rfl⟩ : ∃ f, fuel = (f + 1) + (records.map (fun r => r.members.length)).sum :=
      ⟨fuel - 1 - (records.map (fun r => r.members.length)).sum, by omega⟩
    unfold ParseAccessors accessorsText
    rw [← hhdr, List.drop_left, ParseAccessors_loop_records _ _ records arr hwf,
      ParseAccessors_loop_clean _ _ _ _ _ hfinal.1, ParseAccessors_loop_bracket]
  · intro r _ hnodup
    exact ⟨fun m hm => foldl_store_get_member r.members {} hnodup m hm,
      fun f hf => by
        have h := foldl_store_get_absent r.members {} f hf
        rw [AccessorRecord.accessor, h]
        cases f <;> rfl⟩

theorem cleanSep_nil : CleanSep [] := by
  simp [CleanSep]
  decide

theorem scalarRecord_wellFormed : ∀ r ∈ [scalarRecord], r.WellFormed := by
  intro r hr
  rw [List.mem_singleton.1 hr]
  refine ⟨?_, cleanSep_nil⟩
  intro m hm
  simp only [scalarRecord, List.mem_cons, List.mem_singleton, List.not_mem_nil, or_false] at hm
  rcases hm with rfl | rfl | rfl | rfl <;>
    simp [AccessorMember.WellFormed, CleanSep, lit, decimalValue] <;> decide

set_option maxRecDepth 100000 in
/-- C15 (witness): the record `{"count":6,"componentType":5123,"bufferView":0,
"type":"SCALAR"}` gives count 6, componentType 3, bufferView 0, byteOffset 0, type 1. -/
theorem ParseAccessors_records_witness :
    ParseAccessors 5
        (lit ("accessors\":[\x7b\"count\":6,\"componentType\":5123,\"bufferView\":0," ++
          "\"type\":\"SCALAR\"\x7d]\x7d") ++ [0]) [] =
      .ok (.cur (lit "\x7d" ++ [0]),
        [{ bufferView := 0, componentType := 3, count := 6, byteOffset := 0, type := 1 }]) := by
  have h := (ParseAccessors_records 5 (lit "accessors\"") [scalarRecord] [] (lit "\x7d" ++ [0]) []
    rfl scalarRecord_wellFormed cleanSep_nil (by decide)).1
  have e1 : accessorsText (lit "accessors\"") [scalarRecord] [] (lit "\x7d" ++ [0]) =
      lit ("accessors\":[\x7b\"count\":6,\"componentType\":5123,\"bufferView\":0," ++
        "\"type\":\"SCALAR\"\x7d]\x7d") ++ [0] := by decide
  have e2 : ([] : List GLTFAccessor) ++ [scalarRecord].map AccessorRecord.accessor =
      [{ bufferView := 0, componentType := 3, count := 6, byteOffset := 0, type := 1 }] := by
    decide
  rw [e1, e2] at h
  exact h

theorem keyCursor_cons (k : Nat) (ks : List Nat) : keyCursor (k :: ks) = .ok (k :: ks) := rfl

theorem ParseAccessors_unknown :
    UnknownKeyStops ParseAccessors_loop true {} accessorKeys .UNKNOWN_ACCESSOR_VAR := by
  intro fuel curr rec arr key rec1 arr1 hscan hk hun
  obtain ⟨k, ks, rfl⟩ := List.exists_cons_of_ne_nil hk
  simp only [accessorKeys, List.mem_cons, List.mem_singleton, forall_eq_or_imp, forall_eq,
    List.not_mem_nil, IsEmpty.forall_iff, implies_true, and_true] at hun
  obtain ⟨h1, h2, h3, h4, h5, h6, h7, h8, h9⟩ := hun
  simp only [ParseAccessors_loop, bind, Except.bind, hscan, List.tail_cons, keyCursor_cons,
    h1, h2, h3, h4, h5, h6, h7, h8, h9, Bool.false_eq_true, if_false]

theorem ParseBuffers_unknown (env : Env) (dir : List Nat) :
    UnknownKeyStops (ParseBuffers_loop env dir) true {} bufferKeys .BUFFER_PARSE_FAIL := by
  intro fuel curr rec arr key rec1 arr1 hscan hk hun
  obtain ⟨k, ks, rfl⟩ := List.exists_cons_of_ne_nil hk
  simp only [bufferKeys, List.mem_cons, List.mem_singleton, forall_eq_or_imp, forall_eq,
    List.not_mem_nil, IsEmpty.forall_iff, implies_true, and_true] at hun
  obtain ⟨h1, h2⟩ := hun
  simp only [ParseBuffers_loop, bind, Except.bind, hscan, List.tail_cons, keyCursor_cons,
    h1, h2, Bool.false_eq_true, if_false]

theorem ParseTextures_unknown :
    UnknownKeyStops ParseTextures_loop true {} textureKeys .UNKNOWN_TEXTURE_VAR := by
  intro fuel curr rec arr key rec1 arr1 hscan hk hun
  obtain ⟨k, ks, rfl⟩ := List.exists_cons_of_ne_nil hk
  simp only [textureKeys, List.mem_cons, List.mem_singleton, forall_eq_or_imp, forall_eq,
    List.not_mem_nil, IsEmpty.forall_iff, implies_true, and_true] at hun
  obtain ⟨h1, h2, h3⟩ := hun
  simp only [ParseTextures_loop, bind, Except.bind, hscan, List.tail_cons, keyCursor_cons,
    h1, h2, h3, Bool.false_eq_true, if_false]

theorem ParseSamplers_unknown :
    UnknownKeyStops ParseSamplers_loop true {} samplerKeys .UNKNOWN := by
  intro fuel curr rec arr key rec1 arr1 hscan hk hun
  obtain ⟨k, ks, rfl⟩ := List.exists_cons_of_ne_nil hk
  simp only [samplerKeys, List.mem_cons, List.mem_singleton, forall_eq_or_imp, forall_eq,
    List.not_mem_nil, IsEmpty.forall_iff, implies_true, and_true] at hun
  obtain ⟨h1, h2, h3, h4⟩ := hun
  simp only [ParseSamplers_loop, bind, Except.bind, hscan, List.tail_cons, keyCursor_cons,
    h1, h2, h3, h4, Bool.false_eq_true, if_false]

theorem ParseNodes_key_unknown (fuelA : Nat) (scale : Float32) (key : List Nat) (node : ANode)
    (hun : ∀ s ∈ nodeKeys, StrCMP16 key s = false) :
    ParseNodes_key fuelA scale key node = .ok none := by
  simp only [nodeKeys, List.mem_cons, List.mem_singleton, forall_eq_or_imp, forall_eq,
    List.not_mem_nil, IsEmpty.forall_iff, implies_true, and_true] at hun
  obtain ⟨h1, h2, h3, h4, h5, h6, h7, h8, h9⟩ := hun
  simp only [ParseNodes_key, h1, h2, h3, h4, h5, h6, h7, h8, h9, Bool.false_eq_true, if_false]

theorem ParseNodes_unknown (fuelA : Nat) (scale : Float32) :
    UnknownKeyStops (ParseNodes_loop fuelA scale) true (nodeDefaults scale) nodeKeys
      .UNKNOWN_NODE_VAR := by
  intro fuel curr rec arr key rec1 arr1 hscan hk hun
  obtain ⟨k, ks, rfl⟩ := List.exists_cons_of_ne_nil hk
  simp only [ParseNodes_loop, hscan, List.tail_cons, keyCursor_cons,
    ParseNodes_key_unknown fuelA scale (k :: ks) rec1 hun]

theorem ParseMaterials_unknown (fuelA : Nat) :
    UnknownKeyStops (ParseMaterials_loop fuelA) true { baseColorTexture := { index := -1 } }
      materialKeys .UNKNOWN_MATERIAL_VAR := by
  intro fuel curr rec arr key rec1 arr1 hscan hk hun
  obtain ⟨k, ks, rfl⟩ := List.exists_cons_of_ne_nil hk
  simp only [materialKeys, List.mem_cons, List.mem_singleton, forall_eq_or_imp, forall_eq,
    List.not_mem_nil, IsEmpty.forall_iff, implies_true, and_true] at hun
  obtain ⟨h1, h2, h3, h4, h5, h6, h7, h8, h9, h10⟩ := hun
  simp only [ParseMaterials_loop, bind, Except.bind, hscan, List.tail_cons, keyCursor_cons,
    h1, h2, h3, h4, h5, h6, h7, h8, h9, h10, Bool.false_eq_true, if_false]

theorem ParseMeshes_unknown (fuelA : Nat) :
    UnknownNameStops (ParseMeshes_loop fuelA) {} meshKeys .UNKNOWN_MESH_VAR := by
  intro fuel curr rec arr quoted name after rec1 arr1 hscan hget hun
  simp only [meshKeys, List.mem_cons, List.mem_singleton, forall_eq_or_imp, forall_eq,
    List.not_mem_nil, IsEmpty.forall_iff, implies_true, and_true] at hun
  obtain ⟨h1, h2⟩ := hun
  simp only [ParseMeshes_loop, bind, Except.bind, hscan, hget, h1, h2, Bool.false_eq_true,
    if_false, Bool.not_false, if_true]

theorem ParseCameras_unknown (fuelA : Nat) :
    UnknownNameStops (ParseCameras_loop fuelA) {} cameraKeys .UNKNOWN_CAMERA_VAR := by
  intro fuel curr rec arr quoted name after rec1 arr1 hscan hget hun
  simp only [cameraKeys, List.mem_cons, List.mem_singleton, forall_eq_or_imp, forall_eq,
    List.not_mem_nil, IsEmpty.forall_iff, implies_true, and_true] at hun
  obtain ⟨h1, h2, h3, h4⟩ := hun
  simp only [ParseCameras_loop, bind, Except.bind, hscan, hget, h1, h2, h3, h4,
    Bool.false_eq_true, if_false, Bool.not_false, Bool.and_self, if_true]

theorem ParseBufferViews_unknown :
    UnknownHashStops ParseBufferViews_loop {} bufferViewHashes .UNKNOWN_BUFFER_VIEW_VAR := by
  intro fuel curr rec arr quoted after hash rec1 arr1 hscan hhash hun
  simp only [bufferViewHashes, List.mem_cons, List.mem_singleton, List.not_mem_nil, or_false,
    not_or] at hun
  obtain ⟨h1, h2, h3, h4, h5, h6⟩ := hun
  simp only [ParseBufferViews_loop, bind, Except.bind, hscan, hhash, if_neg h1, if_neg h2,
    if_neg h3, if_neg h4, if_neg h5, if_neg h6]

theorem ParseGLTF_step_sentinel (env : Env) (fuel : Nat) (path : List Nat)
    (scale : Float32) (curr key : List Nat) (st st1 : ParseState) (e : AErrorType)
    (hq : skipToQuoteOrNul curr = .ok (34 :: key)) (hk : key ≠ [])
    (hd : ParseGLTF_dispatch env fuel path scale key st = .ok (.sentinel e, st1)) :
    ParseGLTF_step env fuel path scale curr st = .ok (.failed e st1) := by
  obtain ⟨c, t, rfl, hc⟩ := skipToQuoteOrNul_head curr key hq
  obtain ⟨k, ks, rfl⟩ := List.exists_cons_of_ne_nil hk
  simp [ParseGLTF_step, peek, hc, hq, keyCursor, hd]

/-- A sentinel that the chain of `ParseGLTF` gets from a section parser, after `n` keys
that were parsed without an error, makes `ParseGLTF` return 0 with that error. -/
theorem ParseGLTF_of_sentinel (env : Env) (path : List Nat) (scale : Float32)
    (source : List Nat) (n : Nat) (curr key : List Nat) (st st1 : ParseState) (e : AErrorType)
    (hread : env.readFile path = some source)
    (hrun : ParseGLTF_iterate env (source.length + 1) path scale n source {} = some (curr, st))
    (hn : n ≤ source.length)
    (hq : skipToQuoteOrNul curr = .ok (34 :: key)) (hk : key ≠ [])
    (hd : ParseGLTF_dispatch env (source.length + 1) path scale key st =
      .ok (.sentinel e, st1)) :
    ParseGLTF env path scale =
      .ok (0, { error := e, defaultSceneIndex := st1.defaultSceneIndex }) := by
  have hstep := ParseGLTF_step_sentinel env (source.length + 1) path scale curr key st st1 e
    hq hk hd
  have hl : ParseGLTF_loop env (source.length + 1) path scale (source.length - n + 1) curr st
      = .ok (some e, st1) := by
    simp [ParseGLTF_loop, hstep]
  have h := ParseGLTF_loop_of_iterate env (source.length + 1) path scale _ n _ source {} curr st
    hrun hl
  have e1 : n + (source.length - n + 1) = source.length + 1 := by omega
  rw [e1] at h
  simp [ParseGLTF, hread, ParseGLTF_source, h]

/-- What the other record sections do with a key they do not know: for each of the
sections accessors, bufferViews, buffers, textures, samplers, meshes, nodes, cameras and
materials, the record loop of the section parser returns the error code of the section as
soon as its scan stops at a key that matches none of the keys the section recognises or
passes over; and an error code that the key chain of `ParseGLTF` gets from a section
parser, after keys that were parsed without an error, makes `ParseGLTF` return 0 with
that error in the bundle. -/
theorem unknown_record_key_stops_nine_sections :
    UnknownKeyStops ParseAccessors_loop true {} accessorKeys .UNKNOWN_ACCESSOR_VAR ∧
    UnknownHashStops ParseBufferViews_loop {} bufferViewHashes .UNKNOWN_BUFFER_VIEW_VAR ∧
    (∀ env dir,
      UnknownKeyStops (ParseBuffers_loop env dir) true {} bufferKeys .BUFFER_PARSE_FAIL) ∧
    UnknownKeyStops ParseTextures_loop true {} textureKeys .UNKNOWN_TEXTURE_VAR ∧
    UnknownKeyStops ParseSamplers_loop true {} samplerKeys .UNKNOWN ∧
    (∀ fuelA, UnknownNameStops (ParseMeshes_loop fuelA) {} meshKeys .UNKNOWN_MESH_VAR) ∧
    (∀ fuelA scale, UnknownKeyStops (ParseNodes_loop fuelA scale) true (nodeDefaults scale)
      nodeKeys .UNKNOWN_NODE_VAR) ∧
    (∀ fuelA, UnknownNameStops (ParseCameras_loop fuelA) {} cameraKeys .UNKNOWN_CAMERA_VAR) ∧
    (∀ fuelA, UnknownKeyStops (ParseMaterials_loop fuelA) true
      { baseColorTexture := { index := -1 } } materialKeys .UNKNOWN_MATERIAL_VAR) ∧
    ∀ (env : Env) (path : List Nat) (scale : Float32) (source : List Nat) (n : Nat)
      (curr key : List Nat) (st st1 : ParseState) (e : AErrorType),
      env.readFile path = some source →
      ParseGLTF_iterate env (source.length + 1) path scale n source {} = some (curr, st) →
      n ≤ source.length → skipToQuoteOrNul curr = .ok (34 :: key) → key ≠ [] →
      ParseGLTF_dispatch env (source.length + 1) path scale key st = .ok (.sentinel e, st1) →
      ParseGLTF env path scale =
        .ok (0, { error := e, defaultSceneIndex := st1.defaultSceneIndex }) :=
  ⟨ParseAccessors_unknown, ParseBufferViews_unknown, ParseBuffers_unknown,
    ParseTextures_unknown, ParseSamplers_unknown, ParseMeshes_unknown, ParseNodes_unknown,
    ParseCameras_unknown, ParseMaterials_unknown,
    fun env path scale source n curr key st st1 e hread hrun hn hq hk hd =>
      ParseGLTF_of_sentinel env path scale source n curr key st st1 e hread hrun hn hq hk hd⟩

/-- The document whose accessor record has the unknown key `sparse` after the key
`count`: the record loop of `ParseAccessors` stops at it with the error
`UNKNOWN_ACCESSOR_VAR`, and `ParseGLTF` returns 0 with that error. -/
theorem ParseGLTF_rejects_unknown_accessor_key :
    ParseAccessors_loop 1 (lit ",\"sparse\":1\x7d]\x7d" ++ [0]) { count := 3 } [] =
      .ok (.sentinel .UNKNOWN_ACCESSOR_VAR, []) ∧
    ParseGLTF (fileEnv accessorSparseDocument) (lit "a/b.gltf") 1 =
      .ok (0, { error := .UNKNOWN_ACCESSOR_VAR, defaultSceneIndex := 0 }) := by
  constructor
  · exact unknown_record_key_stops_nine_sections.1 0 (lit ",\"sparse\":1\x7d]\x7d" ++ [0]) { count := 3 } []
      (lit "sparse\":1\x7d]\x7d" ++ [0]) { count := 3 } [] (by rfl) (by decide) (by decide)
  · exact unknown_record_key_stops_nine_sections.2.2.2.2.2.2.2.2.2 (fileEnv accessorSparseDocument)
      (lit "a/b.gltf") 1 accessorSparseDocument 2
      (lit ",\"accessors\":[\x7b\"count\":3,\"sparse\":1\x7d]\x7d" ++ [0])
      (lit "accessors\":[\x7b\"count\":3,\"sparse\":1\x7d]\x7d" ++ [0])
      { scenes := [{ numNodes := 1, nodes := [0] }] }
      { scenes := [{ numNodes := 1, nodes := [0] }] }
      .UNKNOWN_ACCESSOR_VAR (by rfl) (by rfl) (by decide) (by rfl) (by decide) (by rfl)

theorem ParseNumber_skip_run (p t : List Nat) (c : Nat)
    (hp : ∀ x ∈ p, x ≠ 0 ∧ IsNumber x = false ∧ x ≠ 45)
    (hc : c = 45 ∨ IsNumber c = true) :
    ParseNumber_skip (p ++ c :: t) = .ok (c :: t) := by
  induction p with
  | nil =>
    rcases hc with rfl | hc
    · simp [ParseNumber_skip]
    · simp [ParseNumber_skip, hc]
  | cons a as ih =>
    obtain ⟨h0, hn, h45⟩ := hp a (List.mem_cons_self _ _)
    rw [List.cons_append, ParseNumber_skip]
    simp only [ne_eq, h0, not_false_eq_true, decide_True, h45, hn, Bool.not_false, Bool.and_self,
      if_true]
    exact ih (fun x hx => hp x (List.mem_cons_of_mem _ hx))

theorem ParsePositiveNumber_digits_stop (v : Int) (t : List Nat) (ht : HeadNonDigit t) :
    ParsePositiveNumber_digits v t = .ok (v, t) := by
  obtain ⟨c, r, rfl, hc⟩ := ht
  simp [ParsePositiveNumber_digits, hc]

theorem ParseNumber_plain (p d r : List Nat)
    (hp : ∀ c ∈ p, c ≠ 0 ∧ IsNumber c = false) (hne : d ≠ [])
    (hd : ∀ x ∈ d, 48 ≤ x ∧ x ≤ 57) (hv : decimalValue d < 2147483648)
    (hr : HeadNonDigit r) (h45 : ∀ c ∈ p, c ≠ 45) :
    ParseNumber (p ++ (d ++ r)) = .ok ((decimalValue d : Int), r) := by
  obtain ⟨x, xs, rfl⟩ := List.exists_cons_of_ne_nil hne
  have hx := hd x (List.mem_cons_self _ _)
  have hdig := IsNumber_digit x hx
  have hskip := ParseNumber_skip_run p (xs ++ r) x
    (fun c hc => ⟨(hp c hc).1, (hp c hc).2, h45 c hc⟩) (Or.inr hdig.1)
  have hx45 : x ≠ 45 := by omega
  have h := ParsePositiveNumber_digits_run (x :: xs) 0 r hd hv hr
  unfold ParseNumber
  rw [List.cons_append, hskip]
  simp only [bind, Except.bind, peek, if_neg hx45]
  rw [List.cons_append] at h
  simp only [Nat.cast_zero] at h
  rw [h]
  rfl

theorem ParseNumber_minus (q d r : List Nat)
    (hq : ∀ c ∈ q, c ≠ 0 ∧ IsNumber c = false ∧ c ≠ 45)
    (hd : ∀ x ∈ d, 48 ≤ x ∧ x ≤ 57) (hv : decimalValue d < 2147483648)
    (hr : HeadNonDigit r) :
    ParseNumber ((q ++ [45]) ++ (d ++ r)) = .ok (-(decimalValue d : Int), r) := by
  have hskip := ParseNumber_skip_run q (d ++ r) 45 hq (Or.inl rfl)
  have h := ParsePositiveNumber_digits_run d 0 r hd hv hr
  simp only [Nat.cast_zero] at h
  unfold ParseNumber
  have e : (q ++ [45]) ++ (d ++ r) = q ++ 45 :: (d ++ r) := by simp
  rw [e, hskip]
  simp only [bind, Except.bind, peek, if_true, List.tail_cons]
  rw [h]
  have hw : wrapInt32 (-((decimalValue d : Nat) : Int)) = -((decimalValue d : Nat) : Int) := by
    unfold wrapInt32
    unfold decimalValue at hv ⊢
    omega
  simp only [decimalValue] at hw ⊢
  simp only [if_true, hw]

theorem ParseNumber_stray_minus (q s t : List Nat)
    (hq : ∀ c ∈ q, c ≠ 0 ∧ IsNumber c = false ∧ c ≠ 45)
    (hs : HeadNonDigit (s ++ t)) :
    ParseNumber (q ++ 45 :: (s ++ t)) = .ok (0, s ++ t) := by
  have hskip := ParseNumber_skip_run q (s ++ t) 45 hq (Or.inl rfl)
  unfold ParseNumber
  rw [hskip]
  simp only [bind, Except.bind, peek, if_true, List.tail_cons]
  rw [ParsePositiveNumber_digits_stop 0 _ hs]
  rfl

/-- C27 (amended): on a text `p ++ d ++ r`, where `p` holds no digit and no NUL, `d` is a
non-empty run of digits denoting `n < 2 ^ 31` and `r` begins with a non-digit,
`ParsePositiveNumber` returns `n` and leaves the cursor at `r`; `ParseNumber` does the same
when `p` holds no minus sign, returns `-n` with the cursor at `r` when the only minus sign
of `p` is its last character, and otherwise stops behind the first minus sign of `p`: it
returns 0 and leaves the cursor on the character after that sign. -/
theorem ParseNumber_value (p d r : List Nat)
    (hp : ∀ c ∈ p, c ≠ 0 ∧ IsNumber c = false) (hne : d ≠ [])
    (hd : ∀ x ∈ d, 48 ≤ x ∧ x ≤ 57) (hv : decimalValue d < 2147483648)
    (hr : HeadNonDigit r) :
    ParsePositiveNumber (p ++ (d ++ r)) = .ok ((decimalValue d : Int), r) ∧
    ((∀ c ∈ p, c ≠ 45) → ParseNumber (p ++ (d ++ r)) = .ok ((decimalValue d : Int), r)) ∧
    (∀ q, p = q ++ [45] → (∀ c ∈ q, c ≠ 45) →
      ParseNumber (p ++ (d ++ r)) = .ok (-(decimalValue d : Int), r)) ∧
    (∀ q s, p = q ++ 45 :: s → (∀ c ∈ q, c ≠ 45) → s ≠ [] →
      ParseNumber (p ++ (d ++ r)) = .ok (0, s ++ (d ++ r))) := by
  refine ⟨ParsePositiveNumber_run p d r hp hne hd hv hr,
    ParseNumber_plain p d r hp hne hd hv hr, ?_, ?_⟩
  · intro q hpq hq
    subst hpq
    exact ParseNumber_minus q d r
      (fun c hc => ⟨(hp c (List.mem_append_left _ hc)).1,
        (hp c (List.mem_append_left _ hc)).2, hq c hc⟩) hd hv hr
  · intro q s hpq hq hs
    subst hpq
    obtain ⟨a, as, rfl⟩ := List.exists_cons_of_ne_nil hs
    have ha : IsNumber a = false :=
      (hp a (List.mem_append_right _ (List.mem_cons_of_mem _ (List.mem_cons_self _ _)))).2
    have h := ParseNumber_stray_minus q (a :: as) (d ++ r)
      (fun c hc => ⟨(hp c (List.mem_append_left _ hc)).1,
        (hp c (List.mem_append_left _ hc)).2, hq c hc⟩) ⟨a, as ++ (d ++ r), rfl, ha⟩
    simpa using h

/-- C27 (counterexample): in `a-b12,` the prefix `a-b` holds no digit and no NUL and the
digits `12` are not preceded by the minus sign; `ParseNumber` returns 0, not 12, and leaves
the cursor on `b`, before the digits. -/
theorem ParseNumber_stray_minus_counterexample :
    ParseNumber (lit "a-b12," ++ [0]) = .ok (0, lit "b12," ++ [0]) ∧
    ParsePositiveNumber (lit "a-b12," ++ [0]) = .ok (12, lit "," ++ [0]) := by
  constructor <;> rfl

/-- C27 (witness): `:-12,` gives 12 with `ParsePositiveNumber` and -12 with `ParseNumber`,
the cursor on the comma. -/
theorem ParseNumber_value_witness :
    ParsePositiveNumber (lit ":-" ++ (lit "12" ++ (lit "," ++ [0]))) =
        .ok ((decimalValue (lit "12") : Int), lit "," ++ [0]) ∧
    ParseNumber (lit ":-" ++ (lit "12" ++ (lit "," ++ [0]))) =
        .ok (-(decimalValue (lit "12") : Int), lit "," ++ [0]) := by
  have h := ParseNumber_value (lit ":-") (lit "12") (lit "," ++ [0]) (by decide) (by decide)
    (by decide) (by decide) ⟨44, [0], rfl, by decide⟩
  exact ⟨h.1, h.2.2.1 (lit ":") rfl (by decide)⟩

theorem read_eq_value (l : DecimalLiteral) (h : l.fra.length ≤ 9) : l.read = l.value := by
  unfold DecimalLiteral.read DecimalLiteral.value
  rw [List.take_of_length_le h]

/-- C28: for a literal `[-]I[.F]` with `I` a non-empty run of digits and `F` a run of at
most nine digits, followed by a character that is no digit, exponent mark or (after a
literal without fraction) decimal point, `ParseFloat` returns the exact value
`sign * (I + F / 10 ^ |F|)` and leaves the cursor on the character after the literal,
whatever non-digit, non-minus characters precede the literal. -/
theorem ParseFloat_value (l : DecimalLiteral) (pre rest : List Nat) (t : Nat)
    (hwf : l.WellFormed) (hlen : l.fra.length ≤ 9)
    (hpre : ∀ x ∈ pre, IsNumber x = false ∧ x ≠ 45) (ht : EndsLiteral l t) :
    ParseFloat (pre ++ (l.text ++ t :: rest)) =
      .ok ((if l.negative then -1 else 1) *
        ((decimalValue l.int : ℚ) + (decimalValue l.fra : ℚ) / 10 ^ l.fra.length), t :: rest) := by
  have h := ParseFloat_literal l pre rest t hwf hpre ht
  rw [read_eq_value l hlen] at h
  exact h

/-- C28 (witness): `:-12.5,` gives `-25/2` and the cursor on the comma. -/
theorem ParseFloat_value_witness :
    ParseFloat (lit ":-12.5," ++ [0]) = .ok (-25 / 2, lit "," ++ [0]) := by
  have h := ParseFloat_value minusTwelveAndHalf (lit ":") [0] 44
    ⟨by decide, by decide, by decide⟩ (by decide) (by decide)
    ⟨by decide, by decide, by decide, by decide⟩
  have e1 : lit ":" ++ (minusTwelveAndHalf.text ++ 44 :: [0]) = lit ":-12.5," ++ [0] := by
    decide
  have e2 : ((if minusTwelveAndHalf.negative then -1 else 1) *
      ((decimalValue minusTwelveAndHalf.int : ℚ) +
        (decimalValue minusTwelveAndHalf.fra : ℚ) / 10 ^ minusTwelveAndHalf.fra.length) : ℚ) =
      -25 / 2 := by
    simp [minusTwelveAndHalf, decimalValue, lit]
    norm_num
  rw [e1, e2] at h
  exact h

/-- C29 (amended): for a literal with more than nine digits after the point, `ParseFloat`
accumulates exactly the first nine of them (the loop stops once the divisor is `1e9`); the
digits after the ninth are passed over and do not enter the value. -/
theorem ParseFloat_nine_digits (l : DecimalLiteral) (pre rest : List Nat) (t : Nat)
    (hwf : l.WellFormed) (hlen : 9 < l.fra.length)
    (hpre : ∀ x ∈ pre, IsNumber x = false ∧ x ≠ 45) (ht : EndsLiteral l t) :
    ParseFloat (pre ++ (l.text ++ t :: rest)) =
      .ok ((if l.negative then -1 else 1) *
        ((decimalValue l.int : ℚ) + (decimalValue (l.fra.take 9) : ℚ) / 10 ^ 9), t :: rest) := by
  have h := ParseFloat_literal l pre rest t hwf hpre ht
  unfold DecimalLiteral.read at h
  rw [List.length_take, Nat.min_eq_left (le_of_lt hlen)] at h
  exact h

/-- C29 (counterexample): of the eleven fraction digits of `1.23456789012` the value holds
nine, `1.234567890`; the tenth digit, 1, is not accumulated. -/
theorem ParseFloat_tenth_digit_counterexample :
    ParseFloat (lit ":1.23456789012," ++ [0]) = .ok (1234567890 / 1000000000, lit "," ++ [0]) ∧
    (1234567890 / 1000000000 : ℚ) ≠ 12345678901 / 10000000000 := by
  constructor
  · with_unfolding_all rfl
  · norm_num

/-- C29 (witness): `1.23456789012` is read as `1 + 234567890 / 10 ^ 9`. -/
theorem ParseFloat_nine_digits_witness :
    ParseFloat (lit ":" ++ (elevenDigitLiteral.text ++ 44 :: [0])) =
      .ok ((if elevenDigitLiteral.negative then -1 else 1) *
        ((decimalValue elevenDigitLiteral.int : ℚ) +
          (decimalValue (elevenDigitLiteral.fra.take 9) : ℚ) / 10 ^ 9), 44 :: [0]) :=
  ParseFloat_nine_digits elevenDigitLiteral (lit ":") [0] 44
    ⟨by decide, by decide, by decide⟩ (by decide) (by decide)
    ⟨by decide, by decide, by decide, by decide⟩

theorem StartsWith_skip_run (ws t : List Nat) (c : Nat)
    (hws : ∀ x ∈ ws, IsWhitespace x = true) (hc : IsWhitespace c = false) :
    StartsWith_skip (ws ++ c :: t) = .ok (c :: t) := by
  induction ws with
  | nil => simp [StartsWith_skip, hc]
  | cons a as ih =>
    rw [List.cons_append, StartsWith_skip, if_pos (hws a (List.mem_cons_self _ _))]
    exact ih (fun x hx => hws x (List.mem_cons_of_mem _ hx))

theorem StartsWith_loop_prefix (s t : List Nat) : StartsWith_loop (s ++ t) s = .ok (t, []) := by
  induction s with
  | nil => cases t <;> rfl
  | cons a as ih => rw [List.cons_append, StartsWith_loop, if_pos rfl, ih]

/-- The direction of the prefix test that holds: a text that, after white space, begins with
every character of the literal gives `true`, and the cursor is left behind the literal. -/
theorem StartsWith_of_prefix (ws rest : List Nat) (str : String) (c : Nat) (cs : List Nat)
    (hstr : lit str = c :: cs) (hws : ∀ x ∈ ws, IsWhitespace x = true)
    (hc : IsWhitespace c = false) :
    StartsWith (ws ++ (lit str ++ rest)) str = .ok (true, rest) := by
  unfold StartsWith
  rw [hstr, List.cons_append, StartsWith_skip_run ws (cs ++ rest) c hws hc]
  simp only [bind, Except.bind, peek, List.cons_append, List.headD_cons, ne_eq,
    not_true_eq_false, if_false]
  have h := StartsWith_loop_prefix (c :: cs) rest
  rw [List.cons_append] at h
  rw [h]
  rfl

/-- C30: the text `"data.bin"` does not begin with the literal `"data:` (the sixth
character is a point, not a colon), and `StartsWith` returns true for it: the loop
`while (*str && *curr++ == *str++);` steps over the mismatching last pair, so that `*str`
is the terminator of the literal.  The cursor is left behind the point. -/
theorem StartsWith_accepts_last_mismatch :
    StartsWith (lit "\"data.bin\"" ++ [0]) "\"data:" = .ok (true, lit "bin\"" ++ [0]) := by
  rfl

theorem ParseSamplers_loop_clean (fuel : Nat) (sep t : List Nat) (sampler : ASampler)
    (arr : List ASampler) (h : ∀ c ∈ sep, c ≠ 0 ∧ c ≠ 34 ∧ c ≠ 125 ∧ c ≠ 93) :
    ParseSamplers_loop fuel (sep ++ t) sampler arr = ParseSamplers_loop fuel t sampler arr := by
  cases fuel with
  | zero => rfl
  | succ f => simp only [ParseSamplers_loop, scanRecords_clean _ sep t _ _ h]

theorem ParseSamplers_loop_brace (fuel : Nat) (t : List Nat) (sampler : ASampler)
    (arr : List ASampler) :
    ParseSamplers_loop fuel (125 :: t) sampler arr =
      ParseSamplers_loop fuel t {} (arr ++ [sampler]) := by
  cases fuel with
  | zero => rfl
  | succ f => simp only [ParseSamplers_loop, scanRecords_brace]

theorem ParseSamplers_loop_bracket (fuel : Nat) (t : List Nat) (sampler : ASampler)
    (arr : List ASampler) :
    ParseSamplers_loop (fuel + 1) (93 :: t) sampler arr = .ok (.cur t, arr) := by
  simp only [ParseSamplers_loop, scanRecords_bracket, bind, Except.bind]

theorem cmp_magFilter (str : List Nat) :
    StrCMP16 str "magFilter" = bytesEq 9 str (lit "magFilter" ++ [0]) :=
  StrCMP16_eq_bytesEq str "magFilter" (by decide) (by decide)

theorem cmp_minFilter (str : List Nat) :
    StrCMP16 str "minFilter" = bytesEq 9 str (lit "minFilter" ++ [0]) :=
  StrCMP16_eq_bytesEq str "minFilter" (by decide) (by decide)

theorem cmp_wrapS (str : List Nat) :
    StrCMP16 str "wrapS" = bytesEq 5 str (lit "wrapS" ++ [0]) :=
  StrCMP16_eq_bytesEq str "wrapS" (by decide) (by decide)

theorem cmp_wrapT (str : List Nat) :
    StrCMP16 str "wrapT" = bytesEq 5 str (lit "wrapT" ++ [0]) :=
  StrCMP16_eq_bytesEq str "wrapT" (by decide) (by decide)

theorem samplerKey_dispatch (key : SamplerKey) (t : List Nat) :
    StrCMP16 (key.name ++ 34 :: t) "magFilter" = decide (key = .magFilter) ∧
    StrCMP16 (key.name ++ 34 :: t) "minFilter" = decide (key = .minFilter) ∧
    StrCMP16 (key.name ++ 34 :: t) "wrapS" = decide (key = .wrapS) ∧
    StrCMP16 (key.name ++ 34 :: t) "wrapT" = decide (key = .wrapT) := by
  rw [cmp_magFilter, cmp_minFilter, cmp_wrapS, cmp_wrapT]
  cases key <;> simp [SamplerKey.name, lit, bytesEq]

theorem samplerKey_letters (key : SamplerKey) :
    ∀ c ∈ key.name, c ≠ 0 ∧ IsNumber c = false := by
  cases key <;> decide

theorem samplerKey_skipped (key : SamplerKey) (mid : List Nat)
    (hm : ∀ c ∈ mid, c ≠ 0 ∧ IsNumber c = false) :
    ∀ c ∈ key.name ++ 34 :: mid, c ≠ 0 ∧ IsNumber c = false := by
  intro c hc
  rcases List.mem_append.1 hc with hc | hc
  · exact samplerKey_letters key c hc
  · rcases List.mem_cons.1 hc with rfl | hc
    · decide
    · exact hm c hc

theorem ParseSamplers_loop_member (fuel : Nat) (m : SamplerMember) (t : List Nat)
    (sampler : ASampler) (arr : List ASampler) (hwf : m.WellFormed)
    (ht : HeadNonDigit t) :
    ParseSamplers_loop (fuel + 1) (m.text ++ t) sampler arr =
      ParseSamplers_loop fuel t (m.store sampler) arr := by
  obtain ⟨sep, key, mid, digits⟩ := m
  obtain ⟨hsep, hmid, hne, hdig, hval⟩ := hwf
  simp only at hsep hmid hne hdig hval
  have htext : (SamplerMember.mk sep key mid digits).text ++ t =
      sep ++ (34 :: ((key.name ++ 34 :: mid) ++ (digits ++ t))) := by
    simp [SamplerMember.text]
  have hkc : ∀ x, keyCursor ((key.name ++ 34 :: mid) ++ x) = .ok ((key.name ++ 34 :: mid) ++ x) := by
    intro x
    cases key <;> rfl
  obtain ⟨d1, d2, d3, d4⟩ := samplerKey_dispatch key (mid ++ (digits ++ t))
  have happ : (key.name ++ 34 :: mid) ++ (digits ++ t) = key.name ++ 34 :: (mid ++ (digits ++ t)) := by
    simp
  have hnum := ParsePositiveNumber_run (key.name ++ 34 :: mid) digits t
    (samplerKey_skipped key mid hmid) hne hdig hval ht
  rw [htext]
  simp only [ParseSamplers_loop, scanRecords_clean _ sep _ _ _ hsep.1, scanRecords_quote,
    bind, Except.bind, List.tail_cons, hkc]
  rw [happ] at hnum ⊢
  rw [d1, d2, d3, d4]
  have hw : wrapInt32 ((decimalValue digits : Int) - 9728) = (decimalValue digits : Int) - 9728 := by
    unfold wrapInt32
    omega
  cases key <;>
    simp [hnum, SamplerMember.store, SamplerMember.value, SamplerKey.stored, ASampler.put, hw]

theorem headNonDigit_samplerMember (m : SamplerMember) (x : List Nat) (hwf : m.WellFormed) :
    HeadNonDigit (m.text ++ x) := by
  have h := headNonDigit_clean m.sep 34 ((m.key.name ++ 34 :: (m.mid ++ m.digits)) ++ x)
    hwf.1.2 (by decide)
  simpa [SamplerMember.text] using h

theorem headNonDigit_samplerMembers (ms : List SamplerMember) (close : List Nat) (c : Nat)
    (x : List Nat) (hwf : ∀ m ∈ ms, m.WellFormed) (hclose : CleanSep close)
    (hc : IsNumber c = false) :
    HeadNonDigit (samplerMembersText ms ++ (close ++ c :: x)) := by
  cases ms with
  | nil => exact headNonDigit_clean close c x hclose.2 hc
  | cons m ms =>
    have := headNonDigit_samplerMember m (samplerMembersText ms ++ (close ++ c :: x))
      (hwf m (List.mem_cons_self _ _))
    simpa [samplerMembersText] using this

theorem ParseSamplers_loop_members (ms : List SamplerMember) (close : List Nat) (c : Nat)
    (x : List Nat) (hclose : CleanSep close) (hc : IsNumber c = false) :
    ∀ (fuel : Nat) (sampler : ASampler) (arr : List ASampler),
      (∀ m ∈ ms, m.WellFormed) →
      ParseSamplers_loop (fuel + ms.length) (samplerMembersText ms ++ (close ++ c :: x))
          sampler arr =
        ParseSamplers_loop fuel (close ++ c :: x) (ms.foldl SamplerMember.store sampler) arr := by
  induction ms with
  | nil => intro fuel sampler arr _; rfl
  | cons m ms ih =>
    intro fuel sampler arr hwf
    have hwf1 : ∀ m ∈ ms, m.WellFormed := fun y hy => hwf y (List.mem_cons_of_mem _ hy)
    have e : fuel + (m :: ms).length = (fuel + ms.length) + 1 := by simp; omega
    have e2 : samplerMembersText (m :: ms) ++ (close ++ c :: x) =
        m.text ++ (samplerMembersText ms ++ (close ++ c :: x)) := by simp [samplerMembersText]
    rw [e, e2, ParseSamplers_loop_member _ m _ sampler arr (hwf m (List.mem_cons_self _ _))
      (headNonDigit_samplerMembers ms close c x hwf1 hclose hc), List.foldl_cons]
    exact ih fuel _ arr hwf1

theorem ParseSamplers_loop_record (r : SamplerRecord) (t : List Nat) (fuel : Nat)
    (arr : List ASampler) (hwf : r.WellFormed) :
    ParseSamplers_loop (fuel + r.members.length) (r.text ++ t) {} arr =
      ParseSamplers_loop fuel t {} (arr ++ [r.sampler]) := by
  have e : r.text ++ t = samplerMembersText r.members ++ (r.close ++ 125 :: t) := by
    simp [SamplerRecord.text]
  rw [e, ParseSamplers_loop_members r.members r.close 125 t hwf.2 (by decide) fuel {} arr hwf.1,
    ParseSamplers_loop_clean _ _ _ _ _ hwf.2.1, ParseSamplers_loop_brace]
  rfl

theorem ParseSamplers_loop_records (t : List Nat) (fuel : Nat) :
    ∀ (rs : List SamplerRecord) (arr : List ASampler), (∀ r ∈ rs, r.WellFormed) →
      ParseSamplers_loop (fuel + (rs.map (fun r => r.members.length)).sum)
          (samplerRecordsText rs ++ t) {} arr =
        ParseSamplers_loop fuel t {} (arr ++ rs.map SamplerRecord.sampler) := by
  intro rs
  induction rs with
  | nil => intro arr _; simp [samplerRecordsText]
  | cons r rs ih =>
    intro arr hwf
    have e : fuel + ((r :: rs).map (fun r => r.members.length)).sum =
        (fuel + (rs.map (fun r => r.members.length)).sum) + r.members.length := by
      simp; omega
    have e2 : samplerRecordsText (r :: rs) ++ t = r.text ++ (samplerRecordsText rs ++ t) := by
      simp [samplerRecordsText]
    rw [e, e2, ParseSamplers_loop_record r _ _ arr (hwf r (List.mem_cons_self _ _)),
      ih _ (fun y hy => hwf y (List.mem_cons_of_mem _ hy))]
    simp

/-- `ParseSamplers` on an array of well-formed records: the cursor behind the closing
bracket, and one sampler for each record. -/
theorem ParseSamplers_records (fuel : Nat) (hdr : List Nat) (records : List SamplerRecord)
    (final rest : List Nat) (arr : List ASampler)
    (hhdr : ∀ c ∈ hdr, c ≠ 91) (hwf : ∀ r ∈ records, r.WellFormed) (hfinal : CleanSep final)
    (hfuel : (records.map (fun r => r.members.length)).sum < fuel) :
    ParseSamplers fuel (samplersText hdr records final rest) arr =
      .ok (.cur rest, arr ++ records.map SamplerRecord.sampler) := by
  obtain ⟨f, rfl⟩ : ∃ f, fuel = (f + 1) + (records.map (fun r => r.members.length)).sum :=
    ⟨fuel - 1 - (records.map (fun r => r.members.length)).sum, by omega⟩
  unfold ParseSamplers samplersText
  rw [SkipUntill_run hdr _ 91 hhdr]
  simp only [bind, Except.bind, List.tail_cons]
  rw [ParseSamplers_loop_records _ _ records arr hwf,
    ParseSamplers_loop_clean _ _ _ _ _ hfinal.1, ParseSamplers_loop_bracket]

theorem put_get_other (s : ASampler) (k f : SamplerKey) (v : Int) (h : k ≠ f) :
    (s.put k v).get f = s.get f := by
  cases k <;> cases f <;> first | rfl | exact absurd rfl h

theorem put_get_self (s : ASampler) (k : SamplerKey) (v : Int) : (s.put k v).get k = v := by
  cases k <;> rfl

theorem foldl_samplerStore_absent (ms : List SamplerMember) (s : ASampler) (f : SamplerKey)
    (h : f ∉ ms.map SamplerMember.key) :
    (ms.foldl SamplerMember.store s).get f = s.get f := by
  induction ms generalizing s with
  | nil => rfl
  | cons m ms ih =>
    simp only [List.map_cons, List.mem_cons, not_or] at h
    rw [List.foldl_cons, ih _ h.2, SamplerMember.store,
      put_get_other s m.key f _ (fun e => h.1 e.symm)]

theorem foldl_samplerStore_member (ms : List SamplerMember) (s : ASampler)
    (hnodup : (ms.map SamplerMember.key).Nodup) (m : SamplerMember) (hm : m ∈ ms) :
    (ms.foldl SamplerMember.store s).get m.key = m.key.stored m.value := by
  induction ms generalizing s with
  | nil => simp at hm
  | cons y ms ih =>
    simp only [List.map_cons, List.nodup_cons] at hnodup
    rw [List.foldl_cons]
    rcases List.mem_cons.1 hm with rfl | hm
    · rw [foldl_samplerStore_absent ms _ _ hnodup.1, SamplerMember.store, put_get_self]
    · exact ih _ hnodup.2 hm

theorem wrapInt8_of_range (x : Int) (h0 : -128 ≤ x) (h1 : x ≤ 127) : wrapInt8 x = x := by
  unfold wrapInt8
  omega

/-- C22 (amended): for sampler records laid out as JSON lays them out, `ParseSamplers`
appends one sampler per record, and in a record with distinct keys the stored `magFilter`
and `minFilter` are the source value less `0x2600` reduced to eight signed bits (the cast
to `char`): the difference itself when it lies in -128 .. 127, as for 9728 and 9729, and
0, 1, 2, 3 for 9984, 9985, 9986, 9987. -/
theorem ParseSamplers_filters (fuel : Nat) (hdr : List Nat) (records : List SamplerRecord)
    (final rest : List Nat) (arr : List ASampler)
    (hhdr : ∀ c ∈ hdr, c ≠ 91) (hwf : ∀ r ∈ records, r.WellFormed) (hfinal : CleanSep final)
    (hfuel : (records.map (fun r => r.members.length)).sum < fuel) :
    ParseSamplers fuel (samplersText hdr records final rest) arr =
      .ok (.cur rest, arr ++ records.map SamplerRecord.sampler) ∧
    ∀ r ∈ records, (r.members.map SamplerMember.key).Nodup → ∀ m ∈ r.members,
      (m.key = .magFilter → r.sampler.magFilter = wrapInt8 (m.value - 9728)) ∧
      (m.key = .minFilter → r.sampler.minFilter = wrapInt8 (m.value - 9728)) ∧
      (9600 ≤ m.value → m.value ≤ 9855 → wrapInt8 (m.value - 9728) = m.value - 9728) ∧
      (9984 ≤ m.value → m.value ≤ 9987 → wrapInt8 (m.value - 9728) = m.value - 9984) := by
  refine ⟨ParseSamplers_records fuel hdr records final rest arr hhdr hwf hfinal hfuel, ?_⟩
  intro r _ hnodup m hm
  have h := foldl_samplerStore_member r.members {} hnodup m hm
  refine ⟨fun hk => ?_, fun hk => ?_, fun h0 h1 => wrapInt8_of_range _ (by omega) (by omega),
    fun h0 h1 => ?_⟩
  · rw [hk] at h
    exact h
  · rw [hk] at h
    exact h
  · unfold wrapInt8
    omega

/-- C22 (counterexample): the filters 9984 and 9728 are both stored as 0; the stored
`minFilter` is not 9984 - 0x2600 = 256. -/
theorem ParseSamplers_filter_counterexample :
    ParseSamplers 5
        (lit "samplers\":[\x7b\"minFilter\":9984,\"magFilter\":9728\x7d]\x7d" ++ [0]) [] =
      .ok (.cur (lit "\x7d" ++ [0]), [{ magFilter := 0, minFilter := 0 }]) ∧
    (9984 : Int) - 9728 ≠ 0 := by
  constructor
  · rfl
  · decide

theorem filterRecord_wellFormed : ∀ r ∈ [filterRecord], r.WellFormed := by
  intro r hr
  rw [List.mem_singleton.1 hr]
  refine ⟨?_, cleanSep_nil⟩
  intro m hm
  simp only [filterRecord, List.mem_cons, List.mem_singleton, List.not_mem_nil, or_false] at hm
  rcases hm with rfl | rfl <;>
    simp [SamplerMember.WellFormed, CleanSep, lit, decimalValue] <;> decide

set_option maxRecDepth 100000 in
/-- C22 (witness): the record `{"magFilter":9729,"minFilter":9987}` is stored with
`magFilter` 1 and `minFilter` 3. -/
theorem ParseSamplers_filters_witness :
    ParseSamplers 5
        (lit "samplers\":[\x7b\"magFilter\":9729,\"minFilter\":9987\x7d]\x7d" ++ [0]) [] =
      .ok (.cur (lit "\x7d" ++ [0]), [{ magFilter := 1, minFilter := 3 }]) ∧
    filterRecord.sampler.magFilter = wrapInt8 (9729 - 9728) ∧
    filterRecord.sampler.minFilter = wrapInt8 (9987 - 9728) := by
  have h := ParseSamplers_filters 5 (lit "samplers\":") [filterRecord] [] (lit "\x7d" ++ [0]) []
    (by decide) filterRecord_wellFormed cleanSep_nil (by decide)
  have hr := h.2 filterRecord (List.mem_singleton.2 rfl) (by decide)
  have h1 := h.1
  have e1 : samplersText (lit "samplers\":") [filterRecord] [] (lit "\x7d" ++ [0]) =
      lit "samplers\":[\x7b\"magFilter\":9729,\"minFilter\":9987\x7d]\x7d" ++ [0] := by decide
  have e2 : ([] : List ASampler) ++ [filterRecord].map SamplerRecord.sampler =
      [{ magFilter := 1, minFilter := 3 }] := by decide
  rw [e1, e2] at h1
  exact ⟨h1, (hr ⟨lit "\x7b", .magFilter, lit ":", lit "9729"⟩ (by simp [filterRecord])).1 rfl,
    (hr ⟨lit ",", .minFilter, lit ":", lit "9987"⟩ (by simp [filterRecord])).2.1 rfl⟩

/-- C21: a sampler whose `wrapS` is 1, none of 0x2901, 0x812F, 0x812D, 0x8370, does not
fail the parse: `OGLWrapToWrap` returns 0 for it, the code of 0x2901, and `ParseGLTF`
returns 1 with error `NONE`. -/
theorem ParseGLTF_accepts_unknown_wrap :
    ∃ b, ParseGLTF (fileEnv wrapOneDocument) (lit "a/b.gltf") 1 = .ok (1, b) ∧
      b.error = .NONE ∧
      b.samplers = [{ magFilter := 0, minFilter := 0, wrapS := 0, wrapT := 1 }] := by
  exact ⟨_, rfl, rfl, rfl⟩

/-- The four wrap modes are stored as 0, 1, 2, 3; any other value is stored as 0. -/
theorem OGLWrapToWrap_values (wrap : Int) :
    OGLWrapToWrap 0x2901 = 0 ∧ OGLWrapToWrap 0x812F = 1 ∧ OGLWrapToWrap 0x812D = 2 ∧
    OGLWrapToWrap 0x8370 = 3 ∧
    (wrap ≠ 0x2901 → wrap ≠ 0x812F → wrap ≠ 0x812D → wrap ≠ 0x8370 → OGLWrapToWrap wrap = 0) := by
  refine ⟨rfl, rfl, rfl, rfl, fun h1 h2 h3 h4 => ?_⟩
  unfold OGLWrapToWrap
  simp [h1, h2, h3, h4]

set_option maxRecDepth 1000000 in
/-- C23: of two material records whose `pbrMetallicRoughness` block holds no
`baseColorTexture`, the second has `baseColorTexture.index` -1 and the first has 0: the
index is set to -1 where the record is reset after a closing brace, not where the first
record is created (`AMaterial material{}`). -/
theorem ParseGLTF_first_material_index :
    ∃ b, ParseGLTF (fileEnv twoMaterialsDocument) (lit "a/b.gltf") 1 = .ok (1, b) ∧
      b.error = .NONE ∧
      b.materials.map (fun m => m.baseColorTexture.index) = [0, -1] := by
  exact ⟨_, rfl, rfl, rfl⟩

set_option maxRecDepth 1000000 in
/-- C24: of two mesh records written without white space `ParseMeshes` appends none: after
the scan has stepped over the bracket that closes `primitives`, `curr++; // skip ]` steps
over the brace that closes the mesh.  With a blank between the two, the two meshes are
appended with their primitives. -/
theorem ParseMeshes_compact_appends_none (fuel : Nat) :
    ParseMeshes (fuel + 8) compactMeshesText [] = .ok (.cur (lit ",\"x\"" ++ [0]), []) ∧
    ∃ meshes, ParseMeshes (fuel + 8) spacedMeshesText [] =
        .ok (.cur (lit ",\"x\"" ++ [0]), meshes) ∧
      meshes.map (fun m => m.primitives.map (fun p => p.mode)) = [[4], [1]] := by
  exact ⟨rfl, _, rfl, rfl⟩

set_option maxRecDepth 1000000 in
/-- C25: from the record `{"sampler":1,"target":{"node":2,"path":"rotation"}}` written
without white space the channels loop produces no channel: `curr += sizeof("target'")`
steps over the key `node`, and `curr += sizeof("rotation'")` over the brace that closes
the target, so that the brace of the record is taken for it.  With a blank after the path
one channel is produced, whose `targetNode` is not the 2 of the text. -/
theorem ParseAnimations_channels_compact (fuel : Nat) (channel : AAnimChannel) :
    ParseAnimations_channels (fuel + 8) compactChannelsText false channel [] =
      .ok (lit ",\"x\"" ++ [0], []) ∧
    ParseAnimations_channels (fuel + 8) spacedChannelsText false channel [] =
      .ok (lit ",\"x\"" ++ [0],
        [{ channel with sampler := 1, targetPath := AAnimTargetPath_Rotation }]) := by
  exact ⟨rfl, rfl⟩

set_option maxRecDepth 1000000 in
/-- C26: on `[0]}],"nodes"` the filling pass of `ParseIntArray` steps over the bracket that
closes the array (the `curr++` after `ParsePositiveNumber`) and leaves the cursor on the
bracket of the enclosing array; on `[1,2],"b":[3 ]` the counting pass allocates two
elements and the filling pass goes on to the next array, whose 3 is a third write. -/
theorem ParseIntArray_skips_closing_bracket (fuel : Nat) :
    ParseIntArray (fuel + 8) (lit ":[0]\x7d],\"nodes\"" ++ [0]) =
      .ok ({ numElements := 1, ptr := [0] }, lit "],\"nodes\"" ++ [0]) ∧
    ParseIntArray_count 1 (lit "1,2],\"b\":[3 ]" ++ [0]) = .ok 2 ∧
    ParseIntArray_fill 3 (fuel + 16) (lit "1,2],\"b\":[3 ]" ++ [0]) [] =
      .ok ([1, 2, 3], lit "]" ++ [0]) ∧
    ParseIntArray (fuel + 16) (lit ":[1,2],\"b\":[3 ]" ++ [0]) = .error .outOfBounds := by
  exact ⟨rfl, rfl, rfl, rfl⟩

set_option maxRecDepth 1000000 in
/-- C37: the node with the matrix diag(1, 2, 3, 1) parses, for the document scale `s`, to
the scale (1·s, 3·s, 2·s): `ExtractScaleV` puts the length of row 2 in the second lane
and the length of row 1 in the third. -/
theorem ParseNodes_matrix_scale_swapped (s : Float32) :
    (ParseNodes 64 diagonalNodeText [] s).map (fun r => (r.1, r.2.map (fun node => node.scale))) =
      .ok (.cur [0], [[1 * s, 3 * s, 2 * s]]) := by
  with_unfolding_all rfl

theorem visited_increasing :
    ∀ attributes < 128, (visited attributes).Pairwise (fun a b => a < b) := by
  decide

theorem visited_lt : ∀ attributes < 128, ∀ j ∈ visited attributes, j < 7 := by
  decide

theorem resolveSlots_ne_outOfFuel (accessors : List GLTFAccessor)
    (bufferViews : List GLTFBufferView) (buffers : List GLTFBuffer) :
    ∀ (js : List Nat) (slots : List VoidPtr),
      resolveSlots accessors bufferViews buffers js slots ≠ .error .outOfFuel := by
  intro js
  induction js with
  | nil => intro slots; simp [resolveSlots]
  | cons j js ih =>
    intro slots
    unfold resolveSlots
    cases hr : resolveSlot accessors bufferViews buffers slots j with
    | ok s1 => exact ih s1
    | error f =>
      simp only
      intro hf
      injection hf with hf
      subst hf
      unfold resolveSlot at hr
      cases hs : slotIndex slots j with
      | error g =>
        rw [hs] at hr
        simp only at hr
        injection hr with hr
        subst hr
        unfold slotIndex at hs
        cases hg : slots.get? j with
        | none => rw [hg] at hs; simp at hs
        | some p =>
          rw [hg] at hs
          cases p <;> simp [VoidPtr.toInt] at hs
      | ok i =>
        rw [hs] at hr
        simp only at hr
        cases ha : resolveAccessor accessors bufferViews buffers i with
        | ok r => rw [ha] at hr; simp at hr
        | error g =>
          rw [ha] at hr
          simp only at hr
          injection hr with hr
          subst hr
          unfold resolveAccessor at ha
          have harr : ∀ {α : Type} (arr : List α) (k : Int), arrayAt arr k ≠ .error .outOfFuel := by
            intro α arr k
            unfold arrayAt
            split
            · simp
            · split <;> simp
          cases h1 : arrayAt accessors i with
          | error g => rw [h1] at ha; simp only at ha; injection ha with ha; exact harr _ _ (ha ▸ h1)
          | ok acc =>
            rw [h1] at ha
            simp only at ha
            cases h2 : arrayAt bufferViews acc.bufferView with
            | error g => rw [h2] at ha; simp only at ha; injection ha with ha; exact harr _ _ (ha ▸ h2)
            | ok view =>
              rw [h2] at ha
              simp only at ha
              cases h3 : arrayAt buffers view.buffer with
              | error g => rw [h3] at ha; simp only at ha; injection ha with ha; exact harr _ _ (ha ▸ h3)
              | ok b => rw [h3] at ha; simp at ha

/-- C36 (amended): for a non-zero attribute mask below `2 ^ 7` the attribute loop of the
resolver ends within its fuel and rewrites, each once and in increasing order, slot 0
(whether or not bit 0 is set) and the slots whose bit is set in the mask; a slot other
than these is not rewritten. -/
theorem resolveAttribs_visits (accessors : List GLTFAccessor)
    (bufferViews : List GLTFBufferView) (buffers : List GLTFBuffer) (attributes : Nat)
    (slots : List VoidPtr) (h0 : attributes ≠ 0) (hmask : attributes < 128) :
    resolveAttribs accessors bufferViews buffers 32 0 attributes slots =
      resolveSlots accessors bufferViews buffers (visited attributes) slots ∧
    resolveAttribs accessors bufferViews buffers 32 0 attributes slots ≠ .error .outOfFuel ∧
    (visited attributes).Pairwise (fun a b => a < b) ∧
    (∀ j, j ∈ visited attributes ↔ j < 7 ∧ (j = 0 ∨ attributes.testBit j = true)) ∧
    ∀ slots1, resolveAttribs accessors bufferViews buffers 32 0 attributes slots = .ok slots1 →
      ∀ j, j ∉ visited attributes → slots1.get? j = slots.get? j := by
  have he := resolveAttribs_eq_resolveSlots accessors bufferViews buffers 32 0 attributes slots _
    (visitSeq_mask _ hmask)
  refine ⟨he, ?_, visited_increasing _ hmask, ?_, ?_⟩
  · rw [he]
    exact resolveSlots_ne_outOfFuel _ _ _ _ _
  · intro j
    constructor
    · intro hj
      have hlt := visited_lt _ hmask j hj
      exact ⟨hlt, ((mem_visited _ hmask j hlt).1 hj).2⟩
    · intro hj
      exact (mem_visited _ hmask j hj.1).2 ⟨h0, hj.2⟩
  · intro slots1 h j hj
    rw [he] at h
    exact (resolveSlots_ok accessors bufferViews buffers _ slots slots1
      (visited_nodup _ hmask) h).2.2 j hj

/-- C36 (counterexample): for the mask 2 (the bit of NORMAL alone) the loop rewrites slot
0, whose bit is clear, with the address of accessor 0, and then slot 1. -/
theorem resolveAttribs_slot_zero_counterexample :
    resolveAttribs [{ byteOffset := 4 }, { byteOffset := 12 }] [{}] [{}] 32 0 2
        [.addr 0, .addr 1, .addr 0, .addr 0, .addr 0, .addr 0, .addr 0] =
      .ok [.inBuffer 0 4, .inBuffer 0 12, .addr 0, .addr 0, .addr 0, .addr 0, .addr 0] ∧
    Nat.testBit 2 0 = false := by
  constructor
  · rfl
  · decide

/-- C36 (witness): for the mask 5 (POSITION and TEXCOORD_0) the loop rewrites the slots 0
and 2. -/
theorem resolveAttribs_visits_witness :
    resolveAttribs [{ byteOffset := 4 }, { byteOffset := 12 }] [{}] [{}] 32 0 5
        [.addr 0, .addr 0, .addr 1] =
      resolveSlots [{ byteOffset := 4 }, { byteOffset := 12 }] [{}] [{}] (visited 5)
        [.addr 0, .addr 0, .addr 1] ∧
    (visited 5).Pairwise (fun a b => a < b) :=
  have h := resolveAttribs_visits [{ byteOffset := 4 }, { byteOffset := 12 }] [{}] [{}] 5
    [.addr 0, .addr 0, .addr 1] (by decide) (by decide)
  ⟨h.1, h.2.2.1⟩

theorem hashStep_ascii (c shift : Nat) (hc : c < 128) :
    toUInt64 (schar c) <<< shift = c * 2 ^ shift := by
  have hs : schar c = (c : Int) := by
    unfold schar
    rw [if_pos hc]
  rw [hs, toUInt64_natCast c (by omega), Nat.shiftLeft_eq]

theorem HashStringInQuotes_loop_run (rest : List Nat) :
    ∀ (k : Nat) (l : List Nat) (h shift : Nat), (∀ c ∈ l, c < 128 ∧ c ≠ 34) →
      shift + 8 * k ≤ 64 →
      HashStringInQuotes_loop k h shift (l ++ 34 :: rest) =
        .ok (((l.take k).foldl
          (fun (p : Nat × Nat) c => (p.1 ||| (toUInt64 (schar c) <<< p.2), p.2 + 8))
          (h, shift)).1, l.drop k ++ 34 :: rest) := by
  intro k
  induction k with
  | zero => intro l h shift _ _; simp [HashStringInQuotes_loop]
  | succ k ih =>
    intro l h shift hl hs
    cases l with
    | nil => simp [HashStringInQuotes_loop]
    | cons c cs =>
      obtain ⟨hc, h34⟩ := hl c (List.mem_cons_self _ _)
      rw [List.cons_append, HashStringInQuotes_loop, if_pos h34]
      have hmod : (toUInt64 (schar c) <<< shift) % 18446744073709551616 =
          toUInt64 (schar c) <<< shift := by
        rw [hashStep_ascii c shift hc]
        apply Nat.mod_eq_of_lt
        have h56 : shift ≤ 56 := by omega
        calc c * 2 ^ shift ≤ 127 * 2 ^ 56 :=
              Nat.mul_le_mul (by omega) (Nat.pow_le_pow_right (by decide) h56)
          _ < 18446744073709551616 := by decide
      rw [hmod, ih cs _ _ (fun x hx => hl x (List.mem_cons_of_mem _ hx)) (by omega)]
      simp [List.take_succ_cons, List.foldl_cons]

theorem foldl_hash_littleEndian :
    ∀ (l : List Nat) (n h : Nat), (∀ c ∈ l, c < 128) → h < 256 ^ n →
      (l.foldl (fun (p : Nat × Nat) c => (p.1 ||| (toUInt64 (schar c) <<< p.2), p.2 + 8))
        (h, 8 * n)).1 = h + 256 ^ n * littleEndian l := by
  intro l
  induction l with
  | nil => intro n h _ _; simp [littleEndian]
  | cons c cs ih =>
    intro n h hl hh
    have hc := hl c (List.mem_cons_self _ _)
    have hpow : 2 ^ (8 * n) = 256 ^ n := by
      rw [pow_mul]
      norm_num
    have hstep : h ||| (toUInt64 (schar c) <<< (8 * n)) = c * 256 ^ n + h := by
      rw [hashStep_ascii c _ hc, ← Nat.shiftLeft_eq, or_shiftLeft_eq_add c (8 * n) h (by omega),
        hpow]
    have hlt : c * 256 ^ n + h < 256 ^ (n + 1) := by
      rw [pow_succ]
      nlinarith
    have e8 : 8 * n + 8 = 8 * (n + 1) := by ring
    rw [List.foldl_cons]
    simp only [hstep, e8]
    rw [ih (n + 1) _ (fun x hx => hl x (List.mem_cons_of_mem _ hx)) hlt, littleEndian, pow_succ]
    ring

theorem byteOf_littleEndian :
    ∀ (l : List Nat) (i : Nat), (∀ c ∈ l, c < 256) → byteOf (littleEndian l) i = l.getD i 0 := by
  intro l
  induction l with
  | nil => intro i _; simp [littleEndian, byteOf]
  | cons c cs ih =>
    intro i hl
    have hc := hl c (List.mem_cons_self _ _)
    cases i with
    | zero =>
      simp only [byteOf, littleEndian, Nat.mul_zero, Nat.shiftRight_zero, List.getD_cons_zero]
      omega
    | succ i =>
      have h := ih i (fun x hx => hl x (List.mem_cons_of_mem _ hx))
      simp only [byteOf, littleEndian, List.getD_cons_succ] at h ⊢
      rw [← h]
      have e : 8 * (i + 1) = 8 + 8 * i := by ring
      rw [e, Nat.shiftRight_add]
      congr 2
      rw [Nat.shiftRight_eq_div_pow]
      omega

theorem AHashString8_littleEndian (cs : List Char) (h : ∀ c ∈ cs, c.toNat < 128) :
    AHashString8 ⟨cs⟩ = littleEndian (lit ⟨cs⟩) := by
  have hl : ∀ c ∈ lit ⟨cs⟩, c < 128 := by
    intro c hc
    simp only [lit, String.toList, List.mem_map] at hc
    obtain ⟨x, hx, rfl⟩ := hc
    exact h x hx
  have := foldl_hash_littleEndian (lit ⟨cs⟩) 0 0 hl (by norm_num)
  simpa [AHashString8] using this

/-- C33: on the opening quote of a quoted string of ASCII characters, `HashStringInQuotes`
yields `AHashString8` of the first min(|s|, 8) characters of the string, the word whose
byte `i` is character `i` for `i < min(|s|, 8)` and 0 otherwise; when the string has at
most eight characters the returned cursor is immediately after the closing quote. -/
theorem HashStringInQuotes_word (cs : List Char) (rest : List Nat)
    (hascii : ∀ c ∈ cs, c.toNat < 128 ∧ c.toNat ≠ 34 ∧ c.toNat ≠ 0) :
    ∃ cursor, HashStringInQuotes (34 :: (lit ⟨cs⟩ ++ 34 :: rest)) =
        .ok (AHashString8 ⟨cs.take 8⟩, cursor) ∧
      (∀ i, byteOf (AHashString8 ⟨cs.take 8⟩) i =
        if i < min cs.length 8 then (lit ⟨cs⟩).getD i 0 else 0) ∧
      (cs.length ≤ 8 → cursor = rest) := by
  have hl : ∀ c ∈ lit ⟨cs⟩, c < 128 ∧ c ≠ 34 := by
    intro c hc
    simp only [lit, String.toList, List.mem_map] at hc
    obtain ⟨x, hx, rfl⟩ := hc
    exact ⟨(hascii x hx).1, (hascii x hx).2.1⟩
  have htake : lit ⟨cs.take 8⟩ = (lit ⟨cs⟩).take 8 := by
    simp [lit, String.toList, List.map_take]
  have hword : AHashString8 ⟨cs.take 8⟩ = littleEndian ((lit ⟨cs⟩).take 8) := by
    rw [AHashString8_littleEndian _ (fun c hc => (hascii c (List.mem_of_mem_take hc)).1), htake]
  have hrun := HashStringInQuotes_loop_run rest 8 (lit ⟨cs⟩) 0 0 hl (by norm_num)
  refine ⟨((lit ⟨cs⟩).drop 8 ++ 34 :: rest).tail, ?_, ?_, ?_⟩
  · unfold HashStringInQuotes
    simp only [List.tail_cons, bind, Except.bind, hrun]
    congr 2
    have := foldl_hash_littleEndian ((lit ⟨cs⟩).take 8) 0 0
      (fun c hc => (hl c (List.mem_of_mem_take hc)).1) (by norm_num)
    simp only [Nat.mul_zero, pow_zero, one_mul, zero_add] at this
    rw [this, hword]
  · intro i
    rw [hword, byteOf_littleEndian _ _
      (fun c hc => by have := (hl c (List.mem_of_mem_take hc)).1; omega)]
    have hlen : (lit ⟨cs⟩).length = cs.length := by simp [lit, String.toList]
    by_cases hi : i < min cs.length 8
    · rw [if_pos hi, List.getD_eq_getElem?_getD, List.getD_eq_getElem?_getD,
        List.getElem?_take_of_lt (by omega)]
    · rw [if_neg hi, List.getD_eq_getElem?_getD, List.getElem?_eq_none (by
        rw [List.length_take, hlen]; omega)]
      rfl
  · intro hle
    have hlen : (lit ⟨cs⟩).length = cs.length := by simp [lit, String.toList]
    rw [List.drop_of_length_le (by omega)]
    rfl

/-- C33 (witness): the key `sampler` hashes to `AHashString8 "sampler"`, and the cursor is
left after the closing quote. -/
theorem HashStringInQuotes_word_witness :
    ∃ cursor, HashStringInQuotes (34 :: (lit "sampler" ++ 34 :: (lit ":1" ++ [0]))) =
        .ok (AHashString8 "sampler", cursor) ∧ cursor = lit ":1" ++ [0] := by
  obtain ⟨cursor, h1, _, h3⟩ := HashStringInQuotes_word "sampler".toList (lit ":1" ++ [0])
    (by decide)
  exact ⟨cursor, h1, h3 (by decide)⟩

theorem bytesEq_iff_take :
    ∀ (k : Nat) (a b : List Nat), k ≤ a.length → k ≤ b.length → (∀ c ∈ a, c < 256) →
      (∀ c ∈ b, c < 256) → (bytesEq k a b = true ↔ a.take k = b.take k) := by
  intro k
  induction k with
  | zero => intro a b _ _ _ _; simp [bytesEq]
  | succ k ih =>
    intro a b ha hb hla hlb
    cases a with
    | nil => simp at ha
    | cons x xs =>
      cases b with
      | nil => simp at hb
      | cons y ys =>
        have hx := hla x (List.mem_cons_self _ _)
        have hy := hlb y (List.mem_cons_self _ _)
        simp only [List.length_cons, Nat.add_le_add_iff_right] at ha hb
        have h := ih xs ys ha hb (fun c hc => hla c (List.mem_cons_of_mem _ hc))
          (fun c hc => hlb c (List.mem_cons_of_mem _ hc))
        simp only [bytesEq, List.headD_cons, List.tail_cons, Bool.and_eq_true, beq_iff_eq,
          List.take_succ_cons, List.cons.injEq, h, Nat.mod_eq_of_lt hx, Nat.mod_eq_of_lt hy]

/-- `StrCMP16` against a key literal of 1 to 15 characters, on a text with at least 16
readable bytes: true if and only if the first characters of the text are those of the
literal, whatever follows them. -/
theorem StrCMP16_iff_prefix (text : List Nat) (s : String) (h1 : 1 ≤ s.length)
    (h15 : s.length ≤ 15) (htext : 16 ≤ text.length) (hb : ∀ c ∈ text, c < 256)
    (hs : ∀ c ∈ lit s, c < 256) :
    StrCMP16 text s = true ↔ text.take s.length = lit s := by
  have hl : (lit s).length = s.length := by simp [lit]
  rw [StrCMP16_eq_bytesEq text s h1 h15,
    bytesEq_iff_take s.length text (lit s ++ [0]) (by omega) (by simp [hl])
      hb (by
        intro c hc
        rcases List.mem_append.1 hc with hc | hc
        · exact hs c hc
        · simp at hc; omega)]
  have e : (lit s ++ [0]).take s.length = lit s := by
    rw [List.take_append_of_le_length (by omega), List.take_of_length_le (by omega)]
  rw [e]

set_option maxRecDepth 100000 in
/-- C34: `ParseSkins` passes the literal `inverseBindMatrices`, of 19 characters, to
`StrCMP16`.  The second half of the comparison is `StrCmp8(a + 8, b + 8, 12)`, whose mask
`~0ull >> (64 - 11 * 8)` has a shift count below zero; taken modulo 64, as the x86 shift
takes it, the mask covers three bytes, so that the first eleven characters decide: the key
`inverseBindPoses` is taken for `inverseBindMatrices`. -/
theorem StrCMP16_long_literal :
    "inverseBindMatrices".length = 19 ∧
    StrCMP16 (lit "inverseBindPoses\":7" ++ [0]) "inverseBindMatrices" = true ∧
    ParseSkins 16 inverseBindPosesText [] =
      .ok (.cur (lit ",\"x\"" ++ [0]), [{ skeleton := -1, inverseBindMatrices := .addr 7 }]) := by
  exact ⟨rfl, rfl, rfl⟩

theorem DecodeBase64_loop_length :
    ∀ (k : Nat) (l out : List Nat), l.length ≤ k → DecodeBase64_loop l = .ok out →
      out.length = 3 * (l.length / 4) := by
  intro k
  induction k using Nat.strong_induction_on with
  | _ k ih =>
    intro l out hk h
    match l, hk, h with
    | [], _, h => simp [DecodeBase64_loop] at h; subst h; rfl
    | [_], _, h => simp [DecodeBase64_loop] at h; subst h; simp
    | [_, _], _, h => simp [DecodeBase64_loop] at h; subst h; simp
    | [_, _, _], _, h => simp [DecodeBase64_loop] at h; subst h; simp
    | s0 :: s1 :: s2 :: s3 :: rest, hk, h =>
      simp only [DecodeBase64_loop, bind, Except.bind] at h
      cases h0 : base64Lookup s0 with
      | error f => rw [h0] at h; simp at h
      | ok a =>
        cases h1 : base64Lookup s1 with
        | error f => rw [h0, h1] at h; simp at h
        | ok b =>
          cases h2 : base64Lookup s2 with
          | error f => rw [h0, h1, h2] at h; simp at h
          | ok c =>
            cases h3 : base64Lookup s3 with
            | error f => rw [h0, h1, h2, h3] at h; simp at h
            | ok d =>
              cases hr : DecodeBase64_loop rest with
              | error f => rw [h0, h1, h2, h3, hr] at h; simp at h
              | ok o =>
                rw [h0, h1, h2, h3, hr] at h
                simp only [Except.ok.injEq] at h
                subst h
                simp only [List.length_cons] at hk ⊢
                have := ih rest.length (by omega) rest o (le_refl _) hr
                omega

theorem DecodeBase64_loop_total :
    ∀ (k : Nat) (l : List Nat), l.length ≤ k → (∀ c ∈ l.take (4 * (l.length / 4)), c < 128) →
      ∃ out, DecodeBase64_loop l = .ok out := by
  intro k
  induction k using Nat.strong_induction_on with
  | _ k ih =>
    intro l hk h
    match l, hk, h with
    | [], _, _ => exact ⟨[], rfl⟩
    | [_], _, _ => exact ⟨[], rfl⟩
    | [_, _], _, _ => exact ⟨[], rfl⟩
    | [_, _, _], _, _ => exact ⟨[], rfl⟩
    | s0 :: s1 :: s2 :: s3 :: rest, hk, h =>
      simp only [List.length_cons] at hk h
      have e : 4 * ((rest.length + 1 + 1 + 1 + 1) / 4) = 4 * (rest.length / 4) + 4 := by omega
      rw [e] at h
      simp only [List.take_succ_cons, List.mem_cons, forall_eq_or_imp] at h
      obtain ⟨h0, h1, h2, h3, hrest⟩ := h
      obtain ⟨o, ho⟩ := ih rest.length (by omega) rest (le_refl _) hrest
      refine ⟨(base64Table s0 <<< 2 ||| base64Table s1 >>> 4) % 256 ::
        (base64Table s1 <<< 4 ||| base64Table s2 >>> 2) % 256 ::
        (base64Table s2 <<< 6 ||| base64Table s3) % 256 :: o, ?_⟩
      simp [DecodeBase64_loop, base64Lookup, h0, h1, h2, h3, ho, bind, Except.bind]

theorem DecodeBase64_loop_groups :
    ∀ (k : Nat) (l : List Nat), l.length ≤ k →
      DecodeBase64_loop l = DecodeBase64_loop (l.take (4 * (l.length / 4))) := by
  intro k
  induction k using Nat.strong_induction_on with
  | _ k ih =>
    intro l hk
    match l, hk with
    | [], _ => rfl
    | [_], _ => simp [DecodeBase64_loop]
    | [_, _], _ => simp [DecodeBase64_loop]
    | [_, _, _], _ => simp [DecodeBase64_loop]
    | s0 :: s1 :: s2 :: s3 :: rest, hk =>
      simp only [List.length_cons] at hk ⊢
      have e : 4 * ((rest.length + 1 + 1 + 1 + 1) / 4) = 4 * (rest.length / 4) + 4 := by omega
      rw [e]
      simp only [List.take_succ_cons, DecodeBase64_loop]
      rw [← ih rest.length (by omega) rest (le_refl _)]

/-- C40: for a payload of `n` bytes `DecodeBase64` writes exactly `3 * (n / 4)` bytes, at
most the `n` bytes `ParseBuffers` allocates for a data URI; it returns for every payload
whose complete groups are ASCII; and the `n mod 4` characters after the last complete
group have no effect on the output. -/
theorem DecodeBase64_writes (src : List Nat) (n : Nat) :
    (∀ out, DecodeBase64 src n = .ok out → out.length = 3 * (n / 4) ∧ out.length ≤ n) ∧
    (n ≤ src.length → (∀ c ∈ src.take (4 * (n / 4)), c < 128) →
      ∃ out, DecodeBase64 src n = .ok out) ∧
    (n ≤ src.length → DecodeBase64 src n = DecodeBase64 src (4 * (n / 4))) := by
  refine ⟨?_, ?_, ?_⟩
  · intro out h
    unfold DecodeBase64 at h
    split at h
    · simp at h
    · rename_i hlen
      have := DecodeBase64_loop_length _ _ out (le_refl _) h
      rw [List.length_take, Nat.min_eq_left (by omega)] at this
      omega
  · intro hlen hascii
    unfold DecodeBase64
    rw [if_neg (by omega)]
    apply DecodeBase64_loop_total _ _ (le_refl _)
    rw [List.length_take, Nat.min_eq_left hlen, List.take_take, Nat.min_eq_left (by omega)]
    exact hascii
  · intro hlen
    unfold DecodeBase64
    rw [if_neg (by omega), if_neg (by omega), DecodeBase64_loop_groups _ _ (le_refl _),
      List.length_take, Nat.min_eq_left hlen, List.take_take, Nat.min_eq_left (by omega)]

/-- C40 (witness): of the payload `QUJDRA`, six characters, the first four are decoded to
the three bytes of `ABC`; the two characters after them are passed over. -/
theorem DecodeBase64_writes_witness :
    DecodeBase64 (lit "QUJDRA\"" ++ [0]) 6 = .ok (lit "ABC") ∧
    DecodeBase64 (lit "QUJDRA\"" ++ [0]) 6 = DecodeBase64 (lit "QUJDRA\"" ++ [0]) 4 := by
  have h := DecodeBase64_writes (lit "QUJDRA\"" ++ [0]) 6
  exact ⟨rfl, h.2.2 (by decide)⟩

theorem take_set_self {α : Type} (x : α) :
    ∀ (l : List α) (n : Nat), (l.set n x).take n = l.take n := by
  intro l
  induction l with
  | nil => intro n; simp
  | cons a as ih =>
    intro n
    cases n with
    | zero => simp
    | succ n => simp [List.set_cons_succ, List.take_succ_cons, ih n]

theorem take_set_push {α : Type} (cells : List (Option α)) (vs : List α) (v : α)
    (hl : vs.length < cells.length) (ht : cells.take vs.length = vs.map some) :
    (cells.set vs.length (some v)).take (vs ++ [v]).length = (vs ++ [v]).map some := by
  have e : (cells.set vs.length (some v)).take vs.length = cells.take vs.length := by
    exact take_set_self _ _ _
  rw [List.length_append, List.length_singleton, List.take_succ, e, ht]
  simp [hl]

theorem SBPush_block {α : Type} (a : SBBlock α) (vs : List α) (v : α)
    (h : SBHolds (some a) vs) (hk : vs.length < 1431655765) :
    ∃ blk, SBPush (some a) v = .ok (some blk) ∧ SBHolds (some blk) (vs ++ [v]) := by
  obtain ⟨hcount, hlt, h16, hcells, htake⟩ := h
  have hw : wrapInt32 (a.count + 1) = a.count + 1 := by
    unfold wrapInt32
    omega
  unfold SBPush
  simp only [hw]
  by_cases hg : a.count + 1 ≥ a.capacity
  · have hcap : a.capacity = a.count + 1 := by omega
    have hnew : CalculateArrayGrowth a.capacity = a.capacity + a.capacity / 2 := by
      unfold CalculateArrayGrowth
      simp only
      rw [if_neg (by omega)]
    have hcond : ¬ (a.capacity < 0 ∨ CalculateArrayGrowth a.capacity < a.capacity ∨
        a.cells.length < a.capacity.toNat) := by
      rw [hnew]
      omega
    rw [if_pos hg, if_neg hcond]
    have hfull : a.cells.take a.capacity.toNat = a.cells := by
      rw [← hcells]
      exact List.take_length _
    have hlen : (a.cells ++ List.replicate (CalculateArrayGrowth a.capacity - a.capacity).toNat
        (none : Option α)).length = (CalculateArrayGrowth a.capacity).toNat := by
      rw [List.length_append, List.length_replicate, hcells, hnew]
      omega
    simp only [hfull]
    have hidx : a.count.toNat = vs.length := by omega
    have hin : 0 ≤ a.count ∧ a.count.toNat < (a.cells ++
        List.replicate (CalculateArrayGrowth a.capacity - a.capacity).toNat (none : Option α)).length := by
      rw [hlen, hnew]
      omega
    rw [if_pos hin]
    refine ⟨_, rfl, ?_⟩
    refine ⟨?_, ?_, ?_, ?_, ?_⟩
    · simp only [List.length_append, List.length_singleton, Nat.cast_add, Nat.cast_one]
      omega
    · simp only [hnew]
      omega
    · simp only [hnew]
      omega
    · simp only [List.length_set, hlen]
    · simp only [hidx]
      apply take_set_push
      · rw [hlen, hnew]
        omega
      · rw [List.take_append_of_le_length (by omega)]
        exact htake
  · rw [if_neg hg]
    have hidx : a.count.toNat = vs.length := by omega
    have hin : 0 ≤ a.count ∧ a.count.toNat < a.cells.length := by omega
    simp only
    rw [if_pos hin]
    refine ⟨_, rfl, ?_⟩
    refine ⟨?_, ?_, h16, ?_, ?_⟩
    · simp only [List.length_append, List.length_singleton, Nat.cast_add, Nat.cast_one]
      omega
    · simp only
      omega
    · simp only [List.length_set, hcells]
    · simp only [hidx]
      exact take_set_push _ _ _ (by omega) htake

theorem SBPush_holds {α : Type} (b : Option (SBBlock α)) (vs : List α) (v : α)
    (h : SBHolds b vs) (hk : vs.length < 1431655765) :
    ∃ blk, SBPush b v = .ok (some blk) ∧ SBHolds (some blk) (vs ++ [v]) := by
  cases b with
  | some a => exact SBPush_block a vs v h hk
  | none =>
    have hvs : vs = [] := h
    subst hvs
    have h0 : SBHolds (some ({ capacity := 16, count := 0, cells := List.replicate 16 none } :
        SBBlock α)) [] := by
      refine ⟨rfl, by simp, by simp, by simp, by simp⟩
    obtain ⟨blk, h1, h2⟩ := SBPush_block _ [] v h0 (by simp)
    exact ⟨blk, h1, h2⟩

theorem SBPushAll_holds {α : Type} :
    ∀ (ws : List α) (b : Option (SBBlock α)) (vs : List α), SBHolds b vs →
      (vs ++ ws).length ≤ 1431655765 →
      ∃ b1, SBPushAll b ws = .ok b1 ∧ SBHolds b1 (vs ++ ws) := by
  intro ws
  induction ws with
  | nil => intro b vs h _; exact ⟨b, rfl, by simpa using h⟩
  | cons w ws ih =>
    intro b vs h hk
    simp only [List.length_append, List.length_cons] at hk
    obtain ⟨blk, h1, h2⟩ := SBPush_holds b vs w h (by omega)
    obtain ⟨b1, h3, h4⟩ := ih (some blk) (vs ++ [w]) h2 (by simp; omega)
    refine ⟨b1, ?_, by simpa using h4⟩
    rw [SBPushAll, h1]
    exact h3

/-- C38: from the null block, the pushes of `v1, ..., vk` (`k` at most 1431655765, so that
no capacity passes `INT32_MAX`) all return; after them `SBCount` is `k`, cell `i` of the
block holds `v_i` for every `i < k`, and the stored count is below the stored capacity. -/
theorem SBPush_sequence {α : Type} (vs : List α) (hk : vs.length ≤ 1431655765) :
    ∃ b, SBPushAll none vs = .ok b ∧ SBCount b = vs.length ∧
      ∀ blk, b = some blk →
        (∀ i, i < vs.length → blk.cells.get? i = (vs.get? i).map some) ∧
        blk.count < blk.capacity := by
  obtain ⟨b, h1, h2⟩ := SBPushAll_holds vs none [] rfl (by simpa using hk)
  rw [List.nil_append] at h2
  refine ⟨b, h1, ?_, ?_⟩
  · cases b with
    | none =>
      have : vs = [] := h2
      subst this
      rfl
    | some blk => exact h2.1
  · intro blk hb
    subst hb
    obtain ⟨_, hlt, _, _, htake⟩ := h2
    refine ⟨?_, hlt⟩
    intro i hi
    have h := congrArg (fun l => l.get? i) htake
    simp only [List.get?_eq_getElem?, List.getElem?_take_of_lt hi, List.getElem?_map] at h
    simpa using h

/-- C38 (witness): after seventeen pushes, one more than the first capacity, the count is
17 and the values are in their cells. -/
theorem SBPush_sequence_witness :
    ∃ b, SBPushAll none (List.range 17) = .ok b ∧ SBCount b = (List.range 17).length ∧
      ∀ blk, b = some blk →
        (∀ i, i < (List.range 17).length →
          blk.cells.get? i = ((List.range 17).get? i).map some) ∧
        blk.count < blk.capacity :=
  SBPush_sequence (List.range 17) (by decide)

theorem CheckFixGrow_double_run (needed : Int) (hn : needed ≤ 1073741824) :
    ∀ (k : Nat) (c : Int) (fuel : Nat), 1 ≤ c → needed ≤ c * 2 ^ k → k < fuel →
      ∃ c1 i, CheckFixGrow_double fuel c needed = .ok c1 ∧ c1 = c * 2 ^ i ∧ needed ≤ c1 ∧
        (c1 = c ∨ c1 < 2 * needed) := by
  intro k
  induction k with
  | zero =>
    intro c fuel hc hk hf
    obtain ⟨f, rfl⟩ : ∃ f, fuel = f + 1 := ⟨fuel - 1, by omega⟩
    refine ⟨c, 0, ?_, by simp, by simpa using hk, Or.inl rfl⟩
    rw [CheckFixGrow_double, if_neg (by simpa using hk)]
  | succ k ih =>
    intro c fuel hc hk hf
    obtain ⟨f, rfl⟩ : ∃ f, fuel = f + 1 := ⟨fuel - 1, by omega⟩
    by_cases hlt : c < needed
    · have hw : wrapInt32 (c * 2) = c * 2 := by
        unfold wrapInt32
        omega
      have hk2 : needed ≤ (c * 2) * 2 ^ k := by
        rw [pow_succ] at hk
        linarith
      obtain ⟨c1, i, h1, h2, h3, h4⟩ := ih (c * 2) f (by omega) hk2 (by omega)
      refine ⟨c1, i + 1, ?_, ?_, h3, Or.inr ?_⟩
      · rw [CheckFixGrow_double, if_pos hlt, hw]
        exact h1
      · rw [h2, pow_succ]
        ring
      · rcases h4 with h4 | h4
        · omega
        · exact h4
    · refine ⟨c, 0, ?_, by simp, by omega, Or.inl rfl⟩
      rw [CheckFixGrow_double, if_neg hlt]

theorem get?_snoc_length {α : Type} (l : List α) (x : α) : (l ++ [x]).get? l.length = some x := by
  simp

theorem get?_snoc_lt {α : Type} (l : List α) (x : α) (i : Nat) (h : i < l.length) :
    (l ++ [x]).get? i = l.get? i := by
  simp [List.getElem?_append_left h]

theorem get?_snoc_cases {α : Type} (l : List α) (x y : α) (i : Nat) (h : (l ++ [x]).get? i = some y) :
    (i < l.length ∧ l.get? i = some y) ∨ (i = l.length ∧ y = x) := by
  by_cases hi : i < l.length
  · left
    rw [get?_snoc_lt l x i hi] at h
    exact ⟨hi, h⟩
  · right
    have hlt : i < (l ++ [x]).length := by
      by_contra hc
      rw [List.get?_eq_none.2 (by omega)] at h
      simp at h
    simp only [List.length_append, List.length_singleton] at hlt
    have hi2 : i = l.length := by omega
    subst hi2
    rw [get?_snoc_length] at h
    injection h with h
    exact ⟨rfl, h.symm⟩

theorem AllocateUninitialized_ok (init : Int) (a : FixedSizeGrowableAllocator)
    (blocks : List ArenaBlock) (count : Int) (hinit : 1 ≤ init)
    (h : ArenaOK init a blocks) (hc : 0 ≤ count)
    (hsum : (blocks.map ArenaBlock.count).sum + count ≤ 1073741824) :
    ∃ b a1, AllocateUninitialized a count = .ok (b, a1) ∧ Allocate a count = .ok (b, a1) ∧
      b.count = count ∧ ArenaOK init a1 (blocks ++ [b]) := by
  obtain ⟨h1, h2, h3, ⟨j, h4⟩, h5, h6, h7⟩ := h
  have hcap1 : 1 ≤ a.currentCapacity := by
    rw [h4]
    have : (1 : Int) ≤ 2 ^ j := one_le_pow₀ (by norm_num)
    nlinarith
  by_cases hg : a.current.size + count ≥ a.currentCapacity
  · -- a new fragment
    have hneed : a.current.size + count ≤ 1073741824 := by omega
    have hk : a.current.size + count ≤ a.currentCapacity * 2 ^ 30 := by
      have : a.currentCapacity * 2 ^ 30 ≥ 1 * 2 ^ 30 := by nlinarith
      norm_num at this
      omega
    obtain ⟨c1, i, hd1, hd2, hd3, _⟩ :=
      CheckFixGrow_double_run (a.current.size + count) hneed 30 a.currentCapacity 64 hcap1 hk
        (by norm_num)
    have hcheck : CheckFixGrow a count = .ok ⟨c1, a.older ++ [a.current], ⟨c1, 0⟩⟩ := by
      unfold CheckFixGrow
      rw [if_pos hg, hd1]
    have halloc : AllocateUninitialized a count =
        .ok (⟨(a.older ++ [a.current]).length, 0, count⟩,
          ⟨c1, a.older ++ [a.current], ⟨c1, 0 + count⟩⟩) := by
      unfold AllocateUninitialized
      rw [hcheck]
    refine ⟨_, _, halloc, ?_, rfl, ?_⟩
    · unfold Allocate
      rw [halloc]
      simp only
      rw [if_neg (by
        simp only [zero_add]
        omega)]
    · refine ⟨rfl, by simp only [zero_add]; exact hc, by simp only [zero_add]; omega,
        ⟨j + i, by rw [hd2, h4, pow_add]; ring⟩, ?_, ?_, ?_⟩
      · intro b hb
        rcases List.mem_append.1 hb with hb | hb
        · obtain ⟨ho, hcn, f, hf, hfs, hfc⟩ := h5 b hb
          refine ⟨ho, hcn, f, ?_, hfs, hfc⟩
          unfold FixedSizeGrowableAllocator.slabs at hf ⊢
          simp only
          have hlt : b.fragment < (a.older ++ [a.current]).length := by
            by_contra hcon
            rw [List.get?_eq_none.2 (by omega)] at hf
            simp at hf
          rw [get?_snoc_lt _ _ _ hlt]
          exact hf
        · rw [List.mem_singleton.1 hb]
          refine ⟨le_refl _, hc, ⟨c1, 0 + count⟩, ?_, by simp, by simp only [zero_add]; omega⟩
          unfold FixedSizeGrowableAllocator.slabs
          exact get?_snoc_length _ _
      · rw [List.pairwise_append]
        refine ⟨h6, List.pairwise_singleton _ _, ?_⟩
        intro b0 hb0 b hb
        rw [List.mem_singleton.1 hb]
        left
        obtain ⟨_, _, f, hf, _, _⟩ := h5 b0 hb0
        unfold FixedSizeGrowableAllocator.slabs at hf
        have hlt : b0.fragment < (a.older ++ [a.current]).length := by
          by_contra hcon
          rw [List.get?_eq_none.2 (by omega)] at hf
          simp at hf
        simp only
        omega
      · simp only [List.map_append, List.map_cons, List.map_nil, List.sum_append,
          List.sum_cons, List.sum_nil, zero_add, add_zero]
        omega
  · -- the block is taken from `current`
    have hcheck : CheckFixGrow a count = .ok a := by
      unfold CheckFixGrow
      rw [if_neg hg]
    have halloc : AllocateUninitialized a count =
        .ok (⟨a.older.length, a.current.size, count⟩,
          ⟨a.currentCapacity, a.older, ⟨a.current.capacity, a.current.size + count⟩⟩) := by
      unfold AllocateUninitialized
      rw [hcheck]
    refine ⟨_, _, halloc, ?_, rfl, ?_⟩
    · unfold Allocate
      rw [halloc]
      simp only
      rw [if_neg (by omega)]
    · refine ⟨h1, by simp only; omega, by simp only; omega, ⟨j, h4⟩, ?_, ?_, ?_⟩
      · intro b hb
        rcases List.mem_append.1 hb with hb | hb
        · obtain ⟨ho, hcn, f, hf, hfs, hfc⟩ := h5 b hb
          unfold FixedSizeGrowableAllocator.slabs at hf
          rcases get?_snoc_cases _ _ _ _ hf with ⟨hlt, hf1⟩ | ⟨heq, hfe⟩
          · refine ⟨ho, hcn, f, ?_, hfs, hfc⟩
            unfold FixedSizeGrowableAllocator.slabs
            simp only
            rw [get?_snoc_lt _ _ _ hlt]
            exact hf1
          · refine ⟨ho, hcn, ⟨a.current.capacity, a.current.size + count⟩, ?_, ?_, ?_⟩
            · unfold FixedSizeGrowableAllocator.slabs
              simp only
              rw [heq]
              exact get?_snoc_length _ _
            · simp only
              rw [hfe] at hfs
              omega
            · simp only
              omega
        · rw [List.mem_singleton.1 hb]
          refine ⟨h2, hc, ⟨a.current.capacity, a.current.size + count⟩, ?_, by simp,
            by simp only; omega⟩
          unfold FixedSizeGrowableAllocator.slabs
          exact get?_snoc_length _ _
      · rw [List.pairwise_append]
        refine ⟨h6, List.pairwise_singleton _ _, ?_⟩
        intro b0 hb0 b hb
        rw [List.mem_singleton.1 hb]
        obtain ⟨_, _, f, hf, hfs, _⟩ := h5 b0 hb0
        unfold FixedSizeGrowableAllocator.slabs at hf
        rcases get?_snoc_cases _ _ _ _ hf with ⟨hlt, _⟩ | ⟨_, hfe⟩
        · left
          simp only
          omega
        · right
          left
          simp only
          rw [hfe] at hfs
          exact hfs
      · simp only [List.map_append, List.map_cons, List.map_nil, List.sum_append,
          List.sum_cons, List.sum_nil, add_zero]
        omega

theorem counts_sum_nonneg (calls : List ArenaCall) (h : ∀ c ∈ calls, 0 ≤ c.count) :
    0 ≤ (calls.map ArenaCall.count).sum := by
  apply List.sum_nonneg
  intro x hx
  obtain ⟨c, hc, rfl⟩ := List.mem_map.1 hx
  exact h c hc

theorem runCalls_ok (init : Int) (hinit : 1 ≤ init) :
    ∀ (calls : List ArenaCall) (a : FixedSizeGrowableAllocator) (blocks : List ArenaBlock),
      ArenaOK init a blocks → (∀ c ∈ calls, 0 ≤ c.count) →
      (blocks.map ArenaBlock.count).sum + (calls.map ArenaCall.count).sum ≤ 1073741824 →
      ∃ bs a1, runCalls a calls = .ok (bs, a1) ∧ ArenaOK init a1 (blocks ++ bs) ∧
        bs.map ArenaBlock.count = calls.map ArenaCall.count := by
  intro calls
  induction calls with
  | nil =>
    intro a blocks h _ _
    exact ⟨[], a, rfl, by simpa using h, rfl⟩
  | cons c cs ih =>
    intro a blocks h hcount hsum
    have hc := hcount c (List.mem_cons_self _ _)
    have hcs := counts_sum_nonneg cs (fun x hx => hcount x (List.mem_cons_of_mem _ hx))
    simp only [List.map_cons, List.sum_cons] at hsum
    obtain ⟨b, a1, h1, h2, h3, h4⟩ :=
      AllocateUninitialized_ok init a blocks c.count hinit h hc (by omega)
    have hrun : c.run a = .ok (b, a1) := by
      cases c with
      | allocate n => exact h2
      | allocateUninitialized n => exact h1
    obtain ⟨bs, a2, h5, h6, h7⟩ := ih a1 (blocks ++ [b]) h4
      (fun x hx => hcount x (List.mem_cons_of_mem _ hx)) (by
        simp only [List.map_append, List.map_cons, List.map_nil, List.sum_append,
          List.sum_cons, List.sum_nil, add_zero, h3]
        omega)
    refine ⟨b :: bs, a2, ?_, by simpa using h6, by simp [h3, h7]⟩
    rw [runCalls, hrun]
    simp only [h5]

/-- C39: for an arena created with the initial size `2 ^ e` and any sequence of `Allocate`
and `AllocateUninitialized` calls with non-negative counts whose sum is at most `2 ^ 30`
(so that no `int` overflows), every call returns, and after the calls the used size of
the current fragment is at most its capacity, which is `currentCapacity`;
`currentCapacity` is the initial size times a power of two; every block returned lies
wholly inside one fragment; and no two blocks returned overlap. -/
theorem arena_invariants (e : Nat) (calls : List ArenaCall)
    (hcount : ∀ c ∈ calls, 0 ≤ c.count)
    (hsum : (calls.map ArenaCall.count).sum ≤ 1073741824) :
    ∃ blocks a, runCalls (FixedSizeGrowableAllocator.create (2 ^ e)) calls = .ok (blocks, a) ∧
      blocks.map ArenaBlock.count = calls.map ArenaCall.count ∧
      a.current.size ≤ a.current.capacity ∧ a.current.capacity = a.currentCapacity ∧
      (∃ j : Nat, a.currentCapacity = 2 ^ e * 2 ^ j) ∧
      (∀ b ∈ blocks, ∃ f, a.slabs.get? b.fragment = some f ∧ 0 ≤ b.offset ∧
        b.offset + b.count ≤ f.capacity) ∧
      blocks.Pairwise ArenaBlock.Disjoint := by
  have h0 : ArenaOK (2 ^ e) (FixedSizeGrowableAllocator.create (2 ^ e)) [] := by
    refine ⟨rfl, le_refl _, ?_, ⟨0, by simp [FixedSizeGrowableAllocator.create]⟩, ?_,
      List.Pairwise.nil, le_refl _⟩
    · simp only [FixedSizeGrowableAllocator.create]
      positivity
    · intro b hb
      simp at hb
  obtain ⟨bs, a, h1, h2, h3⟩ := runCalls_ok (2 ^ e) (one_le_pow₀ (by norm_num)) calls _ [] h0
    hcount (by simpa using hsum)
  rw [List.nil_append] at h2
  obtain ⟨i1, i2, i3, i4, i5, i6, _⟩ := h2
  refine ⟨bs, a, h1, h3, i3, i1, i4, ?_, i6⟩
  intro b hb
  obtain ⟨ho, _, f, hf, hfs, hfc⟩ := i5 b hb
  exact ⟨f, hf, ho, by omega⟩

/-- C39 (witness): from an arena of 512 elements, blocks of 300, 400 and 100 elements:
the second does not fit the first fragment and is taken from a new one, of 1024 elements. -/
theorem arena_invariants_witness :
    ∃ blocks a, runCalls (FixedSizeGrowableAllocator.create (2 ^ 9))
        [.allocateUninitialized 300, .allocate 400, .allocateUninitialized 100] =
          .ok (blocks, a) ∧
      blocks.map ArenaBlock.count =
        [ArenaCall.allocateUninitialized 300, .allocate 400, .allocateUninitialized 100].map
          ArenaCall.count ∧
      a.current.size ≤ a.current.capacity ∧ a.current.capacity = a.currentCapacity ∧
      (∃ j : Nat, a.currentCapacity = 2 ^ 9 * 2 ^ j) ∧
      (∀ b ∈ blocks, ∃ f, a.slabs.get? b.fragment = some f ∧ 0 ≤ b.offset ∧
        b.offset + b.count ≤ f.capacity) ∧
      blocks.Pairwise ArenaBlock.Disjoint :=
  arena_invariants 9 [.allocateUninitialized 300, .allocate 400, .allocateUninitialized 100]
    (by decide) (by decide)

/-- The run of three calls on an arena of 512 elements: the blocks and the arena. -/
theorem runCalls_example :
    runCalls (FixedSizeGrowableAllocator.create 512)
        [.allocateUninitialized 300, .allocate 400, .allocateUninitialized 100] =
      .ok ([⟨0, 0, 300⟩, ⟨1, 0, 400⟩, ⟨1, 400, 100⟩], ⟨1024, [⟨512, 300⟩], ⟨1024, 500⟩⟩) := by
  rfl

end GLTF
